import Mathlib

/-!
# Natron render engine: `EffectInstance::renderRoI` and its actions cache

A shallow embedding of `Engine/EffectInstance.cpp`.

* Integers of the C++ code (`int`, `unsigned int`, `U64`, `std::size_t`) are `Int` / `Nat`;
  no arithmetic of the embedded code can overflow on them (hashes are only compared).
* `double` values are rationals: the embedded code only stores, compares and rounds them
  (`std::floor (x + 0.5)`), and every finite double is a rational. NaN keys are outside the model.
* Pointers to nodes and effects are node identifiers; a null pointer is `none`.
* Everything that lives outside `EffectInstance.cpp` (the image class, the image cache, the
  node, the plug-in actions) is a field of `Env`: a function of an abstract world `W`.
  The members of `EffectInstance::Implementation` that the code reads and writes are explicit.
-/

namespace Natron

/-! ## Basic types -/

abbrev U64 := Nat
abbrev SequenceTime := Int
/-- A `Node` / `EffectInstance` pointer (`getLiveInstance` and `getNode` are the identity) -/
abbrev NodeId := Nat

/-- The constants of `Natron::StatusEnum` that `EffectInstance.cpp` uses -/
inductive StatusEnum where
  | eStatusOK
  | eStatusFailed
  | eStatusReplyDefault
deriving DecidableEq, Repr

inductive RenderRoIRetCode where
  | eRenderRoIRetCodeOk
  | eRenderRoIRetCodeAborted
  | eRenderRoIRetCodeFailed
deriving DecidableEq, Repr

inductive RenderRoIStatusEnum where
  | eRenderRoIStatusImageAlreadyRendered
  | eRenderRoIStatusImageRendered
  | eRenderRoIStatusRenderFailed
deriving DecidableEq, Repr

inductive RenderingFunctorRetEnum where
  | eRenderingFunctorRetFailed
  | eRenderingFunctorRetOK
  | eRenderingFunctorRetTakeImageLock
  | eRenderingFunctorRetAborted
deriving DecidableEq, Repr

inductive SupportsEnum where
  | eSupportsMaybe
  | eSupportsNo
  | eSupportsYes
deriving DecidableEq, Repr

inductive RenderSafetyEnum where
  | eRenderSafetyUnsafe
  | eRenderSafetyInstanceSafe
  | eRenderSafetyFullySafe
  | eRenderSafetyFullySafeFrame
deriving DecidableEq, Repr

inductive ImagePremultiplicationEnum where
  | eImagePremultiplicationOpaque
  | eImagePremultiplicationPremultiplied
  | eImagePremultiplicationUnPremultiplied
deriving DecidableEq, Repr

inductive SequentialPreferenceEnum where
  | eSequentialPreferenceNotSequential
  | eSequentialPreferenceOnlySequential
  | eSequentialPreferencePreferSequential
deriving DecidableEq, Repr

/-- The C++ `Natron::ImageBitDepthEnum`; the code only compares bit depths -/
abbrev ImageBitDepthEnum := Nat

/-- Rectangle in canonical coordinates (`RectD`, four doubles) -/
structure RectD where
  x1 : ℚ
  y1 : ℚ
  x2 : ℚ
  y2 : ℚ
deriving DecidableEq

/-- Rectangle in pixel coordinates (`RectI`, four ints) -/
structure RectI where
  x1 : Int
  y1 : Int
  x2 : Int
  y2 : Int
deriving DecidableEq, Repr

/-- Modelled from the spec: `RectD ()` and `RectD::clear` of `Rect.h` (not among the sources),
the rectangle with four zero coordinates -/
def RectD.null : RectD := ⟨0, 0, 0, 0⟩

/-- Modelled from the spec: `RectD::isNull` of `Rect.h` (not among the sources), the predicate
of `TextureRect::isNull`: the rectangle has no area -/
def RectD.isNull (r : RectD) : Bool := decide (r.x2 ≤ r.x1) || decide (r.y2 ≤ r.y1)

/-- Modelled from the spec: `RectI ()` of `Rect.h` (not among the sources) -/
def RectI.null : RectI := ⟨0, 0, 0, 0⟩

/-- Modelled from the spec: `RectI::isNull` of `Rect.h` (not among the sources), the predicate
of `TextureRect::isNull` -/
def RectI.isNull (r : RectI) : Bool := decide (r.x2 ≤ r.x1) || decide (r.y2 ≤ r.y1)

/-- Modelled from the spec: `RectI::contains (RectI)` of `Rect.h` (not among the sources), the
predicate of `TextureRect::contains` -/
def RectI.contains (r other : RectI) : Bool :=
  decide (other.x1 ≥ r.x1) && decide (other.y1 ≥ r.y1) &&
  decide (other.x2 ≤ r.x2) && decide (other.y2 ≤ r.y2)

structure RenderScale where
  x : ℚ
  y : ℚ
deriving DecidableEq

structure OfxRangeD where
  min : ℚ
  max : ℚ
deriving DecidableEq

/-- The C++ `Natron::ImageComponents`: a layer and its channels. The class is declared outside the
sources; `isColorPlane`, `getNumComponents` and `operator==` are all the code uses. -/
structure ImageComponents where
  layerName : Nat
  numComponents : Nat
  colorPlane : Bool
deriving DecidableEq, Repr

def ImageComponents.isColorPlane (c : ImageComponents) : Bool := c.colorPlane

def ImageComponents.getNumComponents (c : ImageComponents) : Nat := c.numComponents

/-- A `boost::shared_ptr<Natron::Image>` that is not null: the identity of the image and the
attributes fixed at construction. Bounds, RoD, bitmap and pixels are in the world. -/
structure Image where
  id : Nat
  components : ImageComponents
  bitDepth : ImageBitDepthEnum
  mipMapLevel : Nat
  par : ℚ
  usesBitMap : Bool
deriving DecidableEq

abbrev ImagePtr := Option Image
abbrev ImageList := List Image
/-- The C++ `InputImagesMap`: `std::map<int, ImageList>` -/
abbrev InputImagesMap := List (Int × ImageList)
/-- The C++ `RoIMap`: `std::map<EffectInstance*, RectD>`; only `find`, `insert` and `erase` are used -/
abbrev RoIMap := List (Option NodeId × RectD)
/-- The C++ `FramesNeededMap`: input number → view → frame ranges -/
abbrev FramesNeededMap := List (Int × List (Int × List OfxRangeD))
/-- The C++ `ComponentsNeededMap`: `std::map<int, std::vector<ImageComponents>>` -/
abbrev ComponentsNeededMap := List (Int × List ImageComponents)
/-- The C++ `ComponentsAvailableMap`: `std::map<ImageComponents, boost::weak_ptr<Node>>` in iteration
order; `none` is an expired pointer -/
abbrev ComponentsAvailableMap := List (ImageComponents × Option NodeId)

/-! ## `std::map` on association lists -/

/-- The C++ `std::map::find` with comparator `lt`: the value of the first equivalent key -/
def StdMap.find {K V : Type} (lt : K → K → Bool) : List (K × V) → K → Option V
  | [], _ => none
  | (k', v) :: rest, k => if !lt k k' && !lt k' k then some v else StdMap.find lt rest k

/-- The C++ `std::map::insert`: no effect when an equivalent key is present, else the pair is put at
its place in the order -/
def StdMap.insert {K V : Type} (lt : K → K → Bool) : List (K × V) → K → V → List (K × V)
  | [], k, v => [(k, v)]
  | (k', v') :: rest, k, v =>
    if lt k k' then (k, v) :: (k', v') :: rest
    else if lt k' k then (k', v') :: StdMap.insert lt rest k v
    else (k', v') :: rest

/-- Assignment through the iterator returned by a successful `find` -/
def StdMap.assign {K V : Type} (lt : K → K → Bool) : List (K × V) → K → V → List (K × V)
  | [], _, _ => []
  | (k', v') :: rest, k, v =>
    if !lt k k' && !lt k' k then (k', v) :: rest else (k', v') :: StdMap.assign lt rest k v

/-- The C++ `std::map::erase` of the equivalent key -/
def StdMap.erase {K V : Type} (lt : K → K → Bool) : List (K × V) → K → List (K × V)
  | [], _ => []
  | (k', v') :: rest, k =>
    if !lt k k' && !lt k' k then rest else (k', v') :: StdMap.erase lt rest k

/-! ## Actions cache (`ActionsCache`, lines 67-305) -/

structure ActionKey where
  time : ℚ
  view : Int
  mipMapLevel : Nat
deriving DecidableEq

structure IdentityResults where
  inputIdentityNb : Int
  inputIdentityTime : ℚ
deriving DecidableEq

def CompareActionsCacheKeys (lhs rhs : ActionKey) : Bool :=
  if lhs.time < rhs.time then true
  else if lhs.time = rhs.time then
    if lhs.mipMapLevel < rhs.mipMapLevel then true
    else if lhs.mipMapLevel = rhs.mipMapLevel then
      if lhs.view < rhs.view then true else false
    else false
  else false

abbrev IdentityCacheMap := List (ActionKey × IdentityResults)
abbrev RoDCacheMap := List (ActionKey × RectD)

structure ActionsCacheInstance where
  _hash : U64
  _timeDomain : OfxRangeD
  _timeDomainSet : Bool
  _identityCache : IdentityCacheMap
  _rodCache : RoDCacheMap
deriving DecidableEq

/-- The constructor `ActionsCacheInstance ()` -/
def ActionsCacheInstance.new : ActionsCacheInstance :=
  { _hash := 0, _timeDomain := ⟨0, 0⟩, _timeDomainSet := false, _identityCache := [],
    _rodCache := [] }

structure ActionsCache where
  _instances : List ActionsCacheInstance
  _maxInstances : Nat
deriving DecidableEq

/-- The constructor `ActionsCache (int maxAvailableHashes)`; the cast to `std::size_t`
wraps a negative argument -/
def ActionsCache.new (maxAvailableHashes : Int) : ActionsCache :=
  { _instances := [], _maxInstances := (maxAvailableHashes % 2 ^ 64).toNat }

def ActionsCache.clearAll (c : ActionsCache) : ActionsCache :=
  { c with _instances := [] }

/-- The instances that `invalidateAll` keeps: all but the front one when the list is full -/
def ActionsCache.keptOnInvalidate (c : ActionsCache) : List ActionsCacheInstance :=
  if c._instances.length ≥ c._maxInstances then c._instances.tail else c._instances

/-- The C++ `invalidateAll`: `pop_front` when the list is full, then `push_back` of a fresh instance.
(`pop_front` of an empty list, possible only with `_maxInstances = 0`, leaves it empty.) -/
def ActionsCache.invalidateAll (c : ActionsCache) (newHash : U64) : ActionsCache :=
  { c with _instances := c.keptOnInvalidate ++ [{ ActionsCacheInstance.new with _hash := newHash }] }

/-- The loop of every accessor: the first instance whose hash is `hash` -/
def ActionsCache.firstWithHash (c : ActionsCache) (hash : U64) : Option ActionsCacheInstance :=
  c._instances.find? (fun i => i._hash == hash)

/-- The loop of every setter: `f` applied to the first instance whose hash is `hash` -/
def ActionsCache.modifyFirst (hash : U64) (f : ActionsCacheInstance → ActionsCacheInstance) :
    List ActionsCacheInstance → List ActionsCacheInstance
  | [] => []
  | i :: rest => if i._hash == hash then f i :: rest
                 else i :: ActionsCache.modifyFirst hash f rest

/-- The C++ `getIdentityResult`: `some (inputNbIdentity, identityTime)` when it returns true -/
def ActionsCache.getIdentityResult (c : ActionsCache) (hash : U64) (time : ℚ) (view : Int)
    (mipMapLevel : Nat) : Option (Int × ℚ) :=
  match c.firstWithHash hash with
  | some i =>
    match StdMap.find CompareActionsCacheKeys i._identityCache ⟨time, view, mipMapLevel⟩ with
    | some found => some (found.inputIdentityNb, found.inputIdentityTime)
    | none => none
  | none => none

/-- The body of `setIdentityResult` on the instance found -/
def ActionsCacheInstance.setIdentity (i : ActionsCacheInstance) (key : ActionKey)
    (v : IdentityResults) : ActionsCacheInstance :=
  match StdMap.find CompareActionsCacheKeys i._identityCache key with
  | some _ => { i with _identityCache := StdMap.assign CompareActionsCacheKeys i._identityCache key v }
  | none => { i with _identityCache := StdMap.insert CompareActionsCacheKeys i._identityCache key v }

def ActionsCache.setIdentityResult (c : ActionsCache) (hash : U64) (time : ℚ) (view : Int)
    (mipMapLevel : Nat) (inputNbIdentity : Int) (identityTime : ℚ) : ActionsCache :=
  { c with _instances := ActionsCache.modifyFirst hash
             (fun i => i.setIdentity ⟨time, view, mipMapLevel⟩ ⟨inputNbIdentity, identityTime⟩)
             c._instances }

def ActionsCache.getRoDResult (c : ActionsCache) (hash : U64) (time : ℚ) (view : Int)
    (mipMapLevel : Nat) : Option RectD :=
  match c.firstWithHash hash with
  | some i => StdMap.find CompareActionsCacheKeys i._rodCache ⟨time, view, mipMapLevel⟩
  | none => none

/-- The body of `setRoDResult` on the instance found: a key already set is left alone -/
def ActionsCacheInstance.setRoD (i : ActionsCacheInstance) (key : ActionKey) (rod : RectD) :
    ActionsCacheInstance :=
  match StdMap.find CompareActionsCacheKeys i._rodCache key with
  | some _ => i
  | none => { i with _rodCache := StdMap.insert CompareActionsCacheKeys i._rodCache key rod }

def ActionsCache.setRoDResult (c : ActionsCache) (hash : U64) (time : ℚ) (view : Int)
    (mipMapLevel : Nat) (rod : RectD) : ActionsCache :=
  { c with _instances := ActionsCache.modifyFirst hash
             (fun i => i.setRoD ⟨time, view, mipMapLevel⟩ rod) c._instances }

/-- The C++ `getTimeDomainResult`: the first instance with this hash whose time domain is set -/
def ActionsCache.getTimeDomainResult (c : ActionsCache) (hash : U64) : Option (ℚ × ℚ) :=
  match c._instances.find? (fun i => i._hash == hash && i._timeDomainSet) with
  | some i => some (i._timeDomain.min, i._timeDomain.max)
  | none => none

def ActionsCache.setTimeDomainResult (c : ActionsCache) (hash : U64) (first last : ℚ) :
    ActionsCache :=
  { c with _instances := ActionsCache.modifyFirst hash
             (fun i => { i with _timeDomainSet := true, _timeDomain := ⟨first, last⟩ })
             c._instances }

/-- The calls a client can make on an `ActionsCache` -/
inductive ActionsCacheOp where
  | clearAll
  | invalidateAll (newHash : U64)
  | getIdentityResult (hash : U64) (time : ℚ) (view : Int) (mipMapLevel : Nat)
  | setIdentityResult (hash : U64) (time : ℚ) (view : Int) (mipMapLevel : Nat)
      (inputNbIdentity : Int) (identityTime : ℚ)
  | getRoDResult (hash : U64) (time : ℚ) (view : Int) (mipMapLevel : Nat)
  | setRoDResult (hash : U64) (time : ℚ) (view : Int) (mipMapLevel : Nat) (rod : RectD)
  | getTimeDomainResult (hash : U64)
  | setTimeDomainResult (hash : U64) (first last : ℚ)

/-- The cache after a call; the accessors leave it as it is -/
def ActionsCache.apply (c : ActionsCache) : ActionsCacheOp → ActionsCache
  | .clearAll => c.clearAll
  | .invalidateAll h => c.invalidateAll h
  | .getIdentityResult _ _ _ _ => c
  | .setIdentityResult h t v m nb it => c.setIdentityResult h t v m nb it
  | .getRoDResult _ _ _ _ => c
  | .setRoDResult h t v m rod => c.setRoDResult h t v m rod
  | .getTimeDomainResult _ => c
  | .setTimeDomainResult h f l => c.setTimeDomainResult h f l

/-- The cache after a sequence of calls -/
def ActionsCache.run (c : ActionsCache) (ops : List ActionsCacheOp) : ActionsCache :=
  ops.foldl ActionsCache.apply c

/-- The hashes given to `invalidateAll` since the last `clearAll`, oldest first, after one
more call -/
def insertedHashesStep (hs : List U64) : ActionsCacheOp → List U64
  | .clearAll => []
  | .invalidateAll h => hs ++ [h]
  | _ => hs

/-- The hashes given to `invalidateAll` since the last `clearAll`, oldest first -/
def insertedHashes (ops : List ActionsCacheOp) : List U64 :=
  ops.foldl insertedHashesStep []

/-- The hashes of the slots of the cache, front first -/
def ActionsCache.hashes (c : ActionsCache) : List U64 := c._instances.map fun i => i._hash

/-- A cache of capacity 4 with one slot, for the hash 7, that holds an identity result, a RoD
and a time domain -/
def staleCache : ActionsCache :=
  ((((ActionsCache.new 4).invalidateAll 7).setIdentityResult 7 1 0 0 0 1).setRoDResult 7 1 0 0
    ⟨0, 0, 10, 10⟩).setTimeDomainResult 7 1 20

/-- A cache of capacity 4 with one slot, for the hash 3, that holds an identity result and a
time domain -/
def otherHashCache : ActionsCache :=
  (((ActionsCache.new 4).invalidateAll 3).setIdentityResult 3 1 0 0 0 1).setTimeDomainResult 3 1 20

/-! ## Render data (`EffectInstance.h`, `ParallelRenderArgs.h`: the fields the code uses) -/

structure PlaneToRender where
  fullscaleImage : ImagePtr
  downscaleImage : ImagePtr
  renderMappedImage : ImagePtr
  tmpImage : ImagePtr
  /-- The `void*` kept only for comparison -/
  originalCachedImage : ImagePtr
  isAllocatedOnTheFly : Bool
deriving DecidableEq

/-- The constructor `PlaneToRender ()` -/
def PlaneToRender.new : PlaneToRender :=
  { fullscaleImage := none, downscaleImage := none, renderMappedImage := none, tmpImage := none,
    originalCachedImage := none, isAllocatedOnTheFly := false }

/-- The C++ `std::map<ImageComponents, PlaneToRender>` -/
abbrev PlanesMap := List (ImageComponents × PlaneToRender)

structure RectToRender where
  rect : RectI
  identityInput : Option NodeId
  isIdentity : Bool
  identityTime : SequenceTime
  imgs : InputImagesMap
  inputRois : RoIMap
deriving DecidableEq

structure ImagePlanesToRender where
  rectsToRender : List RectToRender
  planes : PlanesMap
  isBeingRenderedElsewhere : Bool
  outputPremult : ImagePremultiplicationEnum
  inputPremult : List (Int × ImagePremultiplicationEnum)
deriving DecidableEq

/-- The constructor `ImagePlanesToRender ()` -/
def ImagePlanesToRender.new : ImagePlanesToRender :=
  { rectsToRender := [], planes := [], isBeingRenderedElsewhere := false,
    outputPremult := .eImagePremultiplicationPremultiplied, inputPremult := [] }

/-- The C++ `Natron::ImageKey` as built by `Image::makeKey` -/
structure ImageKey where
  nodeHash : U64
  frameVaryingOrAnimated : Bool
  time : SequenceTime
  view : Int
deriving DecidableEq

/-- The C++ `Natron::ImageParams` as built by `Image::makeParams` -/
structure ImageParams where
  cost : Int
  rod : RectD
  bounds : RectI
  par : ℚ
  mipMapLevel : Nat
  isProjectFormat : Bool
  components : ImageComponents
  bitdepth : ImageBitDepthEnum
  framesNeeded : FramesNeededMap
deriving DecidableEq

/-- The C++ `EffectInstance::InputMatrix`; `cat` names the concatenated matrix -/
structure InputMatrix where
  inputNb : Int
  cat : Nat
  newInputEffect : NodeId
  newInputNbToFetchFrom : Int
deriving DecidableEq

/-- The C++ `EffectInstance::RenderRoIArgs` -/
structure RenderRoIArgs where
  time : SequenceTime
  scale : RenderScale
  mipMapLevel : Nat
  view : Int
  byPassCache : Bool
  roi : RectI
  preComputedRoD : RectD
  components : List ImageComponents
  bitdepth : ImageBitDepthEnum
  caller : Option NodeId
  inputImagesList : InputImagesMap
deriving DecidableEq

/-- The C++ `EffectInstance::RenderArgs` (lines 311-362) -/
structure RenderArgs where
  _rod : RectD
  _regionOfInterestResults : RoIMap
  _renderWindowPixel : RectI
  _time : SequenceTime
  _view : Int
  _validArgs : Bool
  _isIdentity : Bool
  _identityTime : SequenceTime
  _identityInputNb : Int
  _outputPlanes : PlanesMap
  _outputPlaneBeingRendered : ImageComponents
  _firstFrame : Int
  _lastFrame : Int
deriving DecidableEq

/-- The constructor `RenderArgs ()` -/
def RenderArgs.new : RenderArgs :=
  { _rod := RectD.null, _regionOfInterestResults := [], _renderWindowPixel := RectI.null,
    _time := 0, _view := 0, _validArgs := false, _isIdentity := false, _identityTime := 0,
    _identityInputNb := -1, _outputPlanes := [], _outputPlaneBeingRendered := ⟨0, 0, false⟩,
    _firstFrame := 0, _lastFrame := 0 }

/-- The C++ `ParallelRenderArgs`: the frame-level thread-local arguments; `validArgs` is an `int` -/
structure ParallelRenderArgs where
  time : Int
  timeline : Option Nat
  nodeHash : U64
  rotoAge : U64
  view : Int
  validArgs : Int
  isSequentialRender : Bool
  isRenderResponseToUserInteraction : Bool
  canAbort : Bool
  renderAge : U64
  renderRequester : Option NodeId
  textureIndex : Int
  isAnalysis : Bool
  isDuringPaintStrokeCreation : Bool
  currentThreadSafety : RenderSafetyEnum
  rotoPaintNodes : List NodeId
  doNansHandling : Bool
deriving DecidableEq

/-- Modelled from the spec: the constructor `ParallelRenderArgs ()` of `ParallelRenderArgs.h`
(not among the sources): a context that is not valid, nesting counter zero -/
def ParallelRenderArgs.new : ParallelRenderArgs :=
  { time := 0, timeline := none, nodeHash := 0, rotoAge := 0, view := 0, validArgs := 0,
    isSequentialRender := false, isRenderResponseToUserInteraction := false, canAbort := false,
    renderAge := 0, renderRequester := none, textureIndex := 0, isAnalysis := false,
    isDuringPaintStrokeCreation := false, currentThreadSafety := .eRenderSafetyInstanceSafe,
    rotoPaintNodes := [], doNansHandling := true }

/-- The C++ `Implementation::ImageBeingRendered` without its lock and condition -/
structure ImageBeingRendered where
  refCount : Int
  renderFailed : Bool
deriving DecidableEq

/-- The C++ `Implementation::IBRMap`, `std::map<ImagePtr, IBRPtr>`: only `find`, `insert`, `erase` -/
abbrev IBRMap := List (Image × ImageBeingRendered)

/-- The members of `EffectInstance::Implementation` that the render code reads and writes,
for the thread that runs the render. A thread storage without local data is `none`. -/
structure Implementation where
  renderArgs : Option RenderArgs
  frameRenderArgs : Option ParallelRenderArgs
  beginEndRenderCount : Option Int
  inputImages : Option InputImagesMap
  lastRenderHash : U64
  lastPlanesRendered : ImageList
  actionsCache : ActionsCache
  imagesBeingRendered : IBRMap
deriving DecidableEq

/-- C++ exceptions that leave the embedded functions -/
inductive Exception where
  /-- The C++ `std::runtime_error ("Rendering Failed")` -/
  | renderingFailed
  /-- The C++ `std::runtime_error ("Plugin ... asked for an infinite region of interest!")` -/
  | infiniteRegionOfInterest
  /-- An exception thrown by a plug-in action -/
  | pluginException (code : Nat)
  /-- A null image pointer is dereferenced or an iterator at `end ()` is used: undefined
  behaviour, taken as an abnormal end -/
  | undefinedBehaviour
  /-- The C++ `std::runtime_error ("supportsRenderScale not set")` of `supportsRenderScale ()` -/
  | supportsRenderScaleNotSet
deriving DecidableEq, Repr

/-- The state a render runs in: the world outside `EffectInstance.cpp`, the explicit members of
every effect, and a record of the calls of the plug-in render action (node, status returned) -/
structure St (W : Type) where
  world : W
  imp : NodeId → Implementation
  renderLog : List (NodeId × StatusEnum)

/-- The result of an embedded function: a value, a C++ exception, or no result within the
recursion budget -/
inductive Out (σ α : Type) where
  | val (a : α) (s : σ)
  | exn (e : Exception) (s : σ)
  | diverge

namespace Out

def bind {σ α β : Type} (x : Out σ α) (f : α → σ → Out σ β) : Out σ β :=
  match x with
  | .val a s => f a s
  | .exn e s => .exn e s
  | .diverge => .diverge

/-- A destructor that runs when its scope is left, by a return or by an exception -/
def atExit {σ α : Type} (x : Out σ α) (d : σ → σ) : Out σ α :=
  match x with
  | .val a s => .val a (d s)
  | .exn e s => .exn e (d s)
  | .diverge => .diverge

end Out

/-! ## The collaborators of `EffectInstance.cpp`

Functions of the world `W` stand for the code outside the translation unit: `W → α` reads,
`W → α × W` may write. The plug-in actions (`render`, `isIdentity`, `getRegionOfDefinition`, ...)
are such functions too. A few functions of `EffectInstance.cpp` whose result the render control
flow only passes along are parameters as well and are named after the function. -/

structure Env (W : Type) where
  /- `Image.h` -/
  getScaleFromMipMapLevel : Nat → ℚ
  getLevelFromScale : ℚ → Nat
  /- `Rect.h` -/
  toPixelEnclosing : RectD → Nat → ℚ → RectI
  toCanonical : RectI → Nat → ℚ → RectD → RectD
  toCanonical_noClipping : RectI → Nat → ℚ → RectD
  /-- The C++ `RectI::intersect`: `none` when it returns false (the output is then left alone) -/
  rectIIntersect : RectI → RectI → Option RectI
  rectDIntersect : RectD → RectD → Option RectD
  rectDMerge : RectD → RectD → RectD
  rectDIsInfinite : RectD → Bool
  /-- The region of interest carried through the inverse of a concatenated transform -/
  transformRoI : InputMatrix → ℚ → RenderScale → RectD → RectD
  /-- The C++ `ImageComponents::operator<`, the order of the plane maps -/
  componentsLess : ImageComponents → ImageComponents → Bool
  /- application, settings, threads -/
  isMainThread : W → Bool
  isBackground : W → Bool
  isTransformConcatenationEnabled : W → Bool
  getNumberOfThreads : W → Int
  getHardwareIdealThreadCount : W → Int
  threadPoolIsFull : W → Bool
  isNodeCacheAlmostFull : W → Bool
  timelineCurrentFrame : Option Nat → W → Int
  /- node and effect properties -/
  getHash : NodeId → W → U64
  getInput : NodeId → Int → W → Option NodeId
  isActivated : NodeId → W → Bool
  isViewerInstance : NodeId → Bool
  isRenderAbortable : NodeId → Int → U64 → W → Bool
  isSequentialRenderBeingAborted : NodeId → W → Bool
  isEffectCreated : NodeId → W → Bool
  supportsRenderScaleMaybe : NodeId → W → SupportsEnum
  supportsMultiResolution : NodeId → W → Bool
  supportsTiles : NodeId → W → Bool
  useScaleOneImagesWhenRenderScaleSupportIsDisabled : NodeId → W → Bool
  getPreferredAspectRatio : NodeId → W → ℚ
  getCurrentRenderThreadSafety : NodeId → W → RenderSafetyEnum
  nodeIsDuringPaintStrokeCreation : NodeId → W → Bool
  hasAttachedRotoItem : NodeId → W → Bool
  isRotoItemActivated : NodeId → SequenceTime → W → Bool
  getPreferredInput : NodeId → W → Int
  isDiskCacheNode : NodeId → Bool
  isNodeDisabled : NodeId → W → Bool
  hasAtLeastOneChannelToProcess : NodeId → W → Bool
  getSequentialPreference : NodeId → W → SequentialPreferenceEnum
  isSupportedComponent : NodeId → Int → ImageComponents → W → Bool
  isWriter : NodeId → Bool
  isReader : NodeId → Bool
  isRotoPaintNode : NodeId → Bool
  isMultiPlanar : NodeId → W → Bool
  isPaintingOverItselfEnabled : NodeId → W → Bool
  isHostMaskingEnabled : NodeId → W → Bool
  getMaxInputCount : NodeId → W → Int
  isInputMask : NodeId → Int → W → Bool
  isInputRotoBrush : NodeId → Int → W → Bool
  isMaskEnabled : NodeId → Int → W → Bool
  /-- The C++ `getMaskChannel`: the channel, the mask layer and the node the mask is read from -/
  getMaskChannel : NodeId → Int → W → Int × ImageComponents × Option NodeId
  getOutputPremultiplication : NodeId → W → ImagePremultiplicationEnum
  usesAlpha0ToConvertFromRGBToRGBA : NodeId → W → Bool
  isFrameVaryingOrAnimated_Recursive : NodeId → W → Bool
  shouldCacheOutput : NodeId → Bool → W → Bool
  /-- The C++ `getPreferredDepthAndComponents (-1, ...)` -/
  getPreferredDepthAndComponents : NodeId → W → List ImageComponents × ImageBitDepthEnum
  /-- The C++ `findClosestSupportedComponents (-1, ...)` when multi-planar, `Node::findClosestInList`
  on the clip preferences otherwise -/
  findClosestComponents : NodeId → ImageComponents → List ImageComponents → Bool → W →
    ImageComponents
  isLastPaintStrokeBitmapCleared : NodeId → W → Bool
  getLastPaintStrokeRoD : NodeId → W → RectD
  clearLastPaintStrokeRoD : NodeId → W → W
  getPaintStrokeRoD : NodeId → SequenceTime → W → RectD
  /- plug-in actions -/
  getRegionOfDefinition : NodeId → U64 → SequenceTime → RenderScale → Int → RectD → W →
    (StatusEnum × RectD) × W
  isIdentity : NodeId → SequenceTime → RenderScale → RectI → Int → W →
    Except Exception (Bool × SequenceTime × Int) × W
  getFrameRange : NodeId → W → (Int × Int) × W
  getFramesNeeded : NodeId → SequenceTime → Int → W → FramesNeededMap × W
  getRegionsOfInterest : NodeId → SequenceTime → RenderScale → RectD → RectD → Int → W →
    RoIMap × W
  beginSequenceRender : NodeId → SequenceTime → RenderScale → Bool → Bool → Int → W →
    StatusEnum × W
  endSequenceRender : NodeId → SequenceTime → RenderScale → Bool → Bool → Int → W →
    StatusEnum × W
  /-- The `render` action on a window and a list of planes: its status and the planes it
  allocated on the fly (`allocateImagePlaneAndSetInThreadLocalStorage`) -/
  render : NodeId → SequenceTime → Int → RectI → List (ImageComponents × ImagePtr) → W →
    (StatusEnum × PlanesMap) × W
  /- functions of `EffectInstance.cpp` taken as parameters -/
  ifInfiniteApplyHeuristic : NodeId → U64 → SequenceTime → RenderScale → Int → RectD → W →
    (Bool × RectD) × W
  getComponentsAvailable : NodeId → SequenceTime → W → ComponentsAvailableMap × W
  /-- The C++ `getComponentsNeededAndProduced_public`: the needed components, whether all requested
  components are processed, and the four channel flags -/
  getComponentsNeededAndProduced_public : NodeId → SequenceTime → Int → W →
    (ComponentsNeededMap × Bool × List Bool) × W
  tryConcatenateTransforms : NodeId → RenderRoIArgs → W → List InputMatrix × W
  rerouteInputAndSetTransform : NodeId → List InputMatrix → W → W
  clearTransform : NodeId → Int → W → W
  getImageFromCacheAndConvertIfNeeded : NodeId → Bool → Bool → ImageKey → Nat → RectI → RectD →
    ImageBitDepthEnum → ImageComponents → ImageBitDepthEnum → ImageComponents →
    InputImagesMap → W → ImagePtr × W
  optimizeRectsToRender : NodeId → RectI → List RectI → SequenceTime → Int → RenderScale → W →
    List RectToRender × W
  /- image cache -/
  removeFromNodeCache : Image → W → W
  removeFromNodeCacheByHash : ImageKey → W → W
  removeAllImagesFromCacheWithMatchingKey : Bool → U64 → W → W
  /-- The C++ `Natron::getImageFromCacheOrCreate` (`useDiskCache = false`) or
  `Natron::getImageFromDiskCacheOrCreate`: the image the cache holds or creates for the key and
  the parameters; `none` when the allocation fails -/
  getImageFromCacheOrCreate : Bool → ImageKey → ImageParams → W → ImagePtr × W
  /-- The C++ `allocateMemory` then `ensureBounds (params->getBounds ())` on an image of the cache -/
  allocateMemoryAndEnsureBounds : Image → RectI → W → W
  /-- Whether an image built by `Image (key, params)` has a bitmap -/
  imageOfKeyUsesBitmap : Bool
  /- images -/
  /-- The storage of `new Image (...)`: the identity of the new image -/
  allocImage : RectD → RectI → W → Nat × W
  imageGetBounds : Image → W → RectI
  imageGetRoD : Image → W → RectD
  imageSetRoD : Image → RectD → W → W
  imageGetFramesNeeded : Image → W → FramesNeededMap
  getRestToRender : Image → RectI → W → List RectI
  getRestToRender_trimap : Image → RectI → W → List RectI × Bool
  getMinimalRect : Image → RectI → W → RectI
  getMinimalRect_trimap : Image → RectI → W → RectI × Bool
  clearBitmap : Image → RectI → W → W
  setBitmapDirtyZone : Image → RectI → W → W
  markForRendering : Image → RectI → W → W
  ensureBounds : Image → RectI → Bool → W → Bool × W
  /-- The C++ `downscaleMipMap` of the first image into the second -/
  downscaleMipMap : Image → RectD → RectI → Nat → Nat → Bool → Image → W → W
  /-- The C++ `convertToFormat` or `convertToFormatAlpha0` of the first image into the second -/
  convertToFormat : Bool → Image → RectI → Bool → Image → W → W
  /-- The C++ `fillZero` then `markForRendered` on a rectangle -/
  fillZeroAndMarkRendered : Image → RectI → W → W
  /-- The planes of an identity tile copied, converted or upscaled into the output planes and
  marked rendered (lines 4398-4453) -/
  pasteIdentityPlanes : NodeId → PlanesMap → ImageList → RectI → Bool → W → W
  /-- The rendered buffers checked for NaNs, converted and copied into the output planes,
  unprocessed channels and mask mix applied, the window marked rendered (lines 4580-4755) -/
  copyRenderedPlanesToOutput : NodeId → PlanesMap → RectI → RectI → Bool → Bool → W → W
  setOrAddProjectFormat : NodeId → RectI → ℚ → W → W
  /-- A wait on the condition of an image being rendered by another thread -/
  waitCondition : Image → W → W

section Model

variable {W : Type} (env : Env W)

def St.setWorld (s : St W) (w : W) : St W := { s with world := w }

def St.modifyImp (s : St W) (n : NodeId) (f : Implementation → Implementation) : St W :=
  { s with imp := Function.update s.imp n (f (s.imp n)) }

/-- The C++ `new Image (components, rod, bounds, mipMapLevel, par, bitdepth, useBitmap)` -/
def newImage (components : ImageComponents) (rod : RectD) (bounds : RectI) (mipMapLevel : Nat)
    (par : ℚ) (bitdepth : ImageBitDepthEnum) (useBitmap : Bool) (s : St W) : Image × St W :=
  ({ id := (env.allocImage rod bounds s.world).1, components := components, bitDepth := bitdepth,
     mipMapLevel := mipMapLevel, par := par, usesBitMap := useBitmap },
   s.setWorld (env.allocImage rod bounds s.world).2)

/-- The conversion of a `double` to `int`: truncation -/
def doubleToInt (q : ℚ) : Int := q.num.tdiv q.den

/-- The C++ `std::floor (x + 0.5)` -/
def roundHalfUp (q : ℚ) : Int := ⌊q + 1 / 2⌋

/-- The C++ `_imp->frameRenderArgs.localData ()` -/
def frameRenderArgsOf (n : NodeId) (s : St W) : ParallelRenderArgs :=
  ((s.imp n).frameRenderArgs).getD ParallelRenderArgs.new

/-- The C++ `_imp->renderArgs.localData ()` -/
def renderArgsOf (n : NodeId) (s : St W) : RenderArgs :=
  ((s.imp n).renderArgs).getD RenderArgs.new

/-- The thread-local render arguments when the thread is a render thread and they are valid
(the test of lines 5379-5381, 5471-5473 and 5563-5565) -/
def validRenderArgsTLS (n : NodeId) (s : St W) : Option RenderArgs :=
  if env.isMainThread s.world then none
  else match (s.imp n).renderArgs with
    | some a => if a._validArgs then some a else none
    | none => none

/-- The C++ `EffectInstance::aborted` (lines 931-977) -/
def aborted (n : NodeId) (s : St W) : Bool :=
  match (s.imp n).frameRenderArgs with
  | none => false
  | some args =>
    if args.validArgs = 0 then false
    else if args.isRenderResponseToUserInteraction then
      if args.canAbort then
        (args.nodeHash != env.getHash n s.world) ||
        (args.time != env.timelineCurrentFrame args.timeline s.world) ||
        !env.isActivated n s.world
      else
        match args.renderRequester with
        | some r =>
          if env.isViewerInstance r && env.isRenderAbortable r args.textureIndex args.renderAge s.world
          then true
          else !env.isActivated n s.world
        | none => !env.isActivated n s.world
    else
      match args.renderRequester with
      | some r => env.isSequentialRenderBeingAborted r s.world
      | none => false

/-! ### Images being rendered (lines 459-546) -/

def IBRMap.find (m : IBRMap) (img : Image) : Option ImageBeingRendered := m.lookup img

def IBRMap.set : IBRMap → Image → ImageBeingRendered → IBRMap
  | [], _, _ => []
  | (k, v) :: rest, img, ibr =>
    if k = img then (k, ibr) :: rest else (k, v) :: IBRMap.set rest img ibr

def IBRMap.erase : IBRMap → Image → IBRMap
  | [], _ => []
  | (k, v) :: rest, img => if k = img then rest else (k, v) :: IBRMap.erase rest img

def St.setIBR (s : St W) (n : NodeId) (m : IBRMap) : St W :=
  s.modifyImp n fun i => { i with imagesBeingRendered := m }

def St.setRenderArgs (s : St W) (n : NodeId) (a : RenderArgs) : St W :=
  s.modifyImp n fun i => { i with renderArgs := some a }

def St.setFrameRenderArgs (s : St W) (n : NodeId) (a : ParallelRenderArgs) : St W :=
  s.modifyImp n fun i => { i with frameRenderArgs := some a }

def St.setInputImages (s : St W) (n : NodeId) (m : InputImagesMap) : St W :=
  s.modifyImp n fun i => { i with inputImages := some m }

def St.setActionsCache (s : St W) (n : NodeId) (c : ActionsCache) : St W :=
  s.modifyImp n fun i => { i with actionsCache := c }

/-- The function `Implementation::markImageAsBeingRendered` -/
def markImageAsBeingRendered (n : NodeId) (img : ImagePtr) (s : St W) : Out (St W) Unit :=
  match img with
  | none => .exn .undefinedBehaviour s
  | some img =>
    if !img.usesBitMap then .val () s
    else
      match IBRMap.find (s.imp n).imagesBeingRendered img with
      | some found =>
        .val () (s.setIBR n (IBRMap.set (s.imp n).imagesBeingRendered img
          { found with refCount := found.refCount + 1 }))
      | none =>
        .val () (s.setIBR n ((s.imp n).imagesBeingRendered ++
          [(img, { refCount := 1, renderFailed := false })]))

/-- The function `Implementation::unmarkImageAsBeingRendered` -/
def unmarkImageAsBeingRendered (n : NodeId) (img : ImagePtr) (renderFailed : Bool) (s : St W) :
    Out (St W) Unit :=
  match img with
  | none => .exn .undefinedBehaviour s
  | some img =>
    if !img.usesBitMap then .val () s
    else
      match IBRMap.find (s.imp n).imagesBeingRendered img with
      | none => .exn .undefinedBehaviour s
      | some found =>
        if found.refCount - 1 = 0 then
          .val () (s.setIBR n (IBRMap.erase (s.imp n).imagesBeingRendered img))
        else
          .val () (s.setIBR n (IBRMap.set (s.imp n).imagesBeingRendered img
            { refCount := found.refCount - 1,
              renderFailed := if renderFailed then true else found.renderFailed }))

/-- The wait loop of `waitForImageBeingRenderedElsewhereAndUnmark` (lines 493-502): every turn
waits on the condition and looks at the bitmap and the abort state again. The result is `none`
when the loop does not end within `fuel` turns. -/
def waitForImageLoop (n : NodeId) (roi : RectI) (img : Image) (ibr : ImageBeingRendered) :
    Nat → Bool → Bool → St W → Option (St W)
  | 0, ab, isBeingRenderedElseWhere, s =>
    if !ab && isBeingRenderedElseWhere && !ibr.renderFailed && decide (ibr.refCount > 1) then none
    else some s
  | fuel + 1, ab, isBeingRenderedElseWhere, s =>
    if !ab && isBeingRenderedElseWhere && !ibr.renderFailed && decide (ibr.refCount > 1) then
      waitForImageLoop n roi img ibr fuel (aborted env n (s.setWorld (env.waitCondition img s.world)))
        (env.getRestToRender_trimap img roi (env.waitCondition img s.world)).2
        (s.setWorld (env.waitCondition img s.world))
    else some s

/-- The function `Implementation::waitForImageBeingRenderedElsewhereAndUnmark` -/
def waitForImageBeingRenderedElsewhereAndUnmark (fuel : Nat) (n : NodeId) (roi : RectI)
    (img : ImagePtr) (s : St W) : Out (St W) Unit :=
  match img with
  | none => .exn .undefinedBehaviour s
  | some img =>
    if !img.usesBitMap then .val () s
    else
      match IBRMap.find (s.imp n).imagesBeingRendered img with
      | none => .exn .undefinedBehaviour s
      | some ibr =>
        match waitForImageLoop env n roi img ibr fuel (aborted env n s)
            (env.getRestToRender_trimap img roi s.world).2 s with
        | none => .diverge
        | some s1 =>
          match IBRMap.find (s1.imp n).imagesBeingRendered img with
          | none => .exn .undefinedBehaviour s1
          | some found =>
            if found.refCount - 1 = 0 then
              .val () (s1.setIBR n (IBRMap.erase (s1.imp n).imagesBeingRendered img))
            else
              .val () (s1.setIBR n (IBRMap.set (s1.imp n).imagesBeingRendered img
                { found with refCount := found.refCount - 1 }))

/-! ### Scoped thread-local arguments (lines 579-720) -/

/-- The constructor `ScopedRenderArgs (dst, roiMap, rod, renderWindow, time, view, isIdentity,
identityTime, inputNbIdentity, outputPlanes, firstFrame, lastFrame)` -/
def scopedRenderArgs_set (n : NodeId) (roiMap : RoIMap) (rod : RectD) (renderWindow : RectI)
    (time : SequenceTime) (view : Int) (isIdentity : Bool) (identityTime : SequenceTime)
    (inputNbIdentity : Int) (outputPlanes : PlanesMap) (firstFrame lastFrame : Int)
    (s : St W) : St W :=
  s.setRenderArgs n { renderArgsOf n s with
    _rod := rod, _renderWindowPixel := renderWindow, _time := time, _view := view,
    _isIdentity := isIdentity, _identityTime := identityTime,
    _identityInputNb := inputNbIdentity, _outputPlanes := outputPlanes,
    _regionOfInterestResults := roiMap, _firstFrame := firstFrame, _lastFrame := lastFrame,
    _validArgs := true }

/-- The destructor `~ScopedRenderArgs` -/
def scopedRenderArgs_exit (n : NodeId) (s : St W) : St W :=
  s.setRenderArgs n { renderArgsOf n s with _outputPlanes := [], _validArgs := false }

/-- The calls `setArgs_firstPass` then `setArgs_secondPass` of lines 4148-4163 -/
def scopedRenderArgs_setPasses (n : NodeId) (rod : RectD) (renderWindow : RectI)
    (time : SequenceTime) (view : Int) (isIdentity : Bool) (identityTime : SequenceTime)
    (inputNbIdentity : Int) (roiMap : RoIMap) (firstFrame lastFrame : Int) (s : St W) : St W :=
  s.setRenderArgs n { renderArgsOf n s with
    _rod := rod, _renderWindowPixel := renderWindow, _time := time, _view := view,
    _isIdentity := isIdentity, _identityTime := identityTime,
    _identityInputNb := inputNbIdentity, _regionOfInterestResults := roiMap,
    _firstFrame := firstFrame, _lastFrame := lastFrame, _validArgs := true }

/-- The constructor of `InputImagesHolder_RAII`: `std::map::insert` of a range keeps the
entries already present -/
def inputImagesHolder_enter (n : NodeId) (imgs : InputImagesMap) (s : St W) : St W :=
  if imgs.isEmpty then s
  else s.setInputImages n
    (imgs.foldl (fun m kv => StdMap.insert (fun a b => decide (a < b)) m kv.1 kv.2)
      ((s.imp n).inputImages.getD []))

/-- The destructor of `InputImagesHolder_RAII` -/
def inputImagesHolder_exit (n : NodeId) (imgs : InputImagesMap) (s : St W) : St W :=
  if imgs.isEmpty then s else s.setInputImages n []

/-! ### Actions with their cache (lines 5335-5620, 6179-6200) -/

/-- The function `getRegionOfDefinition_public`; `rod` and `isProjectFormat` come in with the
values the caller holds and go out as the function leaves them -/
def getRegionOfDefinition_public (n : NodeId) (hash : U64) (time : SequenceTime)
    (scale : RenderScale) (view : Int) (rod : RectD) (isProjectFormat : Bool) (s : St W) :
    (StatusEnum × RectD × Bool) × St W :=
  if !env.isEffectCreated n s.world then ((.eStatusFailed, rod, isProjectFormat), s)
  else
    let mipMapLevel := env.getLevelFromScale scale.x
    match (s.imp n).actionsCache.getRoDResult hash time view mipMapLevel with
    | some found =>
      if found.isNull then ((.eStatusFailed, found, false), s)
      else ((.eStatusOK, found, false), s)
    | none =>
      match validRenderArgsTLS env n s with
      | some args => ((.eStatusOK, args._rod, false), s)
      | none =>
        let scaleOne : RenderScale := ⟨1, 1⟩
        let r := env.getRegionOfDefinition n hash time
          (if env.supportsRenderScaleMaybe n s.world = .eSupportsNo then scaleOne else scale)
          view rod s.world
        let ret := r.1.1
        let rod1 := r.1.2
        let s1 := s.setWorld r.2
        if ret ≠ .eStatusOK ∧ ret ≠ .eStatusReplyDefault then
          ((ret, rod1, isProjectFormat),
           s1.setActionsCache n ((((s1.imp n).actionsCache.invalidateAll hash).setRoDResult
             hash time view mipMapLevel RectD.null)))
        else if rod1.isNull then
          ((.eStatusFailed, rod1, isProjectFormat),
           s1.setActionsCache n ((((s1.imp n).actionsCache.invalidateAll hash).setRoDResult
             hash time view mipMapLevel RectD.null)))
        else
          let h := env.ifInfiniteApplyHeuristic n hash time scale view rod1 s1.world
          let s2 := s1.setWorld h.2
          ((ret, h.1.2, h.1.1),
           s2.setActionsCache n ((s2.imp n).actionsCache.setRoDResult hash time view mipMapLevel
             h.1.2))

/-- The part of `isIdentity_public` that asks the effect (lines 5392-5418): the flag, the input
time and the input number as the action leaves them -/
def isIdentity_compute (n : NodeId) (time : SequenceTime) (scale : RenderScale)
    (renderWindow : RectI) (view : Int) (s : St W) : Out (St W) (Bool × SequenceTime × Int) :=
  if env.hasAttachedRotoItem n s.world && !env.isRotoItemActivated n time s.world then
    .val (true, time, env.getPreferredInput n s.world) s
  else if env.isBackground s.world && env.isDiskCacheNode n then
    .val (true, time, 0) s
  else if env.isNodeDisabled n s.world || !env.hasAtLeastOneChannelToProcess n s.world then
    .val (true, time, env.getPreferredInput n s.world) s
  else if env.getSequentialPreference n s.world ≠ .eSequentialPreferenceOnlySequential then
    match (env.isIdentity n time scale renderWindow view s.world).1 with
    | .ok r => .val r (s.setWorld (env.isIdentity n time scale renderWindow view s.world).2)
    | .error e => .exn e (s.setWorld (env.isIdentity n time scale renderWindow view s.world).2)
  else .val (false, time, -1) s

/-- The function `isIdentity_public`: the flag returned, `*inputTime` and `*inputNb` -/
def isIdentity_public (n : NodeId) (useIdentityCache : Bool) (hash : U64) (time : SequenceTime)
    (scale : RenderScale) (renderWindow : RectI) (view : Int) (s : St W) :
    Out (St W) (Bool × SequenceTime × Int) :=
  let mipMapLevel := env.getLevelFromScale scale.x
  match (if useIdentityCache then
          (s.imp n).actionsCache.getIdentityResult hash time view mipMapLevel else none) with
  | some found =>
    .val (decide (found.1 ≥ 0) || decide (found.1 = -2), doubleToInt found.2, found.1) s
  | none =>
    match validRenderArgsTLS env n s with
    | some args => .val (args._identityInputNb != -1, args._identityTime, args._identityInputNb) s
    | none =>
      (isIdentity_compute env n time scale renderWindow view s).bind fun r s1 =>
        let inputNb : Int := if !r.1 then -1 else r.2.2
        let inputTime : SequenceTime := if !r.1 then time else r.2.1
        .val (r.1, inputTime, inputNb)
          (if useIdentityCache then
            s1.setActionsCache n ((s1.imp n).actionsCache.setIdentityResult hash time view
              mipMapLevel inputNb inputTime)
           else s1)

/-- The function `getFrameRange_public` -/
def getFrameRange_public (n : NodeId) (hash : U64) (bypasscache : Bool) (s : St W) :
    (Int × Int) × St W :=
  match (if !bypasscache then (s.imp n).actionsCache.getTimeDomainResult hash else none) with
  | some found => ((roundHalfUp found.1, roundHalfUp found.2), s)
  | none =>
    match validRenderArgsTLS env n s with
    | some args => ((args._firstFrame, args._lastFrame), s)
    | none =>
      let r := env.getFrameRange n s.world
      let s1 := s.setWorld r.2
      (r.1, s1.setActionsCache n ((s1.imp n).actionsCache.setTimeDomainResult hash r.1.1 r.1.2))

/-- The function `beginSequenceRender_public` -/
def beginSequenceRender_public (n : NodeId) (time : SequenceTime) (scale : RenderScale)
    (isSequentialRender isRenderResponseToUserInteraction : Bool) (view : Int) (s : St W) :
    StatusEnum × St W :=
  let s1 := s.modifyImp n fun i => { i with beginEndRenderCount :=
    match i.beginEndRenderCount with | none => some 1 | some c => some (c + 1) }
  let r := env.beginSequenceRender n time scale isSequentialRender
    isRenderResponseToUserInteraction view s1.world
  (r.1, s1.setWorld r.2)

/-- The function `endSequenceRender_public` -/
def endSequenceRender_public (n : NodeId) (time : SequenceTime) (scale : RenderScale)
    (isSequentialRender isRenderResponseToUserInteraction : Bool) (view : Int) (s : St W) :
    StatusEnum × St W :=
  let s1 := s.modifyImp n fun i => { i with beginEndRenderCount := some ((i.beginEndRenderCount.getD 0) - 1) }
  let r := env.endSequenceRender n time scale isSequentialRender
    isRenderResponseToUserInteraction view s1.world
  (r.1, s1.setWorld r.2)

/-- The function `render_public`: the action is called and the call is recorded -/
def render_public (n : NodeId) (time : SequenceTime) (view : Int) (roi : RectI)
    (outputPlanes : List (ImageComponents × ImagePtr)) (s : St W) :
    (StatusEnum × PlanesMap) × St W :=
  let r := env.render n time view roi outputPlanes s.world
  (r.1, { s with world := r.2, renderLog := s.renderLog ++ [(n, r.1.1)] })

/-- The function `getCurrentThreadSafetyThreadLocal` -/
def getCurrentThreadSafetyThreadLocal (n : NodeId) (s : St W) : RenderSafetyEnum :=
  match (s.imp n).frameRenderArgs with
  | some args =>
    if args.validArgs ≠ 0 then args.currentThreadSafety
    else env.getCurrentRenderThreadSafety n s.world
  | none => env.getCurrentRenderThreadSafety n s.world

/-- The function `isDuringPaintStrokeCreationThreadLocal` -/
def isDuringPaintStrokeCreationThreadLocal (n : NodeId) (s : St W) : Bool :=
  match (s.imp n).frameRenderArgs with
  | some args =>
    if args.validArgs ≠ 0 then args.isDuringPaintStrokeCreation
    else env.nodeIsDuringPaintStrokeCreation n s.world
  | none => env.nodeIsDuringPaintStrokeCreation n s.world

/-! ### The render of one rectangle (`renderHandler`, lines 4290-4759) -/

/-- The signature of `renderRoI` for the recursive calls: node, arguments, `*outputPlanes` on
entry; the code returned and `*outputPlanes` on exit -/
abbrev RenderRoIFn (W : Type) :=
  NodeId → RenderRoIArgs → ImageList → St W → Out (St W) (RenderRoIRetCode × ImageList)

/-- The image a plane is rendered into: `outputUseImage ? fullscaleImage : downscaleImage` -/
def PlaneToRender.output (p : PlaneToRender) (useImageAsOutput : Bool) : ImagePtr :=
  if useImageAsOutput then p.fullscaleImage else p.downscaleImage

/-- The loops of lines 4368-4376 and 4386-4394: every plane filled with zeroes on the
rectangle and marked rendered -/
def fillZeroPlanes (outputUseImage : Bool) (rect : RectI) : PlanesMap → St W → Out (St W) Unit
  | [], s => .val () s
  | p :: rest, s =>
    match p.2.output outputUseImage with
    | none => .exn .undefinedBehaviour s
    | some img =>
      fillZeroPlanes outputUseImage rect rest (s.setWorld (env.fillZeroAndMarkRendered img rect s.world))

/-- The pointers that the loop of lines 4400-4452 dereferences are not null and the list of
identity planes is as long as the list of planes -/
def identityPlanesWellFormed (outputUseImage : Bool) : PlanesMap → ImageList → Bool
  | [], _ => true
  | _ :: _, [] => false
  | p :: rest, idImg :: ids =>
    (match p.2.fullscaleImage with
     | some full =>
       if outputUseImage && decide (idImg.mipMapLevel > full.mipMapLevel) then
         p.2.renderMappedImage.isSome
       else p.2.downscaleImage.isSome
     | none =>
       !outputUseImage &&
       (match p.2.downscaleImage with
        | some down => decide (down.components = idImg.components) &&
                       decide (down.bitDepth = idImg.bitDepth)
        | none => false)) &&
    identityPlanesWellFormed outputUseImage rest ids

/-- The identity branch of `renderHandler` (lines 4348-4457) -/
def renderHandler_identity (rec : RenderRoIFn W) (n : NodeId) (identityTime : SequenceTime)
    (identityInput : Option NodeId) (outputUseImage : Bool) (originalScale : RenderScale)
    (mipMapLevel : Nat) (view : Int) (downscaledRectToRender : RectI)
    (outputClipPrefDepth : ImageBitDepthEnum) (planes : ImagePlanesToRender) (s : St W) :
    Out (St W) RenderingFunctorRetEnum :=
  match planes.planes.mapM (fun p => p.2.renderMappedImage.map (fun i => i.components)) with
  | none => .exn .undefinedBehaviour s
  | some comps =>
    match identityInput with
    | none =>
      (fillZeroPlanes env outputUseImage downscaledRectToRender planes.planes s).bind
        fun _ s1 => .val .eRenderingFunctorRetOK s1
    | some input =>
      (rec input
        { time := identityTime, scale := originalScale, mipMapLevel := mipMapLevel, view := view,
          byPassCache := false, roi := downscaledRectToRender, preComputedRoD := RectD.null,
          components := comps, bitdepth := outputClipPrefDepth, caller := some n,
          inputImagesList := [] } [] s).bind fun r s1 =>
        if r.1 = .eRenderRoIRetCodeAborted then .val .eRenderingFunctorRetAborted s1
        else if r.1 = .eRenderRoIRetCodeFailed then .val .eRenderingFunctorRetFailed s1
        else if r.2.isEmpty then
          (fillZeroPlanes env outputUseImage downscaledRectToRender planes.planes s1).bind
            fun _ s2 => .val .eRenderingFunctorRetOK s2
        else if identityPlanesWellFormed outputUseImage planes.planes r.2 then
          .val .eRenderingFunctorRetOK (s1.setWorld
            (env.pasteIdentityPlanes n planes.planes r.2 downscaledRectToRender outputUseImage
              s1.world))
        else .exn .undefinedBehaviour s1

/-- The loop of lines 4460-4488: the temporary image of every output plane; the result is the
planes with `tmpImage` set and the list `tmpPlanes` -/
def renderHandler_tmpPlanes (n : NodeId) (multiPlanar : Bool) (roi : RectI)
    (outputClipPrefDepth : ImageBitDepthEnum) (outputClipPrefsComps : List ImageComponents) :
    PlanesMap → St W → Out (St W) (PlanesMap × List (ImageComponents × ImagePtr))
  | [], s => .val ([], []) s
  | p :: rest, s =>
    match p.2.renderMappedImage with
    | none => .exn .undefinedBehaviour s
    | some mapped =>
      let prefComp := env.findClosestComponents n mapped.components outputClipPrefsComps
        multiPlanar s.world
      let needTmp := (mapped.usesBitMap || decide (prefComp ≠ mapped.components) ||
        decide (outputClipPrefDepth ≠ mapped.bitDepth)) &&
        !env.isPaintingOverItselfEnabled n s.world
      let created := newImage env prefComp (env.imageGetRoD mapped s.world) roi mapped.mipMapLevel
        mapped.par outputClipPrefDepth false s
      let tmp : Image := if needTmp then created.1 else mapped
      let s1 : St W := if needTmp then created.2 else s
      (renderHandler_tmpPlanes n multiPlanar roi outputClipPrefDepth outputClipPrefsComps rest
        s1).bind fun r s2 =>
        .val ((p.1, { p.2 with tmpImage := some tmp }) :: r.1,
              (mapped.components, some tmp) :: r.2) s2

/-- The loops of lines 4493-4499 and 4555-4561: `markForRendering` (`clear = false`) or
`clearBitmap` (`clear = true`) of the rectangle on every plane -/
def markOrClearPlanes (clear : Bool) (outputUseImage : Bool) (rect : RectI) :
    PlanesMap → St W → Out (St W) Unit
  | [], s => .val () s
  | p :: rest, s =>
    match p.2.output outputUseImage with
    | none => .exn .undefinedBehaviour s
    | some img =>
      markOrClearPlanes clear outputUseImage rect rest
        (s.setWorld (if clear then env.clearBitmap img rect s.world
                     else env.markForRendering img rect s.world))

/-- The result of the loop over the lists of planes (lines 4525-4571) -/
inductive RenderLoopResult where
  /-- The statement `return eRenderingFunctorRetFailed` -/
  | failed
  /-- The loop is left with `renderAborted` and the planes read back from the thread storage -/
  | finished (renderAborted : Bool) (outputPlanes : PlanesMap)

/-- The loop over the lists of planes given to the render action (lines 4527-4571).
`first` is true at `planesLists.begin ()`; `outputPlanes` is the local map of that name. -/
def renderHandler_renderLoop (n : NodeId) (multiPlanar trimap outputUseImage : Bool)
    (time : SequenceTime) (view : Int) (roi downscaledRectToRender : RectI) :
    List (List (ImageComponents × ImagePtr)) → Bool → PlanesMap → St W →
    Out (St W) RenderLoopResult
  | [], _, outputPlanes, s => .val (.finished false outputPlanes) s
  | planesList :: rest, first, outputPlanes, s =>
    let s1 : St W :=
      if multiPlanar then s
      else s.setRenderArgs n { renderArgsOf n s with
        _outputPlaneBeingRendered := (planesList.head?.map (fun p => p.1)).getD ⟨0, 0, false⟩ }
    let r := render_public env n time view roi planesList s1
    let st := r.1.1
    let s2 : St W := r.2.setRenderArgs n { renderArgsOf n r.2 with
      _outputPlanes := r.1.2.foldl (fun m kv => StdMap.insert env.componentsLess m kv.1 kv.2)
        (renderArgsOf n r.2)._outputPlanes }
    let renderAborted := aborted env n s2
    let outputPlanes1 := if first then (renderArgsOf n s2)._outputPlanes else outputPlanes
    if st ≠ .eStatusOK then
      if trimap then
        (markOrClearPlanes env true outputUseImage downscaledRectToRender outputPlanes1 s2).bind
          fun _ s3 => .val .failed s3
      else .val .failed s2
    else if renderAborted then .val (.finished true outputPlanes1) s2
    else
      match rest with
      | [] => .val (.finished false outputPlanes1) s2
      | _ :: _ =>
        renderHandler_renderLoop n multiPlanar trimap outputUseImage time view roi
          downscaledRectToRender rest false outputPlanes1 s2

/-- The function `renderHandler`. `args` is the thread-local `RenderArgs` of the node and
`frameArgs` the frame-level arguments. -/
def renderHandler (rec : RenderRoIFn W) (n : NodeId) (frameArgs : ParallelRenderArgs)
    (identity : Bool) (identityTime : SequenceTime) (identityInput : Option NodeId)
    (renderFullScaleThenDownscale renderUseScaleOneInputs : Bool)
    (renderMappedRectToRender downscaledRectToRender : RectI)
    (outputClipPrefDepth : ImageBitDepthEnum) (outputClipPrefsComps : List ImageComponents)
    (planes : ImagePlanesToRender) (s : St W) : Out (St W) RenderingFunctorRetEnum :=
  match planes.planes with
  | [] => .exn .undefinedBehaviour s
  | firstPlane :: _ =>
    match firstPlane.2.downscaleImage, firstPlane.2.renderMappedImage with
    | some down, some _ =>
      let time := (renderArgsOf n s)._time
      let view := (renderArgsOf n s)._view
      let mipMapLevel := down.mipMapLevel
      let outputUseImage := renderUseScaleOneInputs && renderFullScaleThenDownscale
      let originalScale : RenderScale :=
        ⟨env.getScaleFromMipMapLevel down.mipMapLevel, env.getScaleFromMipMapLevel down.mipMapLevel⟩
      let multiPlanar := env.isMultiPlanar n s.world
      if identity then
        renderHandler_identity env rec n identityTime identityInput outputUseImage originalScale
          mipMapLevel view downscaledRectToRender outputClipPrefDepth planes s
      else
        let s1 := s.setRenderArgs n { renderArgsOf n s with _outputPlanes := planes.planes }
        (renderHandler_tmpPlanes env n multiPlanar renderMappedRectToRender outputClipPrefDepth
          outputClipPrefsComps (renderArgsOf n s1)._outputPlanes s1).bind fun t s2 =>
        let s3 := s2.setRenderArgs n { renderArgsOf n s2 with _outputPlanes := t.1 }
        let trimap := !frameArgs.canAbort && frameArgs.isRenderResponseToUserInteraction
        (if trimap then markOrClearPlanes env false outputUseImage downscaledRectToRender t.1 s3
         else .val () s3).bind fun _ s4 =>
        let planesLists : List (List (ImageComponents × ImagePtr)) :=
          if !multiPlanar then t.2.map (fun p => [p]) else [t.2]
        (renderHandler_renderLoop env n multiPlanar trimap outputUseImage time view
          renderMappedRectToRender downscaledRectToRender planesLists true [] s4).bind
          fun r s5 =>
          match r with
          | .failed => .val .eRenderingFunctorRetFailed s5
          | .finished renderAborted outputPlanes =>
            if renderAborted then .val .eRenderingFunctorRetAborted s5
            else .val .eRenderingFunctorRetOK (s5.setWorld
              (env.copyRenderedPlanesToOutput n outputPlanes renderMappedRectToRender
                downscaledRectToRender renderFullScaleThenDownscale renderUseScaleOneInputs
                s5.world))
    | _, _ => .exn .undefinedBehaviour s

/-! ### One rectangle with its bitmap check (`tiledRenderingFunctor`, lines 3991-4288) -/

/-- The rectangles left after the bitmap check (lines 4063-4137): `downscaledRectToRender`,
`renderMappedRectToRender` and `isBeingRenderedElseWhere`; `none` when a null image is
dereferenced -/
def tiledRenderingFunctor_rects (n : NodeId) (frameArgs : ParallelRenderArgs)
    (rect : RectI) (renderFullScaleThenDownscale outputUseImage : Bool)
    (mipMapLevel renderMappedMipMapLevel : Nat) (rod : RectD) (par : ℚ)
    (firstPlaneToRender : PlaneToRender) (w : W) : Option (RectI × RectI × Bool) :=
  let canonicalRectToRender := env.toCanonical rect mipMapLevel par rod
  let renderMapped0 : RectI :=
    if !outputUseImage && decide (mipMapLevel > 0) && decide (renderMappedMipMapLevel ≠ mipMapLevel)
    then env.toPixelEnclosing canonicalRectToRender renderMappedMipMapLevel par else rect
  let trimap := !frameArgs.canAbort && frameArgs.isRenderResponseToUserInteraction
  if env.supportsTiles n w then
    if outputUseImage then
      match firstPlaneToRender.renderMappedImage with
      | none => none
      | some mapped =>
        let d0 := env.toPixelEnclosing canonicalRectToRender 0 par
        let initialRenderRect := (env.rectIIntersect d0 (env.imageGetBounds mapped w)).getD d0
        let m : RectI × Bool :=
          if trimap then env.getMinimalRect_trimap mapped initialRenderRect w
          else (env.getMinimalRect mapped initialRenderRect w, false)
        let d1 := if !initialRenderRect.contains m.1 then initialRenderRect else m.1
        some (d1, d1, m.2)
    else
      match firstPlaneToRender.downscaleImage with
      | none => none
      | some down =>
        let m : RectI × Bool :=
          if trimap then env.getMinimalRect_trimap down rect w
          else (env.getMinimalRect down rect w, false)
        if renderFullScaleThenDownscale then
          match firstPlaneToRender.renderMappedImage with
          | none => none
          | some mapped =>
            let d1 := if rect.contains m.1 then m.1 else rect
            let canonical := env.toCanonical d1 mipMapLevel par rod
            let rm := env.toPixelEnclosing canonical 0 par
            some (d1, (env.rectIIntersect rm (env.imageGetBounds mapped w)).getD rm, m.2)
        else if rect.contains m.1 then some (m.1, m.1, m.2)
        else some (rect, renderMapped0, m.2)
  else some (rect, renderMapped0, false)

/-- The body of `tiledRenderingFunctor` between the construction and the destruction of
`InputImagesHolder_RAII` -/
def tiledRenderingFunctor_body (rec : RenderRoIFn W) (n : NodeId)
    (frameArgs : ParallelRenderArgs)
    (rectToRender : RectToRender) (renderFullScaleThenDownscale renderUseScaleOneInputs : Bool)
    (firstFrame lastFrame : Int) (mipMapLevel renderMappedMipMapLevel : Nat) (rod : RectD)
    (time : SequenceTime) (view : Int) (par : ℚ) (outputClipPrefDepth : ImageBitDepthEnum)
    (outputClipPrefsComps : List ImageComponents) (planes : ImagePlanesToRender) (s1 : St W) :
    Out (St W) RenderingFunctorRetEnum :=
  match planes.planes with
  | [] => .exn .undefinedBehaviour s1
  | firstPlaneToRender :: _ =>
    match tiledRenderingFunctor_rects env n frameArgs rectToRender.rect
        renderFullScaleThenDownscale (renderFullScaleThenDownscale && renderUseScaleOneInputs)
        mipMapLevel renderMappedMipMapLevel rod par firstPlaneToRender.2 s1.world with
    | none => .exn .undefinedBehaviour s1
    | some r =>
      if r.1.isNull then
        .val (if r.2.2 then .eRenderingFunctorRetTakeImageLock else .eRenderingFunctorRetOK) s1
      else
        Out.atExit
          ((renderHandler env rec n frameArgs rectToRender.isIdentity rectToRender.identityTime
              rectToRender.identityInput renderFullScaleThenDownscale renderUseScaleOneInputs
              r.2.1 r.1 outputClipPrefDepth outputClipPrefsComps planes
              (scopedRenderArgs_setPasses n rod r.2.1 time view false 0 (-1)
                rectToRender.inputRois firstFrame lastFrame s1)).bind
            fun handlerRet s3 =>
              if handlerRet = .eRenderingFunctorRetOK then
                .val (if r.2.2 then .eRenderingFunctorRetTakeImageLock
                      else .eRenderingFunctorRetOK) s3
              else .val handlerRet s3)
          (scopedRenderArgs_exit n)

/-- The function `tiledRenderingFunctor` (the overload of lines 3991-4288) called on the
calling thread -/
def tiledRenderingFunctor (rec : RenderRoIFn W) (n : NodeId) (frameArgs : ParallelRenderArgs)
    (rectToRender : RectToRender) (renderFullScaleThenDownscale renderUseScaleOneInputs : Bool)
    (firstFrame lastFrame : Int) (mipMapLevel renderMappedMipMapLevel : Nat) (rod : RectD)
    (time : SequenceTime) (view : Int) (par : ℚ) (outputClipPrefDepth : ImageBitDepthEnum)
    (outputClipPrefsComps : List ImageComponents) (planes : ImagePlanesToRender) (s : St W) :
    Out (St W) RenderingFunctorRetEnum :=
  Out.atExit
    (tiledRenderingFunctor_body env rec n frameArgs rectToRender renderFullScaleThenDownscale
      renderUseScaleOneInputs firstFrame lastFrame mipMapLevel renderMappedMipMapLevel rod time
      view par outputClipPrefDepth outputClipPrefsComps planes
      (inputImagesHolder_enter n rectToRender.imgs s))
    (inputImagesHolder_exit n rectToRender.imgs)

/-! ### All rectangles of a request (`renderRoIInternal`, lines 3719-3962) -/

/-- The loop of lines 3925-3942: the rectangles one after the other, left at the first one
that fails or is aborted; the result is `renderStatus` and the planes with their
`isBeingRenderedElsewhere` flag -/
def renderRoIInternal_tiles (rec : RenderRoIFn W) (n : NodeId) (frameArgs : ParallelRenderArgs)
    (renderFullScaleThenDownscale useScaleOneInputImages : Bool) (firstFrame lastFrame : Int)
    (mipMapLevel renderMappedMipMapLevel : Nat) (rod : RectD) (time : SequenceTime) (view : Int)
    (par : ℚ) (outputClipPrefDepth : ImageBitDepthEnum)
    (outputClipPrefsComps : List ImageComponents) :
    List RectToRender → ImagePlanesToRender → St W →
    Out (St W) (RenderingFunctorRetEnum × ImagePlanesToRender)
  | [], planes, s => .val (.eRenderingFunctorRetOK, planes) s
  | r :: rest, planes, s =>
    (tiledRenderingFunctor env rec n frameArgs r renderFullScaleThenDownscale
      useScaleOneInputImages firstFrame lastFrame mipMapLevel renderMappedMipMapLevel rod time
      view par outputClipPrefDepth outputClipPrefsComps planes s).bind fun functorRet s1 =>
      if functorRet = .eRenderingFunctorRetFailed ∨ functorRet = .eRenderingFunctorRetAborted then
        .val (functorRet, planes) s1
      else
        renderRoIInternal_tiles rec n frameArgs renderFullScaleThenDownscale
          useScaleOneInputImages firstFrame lastFrame mipMapLevel renderMappedMipMapLevel rod
          time view par outputClipPrefDepth outputClipPrefsComps rest
          (if functorRet = .eRenderingFunctorRetTakeImageLock then
            { planes with isBeingRenderedElsewhere := true } else planes) s1

/-- The map of `tiledRenderingFunctor` over the rectangles (lines 3898-3904) for
`eRenderSafetyFullySafeFrame`, every rectangle on a copy of the planes. The threads of the pool
are not modelled: the rectangles run one after the other on the calling thread. -/
def renderRoIInternal_mapped (rec : RenderRoIFn W) (n : NodeId) (frameArgs : ParallelRenderArgs)
    (renderFullScaleThenDownscale useScaleOneInputImages : Bool) (firstFrame lastFrame : Int)
    (mipMapLevel renderMappedMipMapLevel : Nat) (rod : RectD) (time : SequenceTime) (view : Int)
    (par : ℚ) (outputClipPrefDepth : ImageBitDepthEnum)
    (outputClipPrefsComps : List ImageComponents) (planes : ImagePlanesToRender) :
    List RectToRender → St W → Out (St W) (List RenderingFunctorRetEnum)
  | [], s => .val [] s
  | r :: rest, s =>
    (tiledRenderingFunctor env rec n frameArgs r renderFullScaleThenDownscale
      useScaleOneInputImages firstFrame lastFrame mipMapLevel renderMappedMipMapLevel rod time
      view par outputClipPrefDepth outputClipPrefsComps planes s).bind fun functorRet s1 =>
      (renderRoIInternal_mapped rec n frameArgs renderFullScaleThenDownscale
        useScaleOneInputImages firstFrame lastFrame mipMapLevel renderMappedMipMapLevel rod time
        view par outputClipPrefDepth outputClipPrefsComps planes rest s1).bind fun rets s2 =>
        .val (functorRet :: rets) s2

/-- The loop over the results of the map (lines 3908-3922): `renderStatus` and whether a
rectangle is being rendered elsewhere -/
def renderRoIInternal_scan : List RenderingFunctorRetEnum → RenderingFunctorRetEnum × Bool
  | [] => (.eRenderingFunctorRetOK, false)
  | r :: rest =>
    if r = .eRenderingFunctorRetFailed then (.eRenderingFunctorRetFailed, false)
    else if r = .eRenderingFunctorRetTakeImageLock then ((renderRoIInternal_scan rest).1, true)
    else if r = .eRenderingFunctorRetAborted then (.eRenderingFunctorRetFailed, false)
    else renderRoIInternal_scan rest

/-- The safety the rectangles are rendered with (lines 3792-3809) -/
def renderRoIInternal_safety (n : NodeId) (safety : RenderSafetyEnum) (w : W) : RenderSafetyEnum :=
  if safety = .eRenderSafetyFullySafeFrame then
    if !env.supportsTiles n w || decide (env.getNumberOfThreads w = -1) ||
       decide (env.getNumberOfThreads w = 1) ||
       (decide (env.getNumberOfThreads w = 0) && decide (env.getHardwareIdealThreadCount w = 1)) ||
       env.threadPoolIsFull w || env.isRotoPaintNode n
    then .eRenderSafetyFullySafe else safety
  else safety

/-- The loop of lines 3760-3765 on the planes:
`renderMappedImage = renderFullScaleThenDownscale ? fullscaleImage : downscaleImage` -/
def setRenderMappedImages (renderFullScaleThenDownscale : Bool) (planes : PlanesMap) : PlanesMap :=
  planes.map fun p =>
    (p.1, { p.2 with renderMappedImage := p.2.output renderFullScaleThenDownscale })

/-- The mip-map level of the render mapped image of the first plane (line 3763); `none` when
that image is null -/
def firstRenderMappedMipMapLevel : PlanesMap → Option Nat
  | [] => some 0
  | p :: _ =>
    match p.2.renderMappedImage with
    | some i => some i.mipMapLevel
    | none => none

/-- The function `renderRoIInternal`: the status returned and `planesToRender` as it is left -/
def renderRoIInternal (rec : RenderRoIFn W) (n : NodeId) (time : SequenceTime)
    (safety : RenderSafetyEnum) (mipMapLevel : Nat) (view : Int) (rod : RectD) (par : ℚ)
    (planesToRender : ImagePlanesToRender)
    (isSequentialRender isRenderMadeInResponseToUserInteraction : Bool) (nodeHash : U64)
    (renderFullScaleThenDownscale useScaleOneInputImages : Bool)
    (outputClipPrefDepth : ImageBitDepthEnum) (outputClipPrefsComps : List ImageComponents)
    (s : St W) : Out (St W) (RenderRoIStatusEnum × ImagePlanesToRender) :=
  let s1 : St W :=
    if env.isReader n && !env.isMainThread s.world then
      s.setWorld (env.setOrAddProjectFormat n (env.toPixelEnclosing rod 0 par) par s.world)
    else s
  let planes1 : ImagePlanesToRender :=
    { planesToRender with planes := setRenderMappedImages renderFullScaleThenDownscale planesToRender.planes }
  match firstRenderMappedMipMapLevel planes1.planes with
  | none => .exn .undefinedBehaviour s1
  | some renderMappedMipMapLevel =>
    let renderMappedScale : RenderScale :=
      ⟨env.getScaleFromMipMapLevel renderMappedMipMapLevel,
       env.getScaleFromMipMapLevel renderMappedMipMapLevel⟩
    let retCode0 : RenderRoIStatusEnum :=
      if planes1.rectsToRender.isEmpty then .eRenderRoIStatusImageAlreadyRendered
      else .eRenderRoIStatusImageRendered
    let safety1 := renderRoIInternal_safety env n safety s1.world
    let fr := getFrameRange_public env n nodeHash false s1
    let s2 := fr.2
    let callBegin : Bool := !env.isWriter n ||
      decide (env.getSequentialPreference n s2.world = .eSequentialPreferenceNotSequential)
    let b := beginSequenceRender_public env n time renderMappedScale isSequentialRender
      isRenderMadeInResponseToUserInteraction view s2
    let beginFailed : Bool := callBegin && decide (b.1 = .eStatusFailed)
    let s3 : St W := if callBegin then b.2 else s2
    let frameArgs := frameRenderArgsOf n s3
    (if beginFailed then
       (Out.val (.eRenderingFunctorRetFailed, planes1) s3 :
         Out (St W) (RenderingFunctorRetEnum × ImagePlanesToRender))
     else if safety1 = .eRenderSafetyFullySafeFrame then
       (renderRoIInternal_mapped env rec n frameArgs renderFullScaleThenDownscale
         useScaleOneInputImages fr.1.1 fr.1.2 mipMapLevel renderMappedMipMapLevel rod time view
         par outputClipPrefDepth outputClipPrefsComps planes1 planes1.rectsToRender s3).bind
         fun rets s4 =>
           .val ((renderRoIInternal_scan rets).1,
                 if (renderRoIInternal_scan rets).2 then
                   { planes1 with isBeingRenderedElsewhere := true } else planes1) s4
     else
       renderRoIInternal_tiles env rec n frameArgs renderFullScaleThenDownscale
         useScaleOneInputImages fr.1.1 fr.1.2 mipMapLevel renderMappedMipMapLevel rod time view
         par outputClipPrefDepth outputClipPrefsComps planes1.rectsToRender planes1 s3).bind
      fun t s5 =>
        let e := endSequenceRender_public env n time renderMappedScale isSequentialRender
          isRenderMadeInResponseToUserInteraction view s5
        let renderStatus : RenderingFunctorRetEnum :=
          if callBegin && decide (e.1 = .eStatusFailed) then .eRenderingFunctorRetFailed else t.1
        .val (if renderStatus ≠ .eRenderingFunctorRetOK then .eRenderRoIStatusRenderFailed
              else retCode0, t.2) (if callBegin then e.2 else s5)

/-! ### Input images (`renderInputImagesForRoI`, lines 3508-3716) -/

def RoIMap.find (m : RoIMap) (k : Option NodeId) : Option RectD := m.lookup k

def RoIMap.erase : RoIMap → Option NodeId → RoIMap
  | [], _ => []
  | (k', v) :: rest, k => if k' = k then rest else (k', v) :: RoIMap.erase rest k

def RoIMap.insert (m : RoIMap) (k : Option NodeId) (v : RectD) : RoIMap :=
  match m.lookup k with
  | some _ => m
  | none => m ++ [(k, v)]

/-- The constant `NATRON_MAX_FRAMES_NEEDED_PRE_FETCHING` -/
def NATRON_MAX_FRAMES_NEEDED_PRE_FETCHING : Nat := 4

/-- The loop on the matrices of the concatenated transforms (lines 3535-3570): the regions of
interest with the transformed windows and the map of the rerouted inputs -/
def renderInputImagesForRoI_transforms (n : NodeId) (par : ℚ) (scale : RenderScale) (w : W) :
    List InputMatrix → RoIMap → List (Int × NodeId) → RoIMap × List (Int × NodeId)
  | [], inputsRoi, reroutesMap => (inputsRoi, reroutesMap)
  | it :: rest, inputsRoi, reroutesMap =>
    match RoIMap.find inputsRoi (env.getInput n it.inputNb w) with
    | none => renderInputImagesForRoI_transforms n par scale w rest inputsRoi reroutesMap
    | some foundRoI =>
      renderInputImagesForRoI_transforms n par scale w rest
        (RoIMap.insert (RoIMap.erase inputsRoi (env.getInput n it.inputNb w))
          (env.getInput it.newInputEffect it.newInputNbToFetchFrom w)
          (env.transformRoI it par scale foundRoI))
        (StdMap.insert (fun a b => decide (a < b)) reroutesMap it.inputNb it.newInputEffect)

/-- The loop on the frames of one range (lines 3657-3703): `count` bounds the number of turns
by the length of the range. The result is `.error ret` for the statement `return ret`, else
the number of frames pre-fetched and the images found so far. -/
def renderInputImagesForRoI_frames (rec : RenderRoIFn W) (inputEffect : NodeId)
    (inArgs : SequenceTime → W → RenderRoIArgs) (last : Int) :
    Nat → Int → Nat → ImageList → St W → Out (St W) (Except RenderRoIRetCode (Nat × ImageList))
  | 0, _, nbFramesPreFetched, imgs, s => .val (.ok (nbFramesPreFetched, imgs)) s
  | count + 1, f, nbFramesPreFetched, imgs, s =>
    if f ≤ last ∧ nbFramesPreFetched < NATRON_MAX_FRAMES_NEEDED_PRE_FETCHING then
      (rec inputEffect (inArgs f s.world) [] s).bind fun r s1 =>
        if r.1 ≠ .eRenderRoIRetCodeOk then .val (.error r.1) s1
        else
          renderInputImagesForRoI_frames rec inputEffect inArgs last count (f + 1)
            (if r.2.isEmpty then nbFramesPreFetched else nbFramesPreFetched + 1) (imgs ++ r.2) s1
    else .val (.ok (nbFramesPreFetched, imgs)) s

/-- The loop on the ranges of one view (lines 3655-3704) -/
def renderInputImagesForRoI_ranges (rec : RenderRoIFn W) (inputEffect : NodeId)
    (inArgs : SequenceTime → W → RenderRoIArgs) :
    List OfxRangeD → Nat → ImageList → St W →
    Out (St W) (Except RenderRoIRetCode (Nat × ImageList))
  | [], nbFramesPreFetched, imgs, s => .val (.ok (nbFramesPreFetched, imgs)) s
  | range :: rest, nbFramesPreFetched, imgs, s =>
    (renderInputImagesForRoI_frames rec inputEffect inArgs (roundHalfUp range.max)
      (roundHalfUp range.max - roundHalfUp range.min + 1).toNat (roundHalfUp range.min)
      nbFramesPreFetched imgs s).bind fun r s1 =>
      match r with
      | .error ret => .val (.error ret) s1
      | .ok v => renderInputImagesForRoI_ranges rec inputEffect inArgs rest v.1 v.2 s1

/-- The loop on the views of one input (lines 3652-3705) -/
def renderInputImagesForRoI_views (rec : RenderRoIFn W) (inputEffect : NodeId)
    (inArgs : SequenceTime → W → RenderRoIArgs) :
    List (Int × List OfxRangeD) → ImageList → St W →
    Out (St W) (Except RenderRoIRetCode ImageList)
  | [], imgs, s => .val (.ok imgs) s
  | it2 :: rest, imgs, s =>
    (renderInputImagesForRoI_ranges rec inputEffect inArgs it2.2 0 imgs s).bind fun r s1 =>
      match r with
      | .error ret => .val (.error ret) s1
      | .ok v => renderInputImagesForRoI_views rec inputEffect inArgs rest v.2 s1

/-- The effect an input of the frames-needed map is rendered from (lines 3576-3617); `none`
stands for the statements `continue` and for a null effect -/
def renderInputImagesForRoI_inputEffect (n : NodeId) (neededComps : ComponentsNeededMap)
    (reroutesMap : List (Int × NodeId)) (inputNb : Int) (w : W) : Option NodeId :=
  let inputIsMask := env.isInputMask n inputNb w
  if inputIsMask && !env.isMaskEnabled n inputNb w then none
  else
    let mask := env.getMaskChannel n inputNb w
    if inputIsMask && (decide (mask.1 = -1) || decide (mask.2.1.getNumComponents = 0)) then none
    else
      match StdMap.find (fun a b => decide (a < b)) neededComps inputNb with
      | none => none
      | some _ =>
        let inputEffect0 : Option NodeId :=
          match StdMap.find (fun a b => decide (a < b)) reroutesMap inputNb with
          | some reroute => env.getInput reroute inputNb w
          | none => env.getInput n inputNb w
        let inputEffect : Option NodeId :=
          if inputIsMask then
            (match mask.2.2 with
             | some maskInput => some maskInput
             | none => inputEffect0)
          else inputEffect0
        match inputEffect with
        | none => none
        | some e => if env.hasAttachedRotoItem n w && env.isRotoPaintNode e then none else some e

/-- The arguments of the render of an input at frame `f` (lines 3662-3685) -/
def renderInputImagesForRoI_inArgs (n : NodeId) (inputEffect : NodeId) (view : Int)
    (mipMapLevel : Nat) (scale : RenderScale) (useScaleOneInputImages byPassCache : Bool)
    (inputRoIPixelCoords : RectI) (compsNeeded : List ImageComponents) (f : SequenceTime)
    (w : W) : RenderRoIArgs :=
  { time := f,
    scale := if useScaleOneInputImages then ⟨1, 1⟩ else scale,
    mipMapLevel := if useScaleOneInputImages then 0 else mipMapLevel,
    view := view,
    byPassCache := byPassCache,
    roi := inputRoIPixelCoords,
    preComputedRoD := RectD.null,
    components := compsNeeded.filter fun c => decide (c.getNumComponents > 0),
    bitdepth := (env.getPreferredDepthAndComponents inputEffect w).2,
    caller := some n,
    inputImagesList := [] }

/-- The loop on the inputs of the frames-needed map (lines 3574-3714). The result is
`.error ret` for a statement `return ret`, else the input images. -/
def renderInputImagesForRoI_inputs (rec : RenderRoIFn W) (n : NodeId) (view : Int)
    (mipMapLevel : Nat) (scale : RenderScale) (useScaleOneInputImages byPassCache : Bool)
    (neededComps : ComponentsNeededMap) (reroutesMap : List (Int × NodeId)) (inputsRoi : RoIMap) :
    FramesNeededMap → InputImagesMap → St W →
    Out (St W) (Except RenderRoIRetCode InputImagesMap)
  | [], inputImages, s => .val (.ok inputImages) s
  | it :: rest, inputImages, s =>
    match renderInputImagesForRoI_inputEffect env n neededComps reroutesMap it.1 s.world with
    | none =>
      renderInputImagesForRoI_inputs rec n view mipMapLevel scale useScaleOneInputImages
        byPassCache neededComps reroutesMap inputsRoi rest inputImages s
    | some inputEffect =>
      let inputImages1 := StdMap.insert (fun a b => decide (a < b)) inputImages it.1 []
      match RoIMap.find inputsRoi (some inputEffect) with
      | none =>
        renderInputImagesForRoI_inputs rec n view mipMapLevel scale useScaleOneInputImages
          byPassCache neededComps reroutesMap inputsRoi rest inputImages1 s
      | some foundInputRoI =>
        if env.rectDIsInfinite foundInputRoI then .exn .infiniteRegionOfInterest s
        else
          (renderInputImagesForRoI_views rec inputEffect
            (renderInputImagesForRoI_inArgs env n inputEffect view mipMapLevel scale
              useScaleOneInputImages byPassCache
              (env.toPixelEnclosing foundInputRoI (if useScaleOneInputImages then 0 else mipMapLevel)
                (env.getPreferredAspectRatio inputEffect s.world))
              ((StdMap.find (fun a b => decide (a < b)) neededComps it.1).getD []))
            it.2 ((StdMap.find (fun a b => decide (a < b)) inputImages1 it.1).getD []) s).bind
            fun r s1 =>
              match r with
              | .error ret => .val (.error ret) s1
              | .ok imgs =>
                if aborted env n s1 then .val (.error .eRenderRoIRetCodeAborted) s1
                else
                  renderInputImagesForRoI_inputs rec n view mipMapLevel scale
                    useScaleOneInputImages byPassCache neededComps reroutesMap inputsRoi rest
                    (StdMap.assign (fun a b => decide (a < b)) inputImages1 it.1 imgs) s1

/-- The function `renderInputImagesForRoI`: the code returned, `*inputImages` and `*inputsRoi` -/
def renderInputImagesForRoI (rec : RenderRoIFn W) (n : NodeId) (time : SequenceTime) (view : Int)
    (par : ℚ) (rod canonicalRenderWindow : RectD) (inputTransforms : List InputMatrix)
    (mipMapLevel : Nat) (scale renderMappedScale : RenderScale)
    (useScaleOneInputImages byPassCache : Bool) (framesNeeded : FramesNeededMap)
    (neededComps : ComponentsNeededMap) (inputImages : InputImagesMap) (inputsRoi : RoIMap)
    (s : St W) : Out (St W) (RenderRoIRetCode × InputImagesMap × RoIMap) :=
  let g := env.getRegionsOfInterest n time renderMappedScale rod canonicalRenderWindow view s.world
  let s1 := s.setWorld g.2
  let roi0 : RoIMap := g.1.foldl (fun m kv => RoIMap.insert m kv.1 kv.2) inputsRoi
  let t := renderInputImagesForRoI_transforms env n par scale s1.world inputTransforms roi0 []
  match renderInputImagesForRoI_inputs env rec n view mipMapLevel scale useScaleOneInputImages
      byPassCache neededComps t.2 t.1 framesNeeded inputImages s1 with
  | .val (.ok imgs) s2 => .val (.eRenderRoIRetCodeOk, imgs, t.1) s2
  | .val (.error ret) s2 => .val (ret, inputImages, t.1) s2
  | .exn e s2 => .exn e s2
  | .diverge => .diverge

/-! ### Allocation of a plane (lines 1733-1774, 2094-2179) -/

/-- The function `getOrCreateFromCacheInternal`: `*image` as it is left -/
def getOrCreateFromCacheInternal (key : ImageKey) (params : ImageParams)
    (useCache useDiskCache : Bool) (s : St W) : ImagePtr × St W :=
  if useCache then
    let r := env.getImageFromCacheOrCreate useDiskCache key params s.world
    match r.1 with
    | none => (none, s.setWorld r.2)
    | some img => (some img, s.setWorld (env.allocateMemoryAndEnsureBounds img params.bounds r.2))
  else
    let r := newImage env params.components params.rod params.bounds params.mipMapLevel params.par
      params.bitdepth env.imageOfKeyUsesBitmap s
    (some r.1, r.2)

/-- The function `allocateImagePlane`: the flag returned, `*fullScaleImage` and
`*downscaleImage` -/
def allocateImagePlane (key : ImageKey) (rod : RectD)
    (downscaleImageBounds fullScaleImageBounds : RectI) (isProjectFormat : Bool)
    (framesNeeded : FramesNeededMap) (components : ImageComponents) (depth : ImageBitDepthEnum)
    (par : ℚ) (mipmapLevel : Nat)
    (renderFullScaleThenDownscale renderScaleOneUpstreamIfRenderScaleSupportDisabled : Bool)
    (useDiskCache createInCache : Bool) (_fullScaleImage downscaleImage : ImagePtr) (s : St W) :
    (Bool × ImagePtr × ImagePtr) × St W :=
  let cost : Int := if useDiskCache then 1 else 0
  let created := newImage env components rod downscaleImageBounds mipmapLevel par depth true s
  let cached := getOrCreateFromCacheInternal env key
    ⟨cost, rod, downscaleImageBounds, par, mipmapLevel, isProjectFormat, components, depth,
     framesNeeded⟩ createInCache useDiskCache s
  if renderFullScaleThenDownscale && renderScaleOneUpstreamIfRenderScaleSupportDisabled then
    let upscaled := getOrCreateFromCacheInternal env key
      ⟨cost, rod, fullScaleImageBounds, par, 0, isProjectFormat, components, depth, framesNeeded⟩
      createInCache useDiskCache created.2
    ((upscaled.1.isSome, upscaled.1, some created.1), upscaled.2)
  else
    match cached.1 with
    | none => ((false, none, downscaleImage), cached.2)
    | some img =>
      if renderFullScaleThenDownscale then
        let full := newImage env components rod fullScaleImageBounds 0 par depth true cached.2
        ((true, some full.1, some img), full.2)
      else ((true, some img, some img), cached.2)

/-! ### The render coordinator (`renderRoI`, lines 2263-3505) -/

/-- The local variables of `renderRoI` that live across its sections -/
structure Locals where
  args : RenderRoIArgs
  byPassCache : Bool
  nodeHash : U64
  par : ℚ
  rod : RectD
  isProjectFormat : Bool
  supportsRS : SupportsEnum
  renderFullScaleThenDownscale : Bool
  renderMappedMipMapLevel : Nat
  renderMappedScale : RenderScale
  renderScaleOneUpstreamIfRenderScaleSupportDisabled : Bool
  safety : RenderSafetyEnum
  useImageAsOutput : Bool
  roi : RectI
  neededComps : ComponentsNeededMap
  outputComponents : List ImageComponents
  requestedComponents : List ImageComponents
  inputsToTransform : List InputMatrix
  tilesSupported : Bool
  downscaledImageBounds : RectI
  upscaledImageBounds : RectI
  createInCache : Bool
  key : ImageKey
  useDiskCacheNode : Bool
  outputDepth : ImageBitDepthEnum
  outputClipPrefComps : List ImageComponents
  planesToRender : ImagePlanesToRender
  framesNeeded : FramesNeededMap
  redoCacheLookup : Bool
  isPlaneCached : ImagePtr
  rectsLeftToRender : List RectI
  isDuringPaintStroke : Bool
  fillGrownBoundsWithZeroes : Bool
  lastStrokePixelRoD : RectI
  tryIdentityOptim : Bool
  inputsRoDIntersectionPixel : RectI
  hasSomethingToRender : Bool

/-- The components a plane is looked up and allocated with (lines 2720-2731, 3088-3100 and
3197-3211): the plane itself when it is not the color plane, else the first color plane of
the output components; `none` is the null pointer -/
def planeComponents (outputComponents : List ImageComponents) (plane : ImageComponents) :
    Option ImageComponents :=
  if !plane.isColorPlane then some plane
  else outputComponents.find? fun c => c.isColorPlane

/-- One turn of the loop of lines 3442-3493 on a plane: the image pushed on the output list
and `roi` as the turn leaves it -/
def renderRoI_assemblePlane (l : Locals) (renderRetCode : RenderRoIStatusEnum)
    (useAlpha0ForRGBToRGBAConversion : Bool) (comp : ImageComponents) (plane : PlaneToRender)
    (roi : RectI) (s : St W) : Out (St W) (Image × RectI) :=
  let downscaleStep : Out (St W) (ImagePtr × RectI) :=
    if decide (renderRetCode ≠ .eRenderRoIStatusRenderFailed) && l.renderFullScaleThenDownscale &&
       l.renderScaleOneUpstreamIfRenderScaleSupportDisabled then
      match plane.fullscaleImage with
      | none => .exn .undefinedBehaviour s
      | some full =>
        let roi1 := (env.rectIIntersect roi (env.imageGetBounds full s.world)).getD roi
        let created := newImage env full.components (env.imageGetRoD full s.world)
          l.downscaledImageBounds l.args.mipMapLevel full.par full.bitDepth false s
        let down : ImagePtr :=
          if plane.downscaleImage = plane.fullscaleImage then some created.1
          else plane.downscaleImage
        let s1 : St W := if plane.downscaleImage = plane.fullscaleImage then created.2 else s
        match down with
        | none => .exn .undefinedBehaviour s1
        | some d =>
          .val (some d, roi1) (s1.setWorld (env.downscaleMipMap full
            (env.imageGetRoD full s1.world) roi1 0 l.args.mipMapLevel false d s1.world))
    else .val (plane.downscaleImage, roi) s
  downscaleStep.bind fun r s2 =>
    match r.1 with
    | none => .exn .undefinedBehaviour s2
    | some down =>
      if (decide (comp ≠ down.components) || decide (l.args.bitdepth ≠ down.bitDepth)) &&
         decide (renderRetCode ≠ .eRenderRoIStatusRenderFailed) then
        let tmp := newImage env comp (env.imageGetRoD down s2.world) r.2 l.args.mipMapLevel
          down.par l.args.bitdepth false s2
        .val (tmp.1, r.2) (tmp.2.setWorld (env.convertToFormat useAlpha0ForRGBToRGBAConversion
          down r.2
          (decide (l.planesToRender.outputPremult = .eImagePremultiplicationPremultiplied) &&
           decide (down.components.numComponents = 4) && decide (comp.numComponents = 3))
          tmp.1 tmp.2.world))
      else .val (down, r.2) s2

/-- The loop of lines 3442-3493: `*outputPlanes` with the planes rendered pushed on it -/
def renderRoI_assemblePlanes (l : Locals) (renderRetCode : RenderRoIStatusEnum)
    (useAlpha0ForRGBToRGBAConversion : Bool) :
    PlanesMap → RectI → ImageList → St W → Out (St W) ImageList
  | [], _, outputPlanes, s => .val outputPlanes s
  | p :: rest, roi, outputPlanes, s =>
    (renderRoI_assemblePlane env l renderRetCode useAlpha0ForRGBToRGBAConversion p.1 p.2 roi
      s).bind fun r s1 =>
      renderRoI_assemblePlanes l renderRetCode useAlpha0ForRGBToRGBAConversion rest r.2
        (outputPlanes ++ [r.1]) s1

/-- The end of `renderRoI` (lines 3437-3505): every plane brought to the requested format,
pushed on the output list and remembered as the last planes rendered -/
def renderRoI_assemble (n : NodeId) (l : Locals) (renderRetCode : RenderRoIStatusEnum)
    (outputPlanes : ImageList) (s : St W) : Out (St W) (RenderRoIRetCode × ImageList) :=
  let useAlpha0 : Bool :=
    match l.args.caller with
    | some caller => env.usesAlpha0ToConvertFromRGBToRGBA caller s.world
    | none => false
  (renderRoI_assemblePlanes env l renderRetCode useAlpha0 l.planesToRender.planes l.roi
    outputPlanes s).bind fun out s1 =>
    .val (.eRenderRoIRetCodeOk, out)
      (s1.modifyImp n fun i => { i with lastRenderHash := l.nodeHash, lastPlanesRendered := out })

/-- The statements of lines 3387-3403 and what follows them: the results of the render step
mapped to the code returned, an exception or the assembly of the planes -/
def renderRoI_finish (n : NodeId) (l : Locals) (renderRetCode : RenderRoIStatusEnum)
    (renderAborted : Bool) (outputPlanes : ImageList) (s : St W) :
    Out (St W) (RenderRoIRetCode × ImageList) :=
  if renderAborted && decide (renderRetCode ≠ .eRenderRoIStatusImageAlreadyRendered) then
    .val (.eRenderRoIRetCodeAborted, outputPlanes)
      (if l.isDuringPaintStroke then
        s.setWorld (env.removeAllImagesFromCacheWithMatchingKey false l.nodeHash s.world)
       else s)
  else if renderRetCode = .eRenderRoIStatusRenderFailed then .exn .renderingFailed s
  else renderRoI_assemble env n l renderRetCode outputPlanes s

/-- The loop of lines 3287-3289: every plane marked as being rendered -/
def renderRoI_markPlanes (n : NodeId) (useImageAsOutput : Bool) :
    PlanesMap → St W → Out (St W) Unit
  | [], s => .val () s
  | p :: rest, s =>
    (markImageAsBeingRendered n (p.2.output useImageAsOutput) s).bind fun _ s1 =>
      renderRoI_markPlanes n useImageAsOutput rest s1

/-- The loop of lines 3367-3381 when the render is not aborted: every plane unmarked, after a
wait when it is being rendered elsewhere and the render did not fail -/
def renderRoI_unmarkPlanes (fuel : Nat) (n : NodeId) (useImageAsOutput : Bool) (roi : RectI)
    (renderRetCode : RenderRoIStatusEnum) (isBeingRenderedElsewhere : Bool) :
    PlanesMap → St W → Out (St W) Unit
  | [], s => .val () s
  | p :: rest, s =>
    (if decide (renderRetCode = .eRenderRoIStatusRenderFailed) || !isBeingRenderedElsewhere then
       unmarkImageAsBeingRendered n (p.2.output useImageAsOutput)
         (decide (renderRetCode = .eRenderRoIStatusRenderFailed)) s
     else
       waitForImageBeingRenderedElsewhereAndUnmark env fuel n roi (p.2.output useImageAsOutput)
         s).bind fun _ s1 =>
      renderRoI_unmarkPlanes fuel n useImageAsOutput roi renderRetCode isBeingRenderedElsewhere
        rest s1

/-- The block of lines 3307-3326: the images of the last render dropped from the cache when the
hash of the node changed -/
def renderRoI_recycleLastRender (n : NodeId) (l : Locals) (s : St W) : St W :=
  if !(s.imp n).lastPlanesRendered.isEmpty && decide ((s.imp n).lastRenderHash ≠ l.nodeHash) then
    (s.setWorld (env.removeAllImagesFromCacheWithMatchingKey l.useDiskCacheNode
      (s.imp n).lastRenderHash s.world)).modifyImp n fun i => { i with lastPlanesRendered := [] }
  else s

/-- The loop of lines 3367-3381 with what follows it: the planes unmarked, then the end of
`renderRoI`; when the render is aborted the loop returns at its first turn -/
def renderRoI_unmarkAndFinish (fuel : Nat) (n : NodeId) (l : Locals)
    (renderRetCode : RenderRoIStatusEnum) (renderAborted : Bool) (outputPlanes : ImageList)
    (s : St W) : Out (St W) (RenderRoIRetCode × ImageList) :=
  if !renderAborted then
    (renderRoI_unmarkPlanes env fuel n l.useImageAsOutput l.roi renderRetCode
      l.planesToRender.isBeingRenderedElsewhere l.planesToRender.planes s).bind fun _ s1 =>
      renderRoI_finish env n l renderRetCode renderAborted outputPlanes s1
  else
    match l.planesToRender.planes with
    | [] => renderRoI_finish env n l renderRetCode renderAborted outputPlanes s
    | p :: _ =>
      (unmarkImageAsBeingRendered n (p.2.output l.useImageAsOutput) true s).bind fun _ s1 =>
        match p.2.output l.useImageAsOutput with
        | none => .exn .undefinedBehaviour s1
        | some img =>
          .val (.eRenderRoIRetCodeAborted, outputPlanes)
            (s1.setWorld (env.removeFromNodeCache img s1.world))

/-- The render step of `renderRoI` (lines 3271-3403) and the end of the function -/
def renderRoI_renderStep (fuel : Nat) (rec : RenderRoIFn W) (n : NodeId) (l : Locals)
    (outputPlanes : ImageList) (s : St W) : Out (St W) (RenderRoIRetCode × ImageList) :=
  if !l.hasSomethingToRender && !l.planesToRender.isBeingRenderedElsewhere then
    renderRoI_finish env n l .eRenderRoIStatusImageAlreadyRendered (aborted env n s) outputPlanes s
  else
    (if !(frameRenderArgsOf n s).canAbort &&
        (frameRenderArgsOf n s).isRenderResponseToUserInteraction then
       renderRoI_markPlanes n l.useImageAsOutput l.planesToRender.planes s
     else .val () s).bind fun _ s1 =>
    (if l.hasSomethingToRender then
       renderRoIInternal env rec n l.args.time l.safety l.args.mipMapLevel l.args.view l.rod l.par
         l.planesToRender (frameRenderArgsOf n s1).isSequentialRender
         (frameRenderArgsOf n s1).isRenderResponseToUserInteraction l.nodeHash
         l.renderFullScaleThenDownscale l.renderScaleOneUpstreamIfRenderScaleSupportDisabled
         l.outputDepth l.outputClipPrefComps (renderRoI_recycleLastRender env n l s1)
     else .val (.eRenderRoIStatusImageAlreadyRendered, l.planesToRender) s1).bind fun r s2 =>
    if !(frameRenderArgsOf n s2).canAbort &&
       (frameRenderArgsOf n s2).isRenderResponseToUserInteraction then
      renderRoI_unmarkAndFinish env fuel n { l with planesToRender := r.2 } r.1
        (aborted env n s2) outputPlanes s2
    else
      renderRoI_finish env n { l with planesToRender := r.2 } r.1 (aborted env n s2)
        outputPlanes s2

/-- One turn of the loop of lines 3194-3265 on a plane that has a cached image: its RoD and
bounds adjusted, and a downscaled image made when the node renders at full scale -/
def renderRoI_adjustCachedPlane (l : Locals) (components : ImageComponents) (full : Image)
    (plane : PlaneToRender) (s : St W) : PlaneToRender × St W :=
  let oldRod := env.imageGetRoD full s.world
  let s1 : St W :=
    if oldRod ≠ l.rod then s.setWorld (env.imageSetRoD full (env.rectDMerge oldRod l.rod) s.world)
    else s
  let e := env.ensureBounds full
    (if l.useImageAsOutput then l.upscaledImageBounds else l.downscaledImageBounds)
    l.fillGrownBoundsWithZeroes s1.world
  let s2 : St W :=
    if e.1 && l.fillGrownBoundsWithZeroes then
      s1.setWorld (env.clearBitmap full l.lastStrokePixelRoD e.2)
    else s1.setWorld e.2
  if l.renderFullScaleThenDownscale && decide (full.mipMapLevel = 0) then
    let created := newImage env components l.rod l.downscaledImageBounds l.args.mipMapLevel
      full.par l.outputDepth true s2
    ({ plane with downscaleImage := some created.1 },
     created.2.setWorld (env.downscaleMipMap full l.rod (env.imageGetBounds full created.2.world)
       0 l.args.mipMapLevel true created.1 created.2.world))
  else (plane, s2)

/-- The loop of lines 3194-3265: the image of every plane allocated or adjusted -/
def renderRoI_allocatePlanes (l : Locals) : PlanesMap → St W → Out (St W) PlanesMap
  | [], s => .val [] s
  | p :: rest, s =>
    match planeComponents l.outputComponents p.1 with
    | none => .exn .undefinedBehaviour s
    | some components =>
      let plane1 : PlaneToRender × St W :=
        match p.2.fullscaleImage with
        | none =>
          let a := allocateImagePlane env l.key l.rod l.downscaledImageBounds
            l.upscaledImageBounds l.isProjectFormat l.framesNeeded components l.args.bitdepth
            l.par l.args.mipMapLevel l.renderFullScaleThenDownscale
            l.renderScaleOneUpstreamIfRenderScaleSupportDisabled l.useDiskCacheNode
            l.createInCache p.2.fullscaleImage p.2.downscaleImage s
          ({ p.2 with fullscaleImage := a.1.2.1, downscaleImage := a.1.2.2 }, a.2)
        | some full => renderRoI_adjustCachedPlane env l components full p.2 s
      (renderRoI_allocatePlanes l rest plane1.2).bind fun r s1 => .val ((p.1, plane1.1) :: r) s1

/-- The allocation of the planes (lines 3189-3268), then the render step -/
def renderRoI_allocate (fuel : Nat) (rec : RenderRoIFn W) (n : NodeId) (l : Locals)
    (outputPlanes : ImageList) (s : St W) : Out (St W) (RenderRoIRetCode × ImageList) :=
  if l.hasSomethingToRender then
    (renderRoI_allocatePlanes env l l.planesToRender.planes s).bind fun planes s1 =>
      renderRoI_renderStep env fuel rec n
        { l with planesToRender := { l.planesToRender with planes := planes } } outputPlanes s1
  else renderRoI_renderStep env fuel rec n l outputPlanes s

/-- The premultiplication of the inputs recorded at lines 3048-3063 -/
def renderRoI_inputPremult (n : NodeId) (w : W) :
    InputImagesMap → List (Int × ImagePremultiplicationEnum) →
    List (Int × ImagePremultiplicationEnum)
  | [], m => m
  | it2 :: rest, m =>
    match env.getInput n it2.1 w with
    | none => renderRoI_inputPremult n w rest m
    | some input =>
      let inputPremult : ImagePremultiplicationEnum :=
        match it2.2.head? with
        | some img =>
          if !img.components.isColorPlane then .eImagePremultiplicationOpaque
          else env.getOutputPremultiplication input w
        | none => env.getOutputPremultiplication input w
      renderRoI_inputPremult n w rest
        (match StdMap.find (fun a b => decide (a < b)) m it2.1 with
         | some _ => StdMap.assign (fun a b => decide (a < b)) m it2.1 inputPremult
         | none => StdMap.insert (fun a b => decide (a < b)) m it2.1 inputPremult)

/-- The loops of lines 3019-3069 (`recordPremult = true`) and 3148-3180: the input images of
every rectangle that is not an identity. The result is `.error ret` for a statement
`return ret`, else the rectangles with their images and the premultiplication map. -/
def renderRoI_prefetchRects (rec : RenderRoIFn W) (n : NodeId) (l : Locals)
    (recordPremult : Bool) :
    List RectToRender → List (Int × ImagePremultiplicationEnum) → St W →
    Out (St W) (Except RenderRoIRetCode
      (List RectToRender × List (Int × ImagePremultiplicationEnum)))
  | [], premult, s => .val (.ok ([], premult)) s
  | it :: rest, premult, s =>
    if it.isIdentity then
      (renderRoI_prefetchRects rec n l recordPremult rest premult s).bind fun r s1 =>
        match r with
        | .error ret => .val (.error ret) s1
        | .ok v => .val (.ok (it :: v.1, v.2)) s1
    else
      (renderInputImagesForRoI env rec n l.args.time l.args.view l.par l.rod
        (env.toCanonical it.rect (if l.useImageAsOutput then 0 else l.args.mipMapLevel) l.par
          l.rod)
        l.inputsToTransform l.args.mipMapLevel l.args.scale l.renderMappedScale
        l.renderScaleOneUpstreamIfRenderScaleSupportDisabled l.byPassCache l.framesNeeded
        l.neededComps it.imgs it.inputRois s).bind fun c s1 =>
        let premult1 :=
          if recordPremult && premult.isEmpty then renderRoI_inputPremult env n s1.world c.2.1 []
          else premult
        if c.1 ≠ .eRenderRoIRetCodeOk then .val (.error c.1) s1
        else
          (renderRoI_prefetchRects rec n l recordPremult rest premult1 s1).bind fun r s2 =>
            match r with
            | .error ret => .val (.error ret) s2
            | .ok v => .val (.ok ({ it with imgs := c.2.1, inputRois := c.2.2 } :: v.1, v.2)) s2

/-- The rectangles to render made of the rectangles left to render (lines 2989-2999 and
3135-3145) -/
def renderRoI_makeRects (n : NodeId) (l : Locals) (rectsLeftToRender : List RectI) (s : St W) :
    List RectToRender × St W :=
  if l.tryIdentityOptim && !rectsLeftToRender.isEmpty then
    let o := env.optimizeRectsToRender n l.inputsRoDIntersectionPixel rectsLeftToRender
      l.args.time l.args.view l.renderMappedScale s.world
    (l.planesToRender.rectsToRender ++ o.1, s.setWorld o.2)
  else
    (l.planesToRender.rectsToRender ++ rectsLeftToRender.map fun r =>
      { rect := r, identityInput := none, isIdentity := false, identityTime := 0, imgs := [],
        inputRois := [] }, s)

/-- The loop of lines 3081-3121: the cache looked up again for every plane, left at the first
plane whose image is not the one found before, all images being reset then -/
def renderRoI_redoLookup (n : NodeId) (l : Locals) :
    PlanesMap → St W → Out (St W) (Except Unit PlanesMap)
  | [], s => .val (.ok []) s
  | p :: rest, s =>
    match planeComponents l.outputComponents p.1 with
    | none => .exn .undefinedBehaviour s
    | some components =>
      let c := env.getImageFromCacheAndConvertIfNeeded n l.createInCache l.useDiskCacheNode l.key
        l.renderMappedMipMapLevel
        (if l.useImageAsOutput then l.upscaledImageBounds else l.downscaledImageBounds) l.rod
        l.args.bitdepth p.1 l.outputDepth components l.args.inputImagesList s.world
      let found : ImagePtr := if c.1.isSome then c.1 else p.2.fullscaleImage
      if found.isSome && decide (found = p.2.originalCachedImage) then
        (renderRoI_redoLookup n l rest (s.setWorld c.2)).bind fun r s1 =>
          match r with
          | .error _ => .val (.error ()) s1
          | .ok v =>
            .val (.ok ((p.1, { p.2 with fullscaleImage := found, downscaleImage := found }) :: v))
              s1
      else .val (.error ()) (s.setWorld c.2)

/-- The second cache look-up (lines 3079-3183), then the allocation and the render -/
def renderRoI_redoCacheLookup (fuel : Nat) (rec : RenderRoIFn W) (n : NodeId) (l : Locals)
    (outputPlanes : ImageList) (s : St W) : Out (St W) (RenderRoIRetCode × ImageList) :=
  if l.redoCacheLookup then
    (renderRoI_redoLookup env n l l.planesToRender.planes s).bind fun r s1 =>
      let planes : PlanesMap :=
        match r with
        | .ok v => v
        | .error _ => l.planesToRender.planes.map fun p =>
            (p.1, { p.2 with fullscaleImage := none, downscaleImage := none })
      match planes with
      | [] => .exn .undefinedBehaviour s1
      | first :: _ =>
        if first.2.fullscaleImage.isSome then
          renderRoI_allocate env fuel rec n
            { l with planesToRender := { l.planesToRender with planes := planes },
                     isPlaneCached := first.2.fullscaleImage } outputPlanes s1
        else
          let l1 : Locals :=
            { l with planesToRender := { l.planesToRender with planes := planes,
                                                               rectsToRender := [] },
                     isPlaneCached := none }
          let rects := renderRoI_makeRects env n l1
            [if l.tilesSupported then l.roi
             else if l.useImageAsOutput then l.upscaledImageBounds else l.downscaledImageBounds]
            s1
          (renderRoI_prefetchRects env rec n l1 false rects.1 l1.planesToRender.inputPremult
            rects.2).bind fun pr s2 =>
            match pr with
            | .error ret => .val (ret, outputPlanes) s2
            | .ok v =>
              renderRoI_allocate env fuel rec n
                { l1 with planesToRender := { l1.planesToRender with rectsToRender := v.1 } }
                outputPlanes s2
  else renderRoI_allocate env fuel rec n l outputPlanes s

/-- The pre-render of the input images (lines 3007-3072), then the rest of `renderRoI` -/
def renderRoI_preRender (fuel : Nat) (rec : RenderRoIFn W) (n : NodeId) (l : Locals)
    (outputPlanes : ImageList) (s : St W) : Out (St W) (RenderRoIRetCode × ImageList) :=
  match l.outputComponents.head? with
  | none => .exn .undefinedBehaviour s
  | some outComp =>
    let outputPremult : ImagePremultiplicationEnum :=
      if outComp.isColorPlane then env.getOutputPremultiplication n s.world
      else .eImagePremultiplicationOpaque
    (renderRoI_prefetchRects env rec n l true l.planesToRender.rectsToRender
      l.planesToRender.inputPremult s).bind fun pr s1 =>
      match pr with
      | .error ret => .val (ret, outputPlanes) s1
      | .ok v =>
        renderRoI_redoCacheLookup env fuel rec n
          { l with planesToRender :=
              { l.planesToRender with rectsToRender := v.1, inputPremult := v.2,
                                      outputPremult := outputPremult } }
          outputPlanes s1

/-- The state of the loop of lines 2947-2981 on the inputs -/
structure InputsRoDLoop where
  inputsIntersection : RectD
  inputsIntersectionSet : Bool
  hasDifferentRods : Bool
  hasMask : Bool

/-- The loop of lines 2947-2981: the intersection of the RoDs of the inputs. `i` runs over the
input numbers below `getMaxInputCount ()`. -/
def renderRoI_inputsRoD (n : NodeId) (l : Locals) :
    List Nat → InputsRoDLoop → St W → InputsRoDLoop × St W
  | [], acc, s => (acc, s)
  | i :: rest, acc, s =>
    let isMask := env.isInputMask n i s.world || env.isInputRotoBrush n i s.world
    let merge (inputRod : RectD) (s1 : St W) : InputsRoDLoop × St W :=
      renderRoI_inputsRoD n l rest
        (if !acc.inputsIntersectionSet then
           { acc with inputsIntersection := inputRod, inputsIntersectionSet := true, hasMask := true }
         else
           { acc with
             hasDifferentRods := acc.hasDifferentRods || decide (inputRod ≠ acc.inputsIntersection),
             inputsIntersection :=
               (env.rectDIntersect acc.inputsIntersection inputRod).getD acc.inputsIntersection,
             hasMask := true }) s1
    if env.hasAttachedRotoItem n s.world && isMask then
      merge (env.getPaintStrokeRoD n l.args.time s.world) s
    else
      match env.getInput n i s.world with
      | none => renderRoI_inputsRoD n l rest acc s
      | some input =>
        let inputFrameArgs := frameRenderArgsOf input s
        let inputHash : U64 :=
          if inputFrameArgs.validArgs ≠ 0 then inputFrameArgs.nodeHash
          else env.getHash input s.world
        let r := getRegionOfDefinition_public env input inputHash l.args.time l.args.scale
          l.args.view RectD.null false s
        if r.1.1 ≠ .eStatusOK ∧ !r.1.2.1.isNull then (acc, r.2)
        else merge r.1.2.1 r.2

/-- The rectangles left to render when the first plane has a cached image (lines 2855-2924):
the rectangles, `isBeingRenderedElsewhere`, and the locals with the flags of the paint stroke
and of the memory guard -/
def renderRoI_restOfCached (n : NodeId) (l : Locals) (isPlaneCached : Image)
    (cacheAlmostFull : Bool) (s : St W) : Out (St W) (List RectI × Locals) :=
  let stroke : Bool := l.isDuringPaintStroke && !l.lastStrokePixelRoD.isNull
  (if stroke then
     match l.planesToRender.planes.mapM (fun p => p.2.fullscaleImage) with
     | none => Out.exn .undefinedBehaviour s
     | some imgs =>
       Out.val () (imgs.foldl (fun s1 img => s1.setWorld
         (env.setBitmapDirtyZone img l.lastStrokePixelRoD
           (env.clearBitmap img l.lastStrokePixelRoD s1.world))) s)
   else Out.val () s).bind fun _ s1 =>
    let trimap := !(frameRenderArgsOf n s1).canAbort &&
      (frameRenderArgsOf n s1).isRenderResponseToUserInteraction
    let rest : List RectI × Bool :=
      if trimap then env.getRestToRender_trimap isPlaneCached l.roi s1.world
      else (env.getRestToRender isPlaneCached l.roi s1.world,
            l.planesToRender.isBeingRenderedElsewhere)
    let rects1 : List RectI :=
      if stroke && !rest.1.isEmpty then
        (match env.rectIIntersect l.downscaledImageBounds l.lastStrokePixelRoD with
         | some intersection => [intersection]
         | none => [])
      else rest.1
    let guard : Bool := !rects1.isEmpty && cacheAlmostFull
    let rects2 : List RectI := if guard then [l.roi] else rects1
    let planes2 : PlanesMap :=
      if guard then l.planesToRender.planes.map fun p =>
        (p.1, { p.2 with originalCachedImage := p.2.fullscaleImage, fullscaleImage := none,
                         downscaleImage := none })
      else l.planesToRender.planes
    let rects3 : List RectI :=
      if !l.tilesSupported && !rects2.isEmpty && !guard then
        [if l.useImageAsOutput then l.upscaledImageBounds else l.downscaledImageBounds]
      else rects2
    .val (rects3,
      { l with fillGrownBoundsWithZeroes := stroke, redoCacheLookup := guard,
               isPlaneCached := if guard then none else some isPlaneCached,
               planesToRender := { l.planesToRender with planes := planes2,
                                                         isBeingRenderedElsewhere := rest.2 } })
      s1

/-- The rectangles left to render and the identity optimisation (lines 2836-3004), then the
rest of `renderRoI` -/
def renderRoI_rects (fuel : Nat) (rec : RenderRoIFn W) (n : NodeId) (l : Locals)
    (outputPlanes : ImageList) (s : St W) : Out (St W) (RenderRoIRetCode × ImageList) :=
  let cacheAlmostFull := env.isNodeCacheAlmostFull s.world
  let isDuringPaintStroke := isDuringPaintStrokeCreationThreadLocal env n s
  let readStroke : Bool := isDuringPaintStroke && l.args.inputImagesList.isEmpty &&
    !env.isLastPaintStrokeBitmapCleared n s.world
  let lastStrokePixelRoD : RectI :=
    if readStroke then env.toPixelEnclosing (env.getLastPaintStrokeRoD n s.world)
      l.args.mipMapLevel l.par
    else RectI.null
  let s1 : St W := if readStroke then s.setWorld (env.clearLastPaintStrokeRoD n s.world) else s
  let l1 : Locals :=
    { l with isDuringPaintStroke := isDuringPaintStroke, lastStrokePixelRoD := lastStrokePixelRoD,
             fillGrownBoundsWithZeroes := false }
  (match l1.isPlaneCached with
   | some img => renderRoI_restOfCached env n l1 img cacheAlmostFull s1
   | none =>
     Out.val ([if l1.tilesSupported then l1.roi
               else if l1.useImageAsOutput then l1.upscaledImageBounds
               else l1.downscaledImageBounds], l1) s1).bind fun r s2 =>
    let l2 : Locals := { r.2 with rectsLeftToRender := r.1 }
    let loop : InputsRoDLoop × St W :=
      if l2.tilesSupported && !r.1.isEmpty then
        renderRoI_inputsRoD env n l2 (List.range (env.getMaxInputCount n s2.world).toNat)
          ⟨RectD.null, false, false, false⟩ s2
      else (⟨RectD.null, false, false, false⟩, s2)
    let tryIdentityOptim : Bool :=
      loop.1.inputsIntersectionSet && (loop.1.hasMask || loop.1.hasDifferentRods)
    let l3 : Locals :=
      { l2 with tryIdentityOptim := tryIdentityOptim,
                inputsRoDIntersectionPixel :=
                  if tryIdentityOptim then
                    env.toPixelEnclosing loop.1.inputsIntersection l2.args.mipMapLevel l2.par
                  else RectI.null }
    let rects := renderRoI_makeRects env n l3 r.1 loop.2
    renderRoI_preRender env fuel rec n
      { l3 with planesToRender := { l3.planesToRender with rectsToRender := rects.1 },
                hasSomethingToRender := !rects.1.isEmpty }
      outputPlanes rects.2

/-- The turn of the loop of lines 2776-2799 that finds the first missing plane: the planes
found so far that are completely rendered go to the output list, the others are kept to be
rendered again; the result is the new planes and the output list -/
def renderRoI_requeuePlanes (roi : RectI) :
    PlanesMap → ImageList → St W → (PlanesMap × ImageList) × St W
  | [], outputPlanes, s => (([], outputPlanes), s)
  | it2 :: rest, outputPlanes, s =>
    match it2.2.fullscaleImage with
    | some img =>
      if !(env.getRestToRender img roi s.world).isEmpty then
        let r := renderRoI_requeuePlanes roi rest outputPlanes
          (s.setWorld (env.removeFromNodeCache img s.world))
        (((it2.1, { it2.2 with fullscaleImage := none, downscaleImage := none }) :: r.1.1, r.1.2),
         r.2)
      else renderRoI_requeuePlanes roi rest (outputPlanes ++ [img]) s
    | none =>
      let r := renderRoI_requeuePlanes roi rest outputPlanes s
      ((it2 :: r.1.1, r.1.2), r.2)

/-- The plane of lines 2713 and 2802-2803: `fullscaleImage` and `downscaleImage` are the image
found in the cache -/
def PlaneToRender.ofImage (img : ImagePtr) : PlaneToRender :=
  { PlaneToRender.new with fullscaleImage := img, downscaleImage := img }

/-- The state of the cache look-up loop of lines 2706-2806 -/
structure LookupLoop where
  missingPlane : Bool
  byPassCache : Bool
  planes : PlanesMap
  framesNeeded : FramesNeededMap
  outputPlanes : ImageList

/-- One turn of the loop of lines 2711-2805 on a requested plane -/
def renderRoI_lookupPlane (n : NodeId) (l : Locals) (comp components : ImageComponents)
    (acc : LookupLoop) (s : St W) : LookupLoop × St W :=
  let c := env.getImageFromCacheAndConvertIfNeeded n l.createInCache l.useDiskCacheNode l.key
    l.renderMappedMipMapLevel
    (if l.useImageAsOutput then l.upscaledImageBounds else l.downscaledImageBounds) l.rod
    l.args.bitdepth comp l.outputDepth components l.args.inputImagesList s.world
  let s1 : St W :=
    if acc.byPassCache && c.1.isSome then
      s.setWorld (env.removeFromNodeCacheByHash l.key c.2)
    else s.setWorld c.2
  let img1 : ImagePtr := if acc.byPassCache then none else c.1
  let byPassCache1 : Bool := if acc.byPassCache && env.isWriter n then false else acc.byPassCache
  let insertPlane (img : ImagePtr) (a : LookupLoop) : LookupLoop :=
    { a with planes := StdMap.insert env.componentsLess a.planes comp (PlaneToRender.ofImage img) }
  match img1 with
  | some img =>
    if acc.missingPlane then
      if !(env.getRestToRender img l.roi s1.world).isEmpty then
        (insertPlane none { acc with byPassCache := byPassCache1 },
         s1.setWorld (env.removeFromNodeCache img s1.world))
      else
        ({ acc with byPassCache := byPassCache1, outputPlanes := acc.outputPlanes ++ [img] }, s1)
    else
      (insertPlane (some img)
        { acc with byPassCache := byPassCache1,
                   framesNeeded := env.imageGetFramesNeeded img s1.world }, s1)
  | none =>
    if !acc.missingPlane then
      let r := renderRoI_requeuePlanes env l.roi acc.planes acc.outputPlanes s1
      (insertPlane none
        { acc with byPassCache := byPassCache1, missingPlane := true, planes := r.1.1,
                   outputPlanes := r.1.2 }, r.2)
    else (insertPlane none { acc with byPassCache := byPassCache1 }, s1)

/-- The loop of lines 2711-2805 on the requested planes -/
def renderRoI_lookupPlanes (n : NodeId) (l : Locals) :
    List ImageComponents → LookupLoop → St W → Out (St W) LookupLoop
  | [], acc, s => .val acc s
  | comp :: rest, acc, s =>
    match planeComponents l.outputComponents comp with
    | none => .exn .undefinedBehaviour s
    | some components =>
      renderRoI_lookupPlanes n l rest (renderRoI_lookupPlane env n l comp components acc s).1
        (renderRoI_lookupPlane env n l comp components acc s).2

/-- The cache look-up (lines 2680-2834), then the rest of `renderRoI` -/
def renderRoI_cacheLookup (fuel : Nat) (rec : RenderRoIFn W) (n : NodeId) (l : Locals)
    (outputPlanes : ImageList) (s : St W) : Out (St W) (RenderRoIRetCode × ImageList) :=
  let isFrameVaryingOrAnimated := env.isFrameVaryingOrAnimated_Recursive n s.world
  let pref := env.getPreferredDepthAndComponents n s.world
  let l1 : Locals :=
    { l with createInCache := env.shouldCacheOutput n isFrameVaryingOrAnimated s.world,
             key := ⟨l.nodeHash, isFrameVaryingOrAnimated, l.args.time, l.args.view⟩,
             useDiskCacheNode := env.isDiskCacheNode n,
             outputDepth := pref.2, outputClipPrefComps := pref.1,
             planesToRender := ImagePlanesToRender.new, framesNeeded := [] }
  (renderRoI_lookupPlanes env n l1 l1.requestedComponents
    ⟨false, l1.byPassCache, [], [], outputPlanes⟩ s).bind fun r s1 =>
    let f := env.getFramesNeeded n l1.args.time l1.args.view s1.world
    let framesNeeded : FramesNeededMap := if r.framesNeeded.isEmpty then f.1 else r.framesNeeded
    let s2 : St W := if r.framesNeeded.isEmpty then s1.setWorld f.2 else s1
    let isPlaneCached : ImagePtr :=
      match r.planes.head? with
      | some p => p.2.fullscaleImage
      | none => none
    if !isPlaneCached.isSome && l1.args.roi.isNull then
      .val (.eRenderRoIRetCodeFailed, r.outputPlanes) s2
    else
      renderRoI_rects env fuel rec n
        { l1 with byPassCache := r.byPassCache, framesNeeded := framesNeeded,
                  isPlaneCached := isPlaneCached, redoCacheLookup := false,
                  planesToRender := { l1.planesToRender with planes := r.planes } }
        r.outputPlanes s2

/-- The region of interest against the bounds of the image (lines 2625-2676), then the rest
of `renderRoI` -/
def renderRoI_computeRoI (fuel : Nat) (rec : RenderRoIFn W) (n : NodeId) (l : Locals)
    (outputPlanes : ImageList) (s : St W) : Out (St W) (RenderRoIRetCode × ImageList) :=
  let tilesSupported := env.supportsTiles n s.world
  let downscaledImageBoundsNc := env.toPixelEnclosing l.rod l.args.mipMapLevel l.par
  let upscaledImageBoundsNc := env.toPixelEnclosing l.rod 0 l.par
  if tilesSupported then
    match env.rectIIntersect l.roi
        (if l.useImageAsOutput then upscaledImageBoundsNc else downscaledImageBoundsNc) with
    | none => .val (.eRenderRoIRetCodeOk, outputPlanes) s
    | some roi =>
      renderRoI_cacheLookup env fuel rec n
        { l with tilesSupported := tilesSupported, roi := roi,
                 upscaledImageBounds :=
                   (env.rectIIntersect upscaledImageBoundsNc roi).getD upscaledImageBoundsNc,
                 downscaledImageBounds :=
                   (env.rectIIntersect downscaledImageBoundsNc l.args.roi).getD
                     downscaledImageBoundsNc }
        outputPlanes s
  else
    renderRoI_cacheLookup env fuel rec n
      { l with tilesSupported := tilesSupported,
               roi := if l.useImageAsOutput then upscaledImageBoundsNc else downscaledImageBoundsNc,
               upscaledImageBounds := upscaledImageBoundsNc,
               downscaledImageBounds := downscaledImageBoundsNc }
      outputPlanes s

/-- The destructor of `TransformReroute_RAII` (lines 2084-2090) -/
def transformReroute_exit (n : NodeId) (transforms : List InputMatrix) (s : St W) : St W :=
  transforms.foldl (fun s1 it => s1.setWorld (env.clearTransform n it.inputNb s1.world)) s

/-- The concatenation of the transforms (lines 2607-2622), then the rest of `renderRoI` in the
scope of the reroute -/
def renderRoI_transforms (fuel : Nat) (rec : RenderRoIFn W) (n : NodeId) (l : Locals)
    (outputPlanes : ImageList) (s : St W) : Out (St W) (RenderRoIRetCode × ImageList) :=
  let t : List InputMatrix × W :=
    if env.isTransformConcatenationEnabled s.world then env.tryConcatenateTransforms n l.args s.world
    else ([], s.world)
  if t.1.isEmpty then
    renderRoI_computeRoI env fuel rec n { l with inputsToTransform := t.1 } outputPlanes
      (s.setWorld t.2)
  else
    Out.atExit
      (renderRoI_computeRoI env fuel rec n { l with inputsToTransform := t.1 } outputPlanes
        (s.setWorld (env.rerouteInputAndSetTransform n t.1 t.2)))
      (transformReroute_exit env n t.1)

/-- The search of lines 2555-2567 in the available components: the first entry, in the order
of the map, that has the requested components or, for a request of the color plane, that is a
supported set of components of the color plane -/
def renderRoI_findAvailable (n : NodeId) (w : W) (requested : ImageComponents) :
    ComponentsAvailableMap → Option (ImageComponents × Option NodeId)
  | [] => none
  | it2 :: rest =>
    if it2.1 = requested then some it2
    else if requested.isColorPlane && it2.1.isColorPlane && env.isSupportedComponent n (-1) it2.1 w
    then some it2
    else renderRoI_findAvailable n w requested rest

/-- The loop of lines 2549-2579: the planes rendered by this node (`requestedComponents`) and
the planes fetched upstream with their node (`componentsToFetchUpstream`) -/
def renderRoI_routePlanes (n : NodeId) (w : W) (componentsAvailables : ComponentsAvailableMap) :
    List ImageComponents → List ImageComponents × ComponentsAvailableMap →
    List ImageComponents × ComponentsAvailableMap
  | [], acc => acc
  | it :: rest, acc =>
    match renderRoI_findAvailable env n w it componentsAvailables with
    | some found =>
      if found.2 = some n then
        renderRoI_routePlanes n w componentsAvailables rest (acc.1 ++ [it], acc.2)
      else
        renderRoI_routePlanes n w componentsAvailables rest
          (acc.1, StdMap.insert env.componentsLess acc.2 it found.2)
    | none => renderRoI_routePlanes n w componentsAvailables rest acc

/-- The loop of lines 2582-2596: one render of the owning node for every plane fetched
upstream. The result is `.error (ret, planes)` for the statement `return inputRetCode`, else
the output list. -/
def renderRoI_fetchUpstream (rec : RenderRoIFn W) (args : RenderRoIArgs) :
    ComponentsAvailableMap → ImageList → St W →
    Out (St W) (Except (RenderRoIRetCode × ImageList) ImageList)
  | [], outputPlanes, s => .val (.ok outputPlanes) s
  | it :: rest, outputPlanes, s =>
    match it.2 with
    | none => renderRoI_fetchUpstream rec args rest outputPlanes s
    | some node =>
      (rec node { args with components := [it.1] } [] s).bind fun r s1 =>
        match r.2 with
        | [] => .val (.error (r.1, outputPlanes)) s1
        | front :: _ =>
          if r.1 = .eRenderRoIRetCodeAborted ∨ r.1 = .eRenderRoIRetCodeFailed then
            .val (.error (r.1, outputPlanes)) s1
          else renderRoI_fetchUpstream rec args rest (outputPlanes ++ [front]) s1

/-- The components every input and the output are asked for when the effect processes all
requested components (lines 2517-2537) -/
def renderRoI_processAllComps (requested outputNeeded : List ImageComponents) :
    List ImageComponents :=
  requested.map fun it =>
    if it.isColorPlane then (outputNeeded.find? fun it2 => it2.isColorPlane).getD it else it

/-- The pass-through of the planes (lines 2496-2604), then the rest of `renderRoI` -/
def renderRoI_planes (fuel : Nat) (rec : RenderRoIFn W) (n : NodeId) (l : Locals)
    (outputPlanes : ImageList) (s : St W) : Out (St W) (RenderRoIRetCode × ImageList) :=
  let a := env.getComponentsAvailable n l.args.time s.world
  let c := env.getComponentsNeededAndProduced_public n l.args.time l.args.view a.2
  let s1 := s.setWorld c.2
  match StdMap.find (fun x y => decide (x < y)) c.1.1 (-1) with
  | none => .exn .undefinedBehaviour s1
  | some foundOutputNeededComps =>
    let compVec := renderRoI_processAllComps l.args.components foundOutputNeededComps
    let neededComps : ComponentsNeededMap :=
      if c.1.2.1 then c.1.1.map fun it => (it.1, compVec) else c.1.1
    let outputComponents : List ImageComponents :=
      if c.1.2.1 then compVec else foundOutputNeededComps
    let routed := renderRoI_routePlanes env n s1.world a.1 l.args.components ([], [])
    (renderRoI_fetchUpstream rec l.args routed.2 outputPlanes s1).bind fun r s2 =>
      match r with
      | .error ret => .val ret s2
      | .ok out =>
        if routed.1.isEmpty then .val (.eRenderRoIRetCodeOk, out) s2
        else
          renderRoI_transforms env fuel rec n
            { l with neededComps := neededComps, outputComponents := outputComponents,
                     requestedComponents := routed.1 }
            out s2

/-- The refresh of lines 2369-2377 and 2425-2433: the support of the render scale may have
been settled by the action just called -/
def renderRoI_refreshSupportsRS (n : NodeId) (l : Locals) (s : St W) : Locals :=
  if l.supportsRS = .eSupportsMaybe ∧ l.renderMappedMipMapLevel ≠ 0 then
    let supportsRS := env.supportsRenderScaleMaybe n s.world
    let renderFullScaleThenDownscale : Bool :=
      decide (supportsRS = .eSupportsNo) && decide (l.args.mipMapLevel ≠ 0)
    if renderFullScaleThenDownscale then
      { l with supportsRS := supportsRS,
               renderFullScaleThenDownscale := renderFullScaleThenDownscale,
               renderMappedScale := ⟨1, 1⟩, renderMappedMipMapLevel := 0 }
    else
      { l with supportsRS := supportsRS,
               renderFullScaleThenDownscale := renderFullScaleThenDownscale }
  else l

/-- The arguments of the render an identity is redirected to (lines 2444-2446 and 2479-2481):
the time replaced, the precomputed RoD cleared -/
def identityArgs (args : RenderRoIArgs) (inputTimeIdentity : SequenceTime) : RenderRoIArgs :=
  { args with time := inputTimeIdentity, preComputedRoD := RectD.null }

/-- The branch `if (identity)` of lines 2435-2491 -/
def renderRoI_identityBranch (rec : RenderRoIFn W) (n : NodeId) (l : Locals)
    (inputTimeIdentity : SequenceTime) (inputNbIdentity : Int) (outputPlanes : ImageList)
    (s : St W) : Out (St W) (RenderRoIRetCode × ImageList) :=
  if inputNbIdentity = -1 then .val (.eRenderRoIRetCodeOk, outputPlanes) s
  else if inputNbIdentity = -2 ∧ inputTimeIdentity ≠ l.args.time then
    rec n (identityArgs l.args inputTimeIdentity) outputPlanes s
  else
    let fr := getFrameRange_public env n l.nodeHash false s
    match env.getInput n inputNbIdentity fr.2.world with
    | some inputEffectIdentity =>
      Out.atExit
        (rec inputEffectIdentity (identityArgs l.args inputTimeIdentity) outputPlanes
          (scopedRenderArgs_set n
            [(some inputEffectIdentity,
              env.toCanonical_noClipping l.args.roi l.args.mipMapLevel l.par)]
            l.rod l.args.roi l.args.time l.args.view true inputTimeIdentity inputNbIdentity []
            fr.1.1 fr.1.2 fr.2))
        (scopedRenderArgs_exit n)
    | none => .val (.eRenderRoIRetCodeOk, outputPlanes) fr.2

/-- The identity check (lines 2408-2494), then the rest of `renderRoI` -/
def renderRoI_identity (fuel : Nat) (rec : RenderRoIFn W) (n : NodeId) (l : Locals)
    (outputPlanes : ImageList) (s : St W) : Out (St W) (RenderRoIRetCode × ImageList) :=
  match isIdentity_public env n true l.nodeHash l.args.time l.renderMappedScale
      (env.toPixelEnclosing l.rod l.args.mipMapLevel l.par) l.args.view s with
  | .exn _ s1 => .val (.eRenderRoIRetCodeFailed, outputPlanes) s1
  | .diverge => .diverge
  | .val r s1 =>
    if r.1 then
      renderRoI_identityBranch env rec n (renderRoI_refreshSupportsRS env n l s1) r.2.1 r.2.2
        outputPlanes s1
    else renderRoI_planes env fuel rec n (renderRoI_refreshSupportsRS env n l s1) outputPlanes s1

/-- The region of interest in the coordinates of the image that is cached (lines 2389-2406) -/
def renderRoI_setRoI (l : Locals) : Locals :=
  if l.renderFullScaleThenDownscale && l.renderScaleOneUpstreamIfRenderScaleSupportDisabled then
    { l with useImageAsOutput := true,
             roi := env.toPixelEnclosing
               (env.toCanonical l.args.roi l.args.mipMapLevel l.par l.rod) 0 l.par }
  else { l with useImageAsOutput := false, roi := l.args.roi }

/-- The region of definition (lines 2350-2381), then the rest of `renderRoI` -/
def renderRoI_getRoD (fuel : Nat) (rec : RenderRoIFn W) (n : NodeId) (l : Locals)
    (outputPlanes : ImageList) (s : St W) : Out (St W) (RenderRoIRetCode × ImageList) :=
  if !l.args.preComputedRoD.isNull then
    renderRoI_identity env fuel rec n
      (renderRoI_setRoI env { l with rod := l.args.preComputedRoD }) outputPlanes s
  else
    let r := getRegionOfDefinition_public env n l.nodeHash l.args.time l.renderMappedScale
      l.args.view l.rod l.isProjectFormat s
    if r.1.1 = .eStatusFailed then .val (.eRenderRoIRetCodeOk, outputPlanes) r.2
    else if r.1.2.1.isNull then .val (.eRenderRoIRetCodeOk, outputPlanes) r.2
    else
      renderRoI_identity env fuel rec n
        (renderRoI_setRoI env
          (renderRoI_refreshSupportsRS env n
            { l with rod := r.1.2.1, isProjectFormat := r.1.2.2 } r.2))
        outputPlanes r.2

/-- The frame-level arguments of the thread as lines 2271-2280 leave them: made valid from the
request when they are not -/
def renderRoI_frameArgs (n : NodeId) (args : RenderRoIArgs) (s : St W) : St W :=
  if (frameRenderArgsOf n s).validArgs = 0 then
    s.setFrameRenderArgs n
      { frameRenderArgsOf n s with
        time := args.time, nodeHash := env.getHash n s.world, view := args.view,
        isSequentialRender := false, isRenderResponseToUserInteraction := true, validArgs := 1 }
  else s.setFrameRenderArgs n (frameRenderArgsOf n s)

/-- The local variables of `renderRoI` as lines 2287-2345 set them -/
def renderRoI_initLocals (n : NodeId) (args : RenderRoIArgs) (s : St W) : Locals :=
  let supportsRS := env.supportsRenderScaleMaybe n s.world
  let renderFullScaleThenDownscale : Bool :=
    decide (supportsRS = .eSupportsNo) && decide (args.mipMapLevel ≠ 0)
  let renderMappedMipMapLevel : Nat := if renderFullScaleThenDownscale then 0 else args.mipMapLevel
  { args := args,
    byPassCache := args.byPassCache,
    nodeHash := (frameRenderArgsOf n s).nodeHash,
    par := env.getPreferredAspectRatio n s.world,
    rod := RectD.null,
    isProjectFormat := false,
    supportsRS := supportsRS,
    renderFullScaleThenDownscale := renderFullScaleThenDownscale,
    renderMappedMipMapLevel := renderMappedMipMapLevel,
    renderMappedScale := ⟨env.getScaleFromMipMapLevel renderMappedMipMapLevel,
                          env.getScaleFromMipMapLevel renderMappedMipMapLevel⟩,
    renderScaleOneUpstreamIfRenderScaleSupportDisabled :=
      renderFullScaleThenDownscale &&
      (env.useScaleOneImagesWhenRenderScaleSupportIsDisabled n s.world ||
       !env.supportsMultiResolution n s.world),
    safety := getCurrentThreadSafetyThreadLocal env n s,
    useImageAsOutput := false,
    roi := RectI.null,
    neededComps := [], outputComponents := [], requestedComponents := [],
    inputsToTransform := [], tilesSupported := false,
    downscaledImageBounds := RectI.null, upscaledImageBounds := RectI.null,
    createInCache := false, key := ⟨0, false, 0, 0⟩, useDiskCacheNode := false,
    outputDepth := 0, outputClipPrefComps := [],
    planesToRender := ImagePlanesToRender.new, framesNeeded := [],
    redoCacheLookup := false, isPlaneCached := none, rectsLeftToRender := [],
    isDuringPaintStroke := false, fillGrownBoundsWithZeroes := false,
    lastStrokePixelRoD := RectI.null, tryIdentityOptim := false,
    inputsRoDIntersectionPixel := RectI.null, hasSomethingToRender := false }

/-- The body of `EffectInstance::renderRoI`; `rec` serves its recursive calls and `fuel` bounds
the wait on images rendered elsewhere. The locks of lines 2337-2345 are not modelled. -/
def renderRoI_body (fuel : Nat) (rec : RenderRoIFn W) : RenderRoIFn W :=
  fun n args outputPlanes s =>
    if args.components.isEmpty then .val (.eRenderRoIRetCodeOk, outputPlanes) s
    else
      renderRoI_getRoD env fuel rec n
        (renderRoI_initLocals env n args (renderRoI_frameArgs env n args s)) outputPlanes
        (renderRoI_frameArgs env n args s)

/-- The function `EffectInstance::renderRoI` with a recursion budget: `fuel` nested calls -/
def renderRoI : Nat → RenderRoIFn W
  | 0 => fun _ _ _ _ => .diverge
  | fuel + 1 => renderRoI_body env fuel (renderRoI fuel)

end Model

/-! ## A small concrete graph for the witnesses

The world is `Unit`: a node graph whose properties do not change during the render. -/

/-- The collaborators of an idle graph: no node has an input, every node is activated and
created, supports tiles and the render scale, every action succeeds and renders nothing
special, the cache holds no image -/
def baseEnv : Env Unit where
  getScaleFromMipMapLevel := fun l => 1 / 2 ^ l
  getLevelFromScale := fun _ => 0
  toPixelEnclosing := fun r _ _ => ⟨⌊r.x1⌋, ⌊r.y1⌋, ⌈r.x2⌉, ⌈r.y2⌉⟩
  toCanonical := fun r _ _ _ => ⟨r.x1, r.y1, r.x2, r.y2⟩
  toCanonical_noClipping := fun r _ _ => ⟨r.x1, r.y1, r.x2, r.y2⟩
  rectIIntersect := fun a b =>
    if a.isNull || b.isNull then none
    else if a.x1 > b.x2 ∨ b.x1 > a.x2 ∨ a.y1 > b.y2 ∨ b.y1 > a.y2 then none
    else some ⟨max a.x1 b.x1, max a.y1 b.y1, min a.x2 b.x2, min a.y2 b.y2⟩
  rectDIntersect := fun a b =>
    if a.isNull || b.isNull then none
    else if a.x1 > b.x2 ∨ b.x1 > a.x2 ∨ a.y1 > b.y2 ∨ b.y1 > a.y2 then none
    else some ⟨max a.x1 b.x1, max a.y1 b.y1, min a.x2 b.x2, min a.y2 b.y2⟩
  rectDMerge := fun a b => ⟨min a.x1 b.x1, min a.y1 b.y1, max a.x2 b.x2, max a.y2 b.y2⟩
  rectDIsInfinite := fun _ => false
  transformRoI := fun _ _ _ r => r
  componentsLess := fun a b =>
    decide (a.layerName < b.layerName) ||
    (decide (a.layerName = b.layerName) && decide (a.numComponents < b.numComponents))
  isMainThread := fun _ => false
  isBackground := fun _ => false
  isTransformConcatenationEnabled := fun _ => false
  getNumberOfThreads := fun _ => 1
  getHardwareIdealThreadCount := fun _ => 1
  threadPoolIsFull := fun _ => false
  isNodeCacheAlmostFull := fun _ => false
  timelineCurrentFrame := fun _ _ => 0
  getHash := fun n _ => n + 100
  getInput := fun _ _ _ => none
  isActivated := fun _ _ => true
  isViewerInstance := fun _ => false
  isRenderAbortable := fun _ _ _ _ => false
  isSequentialRenderBeingAborted := fun _ _ => false
  isEffectCreated := fun _ _ => true
  supportsRenderScaleMaybe := fun _ _ => .eSupportsYes
  supportsMultiResolution := fun _ _ => true
  supportsTiles := fun _ _ => true
  useScaleOneImagesWhenRenderScaleSupportIsDisabled := fun _ _ => false
  getPreferredAspectRatio := fun _ _ => 1
  getCurrentRenderThreadSafety := fun _ _ => .eRenderSafetyFullySafe
  nodeIsDuringPaintStrokeCreation := fun _ _ => false
  hasAttachedRotoItem := fun _ _ => false
  isRotoItemActivated := fun _ _ _ => true
  getPreferredInput := fun _ _ => -1
  isDiskCacheNode := fun _ => false
  isNodeDisabled := fun _ _ => false
  hasAtLeastOneChannelToProcess := fun _ _ => true
  getSequentialPreference := fun _ _ => .eSequentialPreferenceNotSequential
  isSupportedComponent := fun _ _ _ _ => true
  isWriter := fun _ => false
  isReader := fun _ => false
  isRotoPaintNode := fun _ => false
  isMultiPlanar := fun _ _ => true
  isPaintingOverItselfEnabled := fun _ _ => false
  isHostMaskingEnabled := fun _ _ => false
  getMaxInputCount := fun _ _ => 0
  isInputMask := fun _ _ _ => false
  isInputRotoBrush := fun _ _ _ => false
  isMaskEnabled := fun _ _ _ => false
  getMaskChannel := fun _ _ _ => (-1, ⟨0, 0, false⟩, none)
  getOutputPremultiplication := fun _ _ => .eImagePremultiplicationPremultiplied
  usesAlpha0ToConvertFromRGBToRGBA := fun _ _ => false
  isFrameVaryingOrAnimated_Recursive := fun _ _ => false
  shouldCacheOutput := fun _ _ _ => true
  getPreferredDepthAndComponents := fun _ _ => ([⟨0, 4, true⟩], 3)
  findClosestComponents := fun _ c _ _ _ => c
  isLastPaintStrokeBitmapCleared := fun _ _ => true
  getLastPaintStrokeRoD := fun _ _ => RectD.null
  clearLastPaintStrokeRoD := fun _ w => w
  getPaintStrokeRoD := fun _ _ _ => RectD.null
  getRegionOfDefinition := fun _ _ _ _ _ _ w => ((.eStatusOK, ⟨0, 0, 100, 100⟩), w)
  isIdentity := fun _ t _ _ _ w => (.ok (false, t, -1), w)
  getFrameRange := fun _ w => ((1, 10), w)
  getFramesNeeded := fun _ _ _ w => ([], w)
  getRegionsOfInterest := fun _ _ _ _ _ _ w => ([], w)
  beginSequenceRender := fun _ _ _ _ _ _ w => (.eStatusOK, w)
  endSequenceRender := fun _ _ _ _ _ _ w => (.eStatusOK, w)
  render := fun _ _ _ _ _ w => ((.eStatusOK, []), w)
  ifInfiniteApplyHeuristic := fun _ _ _ _ _ r w => ((false, r), w)
  getComponentsAvailable := fun n _ w => ([(⟨0, 4, true⟩, some n)], w)
  getComponentsNeededAndProduced_public := fun _ _ _ w =>
    (([(-1, [⟨0, 4, true⟩])], false, [true, true, true, true]), w)
  tryConcatenateTransforms := fun _ _ w => ([], w)
  rerouteInputAndSetTransform := fun _ _ w => w
  clearTransform := fun _ _ w => w
  getImageFromCacheAndConvertIfNeeded := fun _ _ _ _ _ _ _ _ _ _ _ _ w => (none, w)
  optimizeRectsToRender := fun _ _ _ _ _ _ w => ([], w)
  removeFromNodeCache := fun _ w => w
  removeFromNodeCacheByHash := fun _ w => w
  removeAllImagesFromCacheWithMatchingKey := fun _ _ w => w
  getImageFromCacheOrCreate := fun _ key params w =>
    (some { id := key.nodeHash + params.components.layerName, components := params.components,
            bitDepth := params.bitdepth, mipMapLevel := params.mipMapLevel, par := params.par,
            usesBitMap := true }, w)
  allocateMemoryAndEnsureBounds := fun _ _ w => w
  imageOfKeyUsesBitmap := true
  allocImage := fun _ _ w => (0, w)
  imageGetBounds := fun _ _ => ⟨0, 0, 100, 100⟩
  imageGetRoD := fun _ _ => ⟨0, 0, 100, 100⟩
  imageSetRoD := fun _ _ w => w
  imageGetFramesNeeded := fun _ _ => []
  getRestToRender := fun _ r _ => [r]
  getRestToRender_trimap := fun _ r _ => ([r], false)
  getMinimalRect := fun _ r _ => r
  getMinimalRect_trimap := fun _ r _ => (r, false)
  clearBitmap := fun _ _ w => w
  setBitmapDirtyZone := fun _ _ w => w
  markForRendering := fun _ _ w => w
  ensureBounds := fun _ _ _ w => (false, w)
  downscaleMipMap := fun _ _ _ _ _ _ _ w => w
  convertToFormat := fun _ _ _ _ _ w => w
  fillZeroAndMarkRendered := fun _ _ w => w
  pasteIdentityPlanes := fun _ _ _ _ _ w => w
  copyRenderedPlanesToOutput := fun _ _ _ _ _ _ w => w
  setOrAddProjectFormat := fun _ _ _ w => w
  waitCondition := fun _ w => w

/-- The members of an effect that has rendered nothing yet; its actions cache has room for
four hashes -/
def Implementation.idle : Implementation :=
  { renderArgs := none, frameRenderArgs := none, beginEndRenderCount := none,
    inputImages := none, lastRenderHash := 0, lastPlanesRendered := [],
    actionsCache := ActionsCache.new 4, imagesBeingRendered := [] }

/-- The state before any render -/
def idleState : St Unit := { world := (), imp := fun _ => Implementation.idle, renderLog := [] }

/-- A request for the RGBA color plane on the rectangle (10, 10) - (50, 50) at time 1 -/
def colorRequest : RenderRoIArgs :=
  { time := 1, scale := ⟨1, 1⟩, mipMapLevel := 0, view := 0, byPassCache := false,
    roi := ⟨10, 10, 50, 50⟩, preComputedRoD := RectD.null, components := [⟨0, 4, true⟩],
    bitdepth := 3, caller := none, inputImagesList := [] }

/-- The code a render returned, when it returned -/
def Out.retCode {σ : Type} : Out σ (RenderRoIRetCode × ImageList) → Option RenderRoIRetCode
  | .val r _ => some r.1
  | _ => none

/-- The output planes of a render that returned -/
def Out.planes {σ : Type} : Out σ (RenderRoIRetCode × ImageList) → Option ImageList
  | .val r _ => some r.2
  | _ => none

/-- The exception a render left by, when it did -/
def Out.thrown {σ α : Type} : Out σ α → Option Exception
  | .exn e _ => some e
  | _ => none

/-- The state a function left, when it ended -/
def Out.state {σ α : Type} : Out σ α → Option σ
  | .val _ s => some s
  | .exn _ s => some s
  | .diverge => none

end Natron

namespace Natron

section Stages

variable {W : Type} (env : Env W)

/-- The call of `getRegionOfDefinition_public` at line 2359, with the values `renderRoI` holds
there: the hash and the render scale of lines 2289-2310, and `rod`, `isProjectFormat` as they
are declared -/
def renderRoI_rodCall (n : NodeId) (args : RenderRoIArgs) (s : St W) :
    (StatusEnum × RectD × Bool) × St W :=
  getRegionOfDefinition_public env n
    (renderRoI_initLocals env n args (renderRoI_frameArgs env n args s)).nodeHash args.time
    (renderRoI_initLocals env n args (renderRoI_frameArgs env n args s)).renderMappedScale
    args.view RectD.null false (renderRoI_frameArgs env n args s)

/-- The local variables and the state of `renderRoI` when it reaches the identity check of
line 2419; `none` when it returns before (lines 2267-2269 and 2362-2368) -/
def renderRoI_beforeIdentity (n : NodeId) (args : RenderRoIArgs) (s : St W) :
    Option (Locals × St W) :=
  if args.components.isEmpty then none
  else if !args.preComputedRoD.isNull then
    some (renderRoI_setRoI env
      { renderRoI_initLocals env n args (renderRoI_frameArgs env n args s) with
        rod := args.preComputedRoD }, renderRoI_frameArgs env n args s)
  else if (renderRoI_rodCall env n args s).1.1 = .eStatusFailed then none
  else if (renderRoI_rodCall env n args s).1.2.1.isNull then none
  else
    some (renderRoI_setRoI env
      (renderRoI_refreshSupportsRS env n
        { renderRoI_initLocals env n args (renderRoI_frameArgs env n args s) with
          rod := (renderRoI_rodCall env n args s).1.2.1,
          isProjectFormat := (renderRoI_rodCall env n args s).1.2.2 }
        (renderRoI_rodCall env n args s).2), (renderRoI_rodCall env n args s).2)

/-- The routing of the requested planes as the loop of lines 2549-2579 leaves it: the planes
rendered by the node (`requestedComponents`), the planes fetched upstream with their owner
(`componentsToFetchUpstream`), and the state at line 2581. The result is `none` when the
needed components have no entry for the output (the assertion of line 2511 fails). -/
def renderRoI_routing (n : NodeId) (args : RenderRoIArgs) (s : St W) :
    Option ((List ImageComponents × ComponentsAvailableMap) × St W) :=
  let a := env.getComponentsAvailable n args.time s.world
  let c := env.getComponentsNeededAndProduced_public n args.time args.view a.2
  match StdMap.find (fun x y => decide (x < y)) c.1.1 (-1) with
  | none => none
  | some _ => some (renderRoI_routePlanes env n c.2 a.1 args.components ([], []), s.setWorld c.2)

/-- The planes that the renders of the owners return for the planes fetched upstream: one call
of `rec` on the owner for each plane that has one, in the order of the map, for the request
`args` restricted to that plane, each call run in the state the one before left; the first
plane of every result is kept. The result is `none` when one of the calls does not return
`eRenderRoIRetCodeOk` with at least one plane. -/
def upstreamPlanes (rec : RenderRoIFn W) (args : RenderRoIArgs) :
    ComponentsAvailableMap → St W → Option (ImageList × St W)
  | [], s => some ([], s)
  | it :: rest, s =>
    match it.2 with
    | none => upstreamPlanes rec args rest s
    | some node =>
      match rec node { args with components := [it.1] } [] s with
      | .val (.eRenderRoIRetCodeOk, front :: _) s1 =>
        (upstreamPlanes rec args rest s1).map fun r => (front :: r.1, r.2)
      | _ => none

/-- Every call of the render action recorded in the state returned `eStatusOK` -/
def St.rendersOK (s : St W) : Prop := ∀ e ∈ s.renderLog, e.2 = .eStatusOK

/-- A result keeps the record of the render actions free of failures: when it is a value that
satisfies `good`, every call recorded in the state it leaves returned `eStatusOK` -/
def Out.keepsOK {α : Type} (good : α → Prop) (o : Out (St W) α) : Prop :=
  match o with
  | .val a s => good a → s.rendersOK
  | .exn _ _ => True
  | .diverge => True

/-- The recursive calls of `renderRoI` keep the record of the render actions free of failures
unless they return `eRenderRoIRetCodeAborted` -/
def RenderRoIFn.keepsOK (rec : RenderRoIFn W) : Prop :=
  ∀ (m : NodeId) (a : RenderRoIArgs) (o : ImageList) (s : St W), s.rendersOK →
    (rec m a o s).keepsOK fun r => r.1 ≠ .eRenderRoIRetCodeAborted

/-- A rectangle was rendered: the functor returned neither `eRenderingFunctorRetFailed` nor
`eRenderingFunctorRetAborted` -/
def RenderingFunctorRetEnum.rendered (r : RenderingFunctorRetEnum) : Prop :=
  r ≠ .eRenderingFunctorRetFailed ∧ r ≠ .eRenderingFunctorRetAborted

/-- The loop over the lists of planes was not left by `return eRenderingFunctorRetFailed` -/
def RenderLoopResult.notFailed : RenderLoopResult → Prop
  | .failed => False
  | .finished _ _ => True

/-- A loop was not left by a statement `return eRenderRoIRetCodeAborted` -/
def notAbortedReturn {α : Type} : Except RenderRoIRetCode α → Prop
  | .error ret => ret ≠ .eRenderRoIRetCodeAborted
  | .ok _ => True

/-- The pass-through loop was not left by a statement `return eRenderRoIRetCodeAborted` -/
def notAbortedFetch : Except (RenderRoIRetCode × ImageList) ImageList → Prop
  | .error ret => ret.1 ≠ .eRenderRoIRetCodeAborted
  | .ok _ => True

end Stages

/-! ## Concrete graphs -/

/-- The idle graph where the input 0 of node 0 is node 1 -/
def chainEnv : Env Unit :=
  { baseEnv with getInput := fun n i _ => if n = 0 ∧ i = 0 then some 1 else none }

/-- The graph `chainEnv` where node 0 is an identity of its input 0 at the same time -/
def identityEnv : Env Unit :=
  { chainEnv with isIdentity := fun n t _ _ _ w => (.ok (decide (n = 0), t, if n = 0 then 0 else -1), w) }

/-- The idle graph where the region of definition action of every node fails -/
def failedRoDEnv : Env Unit :=
  { baseEnv with getRegionOfDefinition := fun _ _ _ _ _ _ w => ((.eStatusFailed, RectD.null), w) }

/-- The frame-level arguments `setParallelRenderArgsTLS` installs on a node for a render made
in response to a user interaction that cannot be aborted -/
def userInteractionArgs (n : NodeId) : ParallelRenderArgs :=
  { ParallelRenderArgs.new with time := 1, nodeHash := n + 100, validArgs := 1, isRenderResponseToUserInteraction := true, canAbort := false, currentThreadSafety := .eRenderSafetyFullySafe }

/-- The state before a render made in response to a user interaction that cannot be aborted:
every node has its frame-level arguments, nothing is being rendered -/
def userState : St Unit :=
  { world := (), imp := fun n => { Implementation.idle with frameRenderArgs := some (userInteractionArgs n) }, renderLog := [] }

/-- A layer that is not the color plane -/
def depthLayer : ImageComponents := ⟨1, 1, false⟩

/-- The RGBA components of the color plane -/
def rgbaPlane : ImageComponents := ⟨0, 4, true⟩

/-- The alpha components of the color plane -/
def alphaPlane : ImageComponents := ⟨0, 1, true⟩

/-- A request like `colorRequest` for the RGBA color plane and the layer `depthLayer` -/
def twoPlanesRequest : RenderRoIArgs :=
  { colorRequest with components := [rgbaPlane, depthLayer] }

/-- The idle graph where node 0 has been deactivated (removed by the user) -/
def deactivatedEnv : Env Unit :=
  { baseEnv with isActivated := fun n _ => decide (n ≠ 0) }

/-- The graph `deactivatedEnv` where every node produces the color plane and `depthLayer` -/
def twoPlanesEnv : Env Unit :=
  { deactivatedEnv with
    getComponentsAvailable := fun n _ w => ([(rgbaPlane, some n), (depthLayer, some n)], w),
    getComponentsNeededAndProduced_public := fun _ _ _ w => (([(-1, [rgbaPlane, depthLayer])], false, [true, true, true, true]), w) }

/-- The idle graph where the render action of every node fails; the timeline is at frame 0 -/
def failingRenderEnv : Env Unit :=
  { baseEnv with render := fun _ _ _ _ _ w => ((.eStatusFailed, []), w) }

/-- The frame-level arguments `setParallelRenderArgsTLS` installs on a node for a render of
frame 1 made in response to a user interaction that can be aborted, with the timeline 0 -/
def abortableArgs (n : NodeId) : ParallelRenderArgs :=
  { ParallelRenderArgs.new with time := 1, timeline := some 0, nodeHash := n + 100, validArgs := 1, isRenderResponseToUserInteraction := true, canAbort := true, currentThreadSafety := .eRenderSafetyFullySafe }

/-- The state before a render of frame 1 that can be aborted -/
def abortableState : St Unit :=
  { world := (), imp := fun n => { Implementation.idle with frameRenderArgs := some (abortableArgs n) }, renderLog := [] }

/-- Whether two rectangles have a common pixel -/
def rectsOverlap (a b : RectI) : Bool :=
  !a.isNull && !b.isNull && decide (a.x1 < b.x2) && decide (b.x1 < a.x2) && decide (a.y1 < b.y2) && decide (b.y1 < a.y2)

/-- The rectangle a tile of node 0 of `maskedEnv` is rendered with: an identity of input 0 when
the tile is outside the intersection of the RoDs of the inputs -/
def maskedRect (identityInput : Option NodeId) (inter : RectI) (time : SequenceTime) (r : RectI) : RectToRender :=
  { rect := r, identityInput := if rectsOverlap r inter then none else identityInput, isIdentity := !rectsOverlap r inter, identityTime := time, imgs := [], inputRois := [] }

/-- A masked effect: node 0 has the source node 1 as input 0 and the mask node 2 as input 1.
The RoD of the mask is (0, 0) - (5, 5), the RoD of the other nodes (0, 0) - (100, 100). Node 0
is an identity of its input 0 on every window outside the mask, and `optimizeRectsToRender`
makes identity rectangles of the tiles outside the mask. Node 1 has been deactivated. -/
def maskedEnv : Env Unit :=
  { baseEnv with
    getInput := fun n i _ => if n = 0 ∧ i = 0 then some 1 else if n = 0 ∧ i = 1 then some 2 else none,
    getMaxInputCount := fun n _ => if n = 0 then 2 else 0,
    isInputMask := fun n i _ => decide (n = 0 ∧ i = 1),
    isMaskEnabled := fun _ _ _ => true,
    isActivated := fun n _ => decide (n ≠ 1),
    getRegionOfDefinition := fun n _ _ _ _ _ w => ((.eStatusOK, if n = 2 then ⟨0, 0, 5, 5⟩ else ⟨0, 0, 100, 100⟩), w),
    isIdentity := fun n t _ window _ w => (.ok (decide (n = 0) && !rectsOverlap window ⟨0, 0, 5, 5⟩, t, if n = 0 ∧ rectsOverlap window ⟨0, 0, 5, 5⟩ = false then 0 else -1), w),
    optimizeRectsToRender := fun n inter rects time _ _ w => (rects.map (maskedRect (if n = 0 then some 1 else none) inter time), w) }

/-- The graph `chainEnv` where the color plane of node 0 is produced by node 1 and node 1 has
been deactivated -/
def passThroughEnv : Env Unit :=
  { chainEnv with
    getComponentsAvailable := fun _ _ w => ([(rgbaPlane, some 1)], w),
    isActivated := fun n _ => decide (n ≠ 1) }


/-- The graph `chainEnv` where the color plane of node 0 is produced by node 1 -/
def passThroughOkEnv : Env Unit :=
  { chainEnv with getComponentsAvailable := fun _ _ w => ([(rgbaPlane, some 1)], w) }

end Natron

namespace Natron

/-! ## Frame-level arguments and the default actions -/

/-- The C++ `INT_MIN` of a 32-bit `int` -/
def INT_MIN : Int := -2147483648

/-- The C++ `INT_MAX` of a 32-bit `int` -/
def INT_MAX : Int := 2147483647

section Defaults

variable {W : Type} (env : Env W)

/-- The function `setParallelRenderArgsTLS` with sixteen parameters (lines 795-834): every field
is assigned and the nesting counter `validArgs` is incremented. The increment of an `int` at
`INT_MAX` is undefined behaviour. -/
def setParallelRenderArgsTLS (n : NodeId) (time view : Int)
    (isRenderUserInteraction isSequential canAbort : Bool) (nodeHash rotoAge renderAge : U64)
    (renderRequester : Option NodeId) (textureIndex : Int) (timeline : Option Nat)
    (isAnalysis isDuringPaintStrokeCreation : Bool) (rotoPaintNodes : List NodeId)
    (currentThreadSafety : RenderSafetyEnum) (doNanHandling : Bool) (s : St W) :
    Out (St W) Unit :=
  let args := frameRenderArgsOf n s
  if args.validArgs = INT_MAX then .exn .undefinedBehaviour s
  else
    .val () (s.setFrameRenderArgs n
      { args with
        time := time, timeline := timeline, view := view,
        isRenderResponseToUserInteraction := isRenderUserInteraction,
        isSequentialRender := isSequential, nodeHash := nodeHash, rotoAge := rotoAge,
        canAbort := canAbort, renderAge := renderAge, renderRequester := renderRequester,
        textureIndex := textureIndex, isAnalysis := isAnalysis,
        isDuringPaintStrokeCreation := isDuringPaintStrokeCreation,
        currentThreadSafety := currentThreadSafety, rotoPaintNodes := rotoPaintNodes,
        doNansHandling := doNanHandling, validArgs := args.validArgs + 1 })

/-- The function `setParallelRenderArgsTLS (const ParallelRenderArgs&)` (lines 857-865): the
arguments are copied and the counter is the one the thread held, plus one -/
def setParallelRenderArgsTLS_copy (n : NodeId) (args : ParallelRenderArgs) (s : St W) :
    Out (St W) Unit :=
  let curValid := (frameRenderArgsOf n s).validArgs
  if curValid = INT_MAX then .exn .undefinedBehaviour s
  else .val () (s.setFrameRenderArgs n { args with validArgs := curValid + 1 })

/-- The roto-paint nodes `nodes` of the arguments of node `n` are other nodes whose own
arguments, when they have some, list no roto-paint node and hold a counter above `INT_MIN` -/
def rotoPaintNodesIdle (n : NodeId) (nodes : List NodeId) (s : St W) : Prop :=
  ∀ m ∈ nodes, m ≠ n ∧
    ∀ b, (s.imp m).frameRenderArgs = some b → b.rotoPaintNodes = [] ∧ b.validArgs ≠ INT_MIN

/-- The counter `validArgs` after `--args.validArgs` and the floor at zero (lines 873-876) -/
def decrementedValidArgs (v : Int) : Int := if v - 1 < 0 then 0 else v - 1

/-- The function `invalidateParallelRenderArgsTLS` (lines 868-884): the counter is decremented
and floored at zero, then the roto-paint nodes of the arguments are invalidated in turn. `fuel`
bounds the depth of the calls. -/
def invalidateParallelRenderArgsTLS : Nat → NodeId → St W → Out (St W) Unit
  | 0, _, _ => .diverge
  | fuel + 1, n, s =>
    match (s.imp n).frameRenderArgs with
    | none => .val () s
    | some args =>
      if args.validArgs = INT_MIN then .exn .undefinedBehaviour s
      else
        args.rotoPaintNodes.foldl
          (fun acc m => acc.bind fun _ s1 => invalidateParallelRenderArgsTLS fuel m s1)
          (.val () (s.setFrameRenderArgs n
            { args with validArgs := decrementedValidArgs args.validArgs }))

/-- A sequence of calls of `setParallelRenderArgsTLS (const ParallelRenderArgs&)` on a node -/
def setParallelRenderArgsTLS_all (n : NodeId) : List ParallelRenderArgs → St W → Out (St W) Unit
  | [], s => .val () s
  | a :: rest, s =>
    (setParallelRenderArgsTLS_copy n a s).bind fun _ s1 => setParallelRenderArgsTLS_all n rest s1

/-- A number of calls of `invalidateParallelRenderArgsTLS` on a node -/
def invalidateParallelRenderArgsTLS_times (fuel : Nat) (n : NodeId) : Nat → St W → Out (St W) Unit
  | 0, s => .val () s
  | k + 1, s =>
    (invalidateParallelRenderArgsTLS fuel n s).bind fun _ s1 =>
      invalidateParallelRenderArgsTLS_times fuel n k s1

/-- The default `EffectInstance::getFrameRange` (lines 1679-1704) on the input numbers `i` below
`getMaxInputCount ()`; `input->getFrameRange` is the action of the input -/
def getFrameRange_inputs (n : NodeId) : List Nat → Int × Int → W → (Int × Int) × W
  | [], acc, w => (acc, w)
  | i :: rest, acc, w =>
    match env.getInput n i w with
    | none => getFrameRange_inputs n rest acc w
    | some input =>
      let r := env.getFrameRange input w
      getFrameRange_inputs n rest
        (if i = 0 then r.1
         else (if r.1.1 < acc.1 then r.1.1 else acc.1, if r.1.2 > acc.2 then r.1.2 else acc.2))
        r.2

/-- The default `EffectInstance::getFrameRange` (lines 1679-1704): `*first` and `*last` -/
def getFrameRange_default (n : NodeId) (w : W) : (Int × Int) × W :=
  getFrameRange_inputs env n (List.range (env.getMaxInputCount n w).toNat) (INT_MIN, INT_MAX) w

/-- The default `EffectInstance::getRegionsOfInterest` (lines 1638-1652): `*ret` as the function
leaves it -/
def getRegionsOfInterest_default (n : NodeId) (renderWindow : RectD) (ret : RoIMap) (w : W) :
    RoIMap :=
  (List.range (env.getMaxInputCount n w).toNat).foldl
    (fun m (i : Nat) =>
      match env.getInput n i w with
      | some input => RoIMap.insert m (some input) renderWindow
      | none => m) ret

/-- The default `EffectInstance::getFramesNeeded` (lines 1654-1677) -/
def getFramesNeeded_default (n : NodeId) (time : SequenceTime) (view : Int) (w : W) :
    FramesNeededMap :=
  (List.range (env.getMaxInputCount n w).toNat).foldl
    (fun ret (i : Nat) =>
      if env.isInputRotoBrush n i w then
        StdMap.insert (fun a b => decide (a < b)) ret (i : Int) [(view, [⟨time, time⟩])]
      else
        match env.getInput n i w with
        | some _ => StdMap.insert (fun a b => decide (a < b)) ret (i : Int) [(view, [⟨time, time⟩])]
        | none => ret) []

/-- The state of the loop of the default `getRegionOfDefinition`: `*rod` and `firstInput` -/
structure RoDLoop where
  rod : RectD
  firstInput : Bool

/-- The loop of the default `EffectInstance::getRegionOfDefinition` (lines 1509-1533) on the
input numbers below `getMaxInputCount ()`: `.error rod` stands for `return st` on a failed input -/
def getRegionOfDefinition_inputs (n : NodeId) (hash : U64) (time : SequenceTime)
    (scale : RenderScale) (view : Int) :
    List Nat → RoDLoop → St W → Except RectD RoDLoop × St W
  | [], acc, s => (.ok acc, s)
  | i :: rest, acc, s =>
    if env.isInputMask n i s.world then
      getRegionOfDefinition_inputs n hash time scale view rest acc s
    else
      match env.getInput n i s.world with
      | none => getRegionOfDefinition_inputs n hash time scale view rest acc s
      | some input =>
        let r := getRegionOfDefinition_public env input hash time scale view RectD.null false s
        if r.1.1 = .eStatusFailed then (.error acc.rod, r.2)
        else
          getRegionOfDefinition_inputs n hash time scale view rest
            (if acc.firstInput then ⟨r.1.2.1, false⟩
             else ⟨env.rectDMerge acc.rod r.1.2.1, false⟩) r.2

/-- The default `EffectInstance::getRegionOfDefinition` (lines 1500-1536): the status and `*rod` -/
def getRegionOfDefinition_default (n : NodeId) (hash : U64) (time : SequenceTime)
    (scale : RenderScale) (view : Int) (rod : RectD) (s : St W) : (StatusEnum × RectD) × St W :=
  match getRegionOfDefinition_inputs env n hash time scale view
      (List.range (env.getMaxInputCount n s.world).toNat) ⟨rod, true⟩ s with
  | (.error rod1, s1) => ((.eStatusFailed, rod1), s1)
  | (.ok acc, s1) => ((.eStatusReplyDefault, acc.rod), s1)

/-- The union of a list of RoDs with `merge`, the value `rod` when the list is empty -/
def unionRoD (merge : RectD → RectD → RectD) (rod : RectD) : List RectD → RectD
  | [] => rod
  | r :: rest => rest.foldl merge r

/-- The inputs the default `getRegionOfDefinition` asks: the connected inputs that are not
masks, in the order of their numbers -/
def nonMaskInputs (n : NodeId) (w : W) : List NodeId :=
  (List.range (env.getMaxInputCount n w).toNat).filterMap fun (i : Nat) =>
    if env.isInputMask n i w then none else env.getInput n i w

/-- The RoDs that `getRegionOfDefinition_public` returns for a list of effects asked in turn
with the hash, time, scale and view of the caller: `none` when one of the calls fails -/
def inputRoDs (hash : U64) (time : SequenceTime) (scale : RenderScale) (view : Int) :
    List NodeId → St W → Option (List RectD) × St W
  | [], s => (some [], s)
  | e :: rest, s =>
    let r := getRegionOfDefinition_public env e hash time scale view RectD.null false s
    if r.1.1 = .eStatusFailed then (none, r.2)
    else
      match inputRoDs hash time scale view rest r.2 with
      | (some rods, s1) => (some (r.1.2.1 :: rods), s1)
      | (none, s1) => (none, s1)

end Defaults

/-- A union of two rectangles that ignores an empty rectangle: the bounding box of two
rectangles that are not empty -/
def unionIgnoringEmpty (a b : RectD) : RectD :=
  if a.isNull then (if b.isNull then RectD.null else b)
  else if b.isNull then a
  else ⟨min a.x1 b.x1, min a.y1 b.y1, max a.x2 b.x2, max a.y2 b.y2⟩

/-! ## Concrete graphs for the default actions -/

/-- The idle graph where node 0 has two inputs: nothing is connected to input 0 and node 1 is
connected to input 1. The frame range of every node is 1 - 10. -/
def secondInputOnlyEnv : Env Unit :=
  { baseEnv with
    getMaxInputCount := fun n _ => if n = 0 then 2 else 0,
    getInput := fun n i _ => if n = 0 ∧ i = 1 then some 1 else none }

/-- The graph `maskedEnv` where the RoD of the mask node 2 is (0, 0) - (200, 200) -/
def wideMaskEnv : Env Unit :=
  { maskedEnv with
    getRegionOfDefinition := fun n _ _ _ _ _ w =>
      ((.eStatusOK, if n = 2 then ⟨0, 0, 200, 200⟩ else ⟨0, 0, 100, 100⟩), w) }

/-- The graph `wideMaskEnv` where rectangles are merged by `unionIgnoringEmpty` -/
def wideMaskUnionEnv : Env Unit :=
  { wideMaskEnv with rectDMerge := unionIgnoringEmpty }

/-! ## Concrete graphs for the pre-fetch of the input images -/

/-- The graph `chainEnv` where node 0 has one input, needs the frames `views` of its input 0 and
asks it for the window rendered; its rectangles to render are never identities -/
def temporalEnv (views : List (Int × List OfxRangeD)) : Env Unit :=
  { chainEnv with
    getMaxInputCount := fun n _ => if n = 0 then 1 else 0,
    optimizeRectsToRender := fun _ inter rects time _ _ w =>
      (rects.map (maskedRect none inter time), w),
    getFramesNeeded := fun n _ _ w => (if n = 0 then [(0, views)] else [], w),
    getRegionsOfInterest := fun n _ _ _ window _ w =>
      (if n = 0 then [(some 1, window)] else [], w),
    getComponentsNeededAndProduced_public := fun _ _ _ w =>
      (([(-1, [rgbaPlane]), (0, [rgbaPlane])], false, [true, true, true, true]), w) }

/-- A stand-in for the `renderRoI` of an input: it returns one image at the requested mip-map
level and records itself in the render log -/
def recordedRender : RenderRoIFn Unit :=
  fun n args outputPlanes s =>
    .val (.eRenderRoIRetCodeOk,
        outputPlanes ++ [{ id := 7, components := rgbaPlane, bitDepth := args.bitdepth,
                           mipMapLevel := args.mipMapLevel, par := 1, usesBitMap := true }])
      { s with renderLog := s.renderLog ++ [(n, .eStatusOK)] }

/-- A stand-in for the `renderRoI` of an input that reports the mip-map level it is requested
at: it ends with an exception that carries the level -/
def levelReportingRender : RenderRoIFn Unit :=
  fun _ args _ s => .exn (.pluginException args.mipMapLevel) s

/-- A stand-in for the `renderRoI` of an input that serves, as `recordedRender` does, the
requests at the mip-map level 0 and the scale 1 only -/
def fullScaleRender : RenderRoIFn Unit :=
  fun n args outputPlanes s =>
    if args.mipMapLevel = 0 ∧ args.scale = ⟨1, 1⟩ then recordedRender n args outputPlanes s
    else .diverge

/-- The graph `temporalEnv` for the frame 1 of one view, where node 0 does not support the
render scale; `useScaleOne` is its setting `useScaleOneImagesWhenRenderScaleSupportIsDisabled` -/
def noRenderScaleEnv (useScaleOne : Bool) : Env Unit :=
  { temporalEnv [(0, [⟨1, 1⟩])] with
    supportsRenderScaleMaybe := fun n _ => if n = 0 then .eSupportsNo else .eSupportsYes,
    useScaleOneImagesWhenRenderScaleSupportIsDisabled := fun _ _ => useScaleOne,
    getLevelFromScale := fun q => if q = 1 then 0 else 1 }

/-- The request `colorRequest` at the mip-map level 1 -/
def halfRequest : RenderRoIArgs :=
  { colorRequest with mipMapLevel := 1, scale := ⟨1 / 2, 1 / 2⟩ }

/-- The local variables of `renderRoI` when node 0 of `noRenderScaleEnv true` allocates the
color plane for the request `halfRequest`: the RoD is (0, 0) - (100, 100), the output is to be
cached under the key of the frame 1 -/
def allocatingLocals : Locals :=
  { renderRoI_initLocals (noRenderScaleEnv true) 0 halfRequest userState with
    rod := ⟨0, 0, 100, 100⟩, outputComponents := [rgbaPlane],
    requestedComponents := [rgbaPlane], downscaledImageBounds := ⟨0, 0, 50, 50⟩,
    upscaledImageBounds := ⟨0, 0, 100, 100⟩, createInCache := true, key := ⟨100, false, 1, 0⟩,
    hasSomethingToRender := true }

/-- The idle graph where no node supports tiles -/
def noTilesEnv : Env Unit :=
  { baseEnv with supportsTiles := fun _ _ => false }

/-- The local variables of `renderRoI` when node 0 of `noTilesEnv` reaches the section
"Compute RoI" for the request `colorRequest`: the RoD is (0, 0) - (100, 100) and the node
renders the color plane itself -/
def noTilesLocals : Locals :=
  { renderRoI_setRoI noTilesEnv
      { renderRoI_initLocals noTilesEnv 0 colorRequest userState with rod := ⟨0, 0, 100, 100⟩ } with
    neededComps := [(-1, [rgbaPlane])], outputComponents := [rgbaPlane],
    requestedComponents := [rgbaPlane] }

end Natron

namespace Natron

/-! ## The sections of `renderRoI` between the region of interest and the render step

Each function below is a section of `renderRoI` that ends where the next section begins: its
result is `.error (code, planes)` when `renderRoI` returns in the section, else the local
variables and the output planes the next section starts with. -/

/-- The end of a section: `renderRoI` returns `v`, or goes on with `k` -/
def Out.orReturn {σ ρ α : Type} (x : Out σ (Except ρ α)) (k : α → σ → Out σ ρ) : Out σ ρ :=
  x.bind fun r s =>
    match r with
    | .error v => .val v s
    | .ok a => k a s

/-- A section followed by the next one -/
def Out.thenSection {σ ρ α β : Type} (x : Out σ (Except ρ α))
    (f : α → σ → Out σ (Except ρ β)) : Out σ (Except ρ β) :=
  x.bind fun r s =>
    match r with
    | .error v => .val (.error v) s
    | .ok a => f a s

section Sections

variable {W : Type} (env : Env W)

/-- The result of a section of `renderRoI` -/
abbrev SectionResult := Except (RenderRoIRetCode × ImageList) (Locals × ImageList)

/-- The section of the region of definition (lines 2350-2406) -/
def renderRoI_getRoD_section (n : NodeId) (l : Locals) (outputPlanes : ImageList) (s : St W) :
    Out (St W) SectionResult :=
  if !l.args.preComputedRoD.isNull then
    .val (.ok (renderRoI_setRoI env { l with rod := l.args.preComputedRoD }, outputPlanes)) s
  else
    let r := getRegionOfDefinition_public env n l.nodeHash l.args.time l.renderMappedScale
      l.args.view l.rod l.isProjectFormat s
    if r.1.1 = .eStatusFailed then .val (.error (.eRenderRoIRetCodeOk, outputPlanes)) r.2
    else if r.1.2.1.isNull then .val (.error (.eRenderRoIRetCodeOk, outputPlanes)) r.2
    else
      .val (.ok
        (renderRoI_setRoI env
          (renderRoI_refreshSupportsRS env n
            { l with rod := r.1.2.1, isProjectFormat := r.1.2.2 } r.2), outputPlanes)) r.2

/-- The section of the identity check (lines 2408-2494) -/
def renderRoI_identity_section (rec : RenderRoIFn W) (n : NodeId) (l : Locals)
    (outputPlanes : ImageList) (s : St W) : Out (St W) SectionResult :=
  match isIdentity_public env n true l.nodeHash l.args.time l.renderMappedScale
      (env.toPixelEnclosing l.rod l.args.mipMapLevel l.par) l.args.view s with
  | .exn _ s1 => .val (.error (.eRenderRoIRetCodeFailed, outputPlanes)) s1
  | .diverge => .diverge
  | .val r s1 =>
    if r.1 then
      (renderRoI_identityBranch env rec n (renderRoI_refreshSupportsRS env n l s1) r.2.1 r.2.2
        outputPlanes s1).bind fun v s2 => .val (.error v) s2
    else .val (.ok (renderRoI_refreshSupportsRS env n l s1, outputPlanes)) s1

/-- The section of the pass-through of the planes (lines 2496-2604) -/
def renderRoI_planes_section (rec : RenderRoIFn W) (n : NodeId) (l : Locals)
    (outputPlanes : ImageList) (s : St W) : Out (St W) SectionResult :=
  let a := env.getComponentsAvailable n l.args.time s.world
  let c := env.getComponentsNeededAndProduced_public n l.args.time l.args.view a.2
  let s1 := s.setWorld c.2
  match StdMap.find (fun x y => decide (x < y)) c.1.1 (-1) with
  | none => .exn .undefinedBehaviour s1
  | some foundOutputNeededComps =>
    let compVec := renderRoI_processAllComps l.args.components foundOutputNeededComps
    let neededComps : ComponentsNeededMap :=
      if c.1.2.1 then c.1.1.map fun it => (it.1, compVec) else c.1.1
    let outputComponents : List ImageComponents :=
      if c.1.2.1 then compVec else foundOutputNeededComps
    let routed := renderRoI_routePlanes env n s1.world a.1 l.args.components ([], [])
    (renderRoI_fetchUpstream rec l.args routed.2 outputPlanes s1).bind fun r s2 =>
      match r with
      | .error ret => .val (.error ret) s2
      | .ok out =>
        if routed.1.isEmpty then .val (.error (.eRenderRoIRetCodeOk, out)) s2
        else
          .val (.ok
            ({ l with neededComps := neededComps, outputComponents := outputComponents,
                      requestedComponents := routed.1 }, out)) s2

/-- The section of the concatenation of the transforms (lines 2607-2622): the inputs are
rerouted when there are transforms to concatenate -/
def renderRoI_transforms_section (n : NodeId) (l : Locals) (outputPlanes : ImageList)
    (s : St W) : Out (St W) SectionResult :=
  let t : List InputMatrix × W :=
    if env.isTransformConcatenationEnabled s.world then env.tryConcatenateTransforms n l.args s.world
    else ([], s.world)
  .val (.ok ({ l with inputsToTransform := t.1 }, outputPlanes))
    (if t.1.isEmpty then s.setWorld t.2
     else s.setWorld (env.rerouteInputAndSetTransform n t.1 t.2))

/-- The scope of the reroute of the inputs (`TransformReroute_RAII`): the transforms are
cleared when the rest of `renderRoI` is left -/
def renderRoI_inReroute (n : NodeId) (l : Locals)
    (rest : Out (St W) (RenderRoIRetCode × ImageList)) : Out (St W) (RenderRoIRetCode × ImageList) :=
  if l.inputsToTransform.isEmpty then rest
  else Out.atExit rest (transformReroute_exit env n l.inputsToTransform)

/-- The sections of `renderRoI` before "Compute RoI", for a request of at least one plane: the
local variables and the output planes the section "Compute RoI" starts with -/
def renderRoI_untilComputeRoI (rec : RenderRoIFn W) (n : NodeId) (args : RenderRoIArgs)
    (outputPlanes : ImageList) (s : St W) : Out (St W) SectionResult :=
  (((renderRoI_getRoD_section env n
      (renderRoI_initLocals env n args (renderRoI_frameArgs env n args s)) outputPlanes
      (renderRoI_frameArgs env n args s)).thenSection fun x s1 =>
      renderRoI_identity_section env rec n x.1 x.2 s1).thenSection fun x s1 =>
      renderRoI_planes_section env rec n x.1 x.2 s1).thenSection fun x s1 =>
      renderRoI_transforms_section env n x.1 x.2 s1

/-- The section "Compute RoI" (lines 2625-2676) -/
def renderRoI_computeRoI_section (n : NodeId) (l : Locals) (outputPlanes : ImageList)
    (s : St W) : Out (St W) SectionResult :=
  let tilesSupported := env.supportsTiles n s.world
  let downscaledImageBoundsNc := env.toPixelEnclosing l.rod l.args.mipMapLevel l.par
  let upscaledImageBoundsNc := env.toPixelEnclosing l.rod 0 l.par
  if tilesSupported then
    match env.rectIIntersect l.roi
        (if l.useImageAsOutput then upscaledImageBoundsNc else downscaledImageBoundsNc) with
    | none => .val (.error (.eRenderRoIRetCodeOk, outputPlanes)) s
    | some roi =>
      .val (.ok
        ({ l with tilesSupported := tilesSupported, roi := roi,
                  upscaledImageBounds :=
                    (env.rectIIntersect upscaledImageBoundsNc roi).getD upscaledImageBoundsNc,
                  downscaledImageBounds :=
                    (env.rectIIntersect downscaledImageBoundsNc l.args.roi).getD
                      downscaledImageBoundsNc }, outputPlanes)) s
  else
    .val (.ok
      ({ l with tilesSupported := tilesSupported,
                roi := if l.useImageAsOutput then upscaledImageBoundsNc
                       else downscaledImageBoundsNc,
                upscaledImageBounds := upscaledImageBoundsNc,
                downscaledImageBounds := downscaledImageBoundsNc }, outputPlanes)) s

/-- The section of the cache look-up (lines 2680-2834) -/
def renderRoI_cacheLookup_section (n : NodeId) (l : Locals) (outputPlanes : ImageList)
    (s : St W) : Out (St W) SectionResult :=
  let isFrameVaryingOrAnimated := env.isFrameVaryingOrAnimated_Recursive n s.world
  let pref := env.getPreferredDepthAndComponents n s.world
  let l1 : Locals :=
    { l with createInCache := env.shouldCacheOutput n isFrameVaryingOrAnimated s.world,
             key := ⟨l.nodeHash, isFrameVaryingOrAnimated, l.args.time, l.args.view⟩,
             useDiskCacheNode := env.isDiskCacheNode n,
             outputDepth := pref.2, outputClipPrefComps := pref.1,
             planesToRender := ImagePlanesToRender.new, framesNeeded := [] }
  (renderRoI_lookupPlanes env n l1 l1.requestedComponents
    ⟨false, l1.byPassCache, [], [], outputPlanes⟩ s).bind fun r s1 =>
    let f := env.getFramesNeeded n l1.args.time l1.args.view s1.world
    let framesNeeded : FramesNeededMap := if r.framesNeeded.isEmpty then f.1 else r.framesNeeded
    let s2 : St W := if r.framesNeeded.isEmpty then s1.setWorld f.2 else s1
    let isPlaneCached : ImagePtr :=
      match r.planes.head? with
      | some p => p.2.fullscaleImage
      | none => none
    if !isPlaneCached.isSome && l1.args.roi.isNull then
      .val (.error (.eRenderRoIRetCodeFailed, r.outputPlanes)) s2
    else
      .val (.ok
        ({ l1 with byPassCache := r.byPassCache, framesNeeded := framesNeeded,
                   isPlaneCached := isPlaneCached, redoCacheLookup := false,
                   planesToRender := { l1.planesToRender with planes := r.planes } },
         r.outputPlanes)) s2

/-- The section of the rectangles left to render and the identity optimisation (lines
2836-3004) -/
def renderRoI_rects_section (n : NodeId) (l : Locals) (outputPlanes : ImageList) (s : St W) :
    Out (St W) SectionResult :=
  let cacheAlmostFull := env.isNodeCacheAlmostFull s.world
  let isDuringPaintStroke := isDuringPaintStrokeCreationThreadLocal env n s
  let readStroke : Bool := isDuringPaintStroke && l.args.inputImagesList.isEmpty &&
    !env.isLastPaintStrokeBitmapCleared n s.world
  let lastStrokePixelRoD : RectI :=
    if readStroke then env.toPixelEnclosing (env.getLastPaintStrokeRoD n s.world)
      l.args.mipMapLevel l.par
    else RectI.null
  let s1 : St W := if readStroke then s.setWorld (env.clearLastPaintStrokeRoD n s.world) else s
  let l1 : Locals :=
    { l with isDuringPaintStroke := isDuringPaintStroke, lastStrokePixelRoD := lastStrokePixelRoD,
             fillGrownBoundsWithZeroes := false }
  (match l1.isPlaneCached with
   | some img => renderRoI_restOfCached env n l1 img cacheAlmostFull s1
   | none =>
     Out.val ([if l1.tilesSupported then l1.roi
               else if l1.useImageAsOutput then l1.upscaledImageBounds
               else l1.downscaledImageBounds], l1) s1).bind fun r s2 =>
    let l2 : Locals := { r.2 with rectsLeftToRender := r.1 }
    let loop : InputsRoDLoop × St W :=
      if l2.tilesSupported && !r.1.isEmpty then
        renderRoI_inputsRoD env n l2 (List.range (env.getMaxInputCount n s2.world).toNat)
          ⟨RectD.null, false, false, false⟩ s2
      else (⟨RectD.null, false, false, false⟩, s2)
    let tryIdentityOptim : Bool :=
      loop.1.inputsIntersectionSet && (loop.1.hasMask || loop.1.hasDifferentRods)
    let l3 : Locals :=
      { l2 with tryIdentityOptim := tryIdentityOptim,
                inputsRoDIntersectionPixel :=
                  if tryIdentityOptim then
                    env.toPixelEnclosing loop.1.inputsIntersection l2.args.mipMapLevel l2.par
                  else RectI.null }
    let rects := renderRoI_makeRects env n l3 r.1 loop.2
    .val (.ok
      ({ l3 with planesToRender := { l3.planesToRender with rectsToRender := rects.1 },
                 hasSomethingToRender := !rects.1.isEmpty }, outputPlanes)) rects.2

/-- The section of the pre-render of the input images (lines 3007-3072) -/
def renderRoI_preRender_section (rec : RenderRoIFn W) (n : NodeId) (l : Locals)
    (outputPlanes : ImageList) (s : St W) : Out (St W) SectionResult :=
  match l.outputComponents.head? with
  | none => .exn .undefinedBehaviour s
  | some outComp =>
    let outputPremult : ImagePremultiplicationEnum :=
      if outComp.isColorPlane then env.getOutputPremultiplication n s.world
      else .eImagePremultiplicationOpaque
    (renderRoI_prefetchRects env rec n l true l.planesToRender.rectsToRender
      l.planesToRender.inputPremult s).bind fun pr s1 =>
      match pr with
      | .error ret => .val (.error (ret, outputPlanes)) s1
      | .ok v =>
        .val (.ok
          ({ l with planesToRender :=
               { l.planesToRender with rectsToRender := v.1, inputPremult := v.2,
                                       outputPremult := outputPremult } }, outputPlanes)) s1

/-- The section of the second cache look-up (lines 3079-3183) -/
def renderRoI_redoCacheLookup_section (rec : RenderRoIFn W) (n : NodeId) (l : Locals)
    (outputPlanes : ImageList) (s : St W) : Out (St W) SectionResult :=
  if l.redoCacheLookup then
    (renderRoI_redoLookup env n l l.planesToRender.planes s).bind fun r s1 =>
      let planes : PlanesMap :=
        match r with
        | .ok v => v
        | .error _ => l.planesToRender.planes.map fun p =>
            (p.1, { p.2 with fullscaleImage := none, downscaleImage := none })
      match planes with
      | [] => .exn .undefinedBehaviour s1
      | first :: _ =>
        if first.2.fullscaleImage.isSome then
          .val (.ok
            ({ l with planesToRender := { l.planesToRender with planes := planes },
                      isPlaneCached := first.2.fullscaleImage }, outputPlanes)) s1
        else
          let l1 : Locals :=
            { l with planesToRender := { l.planesToRender with planes := planes,
                                                               rectsToRender := [] },
                     isPlaneCached := none }
          let rects := renderRoI_makeRects env n l1
            [if l.tilesSupported then l.roi
             else if l.useImageAsOutput then l.upscaledImageBounds else l.downscaledImageBounds]
            s1
          (renderRoI_prefetchRects env rec n l1 false rects.1 l1.planesToRender.inputPremult
            rects.2).bind fun pr s2 =>
            match pr with
            | .error ret => .val (.error (ret, outputPlanes)) s2
            | .ok v =>
              .val (.ok
                ({ l1 with planesToRender := { l1.planesToRender with rectsToRender := v.1 } },
                 outputPlanes)) s2
  else .val (.ok (l, outputPlanes)) s

/-- The section of the allocation of the planes (lines 3189-3268) -/
def renderRoI_allocate_section (l : Locals) (outputPlanes : ImageList) (s : St W) :
    Out (St W) SectionResult :=
  if l.hasSomethingToRender then
    (renderRoI_allocatePlanes env l l.planesToRender.planes s).bind fun planes s1 =>
      .val (.ok ({ l with planesToRender := { l.planesToRender with planes := planes } },
        outputPlanes)) s1
  else .val (.ok (l, outputPlanes)) s

/-- The sections of `renderRoI` from "Compute RoI" to the allocation of the planes: the local
variables and the output planes the render step (lines 3271-3403) starts with -/
def renderRoI_untilRenderStep (rec : RenderRoIFn W) (n : NodeId) (l : Locals)
    (outputPlanes : ImageList) (s : St W) : Out (St W) SectionResult :=
  (((((renderRoI_computeRoI_section env n l outputPlanes s).thenSection fun x s1 =>
      renderRoI_cacheLookup_section env n x.1 x.2 s1).thenSection fun x s1 =>
      renderRoI_rects_section env n x.1 x.2 s1).thenSection fun x s1 =>
      renderRoI_preRender_section env rec n x.1 x.2 s1).thenSection fun x s1 =>
      renderRoI_redoCacheLookup_section env rec n x.1 x.2 s1).thenSection fun x s1 =>
      renderRoI_allocate_section env x.1 x.2 s1

/-- The pixel bounds of the RoD at the mip-map level `renderRoI` renders the image at: level 0
when the image rendered is the full-scale image, else the level requested -/
def Locals.fullBounds (l : Locals) : RectI :=
  env.toPixelEnclosing l.rod (if l.useImageAsOutput then 0 else l.args.mipMapLevel) l.par

/-- The state of the local variables of a node that does not support tiles: the region of
interest and the bounds of the image are the rectangle `b`, no identity rectangle is looked
for, and every rectangle to render is `b` -/
def Locals.rendersWhole (b : RectI) (l : Locals) : Prop :=
  l.tilesSupported = false ∧ l.roi = b ∧
  (if l.useImageAsOutput then l.upscaledImageBounds else l.downscaledImageBounds) = b ∧
  l.tryIdentityOptim = false ∧
  ∀ r ∈ l.planesToRender.rectsToRender, r.rect = b

/-- The local variables of `renderRoI` that fix the mip-map levels of a render: the request,
the flag `renderScaleOneUpstreamIfRenderScaleSupportDisabled`, the support of the render scale,
the flag `renderFullScaleThenDownscale`, and the mip-map level and scale the node renders at -/
def Locals.levels (l : Locals) :
    RenderRoIArgs × Bool × SupportsEnum × Bool × Nat × RenderScale :=
  (l.args, l.renderScaleOneUpstreamIfRenderScaleSupportDisabled, l.supportsRS,
   l.renderFullScaleThenDownscale, l.renderMappedMipMapLevel, l.renderMappedScale)

/-- The mip-map level the pre-fetch of `renderRoI` requests the input images at
(`useScaleOneInputImages ? 0 : mipMapLevel`, line 3678) -/
def Locals.inputMipMapLevel (l : Locals) : Nat :=
  if l.renderScaleOneUpstreamIfRenderScaleSupportDisabled then 0 else l.args.mipMapLevel

/-- The scale the pre-fetch of `renderRoI` requests the input images at
(`useScaleOneInputImages ? scaleOne : scale`, line 3677) -/
def Locals.inputScale (l : Locals) : RenderScale :=
  if l.renderScaleOneUpstreamIfRenderScaleSupportDisabled then ⟨1, 1⟩ else l.args.scale

end Sections

end Natron

namespace Natron

/-! ## Concrete graphs and states for the identity answers -/

/-- The idle graph where every node is disabled; no node has an input, so the preferred input
of a node is -1 -/
def disabledEnv : Env Unit :=
  { baseEnv with isNodeDisabled := fun _ _ => true }

/-- The state `userState` where the actions cache of every node has a slot for the hash 100,
the hash of the nodes of `baseEnv` (`invalidateAll (100)` was called on it) -/
def hashedState : St Unit :=
  { userState with
    imp := fun n => { userState.imp n with
                      actionsCache := (ActionsCache.new 4).invalidateAll 100 } }

/-- The idle graph where every node reports itself an identity of itself (input -2) at the
time it is asked for -/
def selfIdentityEnv : Env Unit :=
  { baseEnv with isIdentity := fun _ t _ _ _ w => (.ok (true, t, -2), w) }

/-! ## The heuristic for infinite regions of definition (lines 1538-1636)

The project format (`getRenderFormat`, `Format::toCanonicalFormat`), the values
`kOfxFlagInfiniteMin` and `kOfxFlagInfiniteMax`, and `isGenerator` are declared outside the
sources: they are parameters. -/

section Heuristic

variable {W : Type} (env : Env W)

/-- The function `calcDefaultRegionOfDefinition` (lines 1488-1498): the project format as a
`RectD` -/
def calcDefaultRegionOfDefinition (projectFormat : RectI) : RectD :=
  ⟨projectFormat.x1, projectFormat.y1, projectFormat.x2, projectFormat.y2⟩

/-- The loop of lines 1568-1587 of `ifInfiniteApplyHeuristic` on the input numbers below
`getMaxInputCount ()`: `inputsUnion` and `firstInput` -/
def ifInfiniteApplyHeuristic_inputs (n : NodeId) (hash : U64) (time : SequenceTime)
    (scale : RenderScale) (view : Int) : List Nat → RoDLoop → St W → RoDLoop × St W
  | [], acc, s => (acc, s)
  | i :: rest, acc, s =>
    match env.getInput n i s.world with
    | none => ifInfiniteApplyHeuristic_inputs n hash time scale view rest acc s
    | some input =>
      let inputScale : RenderScale :=
        if env.supportsRenderScaleMaybe input s.world = .eSupportsNo then ⟨1, 1⟩ else scale
      let r := getRegionOfDefinition_public env input hash time inputScale view RectD.null
        false s
      if r.1.1 ≠ .eStatusFailed then
        ifInfiniteApplyHeuristic_inputs n hash time scale view rest
          (if acc.firstInput then ⟨r.1.2.1, false⟩
           else ⟨env.rectDMerge acc.rod r.1.2.1, false⟩) r.2
      else ifInfiniteApplyHeuristic_inputs n hash time scale view rest acc r.2

/-- The RoDs that the loop of lines 1568-1587 reads: for every connected input whose
`getRegionOfDefinition_public` does not fail, its RoD, in the order of the input numbers -/
def ifInfiniteApplyHeuristic_inputRoDs (n : NodeId) (hash : U64) (time : SequenceTime)
    (scale : RenderScale) (view : Int) : List Nat → St W → List RectD
  | [], _ => []
  | i :: rest, s =>
    match env.getInput n i s.world with
    | none => ifInfiniteApplyHeuristic_inputRoDs n hash time scale view rest s
    | some input =>
      let inputScale : RenderScale :=
        if env.supportsRenderScaleMaybe input s.world = .eSupportsNo then ⟨1, 1⟩ else scale
      let r := getRegionOfDefinition_public env input hash time inputScale view RectD.null
        false s
      if r.1.1 ≠ .eStatusFailed then
        r.1.2.1 :: ifInfiniteApplyHeuristic_inputRoDs n hash time scale view rest r.2
      else ifInfiniteApplyHeuristic_inputRoDs n hash time scale view rest r.2

/-- The statements of lines 1589-1630 of `ifInfiniteApplyHeuristic`: `*rod` and
`isProjectFormat` after the four coordinates have been clipped -/
def ifInfiniteApplyHeuristic_clip (kOfxFlagInfiniteMin kOfxFlagInfiniteMax : ℚ)
    (inputsUnion projectDefault rod : RectD) : RectD × Bool :=
  let x1Infinite := decide (rod.x1 ≤ kOfxFlagInfiniteMin)
  let y1Infinite := decide (rod.y1 ≤ kOfxFlagInfiniteMin)
  let x2Infinite := decide (rod.x2 ≥ kOfxFlagInfiniteMax)
  let y2Infinite := decide (rod.y2 ≥ kOfxFlagInfiniteMax)
  let a : RectD × Bool :=
    if x1Infinite then
      let x1 := if !inputsUnion.isNull then min inputsUnion.x1 projectDefault.x1
                else projectDefault.x1
      ({ rod with x1 := x1, x2 := max x1 rod.x2 }, inputsUnion.isNull)
    else (rod, false)
  let b : RectD × Bool :=
    if y1Infinite then
      let y1 := if !inputsUnion.isNull then min inputsUnion.y1 projectDefault.y1
                else projectDefault.y1
      ({ a.1 with y1 := y1, y2 := max y1 a.1.y2 }, a.2 || inputsUnion.isNull)
    else a
  let c : RectD × Bool :=
    if x2Infinite then
      let x2 := if !inputsUnion.isNull then max inputsUnion.x2 projectDefault.x2
                else projectDefault.x2
      ({ b.1 with x2 := x2, x1 := min b.1.x1 x2 }, b.2 || inputsUnion.isNull)
    else b
  if y2Infinite then
    let y2 := if !inputsUnion.isNull then max inputsUnion.y2 projectDefault.y2
              else projectDefault.y2
    ({ c.1 with y2 := y2, y1 := min c.1.y1 y2 }, c.2 || inputsUnion.isNull)
  else c

/-- The function `ifInfiniteApplyHeuristic`: the flag returned and `*rod` -/
def ifInfiniteApplyHeuristic (kOfxFlagInfiniteMin kOfxFlagInfiniteMax : ℚ)
    (projectFormat : RectI) (toCanonicalFormat : RectI → RectD) (isGenerator : Bool)
    (n : NodeId) (hash : U64) (time : SequenceTime) (scale : RenderScale) (view : Int)
    (rod : RectD) (s : St W) : (Bool × RectD) × St W :=
  let projectDefault := toCanonicalFormat projectFormat
  let anyInfinite : Bool :=
    decide (rod.x1 ≤ kOfxFlagInfiniteMin) || decide (rod.y1 ≤ kOfxFlagInfiniteMin) ||
    decide (rod.x2 ≥ kOfxFlagInfiniteMax) || decide (rod.y2 ≥ kOfxFlagInfiniteMax)
  let u : RoDLoop × St W :=
    if anyInfinite then
      ifInfiniteApplyHeuristic_inputs env n hash time scale view
        (List.range (env.getMaxInputCount n s.world).toNat)
        ⟨calcDefaultRegionOfDefinition projectFormat, true⟩ s
    else (⟨RectD.null, true⟩, s)
  let r := ifInfiniteApplyHeuristic_clip kOfxFlagInfiniteMin kOfxFlagInfiniteMax u.1.rod
    projectDefault rod
  ((r.2 && isGenerator, r.1), u.2)

/-- Every coordinate of the rectangle is strictly between `kOfxFlagInfiniteMin` and
`kOfxFlagInfiniteMax` -/
def RectD.isFinite (kOfxFlagInfiniteMin kOfxFlagInfiniteMax : ℚ) (r : RectD) : Bool :=
  decide (kOfxFlagInfiniteMin < r.x1) && decide (r.x1 < kOfxFlagInfiniteMax) &&
  decide (kOfxFlagInfiniteMin < r.y1) && decide (r.y1 < kOfxFlagInfiniteMax) &&
  decide (kOfxFlagInfiniteMin < r.x2) && decide (r.x2 < kOfxFlagInfiniteMax) &&
  decide (kOfxFlagInfiniteMin < r.y2) && decide (r.y2 < kOfxFlagInfiniteMax)

end Heuristic

/-! ## The split of a rectangle in tiles (`Rect.cpp`)

The class `RectI` is declared in `Rect.h`, outside the sources: `width`, `height` and `area` are
read from their names. The value `(int) std::ceil (dim1 / std::sqrt (avgArea))`, computed on
doubles, is the parameter `ceilDivSqrt`. The function is modelled for `NATRON_SPLITRECT_SCANLINE`
undefined. An `int` that overflows or a division by zero is undefined behaviour: the result is
`none`. -/

/-- The value of `MINAREA` (`MINAREA128`): the minimum area of a tile -/
def MINAREA : Int := 16384

/-- The accessor `RectI::width` of `Rect.h` (not among the sources) -/
def RectI.width (r : RectI) : Int := r.x2 - r.x1

/-- The accessor `RectI::height` of `Rect.h` (not among the sources) -/
def RectI.height (r : RectI) : Int := r.y2 - r.y1

/-- The accessor `RectI::area` of `Rect.h` (not among the sources) -/
def RectI.area (r : RectI) : Int := r.width * r.height

/-- The value is an `int` -/
def fitsInt (v : Int) : Bool := decide (INT_MIN ≤ v) && decide (v ≤ INT_MAX)

/-- The least `n` with `n >= dim1 / sqrt (avgArea)`, for a positive `avgArea`: the value of
`(int) std::ceil (dim1 / std::sqrt (avgArea))` when the doubles are exact -/
def ceilDivSqrtExact (dim1 : Int) (avgArea : ℚ) : Int :=
  if ⌈(dim1 : ℚ) * dim1 / avgArea⌉ ≤ 0 then 0
  else (Nat.sqrt ((⌈(dim1 : ℚ) * dim1 / avgArea⌉).toNat - 1) + 1 : Nat)

/-- The tiles of lines 75-86: `numRows` rows from the top one down, each of `numCols` tiles from
the left -/
def splitIntoSmallerRects_tiles (r : RectI) (numRows numCols : Int) : List RectI :=
  (List.range numRows.toNat).reverse.flatMap fun (i : Nat) =>
    (List.range numCols.toNat).map fun (j : Nat) =>
      ⟨r.x1 + ((j : Int) * r.width).tdiv numCols, r.y1 + ((i : Int) * r.height).tdiv numRows,
       r.x1 + (((j : Int) + 1) * r.width).tdiv numCols,
       r.y1 + (((i : Int) + 1) * r.height).tdiv numRows⟩

/-- The numbers of tiles along the larger and the smaller dimension (lines 63-69): the last
values of `num1` and `num2`, `none` when a divisor is zero -/
def splitIntoSmallerRects_counts (num1 dim1 dim2 splitsCount : Int) : Option (Int × Int) :=
  if num1 = 0 then none
  else if dim1.tdiv num1 = 0 then none
  else if MINAREA.tdiv (dim1.tdiv num1) = 0 then none
  else
    let num2 : Int :=
      max 1 (min (splitsCount.tdiv num1) (dim2.tdiv (MINAREA.tdiv (dim1.tdiv num1))))
    if dim2.tdiv num2 = 0 then none
    else if 1 + (MINAREA - 1).tdiv (dim2.tdiv num2) = 0 then none
    else
      some (max 1 (min (splitsCount.tdiv num2)
        (dim1.tdiv (1 + (MINAREA - 1).tdiv (dim2.tdiv num2)))), num2)

/-- The function `RectI::splitIntoSmallerRects` (lines 17-91): the rectangles returned, `none`
when the behaviour is undefined -/
def splitIntoSmallerRects (ceilDivSqrt : Int → ℚ → Int) (r : RectI) (splitsCount : Int) :
    Option (List RectI) :=
  if r.isNull then some []
  else if !(fitsInt r.width && fitsInt r.height && fitsInt (r.width * r.height)) then none
  else if r.area ≤ MINAREA then some [r]
  else
    let splitsCount1 : Int := if splitsCount = 0 then r.area.tdiv MINAREA else splitsCount
    let avgArea : ℚ := (r.area : ℚ) / (splitsCount1 : ℚ)
    let landscape : Bool := decide (r.width > r.height)
    let dim1 : Int := if landscape then r.width else r.height
    let dim2 : Int := if landscape then r.height else r.width
    match splitIntoSmallerRects_counts (ceilDivSqrt dim1 avgArea) dim1 dim2 splitsCount1 with
    | none => none
    | some num =>
      let numRows : Int := if landscape then num.2 else num.1
      let numCols : Int := if landscape then num.1 else num.2
      if !(fitsInt (numRows * r.height) && fitsInt (numCols * r.width)) then none
      else some (splitIntoSmallerRects_tiles r numRows numCols)

/-- The value that `ceilDivSqrt` gives for the rectangle is a number of tiles between 1 and the
larger dimension that is not below `dim1 / sqrt (avgArea)`, as a ceiling is: its square times
the area is at least the square of the larger dimension times the number of splits -/
def RectI.ceilDivSqrtOk (ceilDivSqrt : Int → ℚ → Int) (r : RectI) : Prop :=
  1 ≤ ceilDivSqrt (max r.width r.height) ((r.area : ℚ) / ((r.area / MINAREA : Int) : ℚ)) ∧
  ceilDivSqrt (max r.width r.height) ((r.area : ℚ) / ((r.area / MINAREA : Int) : ℚ)) ≤
    max r.width r.height ∧
  max r.width r.height * max r.width r.height * (r.area / MINAREA) ≤
    ceilDivSqrt (max r.width r.height) ((r.area : ℚ) / ((r.area / MINAREA : Int) : ℚ)) *
    ceilDivSqrt (max r.width r.height) ((r.area : ℚ) / ((r.area / MINAREA : Int) : ℚ)) * r.area

/-- The area of the rectangle is an `int`, and so is the product of its larger dimension by
the number of splits `area () / MINAREA`: no `int` of `splitIntoSmallerRects (0)` overflows -/
def RectI.splitFitsInt (r : RectI) : Prop :=
  r.area ≤ INT_MAX ∧ r.area / MINAREA * max r.width r.height ≤ INT_MAX

/-- The pixel (x, y) is in the rectangle -/
def RectI.hasPixel (r : RectI) (x y : Int) : Bool :=
  decide (r.x1 ≤ x) && decide (x < r.x2) && decide (r.y1 ≤ y) && decide (y < r.y2)

/-! ## The identity tiles of the rectangles to render (lines 2181-2261)

`RectI::intersects` is declared in `Rect.h` and the structure `EffectInstance::RectToRender` in
`EffectInstance.h`, outside the sources: the predicate is the parameter `intersects`, and a
structure as its constructor leaves it is the parameter `newRectToRender`. The loop `for (;;)`
of the walk along the identity inputs has a budget of turns. -/

section Optimize

variable {W : Type} (env : Env W)

/-- The loop `for (;;)` of lines 2226-2241 of `optimizeRectsToRender`: the walk along the
identity inputs from `identityInput`; the last `identityInput` and `identityInputTime` -/
def optimizeRectsToRender_walk (time : SequenceTime) (scale : RenderScale) (split : RectI)
    (view : Int) : Nat → NodeId → St W → Out (St W) (Option NodeId × SequenceTime)
  | 0, _, _ => .diverge
  | fuel + 1, identityInput, s =>
    (isIdentity_public env identityInput false 0 time scale split view s).bind fun r s1 =>
      if !r.1 then .val (some identityInput, r.2.1) s1
      else
        match env.getInput identityInput r.2.2 s1.world with
        | none => .val (none, r.2.1) s1
        | some subIdentityInput =>
          if subIdentityInput = identityInput then .val (some identityInput, r.2.1) s1
          else optimizeRectsToRender_walk time scale split view fuel subIdentityInput s1

/-- The identity answer of `optimizeRectsToRender` for a tile (lines 2208-2245): `none` when
the tile is not an identity, else `r.identityInput` and `r.identityTime` -/
def optimizeRectsToRender_identity (intersects : RectI → RectI → Bool) (fuel : Nat)
    (self : NodeId) (inputsRoDIntersection : RectI) (time : SequenceTime) (view : Int)
    (renderMappedScale : RenderScale) (split : RectI) (s : St W) :
    Out (St W) (Option (Option NodeId × SequenceTime)) :=
  if !intersects split inputsRoDIntersection then
    (isIdentity_public env self false 0 time renderMappedScale split view s).bind fun r s1 =>
      if r.1 then
        match env.getInput self r.2.2 s1.world with
        | some identityInput =>
          (optimizeRectsToRender_walk env time renderMappedScale split view fuel identityInput
            s1).bind fun w s2 => .val (some w) s2
        | none => .val (some (none, r.2.1)) s1
      else .val none s1
  else .val none s

/-- The loop of lines 2207-2255 of `optimizeRectsToRender` on the tiles of a rectangle:
`nonIdentityRect.rect` with `nonIdentityRectSet`, and `finalRectsToRender` -/
def optimizeRectsToRender_splits (intersects : RectI → RectI → Bool)
    (newRectToRender : RectToRender) (fuel : Nat) (self : NodeId)
    (inputsRoDIntersection : RectI) (time : SequenceTime) (view : Int)
    (renderMappedScale : RenderScale) :
    List RectI → RectI × Bool → List RectToRender → St W →
      Out (St W) ((RectI × Bool) × List RectToRender)
  | [], nonIdentityRect, finalRectsToRender, s => .val (nonIdentityRect, finalRectsToRender) s
  | split :: rest, nonIdentityRect, finalRectsToRender, s =>
    (optimizeRectsToRender_identity env intersects fuel self inputsRoDIntersection time view
      renderMappedScale split s).bind fun identity s1 =>
      match identity with
      | some r =>
        optimizeRectsToRender_splits intersects newRectToRender fuel self inputsRoDIntersection
          time view renderMappedScale rest nonIdentityRect
          (finalRectsToRender ++ [{ newRectToRender with
            isIdentity := true, identityInput := r.1, identityTime := r.2, rect := split }]) s1
      | none =>
        optimizeRectsToRender_splits intersects newRectToRender fuel self inputsRoDIntersection
          time view renderMappedScale rest
          (⟨min split.x1 nonIdentityRect.1.x1, min split.y1 nonIdentityRect.1.y1,
            max split.x2 nonIdentityRect.1.x2, max split.y2 nonIdentityRect.1.y2⟩, true)
          finalRectsToRender s1

/-- The loop of lines 2195-2259 of `optimizeRectsToRender` on the rectangles to render, given
with their tiles -/
def optimizeRectsToRender_rects (intersects : RectI → RectI → Bool)
    (newRectToRender : RectToRender) (fuel : Nat) (self : NodeId)
    (inputsRoDIntersection : RectI) (time : SequenceTime) (view : Int)
    (renderMappedScale : RenderScale) :
    List (List RectI) → List RectToRender → St W → Out (St W) (List RectToRender)
  | [], finalRectsToRender, s => .val finalRectsToRender s
  | splits :: rest, finalRectsToRender, s =>
    (optimizeRectsToRender_splits env intersects newRectToRender fuel self
      inputsRoDIntersection time view renderMappedScale splits
      (⟨INT_MAX, INT_MAX, INT_MIN, INT_MIN⟩, false) finalRectsToRender s).bind fun r s1 =>
      optimizeRectsToRender_rects intersects newRectToRender fuel self inputsRoDIntersection
        time view renderMappedScale rest
        (if r.1.2 then
          r.2 ++ [{ newRectToRender with
            isIdentity := false, identityInput := none, rect := r.1.1 }]
         else r.2) s1

/-- The function `optimizeRectsToRender` (lines 2187-2261): `*finalRectsToRender` on return;
`none` when the split of a rectangle has an undefined behaviour -/
def optimizeRectsToRender (ceilDivSqrt : Int → ℚ → Int) (intersects : RectI → RectI → Bool)
    (newRectToRender : RectToRender) (fuel : Nat) (self : NodeId)
    (inputsRoDIntersection : RectI) (rectsToRender : List RectI) (time : SequenceTime)
    (view : Int) (renderMappedScale : RenderScale) (finalRectsToRender : List RectToRender)
    (s : St W) : Option (Out (St W) (List RectToRender)) :=
  (rectsToRender.mapM fun r => splitIntoSmallerRects ceilDivSqrt r 0).map fun splits =>
    optimizeRectsToRender_rects env intersects newRectToRender fuel self inputsRoDIntersection
      time view renderMappedScale splits finalRectsToRender s

/-- The bounding box of tiles as lines 2250-2253 accumulate it from `box` -/
def optimizeRectsToRender_boundingBox (box : RectI) : List RectI → RectI
  | [] => box
  | t :: rest =>
    optimizeRectsToRender_boundingBox
      ⟨min t.x1 box.x1, min t.y1 box.y1, max t.x2 box.x2, max t.y2 box.y2⟩ rest

/-- The tiles with an identity answer, each as a rectangle to render of its own -/
def optimizeRectsToRender_identityRects (newRectToRender : RectToRender) :
    List (RectI × Option (Option NodeId × SequenceTime)) → List RectToRender
  | [] => []
  | (split, some r) :: rest =>
    { newRectToRender with
      isIdentity := true, identityInput := r.1, identityTime := r.2, rect := split } ::
    optimizeRectsToRender_identityRects newRectToRender rest
  | (_, none) :: rest => optimizeRectsToRender_identityRects newRectToRender rest

/-- The tiles without an identity answer -/
def optimizeRectsToRender_otherTiles :
    List (RectI × Option (Option NodeId × SequenceTime)) → List RectI
  | [] => []
  | (_, some _) :: rest => optimizeRectsToRender_otherTiles rest
  | (split, none) :: rest => split :: optimizeRectsToRender_otherTiles rest

/-- The rectangles to render of a rectangle whose tiles have the given identity answers: the
identity tiles, then the bounding box of the other tiles when there is one -/
def optimizeRectsToRender_emitted (newRectToRender : RectToRender)
    (tiles : List (RectI × Option (Option NodeId × SequenceTime))) : List RectToRender :=
  optimizeRectsToRender_identityRects newRectToRender tiles ++
    (if (optimizeRectsToRender_otherTiles tiles).isEmpty then []
     else [{ newRectToRender with
             isIdentity := false, identityInput := none,
             rect := optimizeRectsToRender_boundingBox ⟨INT_MAX, INT_MAX, INT_MIN, INT_MIN⟩
               (optimizeRectsToRender_otherTiles tiles) }])

end Optimize

/-- A rectangle to render with no identity input, no image and no region of interest -/
def emptyRectToRender : RectToRender :=
  { rect := ⟨0, 0, 0, 0⟩, identityInput := none, isIdentity := false, identityTime := 0,
    imgs := [], inputRois := [] }

/-- The graph `chainEnv` where node 0 is an identity of its input 0 on the window
(128, 0) - (256, 128) and on no other window -/
def middleIdentityEnv : Env Unit :=
  { chainEnv with
    isIdentity := fun n t _ window _ w =>
      if n = 0 ∧ window = ⟨128, 0, 256, 128⟩ then (.ok (true, t, 0), w)
      else (.ok (false, t, -1), w) }

/-! ## The image of an input (`getImage`, lines 1153-1486)

The roto context, the clip preferences of an input, the conversion of a rectangle to pixels at a
scale, the render of a roto stroke, `RectI::intersects`, `Image::upscaleMipMap` and the
conversion with a mask channel are declared outside the sources: they are the fields of
`GetImageEnv`. The macro `RECURSIVE_ACTION` and the debug messages are left out. -/

/-- The collaborators of `getImage` outside `EffectInstance.cpp` -/
structure GetImageEnv (W : Type) where
  /-- Whether `getNode ()->getRotoContext ()` is not null -/
  hasRotoContext : NodeId → W → Bool
  /-- Whether `attachedStroke->getContext ()` is not null -/
  attachedStrokeHasContext : NodeId → W → Bool
  /-- The effect `attachedStroke->getContext ()->getNode ()->getLiveInstance ()` -/
  attachedStrokeContextNode : NodeId → W → Option NodeId
  getRotoAge : NodeId → W → U64
  /-- The C++ `getPreferredDepthAndComponents (inputNb, ...)` -/
  getPreferredDepthAndComponents : NodeId → Int → W → List ImageComponents × ImageBitDepthEnum
  /-- The C++ `RectD::toPixelEnclosing (scale, par, ...)` -/
  toPixelEnclosingScale : RectD → RenderScale → ℚ → RectI
  getOrRenderLastStrokeImage : NodeId → Nat → RectI → ℚ → ImageComponents → ImageBitDepthEnum →
    W → ImagePtr × W
  renderMaskFromStroke : NodeId → RectI → U64 → U64 → ImageComponents → SequenceTime → Int →
    ImageBitDepthEnum → Nat → W → ImagePtr × W
  intersects : RectI → RectI → Bool
  /-- The C++ `upscaleMipMap` of the first image into the second -/
  upscaleMipMap : Image → RectI → Nat → Nat → Image → W → W
  /-- The C++ `convertToFormat` of the first image into the second, with the mask channel and
  `unPremultIfNeeded` -/
  convertToFormatMask : Image → RectI → Int → Bool → Image → W → W

/-- The data of the render in progress that `getImage` reads from the thread-local storage or
recovers with `retrieveGetImageDataUponFailure` -/
structure GetImageData where
  nodeHash : U64
  rotoAge : U64
  isIdentity : Bool
  inputIdentityTime : SequenceTime
  inputNbIdentity : Int
  duringPaintStroke : Bool
  rod : RectD
  inputsRoI : RoIMap

section GetImage

variable {W : Type} (env : Env W)

/-- The function `retrieveGetImageDataUponFailure` (lines 1052-1128): `none` when it returns
false -/
def retrieveGetImageDataUponFailure (ops : GetImageEnv W) (n : NodeId) (time : SequenceTime)
    (view : Int) (scale : RenderScale) (optionalBoundsParam : Option RectD) (s : St W) :
    Out (St W) (Option GetImageData) :=
  let nodeHash := env.getHash n s.world
  let rotoAge := ops.getRotoAge n s.world
  let duringPaintStroke := env.nodeIsDuringPaintStrokeCreation n s.world
  let r := env.getRegionOfDefinition n nodeHash time scale view RectD.null s.world
  if r.1.1 = .eStatusFailed then .val none (s.setWorld r.2)
  else
    let rod := r.1.2
    let s1 := s.setWorld r.2
    let rois : RoIMap × St W :=
      match optionalBoundsParam with
      | some _ => ([], s1)
      | none =>
        let h := env.ifInfiniteApplyHeuristic n nodeHash time scale view rod s1.world
        let g := env.getRegionsOfInterest n time scale h.1.2 h.1.2 0 h.2
        (g.1, s1.setWorld g.2)
    let pixelRod := ops.toPixelEnclosingScale rod scale (env.getPreferredAspectRatio n rois.2.world)
    match isIdentity_public env n true nodeHash time scale pixelRod view rois.2 with
    | .val id s2 =>
      .val (some { nodeHash := nodeHash, rotoAge := rotoAge, isIdentity := id.1,
                   inputIdentityTime := id.2.1, inputNbIdentity := id.2.2,
                   duringPaintStroke := duringPaintStroke, rod := rod, inputsRoI := rois.1 }) s2
    | .exn _ s2 => .val none s2
    | .diverge => .diverge

/-- The function `Implementation::addInputImageTempPointer` (lines 680-684) -/
def addInputImageTempPointer (n : NodeId) (inputNb : Int) (img : Image) (s : St W) : St W :=
  let tls : InputImagesMap := ((s.imp n).inputImages).getD []
  s.setInputImages n
    (match StdMap.find (fun a b => decide (a < b)) tls inputNb with
     | some l => StdMap.assign (fun a b => decide (a < b)) tls inputNb (l ++ [img])
     | none => StdMap.insert (fun a b => decide (a < b)) tls inputNb [img])

/-- The data of lines 1251-1280 of `getImage`: read from the thread-local storage when both
arguments are there and valid, else recovered -/
def getImage_data (ops : GetImageEnv W) (self : NodeId) (time : SequenceTime)
    (scale : RenderScale) (view : Int) (optionalBoundsParam : Option RectD) (s : St W) :
    Out (St W) (Option GetImageData) :=
  match (s.imp self).renderArgs, (s.imp self).frameRenderArgs with
  | some renderArgs, some frameRenderArgs =>
    if !renderArgs._validArgs || decide (frameRenderArgs.validArgs = 0) then
      retrieveGetImageDataUponFailure env ops self time view scale optionalBoundsParam s
    else
      .val (some { nodeHash := frameRenderArgs.nodeHash, rotoAge := frameRenderArgs.rotoAge,
                   isIdentity := renderArgs._isIdentity,
                   inputIdentityTime := renderArgs._identityTime,
                   inputNbIdentity := renderArgs._identityInputNb,
                   duringPaintStroke := frameRenderArgs.isDuringPaintStrokeCreation,
                   rod := renderArgs._rod,
                   inputsRoI := renderArgs._regionOfInterestResults }) s
  | _, _ => retrieveGetImageDataUponFailure env ops self time view scale optionalBoundsParam s

/-- The end of `getImage` (lines 1405-1482) on the image `inputImg` that the input rendered:
the image returned and the value written to `*roiPixel` -/
def getImage_convert (ops : GetImageEnv W) (self : NodeId) (inputNb : Int) (par : ℚ)
    (dontUpscale : Bool) (channelForMask : Int) (prefComps : ImageComponents) (rod : RectD)
    (renderFullScaleThenDownscale : Bool) (pixelRoI : RectI)
    (inputImagesThreadLocal : InputImagesMap) (inputImg : Image) (s : St W) :
    Out (St W) (ImagePtr × Option RectI) :=
  if !ops.intersects pixelRoI (env.imageGetBounds inputImg s.world) then .val (none, none) s
  else
    let inputImgMipMapLevel := inputImg.mipMapLevel
    let up : (Image × RectI) × St W :=
      if !dontUpscale && renderFullScaleThenDownscale && decide (inputImgMipMapLevel ≠ 0) then
        let bounds := env.toPixelEnclosing (env.imageGetRoD inputImg s.world) 0 par
        let rescaled := newImage env inputImg.components (env.imageGetRoD inputImg s.world)
          bounds 0 par inputImg.bitDepth false s
        ((rescaled.1,
          env.toPixelEnclosing (env.toCanonical pixelRoI inputImgMipMapLevel par rod) 0 par),
         rescaled.2.setWorld (ops.upscaleMipMap inputImg
           (env.imageGetBounds inputImg rescaled.2.world) inputImgMipMapLevel 0 rescaled.1
           rescaled.2.world))
      else ((inputImg, pixelRoI), s)
    let img1 := up.1.1
    let s1 := up.2
    let remap : Image × St W :=
      if prefComps.getNumComponents ≠ img1.components.getNumComponents then
        let remapped := newImage env prefComps (env.imageGetRoD img1 s1.world)
          (env.imageGetBounds img1 s1.world) img1.mipMapLevel img1.par img1.bitDepth false s1
        let unPremultIfNeeded : Bool :=
          decide (env.getOutputPremultiplication self remapped.2.world =
            .eImagePremultiplicationPremultiplied) &&
          decide (img1.components.getNumComponents = 4) &&
          decide (prefComps.getNumComponents = 3)
        (remapped.1, remapped.2.setWorld (ops.convertToFormatMask img1
          (env.imageGetBounds img1 remapped.2.world) channelForMask unPremultIfNeeded
          remapped.1 remapped.2.world))
      else (img1, s1)
    .val (some remap.1, some up.1.2)
      (if inputImagesThreadLocal.isEmpty then addInputImageTempPointer self inputNb remap.1 remap.2
       else remap.2)

/-- The function `EffectInstance::getImage` (lines 1153-1486): the image returned, null or
not, and the value written to `*roiPixel` when one is; `renderRoI` is the function called on
the input -/
def getImage (ops : GetImageEnv W) (renderRoI : RenderRoIFn W) (self : NodeId) (inputNb : Int)
    (time : SequenceTime) (scale : RenderScale) (view : Int) (optionalBoundsParam : Option RectD)
    (comp : ImageComponents) (depth : ImageBitDepthEnum) (par : ℚ) (dontUpscale : Bool)
    (s : St W) : Out (St W) (ImagePtr × Option RectI) :=
  let n0 := env.getInput self inputNb s.world
  let isMask := env.isInputMask self inputNb s.world
  let attachedStroke := env.hasAttachedRotoItem self s.world
  let roto : Bool :=
    if attachedStroke then ops.attachedStrokeHasContext self s.world
    else ops.hasRotoContext self s.world
  let useRotoInput : Bool := roto && (isMask || env.isInputRotoBrush self inputNb s.world)
  if isMask && !env.isMaskEnabled self inputNb s.world then .val (none, none) s
  else
    let mask := env.getMaskChannel self inputNb s.world
    let channelForMask : Int := if isMask then mask.1 else -1
    let maskComps : ImageComponents := mask.2.1
    let n : Option NodeId :=
      if isMask then (match mask.2.2 with | some maskInput => some maskInput | none => n0)
      else n0
    if isMask && (decide (channelForMask = -1) || decide (maskComps.getNumComponents = 0)) then
      .val (none, none) s
    else if (!roto || (roto && !useRotoInput)) && n.isNone then .val (none, none) s
    else
      match (ops.getPreferredDepthAndComponents self inputNb s.world).1 with
      | [] => .exn .undefinedBehaviour s
      | prefComps :: _ =>
        let mipMapLevel := env.getLevelFromScale scale.x
        (getImage_data env ops self time scale view optionalBoundsParam s).bind fun data s1 =>
          match data with
          | none => .val (none, none) s1
          | some d =>
            let roi : RectD :=
              match optionalBoundsParam with
              | some optionalBounds => optionalBounds
              | none =>
                let inputToFind : Option NodeId :=
                  if useRotoInput then
                    (if ops.hasRotoContext self s1.world then some self
                     else ops.attachedStrokeContextNode self s1.world)
                  else n
                match d.inputsRoI.find inputToFind with
                | some found => found
                | none => d.rod
            if roi.isNull then .val (none, none) s1
            else
              /- lines 1311-1319: when `isIdentity` and `inputNbIdentity != inputNb` the
              statement `ImagePtr ();` builds a null pointer and drops it -/
              if env.supportsRenderScaleMaybe self s1.world = .eSupportsMaybe then
                .exn .supportsRenderScaleNotSet s1
              else
                let renderFullScaleThenDownscale : Bool :=
                  decide (env.supportsRenderScaleMaybe self s1.world ≠ .eSupportsYes) &&
                  decide (mipMapLevel ≠ 0)
                let renderScaleOneUpstreamIfRenderScaleSupportDisabled : Bool :=
                  renderFullScaleThenDownscale &&
                  env.useScaleOneImagesWhenRenderScaleSupportIsDisabled self s1.world
                let renderMappedMipMapLevel : Nat :=
                  if renderScaleOneUpstreamIfRenderScaleSupportDisabled then 0 else mipMapLevel
                let pixelRoI := env.toPixelEnclosing roi
                  (if renderScaleOneUpstreamIfRenderScaleSupportDisabled then 0 else mipMapLevel)
                  par
                let inputImagesThreadLocal : InputImagesMap := ((s1.imp self).inputImages).getD []
                if useRotoInput then
                  if attachedStroke then
                    let r :=
                      if d.duringPaintStroke then
                        ops.getOrRenderLastStrokeImage self mipMapLevel pixelRoI par prefComps
                          depth s1.world
                      else
                        ops.renderMaskFromStroke self pixelRoI d.rotoAge d.nodeHash prefComps
                          time view depth mipMapLevel s1.world
                    let s2 := s1.setWorld r.2
                    match r.1 with
                    | none => .exn .undefinedBehaviour s2
                    | some inputImg =>
                      if !ops.intersects pixelRoI (env.imageGetBounds inputImg s2.world) then
                        .val (none, some pixelRoI) s2
                      else
                        .val (some inputImg, some pixelRoI)
                          (if inputImagesThreadLocal.isEmpty then
                            addInputImageTempPointer self inputNb inputImg s2
                           else s2)
                  else .exn .undefinedBehaviour s1
                else
                  match n with
                  | none => .exn .undefinedBehaviour s1
                  | some input =>
                    (renderRoI input
                      { time := time, scale := scale, mipMapLevel := renderMappedMipMapLevel,
                        view := view, byPassCache := false, roi := pixelRoI,
                        preComputedRoD := RectD.null,
                        components := [if isMask then maskComps else comp],
                        bitdepth := depth, caller := some self,
                        inputImagesList := inputImagesThreadLocal } [] s1).bind fun r s2 =>
                      match r.2 with
                      | [] => .val (none, none) s2
                      | inputImg :: _ =>
                        if r.1 ≠ .eRenderRoIRetCodeOk then .val (none, none) s2
                        else
                          getImage_convert env ops self inputNb par dontUpscale channelForMask
                            prefComps d.rod renderFullScaleThenDownscale pixelRoI
                            inputImagesThreadLocal inputImg s2

end GetImage

/-- The idle graph where node 0 has node 1 as input 0 and node 2 as input 1 -/
def twoInputsEnv : Env Unit :=
  { baseEnv with
    getInput := fun n i _ =>
      if n = 0 ∧ i = 0 then some 1 else if n = 0 ∧ i = 1 then some 2 else none,
    getMaxInputCount := fun n _ => if n = 0 then 2 else 0 }

/-- The collaborators of `getImage` for a graph without roto: every input prefers RGBA float
images, every conversion leaves the world alone -/
def baseGetImageEnv : GetImageEnv Unit :=
  { hasRotoContext := fun _ _ => false
    attachedStrokeHasContext := fun _ _ => false
    attachedStrokeContextNode := fun _ _ => none
    getRotoAge := fun _ _ => 0
    getPreferredDepthAndComponents := fun _ _ _ => ([⟨0, 4, true⟩], 3)
    toPixelEnclosingScale := fun r _ _ => ⟨⌊r.x1⌋, ⌊r.y1⌋, ⌈r.x2⌉, ⌈r.y2⌉⟩
    getOrRenderLastStrokeImage := fun _ _ _ _ _ _ w => (none, w)
    renderMaskFromStroke := fun _ _ _ _ _ _ _ _ _ w => (none, w)
    intersects := rectsOverlap
    upscaleMipMap := fun _ _ _ _ _ w => w
    convertToFormatMask := fun _ _ _ _ _ w => w }

/-- The state `userState` during a render action of node 0 whose thread-local arguments say
that node 0 is an identity of its input 1 at time 1, with the RoD (0, 0) - (100, 100) -/
def identityOfInput1State : St Unit :=
  userState.setRenderArgs 0
    { RenderArgs.new with _validArgs := true, _isIdentity := true, _identityInputNb := 1,
                          _identityTime := 1, _rod := ⟨0, 0, 100, 100⟩ }

/-! ## The lookup of an image in the cache (`getImageFromCacheAndConvertIfNeeded`, lines 1775-1951)

The key and the parameters of an image, the cache lookup, the project format,
`ImageComponents::isConvertibleTo`, `getSizeOfForBitDepth`, `Image::allocateMemory`,
`RectI::merge` and `Image::pasteFrom` are declared outside the sources: they are the fields of
`CacheLookupEnv`. -/

/-- The collaborators of `getImageFromCacheAndConvertIfNeeded` outside `EffectInstance.cpp` -/
structure CacheLookupEnv (W : Type) where
  imageGetKey : Image → W → ImageKey
  imageGetParams : Image → W → ImageParams
  /-- The C++ `Natron::getImageFromCache` (`useDiskCache = false`) or
  `Natron::getImageFromDiskCache`: the flag returned and the images of the key -/
  getImageFromCache : Bool → ImageKey → W → (Bool × ImageList) × W
  /-- The C++ `getRenderFormat` then `Format::toCanonicalFormat` -/
  canonicalProjectFormat : NodeId → W → RectD
  isConvertibleTo : ImageComponents → ImageComponents → Bool
  getSizeOfForBitDepth : ImageBitDepthEnum → Int
  allocateMemory : Image → W → W
  rectIMerge : RectI → RectI → RectI
  /-- The C++ `pasteFrom` of the second image into the first -/
  pasteFrom : Image → Image → RectI → W → W

section CacheLookup

variable {W : Type} (env : Env W)

/-- The format checks of lines 1823-1839: the cached image is thrown away -/
def getImageFromCacheAndConvertIfNeeded_discards (ops : CacheLookupEnv W) (n : NodeId)
    (nodePrefDepth : ImageBitDepthEnum) (nodePrefComps : ImageComponents) (it : Image)
    (w : W) : Bool :=
  ((ops.imageGetParams it w).isProjectFormat &&
    decide (ops.canonicalProjectFormat n w ≠ env.imageGetRoD it w)) ||
  ((it.components.isColorPlane && nodePrefComps.isColorPlane &&
    decide (it.components ≠ nodePrefComps)) || decide (it.bitDepth ≠ nodePrefDepth))

/-- The loop of lines 1818-1872 on the cached images: `*image` when the loop ends by `break`,
`imageToConvert`, and the world -/
def getImageFromCacheAndConvertIfNeeded_select (ops : CacheLookupEnv W) (n : NodeId)
    (mipMapLevel : Nat) (bitdepth : ImageBitDepthEnum) (components : ImageComponents)
    (nodePrefDepth : ImageBitDepthEnum) (nodePrefComps : ImageComponents) :
    ImageList → ImagePtr → W → (ImagePtr × ImagePtr) × W
  | [], imageToConvert, w => ((none, imageToConvert), w)
  | it :: rest, imageToConvert, w =>
    if getImageFromCacheAndConvertIfNeeded_discards env ops n nodePrefDepth nodePrefComps it w
    then
      getImageFromCacheAndConvertIfNeeded_select ops n mipMapLevel bitdepth components
        nodePrefDepth nodePrefComps rest imageToConvert (env.removeFromNodeCache it w)
    else
      let convertible := ops.isConvertibleTo it.components components
      if decide (it.mipMapLevel = mipMapLevel) && convertible &&
          decide (ops.getSizeOfForBitDepth it.bitDepth ≥ ops.getSizeOfForBitDepth bitdepth) then
        ((some it, imageToConvert), w)
      else if decide (it.mipMapLevel ≥ mipMapLevel) || !convertible ||
          decide (ops.getSizeOfForBitDepth it.bitDepth < ops.getSizeOfForBitDepth bitdepth) then
        getImageFromCacheAndConvertIfNeeded_select ops n mipMapLevel bitdepth components
          nodePrefDepth nodePrefComps rest imageToConvert w
      else
        getImageFromCacheAndConvertIfNeeded_select ops n mipMapLevel bitdepth components
          nodePrefDepth nodePrefComps rest
          (match imageToConvert with
           | none => some it
           | some c => if it.mipMapLevel > c.mipMapLevel then some it else some c) w

/-- The parameters of the image at the requested mip-level and the bounds of the image
converted (lines 1881-1915 of `getImageFromCacheAndConvertIfNeeded`): `imageParams` and
`imgToConvertBounds` -/
def getImageFromCacheAndConvertIfNeeded_params (ops : CacheLookupEnv W) (mipMapLevel : Nat)
    (boundsParam : Option RectI) (rodParam : Option RectD) (imageToConvert : Image) (w : W) :
    ImageParams × RectI :=
  let oldParams := ops.imageGetParams imageToConvert w
  let rod : RectD := match rodParam with | some r => r | none => oldParams.rod
  let imgToConvertCanonical := env.toCanonical (env.imageGetBounds imageToConvert w)
    imageToConvert.mipMapLevel imageToConvert.par rod
  let imgToConvertBounds := env.toPixelEnclosing imgToConvertCanonical
    imageToConvert.mipMapLevel imageToConvert.par
  let downscaledBounds0 := env.toPixelEnclosing imgToConvertCanonical mipMapLevel
    imageToConvert.par
  let downscaledBounds1 : RectI :=
    match boundsParam with
    | some b => ops.rectIMerge downscaledBounds0 b
    | none => downscaledBounds0
  let pixelRoD := env.toPixelEnclosing rod mipMapLevel oldParams.par
  let downscaledBounds := (env.rectIIntersect downscaledBounds1 pixelRoD).getD downscaledBounds1
  (⟨oldParams.cost, rod, downscaledBounds, oldParams.par, mipMapLevel,
    oldParams.isProjectFormat, oldParams.components, oldParams.bitdepth,
    oldParams.framesNeeded⟩, imgToConvertBounds)

/-- The conversion of lines 1874-1938 of the image `imageToConvert`: `*image` as it is left -/
def getImageFromCacheAndConvertIfNeeded_convert (ops : CacheLookupEnv W)
    (useCache useDiskCache : Bool) (key : ImageKey) (mipMapLevel : Nat)
    (boundsParam : Option RectI) (rodParam : Option RectD) (imageToConvert : Image)
    (s : St W) : ImagePtr × St W :=
  let s1 := s.setWorld (ops.allocateMemory imageToConvert s.world)
  if imageToConvert.mipMapLevel ≠ mipMapLevel then
    let p := getImageFromCacheAndConvertIfNeeded_params env ops mipMapLevel boundsParam rodParam
      imageToConvert s1.world
    let r := getOrCreateFromCacheInternal env key p.1 useCache useDiskCache s1
    match r.1 with
    | none => (none, r.2)
    | some img =>
      (some img,
       r.2.setWorld
        (if p.2.area > 1 then
          env.downscaleMipMap imageToConvert p.1.rod p.2 imageToConvert.mipMapLevel
            img.mipMapLevel (useCache && imageToConvert.usesBitMap) img r.2.world
         else ops.pasteFrom img imageToConvert p.2 r.2.world))
  else (some imageToConvert, s1)

/-- The images of `inputImages` with the key (lines 1793-1807) -/
def getImageFromCacheAndConvertIfNeeded_inputImages (ops : CacheLookupEnv W) (key : ImageKey)
    (inputImages : InputImagesMap) (w : W) : ImageList :=
  inputImages.flatMap fun it => it.2.filter fun img => decide (ops.imageGetKey img w = key)

/-- The lookup of lines 1789-1811: `isCached`, `cachedImages` and the world -/
def getImageFromCacheAndConvertIfNeeded_cachedImages (ops : CacheLookupEnv W)
    (useDiskCache : Bool) (key : ImageKey) (inputImages : InputImagesMap) (w : W) :
    (Bool × ImageList) × W :=
  if !(getImageFromCacheAndConvertIfNeeded_inputImages ops key inputImages w).isEmpty then
    ((true, getImageFromCacheAndConvertIfNeeded_inputImages ops key inputImages w), w)
  else
    ((((ops.getImageFromCache useDiskCache key w).1.1),
      getImageFromCacheAndConvertIfNeeded_inputImages ops key inputImages w ++
        (ops.getImageFromCache useDiskCache key w).1.2),
     (ops.getImageFromCache useDiskCache key w).2)

/-- The function `getImageFromCacheAndConvertIfNeeded` (lines 1775-1951): `*image` on return,
from `image` on entry -/
def getImageFromCacheAndConvertIfNeeded (ops : CacheLookupEnv W) (n : NodeId)
    (useCache useDiskCache : Bool) (key : ImageKey) (mipMapLevel : Nat)
    (boundsParam : Option RectI) (rodParam : Option RectD) (bitdepth : ImageBitDepthEnum)
    (components : ImageComponents) (nodePrefDepth : ImageBitDepthEnum)
    (nodePrefComps : ImageComponents) (inputImages : InputImagesMap) (image : ImagePtr)
    (s : St W) : ImagePtr × St W :=
  let cached := getImageFromCacheAndConvertIfNeeded_cachedImages ops useDiskCache key
    inputImages s.world
  if cached.1.1 then
    let sel := getImageFromCacheAndConvertIfNeeded_select env ops n mipMapLevel bitdepth
      components nodePrefDepth nodePrefComps cached.1.2 none cached.2
    let image1 : ImagePtr := match sel.1.1 with | some found => some found | none => image
    match sel.1.2, image1 with
    | some imageToConvert, none =>
      getImageFromCacheAndConvertIfNeeded_convert env ops useCache useDiskCache key mipMapLevel
        boundsParam rodParam imageToConvert (s.setWorld sel.2)
    | _, some img => (some img, s.setWorld (ops.allocateMemory img sel.2))
    | none, none => (none, s.setWorld sel.2)
  else (image, s.setWorld cached.2)

/-- The cached image passes the format checks, its components are convertible to the
requested ones and its bit depth is at least as deep as the requested one -/
def getImageFromCacheAndConvertIfNeeded_usable (ops : CacheLookupEnv W) (n : NodeId)
    (bitdepth : ImageBitDepthEnum) (components : ImageComponents)
    (nodePrefDepth : ImageBitDepthEnum) (nodePrefComps : ImageComponents) (it : Image)
    (w : W) : Bool :=
  !getImageFromCacheAndConvertIfNeeded_discards env ops n nodePrefDepth nodePrefComps it w &&
  ops.isConvertibleTo it.components components &&
  decide (ops.getSizeOfForBitDepth it.bitDepth ≥ ops.getSizeOfForBitDepth bitdepth)

end CacheLookup

/-- The key of the images of `levelsCacheLookupEnv` -/
def levelsKey : ImageKey := ⟨100, false, 1, 0⟩

/-- Three RGBA float images of the mip-levels 0, 1 and 3 -/
def cachedLevels : ImageList :=
  [⟨1, ⟨0, 4, true⟩, 3, 0, 1, true⟩, ⟨2, ⟨0, 4, true⟩, 3, 1, 1, true⟩,
   ⟨3, ⟨0, 4, true⟩, 3, 3, 1, true⟩]

/-- A cache that holds the images `cachedLevels` for every key: their RoD is not the project
format, components are convertible to themselves only, the size of a bit depth is its number -/
def levelsCacheLookupEnv : CacheLookupEnv Unit :=
  { imageGetKey := fun _ _ => levelsKey
    imageGetParams := fun img _ =>
      ⟨0, ⟨0, 0, 100, 100⟩, ⟨0, 0, 100, 100⟩, img.par, img.mipMapLevel, false, img.components,
       img.bitDepth, []⟩
    getImageFromCache := fun _ _ w => ((true, cachedLevels), w)
    canonicalProjectFormat := fun _ _ => ⟨0, 0, 1920, 1080⟩
    isConvertibleTo := fun a b => decide (a = b)
    getSizeOfForBitDepth := fun d => d
    allocateMemory := fun _ w => w
    rectIMerge := fun a b => ⟨min a.x1 b.x1, min a.y1 b.y1, max a.x2 b.x2, max a.y2 b.y2⟩
    pasteFrom := fun _ _ _ w => w }

/-- The graph `noRenderScaleEnv useScaleOne` where the cache holds, for every plane, the image 7
at the mip-level 0, rendered on every rectangle: a lookup at the mip-level 0 returns it, a
lookup at another mip-level returns nothing -/
def cachedFullScaleEnv (useScaleOne : Bool) : Env Unit :=
  { noRenderScaleEnv useScaleOne with
    getImageFromCacheAndConvertIfNeeded := fun _ _ _ _ mipMapLevel _ _ bitdepth components _ _ _
        w =>
      (if mipMapLevel = 0 then some ⟨7, components, bitdepth, 0, 1, true⟩ else none, w),
    getRestToRender := fun _ _ _ => [],
    getRestToRender_trimap := fun _ _ _ => ([], false) }

/-! ## Two threads on one image

A thread is its thread-local storage; the world and the other members of the effects are
shared. The world of `bitmapEnv` is the state of the bitmap of the one image on the one
rectangle of the render: 0 when the rectangle is not rendered, 1 when it is marked as being
rendered, 2 when it is rendered. -/

/-- The collaborators of a graph whose world holds nothing, in a world `W` that they leave
alone -/
def Env.lift {W : Type} (e : Env Unit) : Env W where
  getScaleFromMipMapLevel := e.getScaleFromMipMapLevel
  getLevelFromScale := e.getLevelFromScale
  toPixelEnclosing := e.toPixelEnclosing
  toCanonical := e.toCanonical
  toCanonical_noClipping := e.toCanonical_noClipping
  rectIIntersect := e.rectIIntersect
  rectDIntersect := e.rectDIntersect
  rectDMerge := e.rectDMerge
  rectDIsInfinite := e.rectDIsInfinite
  transformRoI := e.transformRoI
  componentsLess := e.componentsLess
  isMainThread := fun _ => e.isMainThread ()
  isBackground := fun _ => e.isBackground ()
  isTransformConcatenationEnabled := fun _ => e.isTransformConcatenationEnabled ()
  getNumberOfThreads := fun _ => e.getNumberOfThreads ()
  getHardwareIdealThreadCount := fun _ => e.getHardwareIdealThreadCount ()
  threadPoolIsFull := fun _ => e.threadPoolIsFull ()
  isNodeCacheAlmostFull := fun _ => e.isNodeCacheAlmostFull ()
  timelineCurrentFrame := fun a1 _ => e.timelineCurrentFrame a1 ()
  getHash := fun a1 _ => e.getHash a1 ()
  getInput := fun a1 a2 _ => e.getInput a1 a2 ()
  isActivated := fun a1 _ => e.isActivated a1 ()
  isViewerInstance := e.isViewerInstance
  isRenderAbortable := fun a1 a2 a3 _ => e.isRenderAbortable a1 a2 a3 ()
  isSequentialRenderBeingAborted := fun a1 _ => e.isSequentialRenderBeingAborted a1 ()
  isEffectCreated := fun a1 _ => e.isEffectCreated a1 ()
  supportsRenderScaleMaybe := fun a1 _ => e.supportsRenderScaleMaybe a1 ()
  supportsMultiResolution := fun a1 _ => e.supportsMultiResolution a1 ()
  supportsTiles := fun a1 _ => e.supportsTiles a1 ()
  useScaleOneImagesWhenRenderScaleSupportIsDisabled := fun a1 _ =>
    e.useScaleOneImagesWhenRenderScaleSupportIsDisabled a1 ()
  getPreferredAspectRatio := fun a1 _ => e.getPreferredAspectRatio a1 ()
  getCurrentRenderThreadSafety := fun a1 _ => e.getCurrentRenderThreadSafety a1 ()
  nodeIsDuringPaintStrokeCreation := fun a1 _ => e.nodeIsDuringPaintStrokeCreation a1 ()
  hasAttachedRotoItem := fun a1 _ => e.hasAttachedRotoItem a1 ()
  isRotoItemActivated := fun a1 a2 _ => e.isRotoItemActivated a1 a2 ()
  getPreferredInput := fun a1 _ => e.getPreferredInput a1 ()
  isDiskCacheNode := e.isDiskCacheNode
  isNodeDisabled := fun a1 _ => e.isNodeDisabled a1 ()
  hasAtLeastOneChannelToProcess := fun a1 _ => e.hasAtLeastOneChannelToProcess a1 ()
  getSequentialPreference := fun a1 _ => e.getSequentialPreference a1 ()
  isSupportedComponent := fun a1 a2 a3 _ => e.isSupportedComponent a1 a2 a3 ()
  isWriter := e.isWriter
  isReader := e.isReader
  isRotoPaintNode := e.isRotoPaintNode
  isMultiPlanar := fun a1 _ => e.isMultiPlanar a1 ()
  isPaintingOverItselfEnabled := fun a1 _ => e.isPaintingOverItselfEnabled a1 ()
  isHostMaskingEnabled := fun a1 _ => e.isHostMaskingEnabled a1 ()
  getMaxInputCount := fun a1 _ => e.getMaxInputCount a1 ()
  isInputMask := fun a1 a2 _ => e.isInputMask a1 a2 ()
  isInputRotoBrush := fun a1 a2 _ => e.isInputRotoBrush a1 a2 ()
  isMaskEnabled := fun a1 a2 _ => e.isMaskEnabled a1 a2 ()
  getMaskChannel := fun a1 a2 _ => e.getMaskChannel a1 a2 ()
  getOutputPremultiplication := fun a1 _ => e.getOutputPremultiplication a1 ()
  usesAlpha0ToConvertFromRGBToRGBA := fun a1 _ => e.usesAlpha0ToConvertFromRGBToRGBA a1 ()
  isFrameVaryingOrAnimated_Recursive := fun a1 _ => e.isFrameVaryingOrAnimated_Recursive a1 ()
  shouldCacheOutput := fun a1 a2 _ => e.shouldCacheOutput a1 a2 ()
  getPreferredDepthAndComponents := fun a1 _ => e.getPreferredDepthAndComponents a1 ()
  findClosestComponents := fun a1 a2 a3 a4 _ => e.findClosestComponents a1 a2 a3 a4 ()
  isLastPaintStrokeBitmapCleared := fun a1 _ => e.isLastPaintStrokeBitmapCleared a1 ()
  getLastPaintStrokeRoD := fun a1 _ => e.getLastPaintStrokeRoD a1 ()
  clearLastPaintStrokeRoD := fun _ w => w
  getPaintStrokeRoD := fun a1 a2 _ => e.getPaintStrokeRoD a1 a2 ()
  getRegionOfDefinition := fun a1 a2 a3 a4 a5 a6 w =>
    ((e.getRegionOfDefinition a1 a2 a3 a4 a5 a6 ()).1, w)
  isIdentity := fun a1 a2 a3 a4 a5 w => ((e.isIdentity a1 a2 a3 a4 a5 ()).1, w)
  getFrameRange := fun a1 w => ((e.getFrameRange a1 ()).1, w)
  getFramesNeeded := fun a1 a2 a3 w => ((e.getFramesNeeded a1 a2 a3 ()).1, w)
  getRegionsOfInterest := fun a1 a2 a3 a4 a5 a6 w =>
    ((e.getRegionsOfInterest a1 a2 a3 a4 a5 a6 ()).1, w)
  beginSequenceRender := fun a1 a2 a3 a4 a5 a6 w =>
    ((e.beginSequenceRender a1 a2 a3 a4 a5 a6 ()).1, w)
  endSequenceRender := fun a1 a2 a3 a4 a5 a6 w =>
    ((e.endSequenceRender a1 a2 a3 a4 a5 a6 ()).1, w)
  render := fun a1 a2 a3 a4 a5 w => ((e.render a1 a2 a3 a4 a5 ()).1, w)
  ifInfiniteApplyHeuristic := fun a1 a2 a3 a4 a5 a6 w =>
    ((e.ifInfiniteApplyHeuristic a1 a2 a3 a4 a5 a6 ()).1, w)
  getComponentsAvailable := fun a1 a2 w => ((e.getComponentsAvailable a1 a2 ()).1, w)
  getComponentsNeededAndProduced_public := fun a1 a2 a3 w =>
    ((e.getComponentsNeededAndProduced_public a1 a2 a3 ()).1, w)
  tryConcatenateTransforms := fun a1 a2 w => ((e.tryConcatenateTransforms a1 a2 ()).1, w)
  rerouteInputAndSetTransform := fun _ _ w => w
  clearTransform := fun _ _ w => w
  getImageFromCacheAndConvertIfNeeded := fun a1 a2 a3 a4 a5 a6 a7 a8 a9 a10 a11 a12 w =>
    ((e.getImageFromCacheAndConvertIfNeeded a1 a2 a3 a4 a5 a6 a7 a8 a9 a10 a11 a12 ()).1, w)
  optimizeRectsToRender := fun a1 a2 a3 a4 a5 a6 w =>
    ((e.optimizeRectsToRender a1 a2 a3 a4 a5 a6 ()).1, w)
  removeFromNodeCache := fun _ w => w
  removeFromNodeCacheByHash := fun _ w => w
  removeAllImagesFromCacheWithMatchingKey := fun _ _ w => w
  getImageFromCacheOrCreate := fun a1 a2 a3 w => ((e.getImageFromCacheOrCreate a1 a2 a3 ()).1, w)
  allocateMemoryAndEnsureBounds := fun _ _ w => w
  imageOfKeyUsesBitmap := e.imageOfKeyUsesBitmap
  allocImage := fun a1 a2 w => ((e.allocImage a1 a2 ()).1, w)
  imageGetBounds := fun a1 _ => e.imageGetBounds a1 ()
  imageGetRoD := fun a1 _ => e.imageGetRoD a1 ()
  imageSetRoD := fun _ _ w => w
  imageGetFramesNeeded := fun a1 _ => e.imageGetFramesNeeded a1 ()
  getRestToRender := fun a1 a2 _ => e.getRestToRender a1 a2 ()
  getRestToRender_trimap := fun a1 a2 _ => e.getRestToRender_trimap a1 a2 ()
  getMinimalRect := fun a1 a2 _ => e.getMinimalRect a1 a2 ()
  getMinimalRect_trimap := fun a1 a2 _ => e.getMinimalRect_trimap a1 a2 ()
  clearBitmap := fun _ _ w => w
  setBitmapDirtyZone := fun _ _ w => w
  markForRendering := fun _ _ w => w
  ensureBounds := fun a1 a2 a3 w => ((e.ensureBounds a1 a2 a3 ()).1, w)
  downscaleMipMap := fun _ _ _ _ _ _ _ w => w
  convertToFormat := fun _ _ _ _ _ w => w
  fillZeroAndMarkRendered := fun _ _ w => w
  pasteIdentityPlanes := fun _ _ _ _ _ w => w
  copyRenderedPlanesToOutput := fun _ _ _ _ _ _ w => w
  setOrAddProjectFormat := fun _ _ _ w => w
  waitCondition := fun _ w => w

/-- The idle graph `baseEnv` with the bitmap of the image as world: the rest to render and the
minimal rectangle are empty once the rectangle is rendered (the minimal rectangle is then the
null rectangle at its corner), and with the trimap also while it is marked as being rendered, `markForRendering` marks it, and the copy of the rendered planes
to the output marks it rendered -/
def bitmapEnv : Env Nat :=
  { (Env.lift baseEnv : Env Nat) with
    getRestToRender := fun _ r w => if w = 2 then [] else [r],
    getRestToRender_trimap := fun _ r w =>
      if w = 2 then ([], false) else if w = 1 then ([], true) else ([r], false),
    getMinimalRect := fun _ r w => if w = 2 then ⟨r.x1, r.y1, r.x1, r.y1⟩ else r,
    getMinimalRect_trimap := fun _ r w =>
      if w = 2 then (⟨r.x1, r.y1, r.x1, r.y1⟩, false)
      else if w = 1 then (⟨r.x1, r.y1, r.x1, r.y1⟩, true) else (r, false),
    markForRendering := fun _ _ _ => 1,
    copyRenderedPlanesToOutput := fun _ _ _ _ _ _ _ => 2 }

/-- The state that a thread sees: the world, the record of the render actions and the shared
members of the effects as in `shared`, with the thread-local storage of `own` -/
def St.onThread {W : Type} (shared own : St W) : St W :=
  { world := shared.world, renderLog := shared.renderLog,
    imp := fun n =>
      { shared.imp n with
        renderArgs := (own.imp n).renderArgs, frameRenderArgs := (own.imp n).frameRenderArgs,
        beginEndRenderCount := (own.imp n).beginEndRenderCount,
        inputImages := (own.imp n).inputImages } }

section AfterCheck

variable {W : Type} (env : Env W)

/-- The end of `tiledRenderingFunctor` after the bitmap check (lines 4138-4288), for the
rectangles `r` that the check left -/
def tiledRenderingFunctor_afterCheck (rec : RenderRoIFn W) (n : NodeId)
    (frameArgs : ParallelRenderArgs) (rectToRender : RectToRender)
    (renderFullScaleThenDownscale renderUseScaleOneInputs : Bool) (firstFrame lastFrame : Int)
    (rod : RectD) (time : SequenceTime) (view : Int) (outputClipPrefDepth : ImageBitDepthEnum)
    (outputClipPrefsComps : List ImageComponents) (planes : ImagePlanesToRender)
    (r : RectI × RectI × Bool) (s1 : St W) : Out (St W) RenderingFunctorRetEnum :=
  if r.1.isNull then
    .val (if r.2.2 then .eRenderingFunctorRetTakeImageLock else .eRenderingFunctorRetOK) s1
  else
    Out.atExit
      ((renderHandler env rec n frameArgs rectToRender.isIdentity rectToRender.identityTime
          rectToRender.identityInput renderFullScaleThenDownscale renderUseScaleOneInputs
          r.2.1 r.1 outputClipPrefDepth outputClipPrefsComps planes
          (scopedRenderArgs_setPasses n rod r.2.1 time view false 0 (-1)
            rectToRender.inputRois firstFrame lastFrame s1)).bind
        fun handlerRet s3 =>
          if handlerRet = .eRenderingFunctorRetOK then
            .val (if r.2.2 then .eRenderingFunctorRetTakeImageLock
                  else .eRenderingFunctorRetOK) s3
          else .val handlerRet s3)
      (scopedRenderArgs_exit n)

end AfterCheck

/-- The state before a render made in response to a user interaction that cannot be aborted,
in the world of `bitmapEnv` where the rectangle is not rendered -/
def bitmapState : St Nat :=
  { world := 0,
    imp := fun n =>
      { Implementation.idle with frameRenderArgs := some (userInteractionArgs n) },
    renderLog := [] }

/-- A plane to render in the image 100 of the cache, at the mip-level 0 -/
def cachedPlaneToRender : PlaneToRender :=
  { PlaneToRender.new with
    fullscaleImage := some ⟨100, ⟨0, 4, true⟩, 3, 0, 1, true⟩,
    downscaleImage := some ⟨100, ⟨0, 4, true⟩, 3, 0, 1, true⟩,
    renderMappedImage := some ⟨100, ⟨0, 4, true⟩, 3, 0, 1, true⟩ }

/-- The RGBA color plane of node 0 to render in the image 100 of the cache -/
def cachedPlane : ImagePlanesToRender :=
  { ImagePlanesToRender.new with planes := [(⟨0, 4, true⟩, cachedPlaneToRender)] }

/-- The rectangle (10, 10) - (50, 50) to render, not an identity -/
def rectToRender10 : RectToRender := { emptyRectToRender with rect := ⟨10, 10, 50, 50⟩ }

end Natron

namespace Natron

/-! ## The available components (`getComponentsAvailable`, lines 5698-5943)

The function behind the field `Env.getComponentsAvailable` that `renderRoI` calls at line 2501,
with the two members of every node that it reads and writes as an explicit state. -/

/-- The C++ `PassThroughEnum` -/
inductive PassThroughEnum where
  | ePassThroughBlockNonRenderedPlanes
  | ePassThroughPassThroughNonRenderedPlanes
  | ePassThroughRenderAllRequestedPlanes
deriving DecidableEq, Repr

/-- What `getComponentsAvailableRecursive` reads and `Env` does not hold -/
structure ComponentsEnv (W : Type) where
  /-- The `ptInput` that `getComponentsNeededAndProduced_public` gives back (line 5776) -/
  passThroughInput : NodeId → SequenceTime → Int → W → Option NodeId
  isPassThroughForNonRenderedPlanes : NodeId → W → PassThroughEnum
  /-- The list that `Node::getUserComponents` fills (line 5864) -/
  getUserComponents : NodeId → W → List ImageComponents

/-- The members `componentsAvailableDirty` and `outputComponentsAvailable` of
`EffectInstance::Implementation` (lines 446-447) -/
structure ComponentsAvailableCache where
  componentsAvailableDirty : Bool
  outputComponentsAvailable : ComponentsAvailableMap

/-- The state of `getComponentsAvailable`: the world and the two members of every node -/
structure ComponentsState (W : Type) where
  world : W
  cache : NodeId → ComponentsAvailableCache

/-- The members at the construction of the nodes (lines 387-388) -/
def ComponentsState.new {W : Type} (w : W) : ComponentsState W :=
  { world := w, cache := fun _ => ⟨true, []⟩ }

/-- The type of `getComponentsAvailableRecursive`: the node, the time, the view, `comps`,
`markedNodes` and the state; `none` when the fuel runs out -/
abbrev ComponentsAvailableRecFn (W : Type) :=
  NodeId → SequenceTime → Int → ComponentsAvailableMap → List NodeId → ComponentsState W →
    Option (ComponentsAvailableMap × List NodeId × ComponentsState W)

/-- The number of entries of the map whose components are of the color plane -/
def componentsAvailable_colorCount (m : ComponentsAvailableMap) : Nat :=
  m.countP fun e => e.1.isColorPlane

/-- The entries of the map are in the strict order `lt` of their keys, as in a `std::map` -/
def componentsAvailable_sorted (lt : ImageComponents → ImageComponents → Bool)
    (m : ComponentsAvailableMap) : Prop :=
  m.Pairwise fun a b => lt a.1 b.1 = true

/-- The scan of lines 5722-5733, 5832-5839 and 5886-5893, from the entry of index `i`: the index
of the first entry with the components `it` (`alreadyExisting`, where the scan stops) and the
index of the last entry of the color plane before it (`colorMatch`) -/
def componentsAvailable_scan (it : ImageComponents) :
    ComponentsAvailableMap → Nat → Option Nat → Option Nat × Option Nat
  | [], _, colorMatch => (none, colorMatch)
  | it2 :: rest, i, colorMatch =>
    if it2.1 = it then (some i, colorMatch)
    else if it2.1.isColorPlane then componentsAvailable_scan it rest (i + 1) (some i)
    else componentsAvailable_scan it rest (i + 1) colorMatch

/-- The scan of lines 5845-5850, from the entry of index `i`: the index of the first entry with
the components `it` -/
def componentsAvailable_findEq (it : ImageComponents) :
    ComponentsAvailableMap → Nat → Option Nat
  | [], _ => none
  | it2 :: rest, i =>
    if it2.1 = it then some i else componentsAvailable_findEq it rest (i + 1)

/-- The assignment `it2->second = node` through the iterator of index `i` -/
def componentsAvailable_setOwner :
    ComponentsAvailableMap → Nat → Option NodeId → ComponentsAvailableMap
  | [], _, _ => []
  | e :: rest, 0, node => (e.1, node) :: rest
  | e :: rest, i + 1, node => e :: componentsAvailable_setOwner rest i node

section ComponentsAvailable

variable {W : Type} (env : Env W) (cenv : ComponentsEnv W)

/-- The body of the loop of lines 5719-5742 for the entry `it` of the components of the input
`i`: an entry with the same components is kept, and takes this node as owner when `i` is the
preferred input and `preferExistingComponents` is false; else the entry is inserted, unless it
is of the color plane and another entry of the color plane is there -/
def getNonMaskInputsAvailableComponents_merge (n : NodeId) (isPreferredInput : Bool)
    (preferExistingComponents : Bool) (comps : ComponentsAvailableMap)
    (it : ImageComponents × Option NodeId) : ComponentsAvailableMap :=
  match componentsAvailable_scan it.1 comps 0 none with
  | (some it2, _) =>
    if isPreferredInput && !preferExistingComponents then
      componentsAvailable_setOwner comps it2 (some n)
    else comps
  | (none, colorMatch) =>
    if colorMatch.isSome && it.1.isColorPlane then comps
    else StdMap.insert env.componentsLess comps it.1 it.2

/-- The loop of lines 5713-5745 on the inputs left: every input that is not a mask, not the
roto brush and is connected gives its available components in a new map, merged in `comps` -/
def getNonMaskInputsAvailableComponents_loop (rec : ComponentsAvailableRecFn W) (n : NodeId)
    (time : SequenceTime) (view : Int) (preferExistingComponents : Bool) (preferredInput : Int) :
    List Nat → ComponentsAvailableMap × List NodeId × ComponentsState W →
    Option (ComponentsAvailableMap × List NodeId × ComponentsState W)
  | [], acc => some acc
  | i :: rest, acc =>
    if !env.isInputMask n i acc.2.2.world && !env.isInputRotoBrush n i acc.2.2.world then
      match env.getInput n i acc.2.2.world with
      | some input =>
        match rec input time view [] acc.2.1 acc.2.2 with
        | none => none
        | some r =>
          getNonMaskInputsAvailableComponents_loop rec n time view preferExistingComponents
            preferredInput rest
            (r.1.foldl
              (getNonMaskInputsAvailableComponents_merge env n (decide ((i : Int) = preferredInput))
                preferExistingComponents) acc.1, r.2.1, r.2.2)
      | none =>
        getNonMaskInputsAvailableComponents_loop rec n time view preferExistingComponents
          preferredInput rest acc
    else
      getNonMaskInputsAvailableComponents_loop rec n time view preferExistingComponents
        preferredInput rest acc

/-- The function `EffectInstance::getNonMaskInputsAvailableComponents` (lines 5698-5747);
`getNode ()` is not null -/
def getNonMaskInputsAvailableComponents (rec : ComponentsAvailableRecFn W) (n : NodeId)
    (time : SequenceTime) (view : Int) (preferExistingComponents : Bool)
    (comps : ComponentsAvailableMap) (markedNodes : List NodeId) (s : ComponentsState W) :
    Option (ComponentsAvailableMap × List NodeId × ComponentsState W) :=
  getNonMaskInputsAvailableComponents_loop env rec n time view preferExistingComponents
    (env.getPreferredInput n s.world) (List.range (env.getMaxInputCount n s.world).toNat)
    (comps, markedNodes, s)

/-- The body of the loop of lines 5823-5860 for the component `it` produced by the node: an
entry with the same components takes this node as owner; else the component is inserted with
this node, after the erasure of another entry of the color plane when `it` is of the color
plane -/
def getComponentsAvailableRecursive_output (n : NodeId) (comps : ComponentsAvailableMap)
    (it : ImageComponents) : ComponentsAvailableMap :=
  if it.isColorPlane then
    match componentsAvailable_scan it comps 0 none with
    | (some alreadyExisting, _) => componentsAvailable_setOwner comps alreadyExisting (some n)
    | (none, some colorMatch) =>
      StdMap.insert env.componentsLess (comps.eraseIdx colorMatch) it (some n)
    | (none, none) => StdMap.insert env.componentsLess comps it (some n)
  else
    match componentsAvailable_findEq it comps 0 with
    | some alreadyExisting => componentsAvailable_setOwner comps alreadyExisting (some n)
    | none => StdMap.insert env.componentsLess comps it (some n)

/-- The body of the loop of lines 5867-5907 for the user component `it`: as for a component
produced by the node, but a component that is not of the color plane is looked up with
`std::map::find`, and the component inserted has this node as owner only when it is among the
components produced (`outputComps`), else a null pointer -/
def getComponentsAvailableRecursive_user (n : NodeId) (outputComps : List ImageComponents)
    (comps : ComponentsAvailableMap) (it : ImageComponents) : ComponentsAvailableMap :=
  let found : Bool := outputComps.any fun it2 => decide (it2 = it)
  if it.isColorPlane then
    match componentsAvailable_scan it comps 0 none with
    | (some alreadyExisting, _) => componentsAvailable_setOwner comps alreadyExisting (some n)
    | (none, some colorMatch) =>
      StdMap.insert env.componentsLess (comps.eraseIdx colorMatch) it
        (if found then some n else none)
    | (none, none) =>
      StdMap.insert env.componentsLess comps it (if found then some n else none)
  else
    match StdMap.find env.componentsLess comps it with
    | some _ => StdMap.assign env.componentsLess comps it (some n)
    | none => StdMap.insert env.componentsLess comps it (if found then some n else none)

/-- The components of upstream (lines 5781-5805): those of the inputs that are not masks for a
node that lets the planes it does not render pass through, unless it is multi-planar and has a
pass-through input `ptInput`, whose components are taken then; none for another node -/
def getComponentsAvailableRecursive_upstream (rec : ComponentsAvailableRecFn W) (n : NodeId)
    (time : SequenceTime) (view : Int) (ptInput : Option NodeId)
    (comps : ComponentsAvailableMap) (markedNodes : List NodeId) (s : ComponentsState W) :
    Option (ComponentsAvailableMap × List NodeId × ComponentsState W) :=
  let passThrough := cenv.isPassThroughForNonRenderedPlanes n s.world
  if passThrough = .ePassThroughPassThroughNonRenderedPlanes ∨
      passThrough = .ePassThroughRenderAllRequestedPlanes then
    let doHeuristicForPassThrough : Bool :=
      if env.isMultiPlanar n s.world then ptInput.isNone else true
    if doHeuristicForPassThrough then
      getNonMaskInputsAvailableComponents env rec n time view false comps markedNodes s
    else
      match ptInput with
      | some input => rec input time view comps markedNodes s
      | none => some (comps, markedNodes, s)
  else some (comps, markedNodes, s)

/-- The components of the node itself (lines 5806-5909): with `processAll` the node owns every
entry that has an owner; then the components that the node produces (the entry -1 of
`neededComps`) and the user components are added -/
def getComponentsAvailableRecursive_produced (n : NodeId) (processAll : Bool)
    (neededComps : ComponentsNeededMap) (userComps : List ImageComponents)
    (comps : ComponentsAvailableMap) : ComponentsAvailableMap :=
  let comps1 : ComponentsAvailableMap :=
    if processAll then comps.map fun it => if it.2.isSome then (it.1, some n) else it
    else comps
  match StdMap.find (fun x y => decide (x < y)) neededComps (-1) with
  | some outputComps =>
    userComps.foldl (getComponentsAvailableRecursive_user env n outputComps)
      (outputComps.foldl (getComponentsAvailableRecursive_output env n) comps1)
  | none => comps1

/-- The function `EffectInstance::getComponentsAvailableRecursive` (lines 5749-5922) on `fuel`
nested calls; `getNode ()` is not null. The result is `comps`, `markedNodes` and the state. -/
def getComponentsAvailableRecursive : Nat → ComponentsAvailableRecFn W
  | 0 => fun _ _ _ _ _ _ => none
  | fuel + 1 => fun n time view comps markedNodes s =>
    if n ∈ markedNodes then some (comps, markedNodes, s)
    else if !(s.cache n).componentsAvailableDirty then
      some ((s.cache n).outputComponentsAvailable.foldl
        (fun m kv => StdMap.insert env.componentsLess m kv.1 kv.2) comps, markedNodes, s)
    else
      let c := env.getComponentsNeededAndProduced_public n time view s.world
      let ptInput : Option NodeId := cenv.passThroughInput n time view s.world
      match getComponentsAvailableRecursive_upstream env cenv
          (getComponentsAvailableRecursive fuel) n time view ptInput comps markedNodes
          { s with world := c.2 } with
      | none => none
      | some r =>
        let comps2 : ComponentsAvailableMap :=
          getComponentsAvailableRecursive_produced env n c.1.2.1 c.1.1
            (cenv.getUserComponents n r.2.2.world) r.1
        some (comps2, r.2.1 ++ [n],
          { r.2.2 with
            cache := fun m => if m = n then ⟨false, comps2⟩ else r.2.2.cache m })

/-- The function `EffectInstance::getComponentsAvailable (time, comps)` (lines 5930-5943): the
available components, for the view 0 and no marked node, and the state -/
def getComponentsAvailable (fuel : Nat) (n : NodeId) (time : SequenceTime)
    (comps : ComponentsAvailableMap) (s : ComponentsState W) :
    Option (ComponentsAvailableMap × ComponentsState W) :=
  (getComponentsAvailableRecursive env cenv fuel n time 0 comps [] s).map fun r =>
    (r.1, r.2.2)

end ComponentsAvailable

/-- Every map `outputComponentsAvailable` that is up to date holds at most one entry of the
color plane -/
def ComponentsState.cachesHoldOneColor {W : Type} (s : ComponentsState W) : Prop :=
  ∀ m, (s.cache m).componentsAvailableDirty = false →
    componentsAvailable_colorCount (s.cache m).outputComponentsAvailable ≤ 1

/-- The RGB components of the color plane -/
def rgbPlane : ImageComponents := ⟨0, 3, true⟩

/-- A graph for the available components: node 0 has node 1 as input 0 and node 2 as input 1.
Node 1 produces the RGBA color plane, node 2 the alpha color plane and the layer `depthLayer`,
node 0 the RGB color plane. -/
def colorVariantsEnv : Env Unit :=
  { baseEnv with
    getMaxInputCount := fun n _ => if n = 0 then 2 else 0
    getInput := fun n i _ =>
      if n = 0 ∧ i = 0 then some 1 else if n = 0 ∧ i = 1 then some 2 else none
    getComponentsNeededAndProduced_public := fun n _ _ w =>
      (([(-1, if n = 0 then [rgbPlane] else if n = 1 then [rgbaPlane]
              else [alphaPlane, depthLayer])], false, [true, true, true, true]), w) }

/-- Node 0 lets the planes it does not render pass through, the other nodes do not; no node
has a pass-through input or a user component -/
def colorVariantsComponentsEnv : ComponentsEnv Unit where
  passThroughInput := fun _ _ _ _ => none
  isPassThroughForNonRenderedPlanes := fun n _ =>
    if n = 0 then .ePassThroughPassThroughNonRenderedPlanes
    else .ePassThroughBlockNonRenderedPlanes
  getUserComponents := fun _ _ => []

end Natron

set_option maxRecDepth 100000

namespace Natron

/-! ## The first sections of `renderRoI` -/

section EarlyStages

variable {W : Type} (env : Env W)

theorem scopedRenderArgs_exit_renderLog (n : NodeId) (s : St W) :
    (scopedRenderArgs_exit n s).renderLog = s.renderLog := rfl

theorem scopedRenderArgs_set_renderLog (n : NodeId) (roiMap : RoIMap) (rod : RectD)
    (renderWindow : RectI) (time : SequenceTime) (view : Int) (isIdentity : Bool)
    (identityTime : SequenceTime) (inputNbIdentity : Int) (outputPlanes : PlanesMap)
    (firstFrame lastFrame : Int) (s : St W) :
    (scopedRenderArgs_set n roiMap rod renderWindow time view isIdentity identityTime
      inputNbIdentity outputPlanes firstFrame lastFrame s).renderLog = s.renderLog := rfl

theorem renderRoI_frameArgs_renderLog (n : NodeId) (args : RenderRoIArgs) (s : St W) :
    (renderRoI_frameArgs env n args s).renderLog = s.renderLog := by
  unfold renderRoI_frameArgs
  split <;> rfl

theorem getRegionOfDefinition_public_renderLog (n : NodeId) (hash : U64) (time : SequenceTime)
    (scale : RenderScale) (view : Int) (rod : RectD) (isProjectFormat : Bool) (s : St W) :
    (getRegionOfDefinition_public env n hash time scale view rod isProjectFormat s).2.renderLog =
      s.renderLog := by
  unfold getRegionOfDefinition_public
  simp only []
  repeat' split
  all_goals rfl

theorem getFrameRange_public_renderLog (n : NodeId) (hash : U64) (bypasscache : Bool)
    (s : St W) : (getFrameRange_public env n hash bypasscache s).2.renderLog = s.renderLog := by
  unfold getFrameRange_public
  repeat' split
  all_goals rfl

theorem isIdentity_compute_renderLog (n : NodeId) (time : SequenceTime) (scale : RenderScale)
    (renderWindow : RectI) (view : Int) (s : St W) (r : Bool × SequenceTime × Int) (s1 : St W)
    (h : isIdentity_compute env n time scale renderWindow view s = .val r s1) :
    s1.renderLog = s.renderLog := by
  unfold isIdentity_compute at h
  repeat' split at h
  all_goals first
    | (injection h with _ h2; subst h2; rfl)
    | (exact absurd h (by simp))

theorem isIdentity_public_renderLog (n : NodeId) (useIdentityCache : Bool) (hash : U64)
    (time : SequenceTime) (scale : RenderScale) (renderWindow : RectI) (view : Int) (s : St W)
    (r : Bool × SequenceTime × Int) (s1 : St W)
    (h : isIdentity_public env n useIdentityCache hash time scale renderWindow view s =
      .val r s1) : s1.renderLog = s.renderLog := by
  unfold isIdentity_public at h
  simp only [] at h
  split at h
  · injection h with _ h2; subst h2; rfl
  · split at h
    · injection h with _ h2; subst h2; rfl
    · cases hc : isIdentity_compute env n time scale renderWindow view s with
      | val a s2 =>
        rw [hc] at h
        simp only [Out.bind] at h
        injection h with _ h2
        subst h2
        have := isIdentity_compute_renderLog env n time scale renderWindow view s a s2 hc
        split <;> simpa using this
      | exn e s2 => rw [hc] at h; simp [Out.bind] at h
      | diverge => rw [hc] at h; simp [Out.bind] at h

theorem renderRoI_refreshSupportsRS_args (n : NodeId) (l : Locals) (s : St W) :
    (renderRoI_refreshSupportsRS env n l s).args = l.args ∧
    (renderRoI_refreshSupportsRS env n l s).nodeHash = l.nodeHash ∧
    (renderRoI_refreshSupportsRS env n l s).rod = l.rod ∧
    (renderRoI_refreshSupportsRS env n l s).par = l.par := by
  unfold renderRoI_refreshSupportsRS
  split
  · dsimp only
    split <;> exact ⟨rfl, rfl, rfl, rfl⟩
  · exact ⟨rfl, rfl, rfl, rfl⟩

theorem renderRoI_setRoI_args (l : Locals) :
    (renderRoI_setRoI env l).args = l.args := by
  unfold renderRoI_setRoI
  split <;> rfl

/-- The function `renderRoI` is the identity check run on the locals of
`renderRoI_beforeIdentity`, or the return of lines 2267-2269 and 2362-2368 -/
theorem renderRoI_eq_identity_stage (fuel : Nat) (n : NodeId) (args : RenderRoIArgs)
    (outputPlanes : ImageList) (s : St W) (l : Locals) (sR : St W)
    (h : renderRoI_beforeIdentity env n args s = some (l, sR)) :
    renderRoI env (fuel + 1) n args outputPlanes s =
      renderRoI_identity env fuel (renderRoI env fuel) n l outputPlanes sR ∧
    l.args = args ∧ sR.renderLog = s.renderLog := by
  unfold renderRoI_beforeIdentity at h
  split at h
  · exact absurd h (by simp)
  · rename_i hne
    have hbody : renderRoI env (fuel + 1) n args outputPlanes s =
        renderRoI_getRoD env fuel (renderRoI env fuel) n
          (renderRoI_initLocals env n args (renderRoI_frameArgs env n args s)) outputPlanes
          (renderRoI_frameArgs env n args s) := by
      show renderRoI_body env fuel (renderRoI env fuel) n args outputPlanes s = _
      unfold renderRoI_body
      exact if_neg hne
    rw [hbody]
    unfold renderRoI_getRoD
    split at h
    · rename_i hpre
      simp only [Option.some.injEq, Prod.mk.injEq] at h
      obtain ⟨hl, hs⟩ := h
      subst hl hs
      refine ⟨if_pos hpre, ?_, renderRoI_frameArgs_renderLog env n args s⟩
      exact (renderRoI_setRoI_args env _).trans rfl
    · rename_i hpre
      split at h
      · exact absurd h (by simp)
      · rename_i hfail
        split at h
        · exact absurd h (by simp)
        · rename_i hnull
          simp only [Option.some.injEq, Prod.mk.injEq] at h
          obtain ⟨hl, hs⟩ := h
          subst hl hs
          refine ⟨?_, ?_, ?_⟩
          · exact (if_neg hpre).trans ((if_neg hfail).trans (if_neg hnull))
          · exact (renderRoI_setRoI_args env _).trans
              ((renderRoI_refreshSupportsRS_args env n _ _).1.trans rfl)
          · unfold renderRoI_rodCall
            rw [getRegionOfDefinition_public_renderLog, renderRoI_frameArgs_renderLog]

end EarlyStages

/-- C1: when `renderRoI` reaches the identity check and `isIdentity_public` reports an identity
of the connected input `N` (`N ≥ 0`, `getInput (N)` is the node `inputN`) at the time `T`, then
`renderRoI` on the node is the call of `renderRoI` on `inputN` for the same request with the
time replaced by `T` and the precomputed RoD cleared, every other field and the output list
unchanged: it returns the same code and the same planes (or leaves by the same exception), in
the state that call leaves, only the destructor of `ScopedRenderArgs` being run on it. The call
starts with the record of render actions as it was on entry and the destructor keeps the
record, so the render action of the node itself is not called. -/
theorem renderRoI_identity_redirect {W : Type} (env : Env W) (fuel : Nat) (n : NodeId)
    (args : RenderRoIArgs) (outputPlanes : ImageList) (s : St W) (l : Locals) (sR s1 : St W)
    (T : SequenceTime) (N : Int) (inputN : NodeId)
    (hreach : renderRoI_beforeIdentity env n args s = some (l, sR))
    (hid : isIdentity_public env n true l.nodeHash args.time l.renderMappedScale
      (env.toPixelEnclosing l.rod args.mipMapLevel l.par) args.view sR = .val (true, T, N) s1)
    (hN : 0 ≤ N)
    (hin : env.getInput n N (getFrameRange_public env n l.nodeHash false s1).2.world =
      some inputN) :
    ∃ sc : St W, sc.renderLog = s.renderLog ∧
      renderRoI env (fuel + 1) n args outputPlanes s =
        Out.atExit
          (renderRoI env fuel inputN { args with time := T, preComputedRoD := RectD.null }
            outputPlanes sc)
          (scopedRenderArgs_exit n) ∧
      ∀ sF : St W, (scopedRenderArgs_exit n sF).renderLog = sF.renderLog := by
  obtain ⟨heq, hargs, hlog⟩ := renderRoI_eq_identity_stage env fuel n args outputPlanes s l sR hreach
  have hlog1 := isIdentity_public_renderLog env n true _ _ _ _ _ sR _ s1 hid
  obtain ⟨ha, hh, hr, hp⟩ := renderRoI_refreshSupportsRS_args env n l s1
  refine ⟨scopedRenderArgs_set n
      [(some inputN, env.toCanonical_noClipping args.roi args.mipMapLevel l.par)]
      l.rod args.roi args.time args.view true T N []
      (getFrameRange_public env n l.nodeHash false s1).1.1
      (getFrameRange_public env n l.nodeHash false s1).1.2
      (getFrameRange_public env n l.nodeHash false s1).2, ?_, ?_, fun _ => rfl⟩
  · rw [scopedRenderArgs_set_renderLog, getFrameRange_public_renderLog, hlog1, hlog]
  · rw [heq]
    unfold renderRoI_identity
    rw [hargs, hid]
    simp only [if_true]
    unfold renderRoI_identityBranch
    have h1 : ¬ N = -1 := by omega
    have h2 : ¬ (N = -2 ∧ T ≠ args.time) := by omega
    simp only [h1, if_false, ha, hh, hr, hp, hargs, hin, identityArgs]
    exact if_neg h2

/-- Witness of C1: node 0 of `identityEnv` is an identity of its input, node 1, at the time of
the request -/
theorem renderRoI_identity_redirect_witness :
    ∃ sc : St Unit, sc.renderLog = idleState.renderLog ∧
      renderRoI identityEnv 3 0 colorRequest [] idleState =
        Out.atExit
          (renderRoI identityEnv 2 1 { colorRequest with time := 1, preComputedRoD := RectD.null }
            [] sc)
          (scopedRenderArgs_exit 0) ∧
      ∀ sF : St Unit, (scopedRenderArgs_exit 0 sF).renderLog = sF.renderLog :=
  renderRoI_identity_redirect identityEnv 2 0 colorRequest [] idleState _ _ _ 1 0 1
    rfl rfl (by decide) rfl

end Natron

namespace Natron

/-- C2: when `renderRoI` is called with at least one requested plane and no precomputed RoD,
and `getRegionOfDefinition_public` fails or leaves an empty rectangle, `renderRoI` returns
`eRenderRoIRetCodeOk` and the output list is as it was on entry (no plane is appended). The
result is the same value in the failed case and in the empty case: the code, the list and the
state that `getRegionOfDefinition_public` left. -/
theorem renderRoI_rod_failed_or_empty {W : Type} (env : Env W) (fuel : Nat) (n : NodeId)
    (args : RenderRoIArgs) (outputPlanes : ImageList) (s : St W)
    (hcomp : args.components ≠ [])
    (hpre : args.preComputedRoD.isNull = true)
    (hrod : (renderRoI_rodCall env n args s).1.1 = .eStatusFailed ∨
      (renderRoI_rodCall env n args s).1.2.1.isNull = true) :
    renderRoI env (fuel + 1) n args outputPlanes s =
      .val (.eRenderRoIRetCodeOk, outputPlanes) (renderRoI_rodCall env n args s).2 := by
  have hne : ¬ args.components.isEmpty = true := by
    simpa [List.isEmpty_iff] using hcomp
  have hbody : renderRoI env (fuel + 1) n args outputPlanes s =
      renderRoI_getRoD env fuel (renderRoI env fuel) n
        (renderRoI_initLocals env n args (renderRoI_frameArgs env n args s)) outputPlanes
        (renderRoI_frameArgs env n args s) := by
    show renderRoI_body env fuel (renderRoI env fuel) n args outputPlanes s = _
    unfold renderRoI_body
    exact if_neg hne
  have hpre2 : ¬ (!args.preComputedRoD.isNull) = true := by simp [hpre]
  rw [hbody]
  unfold renderRoI_getRoD
  refine (if_neg hpre2).trans ?_
  by_cases hfail : (renderRoI_rodCall env n args s).1.1 = .eStatusFailed
  · exact if_pos hfail
  · refine (if_neg hfail).trans ?_
    rcases hrod with h | h
    · exact absurd h hfail
    · exact if_pos h

/-- Witness of C2: the region of definition action of the node fails -/
theorem renderRoI_rod_failed_or_empty_witness :
    renderRoI failedRoDEnv 1 0 colorRequest [] idleState =
      .val (.eRenderRoIRetCodeOk, []) (renderRoI_rodCall failedRoDEnv 0 colorRequest idleState).2 :=
  renderRoI_rod_failed_or_empty failedRoDEnv 0 0 colorRequest [] idleState (by decide)
    (by decide) (Or.inl (by decide))

end Natron

namespace Natron

/-- C3 (failing input): in `maskedEnv` the request `colorRequest` on node 0 is served by one
identity tile rendered from node 1. Node 1 has been deactivated: its `renderRoI` returns
`eRenderRoIRetCodeAborted`. Node 0 is not aborted, and its `renderRoI` leaves by the exception
"Rendering Failed" instead of returning `eRenderRoIRetCodeAborted`, although no render action
failed. The same holds when the recursive call is replaced by one that only returns
`eRenderRoIRetCodeAborted`. -/
theorem renderRoI_identity_tile_abort_throws :
    aborted maskedEnv 0 userState = false ∧
    (renderRoI maskedEnv 2 1 colorRequest [] userState).retCode =
      some .eRenderRoIRetCodeAborted ∧
    (renderRoI maskedEnv 3 0 colorRequest [] userState).thrown = some .renderingFailed ∧
    (renderRoI maskedEnv 3 0 colorRequest [] userState).state.map (fun s => s.renderLog) =
      some [(1, .eStatusOK)] ∧
    (renderRoI_body maskedEnv 1 (fun _ _ out s => .val (.eRenderRoIRetCodeAborted, out) s) 0
      colorRequest [] userState).thrown = some .renderingFailed := by
  decide!

end Natron

namespace Natron

/-! ## The record of the render actions through a render

Only `render_public` adds to the record; a function that does not call it, directly or through
a recursive `renderRoI`, leaves the record as it is. -/

section RenderRecord

variable {W : Type} (env : Env W)

theorem Out.keepsOK_val {α : Type} (good : α → Prop) (a : α) (s : St W)
    (h : good a → s.rendersOK) : (Out.val a s).keepsOK good := h

theorem Out.keepsOK_exn {α : Type} (good : α → Prop) (e : Exception) (s : St W) :
    (Out.exn e s : Out (St W) α).keepsOK good := trivial

theorem Out.keepsOK_diverge {α : Type} (good : α → Prop) :
    (Out.diverge : Out (St W) α).keepsOK good := trivial

theorem Out.keepsOK_bind {α β : Type} (g1 : α → Prop) (g2 : β → Prop) (x : Out (St W) α)
    (f : α → St W → Out (St W) β) (hx : x.keepsOK g1)
    (hf : ∀ a s, (g1 a → s.rendersOK) → (f a s).keepsOK g2) : (x.bind f).keepsOK g2 := by
  cases x with
  | val a s => exact hf a s hx
  | exn e s => trivial
  | diverge => trivial

theorem Out.keepsOK_atExit {α : Type} (g : α → Prop) (x : Out (St W) α) (d : St W → St W)
    (hx : x.keepsOK g) (hd : ∀ s, s.rendersOK → (d s).rendersOK) : (x.atExit d).keepsOK g := by
  cases x with
  | val a s => exact fun ha => hd s (hx ha)
  | exn e s => trivial
  | diverge => trivial

theorem Out.keepsOK_mono {α : Type} (g1 g2 : α → Prop) (x : Out (St W) α)
    (hx : x.keepsOK g1) (h : ∀ a, g2 a → g1 a) : x.keepsOK g2 := by
  cases x with
  | val a s => exact fun ha => hx (h a ha)
  | exn e s => trivial
  | diverge => trivial

theorem Out.keepsOK_ite {α : Type} (g : α → Prop) (c : Prop) [Decidable c]
    (x y : Out (St W) α) (hx : c → x.keepsOK g) (hy : ¬ c → y.keepsOK g) :
    (if c then x else y).keepsOK g := by
  split
  · exact hx (by assumption)
  · exact hy (by assumption)

theorem markImageAsBeingRendered_keepsOK (n : NodeId) (img : ImagePtr) (s : St W)
    (hs : s.rendersOK) : (markImageAsBeingRendered n img s).keepsOK fun _ => True := by
  unfold markImageAsBeingRendered
  repeat' split
  all_goals first
    | exact Out.keepsOK_val _ _ _ fun _ => hs
    | exact trivial

theorem unmarkImageAsBeingRendered_keepsOK (n : NodeId) (img : ImagePtr) (renderFailed : Bool)
    (s : St W) (hs : s.rendersOK) :
    (unmarkImageAsBeingRendered n img renderFailed s).keepsOK fun _ => True := by
  unfold unmarkImageAsBeingRendered
  repeat' split
  all_goals first
    | exact Out.keepsOK_val _ _ _ fun _ => hs
    | exact trivial

theorem waitForImageLoop_rendersOK (n : NodeId) (roi : RectI) (img : Image)
    (ibr : ImageBeingRendered) (fuel : Nat) :
    ∀ (ab other : Bool) (s s1 : St W), s.rendersOK →
      waitForImageLoop env n roi img ibr fuel ab other s = some s1 → s1.rendersOK := by
  induction fuel with
  | zero =>
    intro ab other s s1 hs h
    unfold waitForImageLoop at h
    split at h
    · exact absurd h (by simp)
    · simp only [Option.some.injEq] at h
      subst h
      exact hs
  | succ fuel ih =>
    intro ab other s s1 hs h
    unfold waitForImageLoop at h
    split at h
    · exact ih _ _ _ s1 (by exact hs) h
    · simp only [Option.some.injEq] at h
      subst h
      exact hs

theorem waitForImageBeingRenderedElsewhereAndUnmark_keepsOK (fuel : Nat) (n : NodeId)
    (roi : RectI) (img : ImagePtr) (s : St W) (hs : s.rendersOK) :
    (waitForImageBeingRenderedElsewhereAndUnmark env fuel n roi img s).keepsOK fun _ => True := by
  unfold waitForImageBeingRenderedElsewhereAndUnmark
  split
  · trivial
  · split
    · exact Out.keepsOK_val _ _ _ fun _ => hs
    · split
      · trivial
      · split
        · trivial
        · rename_i s1 hw
          have h1 := waitForImageLoop_rendersOK env n roi _ _ fuel _ _ s s1 hs hw
          repeat' split
          all_goals first
            | exact Out.keepsOK_val _ _ _ fun _ => h1
            | exact trivial

theorem inputImagesHolder_enter_rendersOK (n : NodeId) (imgs : InputImagesMap) (s : St W)
    (hs : s.rendersOK) : (inputImagesHolder_enter n imgs s).rendersOK := by
  unfold inputImagesHolder_enter
  split <;> exact hs

theorem inputImagesHolder_exit_rendersOK (n : NodeId) (imgs : InputImagesMap) (s : St W)
    (hs : s.rendersOK) : (inputImagesHolder_exit n imgs s).rendersOK := by
  unfold inputImagesHolder_exit
  split <;> exact hs

theorem St.rendersOK_of_renderLog (s s1 : St W) (h : s1.renderLog = s.renderLog)
    (hs : s.rendersOK) : s1.rendersOK := by
  unfold St.rendersOK at hs ⊢
  rw [h]
  exact hs

theorem getRegionOfDefinition_public_rendersOK (n : NodeId) (hash : U64) (time : SequenceTime)
    (scale : RenderScale) (view : Int) (rod : RectD) (isProjectFormat : Bool) (s : St W)
    (hs : s.rendersOK) :
    (getRegionOfDefinition_public env n hash time scale view rod isProjectFormat s).2.rendersOK :=
  St.rendersOK_of_renderLog s _ (getRegionOfDefinition_public_renderLog env n hash time scale view
    rod isProjectFormat s) hs

theorem getFrameRange_public_rendersOK (n : NodeId) (hash : U64) (bypasscache : Bool)
    (s : St W) (hs : s.rendersOK) :
    (getFrameRange_public env n hash bypasscache s).2.rendersOK :=
  St.rendersOK_of_renderLog s _ (getFrameRange_public_renderLog env n hash bypasscache s) hs

theorem isIdentity_public_keepsOK (n : NodeId) (useIdentityCache : Bool) (hash : U64)
    (time : SequenceTime) (scale : RenderScale) (renderWindow : RectI) (view : Int) (s : St W)
    (hs : s.rendersOK) :
    (isIdentity_public env n useIdentityCache hash time scale renderWindow view s).keepsOK
      fun _ => True := by
  cases h : isIdentity_public env n useIdentityCache hash time scale renderWindow view s with
  | val a s1 =>
    exact fun _ => St.rendersOK_of_renderLog s s1
      (isIdentity_public_renderLog env n useIdentityCache hash time scale renderWindow view s a
        s1 h) hs
  | exn e s1 => trivial
  | diverge => trivial

theorem fillZeroPlanes_keepsOK (outputUseImage : Bool) (rect : RectI) (planes : PlanesMap) :
    ∀ s : St W, s.rendersOK →
      (fillZeroPlanes env outputUseImage rect planes s).keepsOK fun _ => True := by
  induction planes with
  | nil => exact fun s hs => Out.keepsOK_val _ _ _ fun _ => hs
  | cons p rest ih =>
    intro s hs
    unfold fillZeroPlanes
    split
    · trivial
    · exact ih _ hs

theorem markOrClearPlanes_keepsOK (clear outputUseImage : Bool) (rect : RectI)
    (planes : PlanesMap) :
    ∀ s : St W, s.rendersOK →
      (markOrClearPlanes env clear outputUseImage rect planes s).keepsOK fun _ => True := by
  induction planes with
  | nil => exact fun s hs => Out.keepsOK_val _ _ _ fun _ => hs
  | cons p rest ih =>
    intro s hs
    unfold markOrClearPlanes
    split
    · trivial
    · exact ih _ hs

theorem renderHandler_tmpPlanes_keepsOK (n : NodeId) (multiPlanar : Bool) (roi : RectI)
    (outputClipPrefDepth : ImageBitDepthEnum) (outputClipPrefsComps : List ImageComponents)
    (planes : PlanesMap) :
    ∀ s : St W, s.rendersOK →
      (renderHandler_tmpPlanes env n multiPlanar roi outputClipPrefDepth outputClipPrefsComps
        planes s).keepsOK fun _ => True := by
  induction planes with
  | nil => exact fun s hs => Out.keepsOK_val _ _ _ fun _ => hs
  | cons p rest ih =>
    intro s hs
    unfold renderHandler_tmpPlanes
    split
    · trivial
    · simp only []
      refine Out.keepsOK_bind (fun _ => True) _ _ _ (ih _ ?_) ?_
      · split
        · exact hs
        · exact hs
      · intro a s2 h2
        exact Out.keepsOK_val _ _ _ fun _ => h2 trivial

theorem Out.keepsOK_bind_bad {α β : Type} (g : β → Prop) (x : Out (St W) α) (b : β)
    (h : ¬ g b) : (x.bind fun _ s => Out.val b s).keepsOK g := by
  cases x with
  | val a s => exact fun hb => absurd hb h
  | exn e s => trivial
  | diverge => trivial

theorem render_public_rendersOK (n : NodeId) (time : SequenceTime) (view : Int) (roi : RectI)
    (outputPlanes : List (ImageComponents × ImagePtr)) (s : St W) (hs : s.rendersOK)
    (hst : (render_public env n time view roi outputPlanes s).1.1 = .eStatusOK) :
    (render_public env n time view roi outputPlanes s).2.rendersOK := by
  unfold render_public at hst ⊢
  intro e he
  simp only [List.mem_append, List.mem_singleton] at he
  rcases he with he | he
  · exact hs e he
  · rw [he]
    exact hst

theorem renderHandler_renderLoop_keepsOK (n : NodeId) (multiPlanar trimap outputUseImage : Bool)
    (time : SequenceTime) (view : Int) (roi downscaledRectToRender : RectI)
    (lists : List (List (ImageComponents × ImagePtr))) :
    ∀ (first : Bool) (outputPlanes : PlanesMap) (s : St W), s.rendersOK →
      (renderHandler_renderLoop env n multiPlanar trimap outputUseImage time view roi
        downscaledRectToRender lists first outputPlanes s).keepsOK RenderLoopResult.notFailed := by
  induction lists with
  | nil => exact fun first outputPlanes s hs => Out.keepsOK_val _ _ _ fun _ => hs
  | cons planesList rest ih =>
    intro first outputPlanes s hs
    unfold renderHandler_renderLoop
    simp only []
    refine Out.keepsOK_ite _ _ _ _ (fun hst => ?_) (fun hst => ?_)
    · exact Out.keepsOK_ite _ _ _ _ (fun _ => Out.keepsOK_bind_bad _ _ _ id)
        (fun _ => Out.keepsOK_val _ _ _ fun h => absurd h id)
    · have hs2 := render_public_rendersOK env n time view roi planesList _
        (by split <;> exact hs) (not_not.mp hst)
      refine Out.keepsOK_ite _ _ _ _ (fun _ => Out.keepsOK_val _ _ _ fun _ => hs2) (fun _ => ?_)
      cases rest with
      | nil => exact Out.keepsOK_val _ _ _ fun _ => hs2
      | cons r2 rest2 => exact ih _ _ _ hs2

theorem renderHandler_identity_keepsOK (rec : RenderRoIFn W) (hrec : rec.keepsOK) (n : NodeId)
    (identityTime : SequenceTime) (identityInput : Option NodeId) (outputUseImage : Bool)
    (originalScale : RenderScale) (mipMapLevel : Nat) (view : Int)
    (downscaledRectToRender : RectI) (outputClipPrefDepth : ImageBitDepthEnum)
    (planes : ImagePlanesToRender) (s : St W) (hs : s.rendersOK) :
    (renderHandler_identity env rec n identityTime identityInput outputUseImage originalScale
      mipMapLevel view downscaledRectToRender outputClipPrefDepth planes s).keepsOK
      RenderingFunctorRetEnum.rendered := by
  unfold renderHandler_identity
  split
  · trivial
  · split
    · exact Out.keepsOK_bind (fun _ => True) _ _ _ (fillZeroPlanes_keepsOK env _ _ _ s hs)
        fun _ s1 h1 => Out.keepsOK_val _ _ _ fun _ => h1 trivial
    · refine Out.keepsOK_bind _ _ _ _ (hrec _ _ _ s hs) ?_
      intro r s1 h1
      split
      · exact Out.keepsOK_val _ _ _ fun h => absurd rfl h.2
      · rename_i hab
        have hs1 := h1 hab
        split
        · exact Out.keepsOK_val _ _ _ fun h => absurd rfl h.1
        · split
          · exact Out.keepsOK_bind (fun _ => True) _ _ _
              (fillZeroPlanes_keepsOK env _ _ _ s1 hs1)
              fun _ s2 h2 => Out.keepsOK_val _ _ _ fun _ => h2 trivial
          · split
            · exact Out.keepsOK_val _ _ _ fun _ => hs1
            · trivial

theorem renderHandler_keepsOK (rec : RenderRoIFn W) (hrec : rec.keepsOK) (n : NodeId)
    (frameArgs : ParallelRenderArgs) (identity : Bool) (identityTime : SequenceTime)
    (identityInput : Option NodeId)
    (renderFullScaleThenDownscale renderUseScaleOneInputs : Bool)
    (renderMappedRectToRender downscaledRectToRender : RectI)
    (outputClipPrefDepth : ImageBitDepthEnum) (outputClipPrefsComps : List ImageComponents)
    (planes : ImagePlanesToRender) (s : St W) (hs : s.rendersOK) :
    (renderHandler env rec n frameArgs identity identityTime identityInput
      renderFullScaleThenDownscale renderUseScaleOneInputs renderMappedRectToRender
      downscaledRectToRender outputClipPrefDepth outputClipPrefsComps planes s).keepsOK
      RenderingFunctorRetEnum.rendered := by
  unfold renderHandler
  split
  · trivial
  · split
    · simp only []
      split
      · exact renderHandler_identity_keepsOK env rec hrec _ _ _ _ _ _ _ _ _ _ s hs
      · refine Out.keepsOK_bind (fun _ => True) _ _ _
          (renderHandler_tmpPlanes_keepsOK env _ _ _ _ _ _ _ hs) ?_
        intro t s2 h2
        refine Out.keepsOK_bind (fun _ => True) _ _ _ ?_ ?_
        · split
          · exact markOrClearPlanes_keepsOK env _ _ _ _ _ (h2 trivial)
          · exact Out.keepsOK_val _ _ _ fun _ => h2 trivial
        · intro _ s4 h4
          refine Out.keepsOK_bind RenderLoopResult.notFailed _ _ _
            (renderHandler_renderLoop_keepsOK env _ _ _ _ _ _ _ _ _ _ _ _ (h4 trivial)) ?_
          intro r s5 h5
          split
          · exact Out.keepsOK_val _ _ _ fun h => absurd rfl h.1
          · split
            · exact Out.keepsOK_val _ _ _ fun h => absurd rfl h.2
            · exact Out.keepsOK_val _ _ _ fun _ => h5 trivial
    · trivial

theorem tiledRenderingFunctor_keepsOK (rec : RenderRoIFn W) (hrec : rec.keepsOK) (n : NodeId)
    (frameArgs : ParallelRenderArgs) (rectToRender : RectToRender)
    (renderFullScaleThenDownscale renderUseScaleOneInputs : Bool) (firstFrame lastFrame : Int)
    (mipMapLevel renderMappedMipMapLevel : Nat) (rod : RectD) (time : SequenceTime) (view : Int)
    (par : ℚ) (outputClipPrefDepth : ImageBitDepthEnum)
    (outputClipPrefsComps : List ImageComponents) (planes : ImagePlanesToRender) (s : St W)
    (hs : s.rendersOK) :
    (tiledRenderingFunctor env rec n frameArgs rectToRender renderFullScaleThenDownscale
      renderUseScaleOneInputs firstFrame lastFrame mipMapLevel renderMappedMipMapLevel rod time
      view par outputClipPrefDepth outputClipPrefsComps planes s).keepsOK
      RenderingFunctorRetEnum.rendered := by
  unfold tiledRenderingFunctor
  refine Out.keepsOK_atExit _ _ _ ?_ (inputImagesHolder_exit_rendersOK n _)
  have hs1 := inputImagesHolder_enter_rendersOK n rectToRender.imgs s hs
  unfold tiledRenderingFunctor_body
  split
  · trivial
  · split
    · trivial
    · refine Out.keepsOK_ite _ _ _ _ (fun _ => Out.keepsOK_val _ _ _ fun _ => hs1) (fun _ => ?_)
      refine Out.keepsOK_atExit _ _ _ ?_ (fun s2 h2 => h2)
      refine Out.keepsOK_bind RenderingFunctorRetEnum.rendered _ _ _
        (renderHandler_keepsOK env rec hrec _ _ _ _ _ _ _ _ _ _ _ _ _ hs1) ?_
      intro handlerRet s3 h3
      refine Out.keepsOK_ite _ _ _ _ (fun hok => ?_) (fun _ => Out.keepsOK_val _ _ _ h3)
      refine Out.keepsOK_val _ _ _ fun _ => h3 ?_
      rw [hok]
      exact ⟨by decide, by decide⟩

theorem renderRoIInternal_tiles_keepsOK (rec : RenderRoIFn W) (hrec : rec.keepsOK) (n : NodeId)
    (frameArgs : ParallelRenderArgs)
    (renderFullScaleThenDownscale useScaleOneInputImages : Bool) (firstFrame lastFrame : Int)
    (mipMapLevel renderMappedMipMapLevel : Nat) (rod : RectD) (time : SequenceTime) (view : Int)
    (par : ℚ) (outputClipPrefDepth : ImageBitDepthEnum)
    (outputClipPrefsComps : List ImageComponents) (rects : List RectToRender) :
    ∀ (planes : ImagePlanesToRender) (s : St W), s.rendersOK →
      (renderRoIInternal_tiles env rec n frameArgs renderFullScaleThenDownscale
        useScaleOneInputImages firstFrame lastFrame mipMapLevel renderMappedMipMapLevel rod time
        view par outputClipPrefDepth outputClipPrefsComps rects planes s).keepsOK
        fun t => t.1.rendered := by
  induction rects with
  | nil => exact fun planes s hs => Out.keepsOK_val _ _ _ fun _ => hs
  | cons r rest ih =>
    intro planes s hs
    unfold renderRoIInternal_tiles
    refine Out.keepsOK_bind RenderingFunctorRetEnum.rendered _ _ _
      (tiledRenderingFunctor_keepsOK env rec hrec _ _ _ _ _ _ _ _ _ _ _ _ _ _ _ _ s hs) ?_
    intro functorRet s1 h1
    refine Out.keepsOK_ite _ _ _ _ (fun hbad => ?_) (fun hgood => ?_)
    · refine Out.keepsOK_val _ _ _ fun h => ?_
      rcases hbad with hb | hb
      · exact absurd hb h.1
      · exact absurd hb h.2
    · exact ih _ _ (h1 ⟨fun h => hgood (Or.inl h), fun h => hgood (Or.inr h)⟩)

theorem renderRoIInternal_mapped_keepsOK (rec : RenderRoIFn W) (hrec : rec.keepsOK) (n : NodeId)
    (frameArgs : ParallelRenderArgs)
    (renderFullScaleThenDownscale useScaleOneInputImages : Bool) (firstFrame lastFrame : Int)
    (mipMapLevel renderMappedMipMapLevel : Nat) (rod : RectD) (time : SequenceTime) (view : Int)
    (par : ℚ) (outputClipPrefDepth : ImageBitDepthEnum)
    (outputClipPrefsComps : List ImageComponents) (planes : ImagePlanesToRender)
    (rects : List RectToRender) :
    ∀ s : St W, s.rendersOK →
      (renderRoIInternal_mapped env rec n frameArgs renderFullScaleThenDownscale
        useScaleOneInputImages firstFrame lastFrame mipMapLevel renderMappedMipMapLevel rod time
        view par outputClipPrefDepth outputClipPrefsComps planes rects s).keepsOK
        fun rets => ∀ r ∈ rets, r.rendered := by
  induction rects with
  | nil => exact fun s hs => Out.keepsOK_val _ _ _ fun _ => hs
  | cons r rest ih =>
    intro s hs
    unfold renderRoIInternal_mapped
    refine Out.keepsOK_bind RenderingFunctorRetEnum.rendered _ _ _
      (tiledRenderingFunctor_keepsOK env rec hrec _ _ _ _ _ _ _ _ _ _ _ _ _ _ _ _ s hs) ?_
    intro functorRet s1 h1
    by_cases hg : functorRet.rendered
    · refine Out.keepsOK_bind (fun rets => ∀ r ∈ rets, r.rendered) _ _ _ (ih s1 (h1 hg)) ?_
      intro rets s2 h2
      exact Out.keepsOK_val _ _ _ fun h =>
        h2 fun r hr => h r (List.mem_cons_of_mem _ hr)
    · cases renderRoIInternal_mapped env rec n frameArgs renderFullScaleThenDownscale
        useScaleOneInputImages firstFrame lastFrame mipMapLevel renderMappedMipMapLevel rod time
        view par outputClipPrefDepth outputClipPrefsComps planes rest s1 with
      | val rets s2 => exact fun h => absurd (h functorRet (List.mem_cons_self _ _)) hg
      | exn e s2 => trivial
      | diverge => trivial

theorem renderRoIInternal_scan_rendered (rets : List RenderingFunctorRetEnum)
    (h : (renderRoIInternal_scan rets).1 = .eRenderingFunctorRetOK) :
    ∀ r ∈ rets, r.rendered := by
  induction rets with
  | nil => exact fun r hr => absurd hr (List.not_mem_nil r)
  | cons r rest ih =>
    unfold renderRoIInternal_scan at h
    split at h
    · exact absurd h (by decide)
    · rename_i hf
      split at h
      · rename_i hl
        intro r2 hr2
        rcases List.mem_cons.mp hr2 with h2 | h2
        · rw [h2, hl]
          exact ⟨by decide, by decide⟩
        · exact ih h r2 h2
      · split at h
        · exact absurd h (by decide)
        · rename_i ha
          intro r2 hr2
          rcases List.mem_cons.mp hr2 with h2 | h2
          · rw [h2]
            exact ⟨hf, ha⟩
          · exact ih h r2 h2

theorem beginSequenceRender_public_rendersOK (n : NodeId) (time : SequenceTime)
    (scale : RenderScale) (isSequentialRender isRenderResponseToUserInteraction : Bool)
    (view : Int) (s : St W) (hs : s.rendersOK) :
    (beginSequenceRender_public env n time scale isSequentialRender
      isRenderResponseToUserInteraction view s).2.rendersOK := hs

theorem endSequenceRender_public_rendersOK (n : NodeId) (time : SequenceTime)
    (scale : RenderScale) (isSequentialRender isRenderResponseToUserInteraction : Bool)
    (view : Int) (s : St W) (hs : s.rendersOK) :
    (endSequenceRender_public env n time scale isSequentialRender
      isRenderResponseToUserInteraction view s).2.rendersOK := hs

theorem St.rendersOK_ite (c : Prop) [Decidable c] (a b : St W) (ha : a.rendersOK)
    (hb : b.rendersOK) : (if c then a else b).rendersOK := by
  split
  · exact ha
  · exact hb

theorem renderRoIInternal_scan_cases (rets : List RenderingFunctorRetEnum) :
    (renderRoIInternal_scan rets).1 = .eRenderingFunctorRetOK ∨
    (renderRoIInternal_scan rets).1 = .eRenderingFunctorRetFailed := by
  induction rets with
  | nil => exact Or.inl rfl
  | cons a l ihl =>
    unfold renderRoIInternal_scan
    split
    · exact Or.inr rfl
    · split
      · exact ihl
      · split
        · exact Or.inr rfl
        · exact ihl

theorem RenderingFunctorRetEnum.eq_ok_of_ite (c : Prop) [Decidable c]
    (r : RenderingFunctorRetEnum)
    (h : (if c then RenderingFunctorRetEnum.eRenderingFunctorRetFailed else r) =
      .eRenderingFunctorRetOK) : r = .eRenderingFunctorRetOK := by
  split at h
  · exact absurd h (by decide)
  · exact h

theorem renderRoIInternal_keepsOK (rec : RenderRoIFn W) (hrec : rec.keepsOK) (n : NodeId)
    (time : SequenceTime) (safety : RenderSafetyEnum) (mipMapLevel : Nat) (view : Int)
    (rod : RectD) (par : ℚ) (planesToRender : ImagePlanesToRender)
    (isSequentialRender isRenderMadeInResponseToUserInteraction : Bool) (nodeHash : U64)
    (renderFullScaleThenDownscale useScaleOneInputImages : Bool)
    (outputClipPrefDepth : ImageBitDepthEnum) (outputClipPrefsComps : List ImageComponents)
    (s : St W) (hs : s.rendersOK) :
    (renderRoIInternal env rec n time safety mipMapLevel view rod par planesToRender
      isSequentialRender isRenderMadeInResponseToUserInteraction nodeHash
      renderFullScaleThenDownscale useScaleOneInputImages outputClipPrefDepth
      outputClipPrefsComps s).keepsOK fun r => r.1 ≠ .eRenderRoIStatusRenderFailed := by
  unfold renderRoIInternal
  simp only []
  have hs1 : (if (env.isReader n && !env.isMainThread s.world) = true then
      s.setWorld (env.setOrAddProjectFormat n (env.toPixelEnclosing rod 0 par) par s.world)
      else s).rendersOK := St.rendersOK_ite _ _ _ hs hs
  have hs2 := getFrameRange_public_rendersOK env n nodeHash false _ hs1
  cases hm : firstRenderMappedMipMapLevel
      (setRenderMappedImages renderFullScaleThenDownscale planesToRender.planes) with
  | none => trivial
  | some renderMappedMipMapLevel =>
    simp only []
    refine Out.keepsOK_bind (fun t => t.1.rendered) _ _ _ ?_ ?_
    · refine Out.keepsOK_ite _ _ _ _
        (fun _ => Out.keepsOK_val _ _ _ fun h => absurd rfl h.1) (fun _ => ?_)
      refine Out.keepsOK_ite _ _ _ _ (fun _ => ?_) (fun _ => ?_)
      · refine Out.keepsOK_bind (fun rets => ∀ r ∈ rets, r.rendered) _ _ _
          (renderRoIInternal_mapped_keepsOK env rec hrec _ _ _ _ _ _ _ _ _ _ _ _ _ _ _ _ _
            (by exact St.rendersOK_ite _ _ _ hs2 hs2)) ?_
        intro rets s4 h4
        refine Out.keepsOK_val _ _ _ fun h => h4 ?_
        rcases renderRoIInternal_scan_cases rets with h5 | h5
        · exact renderRoIInternal_scan_rendered rets h5
        · exact absurd h5 h.1
      · exact renderRoIInternal_tiles_keepsOK env rec hrec _ _ _ _ _ _ _ _ _ _ _ _ _ _ _ _ _
          (by exact St.rendersOK_ite _ _ _ hs2 hs2)
    · intro t s5 h5
      refine Out.keepsOK_val _ _ _ fun h => ?_
      have hrs : ¬ (_ ≠ RenderingFunctorRetEnum.eRenderingFunctorRetOK) :=
        fun hne => h (if_pos hne)
      have ht := RenderingFunctorRetEnum.eq_ok_of_ite _ _ (not_not.mp hrs)
      have h6 : s5.rendersOK := h5 (by
        show t.1.rendered
        rw [ht]
        exact ⟨by decide, by decide⟩)
      exact St.rendersOK_ite _ _ _ h6 h6

theorem renderInputImagesForRoI_frames_keepsOK (rec : RenderRoIFn W) (hrec : rec.keepsOK)
    (inputEffect : NodeId) (inArgs : SequenceTime → W → RenderRoIArgs) (last : Int)
    (count : Nat) :
    ∀ (f : Int) (nb : Nat) (imgs : ImageList) (s : St W), s.rendersOK →
      (renderInputImagesForRoI_frames rec inputEffect inArgs last count f nb imgs s).keepsOK
        notAbortedReturn := by
  induction count with
  | zero => exact fun f nb imgs s hs => Out.keepsOK_val _ _ _ fun _ => hs
  | succ count ih =>
    intro f nb imgs s hs
    unfold renderInputImagesForRoI_frames
    refine Out.keepsOK_ite _ _ _ _ (fun _ => ?_) (fun _ => Out.keepsOK_val _ _ _ fun _ => hs)
    refine Out.keepsOK_bind _ _ _ _ (hrec _ _ _ s hs) ?_
    intro r s1 h1
    refine Out.keepsOK_ite _ _ _ _ (fun _ => Out.keepsOK_val _ _ _ h1) (fun hok => ?_)
    refine ih _ _ _ _ (h1 ?_)
    rw [not_not.mp hok]
    decide

theorem renderInputImagesForRoI_ranges_keepsOK (rec : RenderRoIFn W) (hrec : rec.keepsOK)
    (inputEffect : NodeId) (inArgs : SequenceTime → W → RenderRoIArgs)
    (ranges : List OfxRangeD) :
    ∀ (nb : Nat) (imgs : ImageList) (s : St W), s.rendersOK →
      (renderInputImagesForRoI_ranges rec inputEffect inArgs ranges nb imgs s).keepsOK
        notAbortedReturn := by
  induction ranges with
  | nil => exact fun nb imgs s hs => Out.keepsOK_val _ _ _ fun _ => hs
  | cons range rest ih =>
    intro nb imgs s hs
    unfold renderInputImagesForRoI_ranges
    refine Out.keepsOK_bind notAbortedReturn _ _ _
      (renderInputImagesForRoI_frames_keepsOK rec hrec _ _ _ _ _ _ _ s hs) ?_
    intro r s1 h1
    cases r with
    | error ret => exact Out.keepsOK_val _ _ _ h1
    | ok v => exact ih _ _ _ (h1 trivial)

theorem renderInputImagesForRoI_views_keepsOK (rec : RenderRoIFn W) (hrec : rec.keepsOK)
    (inputEffect : NodeId) (inArgs : SequenceTime → W → RenderRoIArgs)
    (views : List (Int × List OfxRangeD)) :
    ∀ (imgs : ImageList) (s : St W), s.rendersOK →
      (renderInputImagesForRoI_views rec inputEffect inArgs views imgs s).keepsOK
        notAbortedReturn := by
  induction views with
  | nil => exact fun imgs s hs => Out.keepsOK_val _ _ _ fun _ => hs
  | cons it2 rest ih =>
    intro imgs s hs
    unfold renderInputImagesForRoI_views
    refine Out.keepsOK_bind notAbortedReturn _ _ _
      (renderInputImagesForRoI_ranges_keepsOK rec hrec _ _ _ _ _ s hs) ?_
    intro r s1 h1
    cases r with
    | error ret => exact Out.keepsOK_val _ _ _ h1
    | ok v => exact ih _ _ (h1 trivial)

theorem renderInputImagesForRoI_inputs_keepsOK (rec : RenderRoIFn W) (hrec : rec.keepsOK)
    (n : NodeId) (view : Int) (mipMapLevel : Nat) (scale : RenderScale)
    (useScaleOneInputImages byPassCache : Bool) (neededComps : ComponentsNeededMap)
    (reroutesMap : List (Int × NodeId)) (inputsRoi : RoIMap) (framesNeeded : FramesNeededMap) :
    ∀ (inputImages : InputImagesMap) (s : St W), s.rendersOK →
      (renderInputImagesForRoI_inputs env rec n view mipMapLevel scale useScaleOneInputImages
        byPassCache neededComps reroutesMap inputsRoi framesNeeded inputImages s).keepsOK
        notAbortedReturn := by
  induction framesNeeded with
  | nil => exact fun inputImages s hs => Out.keepsOK_val _ _ _ fun _ => hs
  | cons it rest ih =>
    intro inputImages s hs
    unfold renderInputImagesForRoI_inputs
    cases renderInputImagesForRoI_inputEffect env n neededComps reroutesMap it.1 s.world with
    | none => exact ih _ _ hs
    | some inputEffect =>
      simp only []
      cases RoIMap.find inputsRoi (some inputEffect) with
      | none => exact ih _ _ hs
      | some foundInputRoI =>
        simp only []
        refine Out.keepsOK_ite _ _ _ _ (fun _ => trivial) (fun _ => ?_)
        refine Out.keepsOK_bind notAbortedReturn _ _ _
          (renderInputImagesForRoI_views_keepsOK rec hrec _ _ _ _ s hs) ?_
        intro r s1 h1
        cases r with
        | error ret => exact Out.keepsOK_val _ _ _ h1
        | ok imgs =>
          exact Out.keepsOK_ite _ _ _ _
            (fun _ => Out.keepsOK_val _ _ _ fun h => absurd rfl h)
            (fun _ => ih _ _ (h1 trivial))

theorem renderInputImagesForRoI_keepsOK (rec : RenderRoIFn W) (hrec : rec.keepsOK) (n : NodeId)
    (time : SequenceTime) (view : Int) (par : ℚ) (rod canonicalRenderWindow : RectD)
    (inputTransforms : List InputMatrix) (mipMapLevel : Nat)
    (scale renderMappedScale : RenderScale) (useScaleOneInputImages byPassCache : Bool)
    (framesNeeded : FramesNeededMap) (neededComps : ComponentsNeededMap)
    (inputImages : InputImagesMap) (inputsRoi : RoIMap) (s : St W) (hs : s.rendersOK) :
    (renderInputImagesForRoI env rec n time view par rod canonicalRenderWindow inputTransforms
      mipMapLevel scale renderMappedScale useScaleOneInputImages byPassCache framesNeeded
      neededComps inputImages inputsRoi s).keepsOK
      fun r => r.1 ≠ .eRenderRoIRetCodeAborted := by
  unfold renderInputImagesForRoI
  simp only []
  split
  · rename_i imgs s2 heq
    have h : Out.keepsOK notAbortedReturn (Out.val (Except.ok imgs) s2) := by
      rw [← heq]
      exact renderInputImagesForRoI_inputs_keepsOK env rec hrec _ _ _ _ _ _ _ _ _ _ _ _
        (by exact hs)
    exact Out.keepsOK_val _ _ _ fun _ => h trivial
  · rename_i ret s2 heq
    have h : Out.keepsOK notAbortedReturn
        (Out.val (Except.error ret : Except RenderRoIRetCode InputImagesMap) s2) := by
      rw [← heq]
      exact renderInputImagesForRoI_inputs_keepsOK env rec hrec _ _ _ _ _ _ _ _ _ _ _ _
        (by exact hs)
    exact Out.keepsOK_val _ _ _ h
  · trivial
  · trivial

theorem getOrCreateFromCacheInternal_rendersOK (key : ImageKey) (params : ImageParams)
    (useCache useDiskCache : Bool) (s : St W) (hs : s.rendersOK) :
    (getOrCreateFromCacheInternal env key params useCache useDiskCache s).2.rendersOK := by
  unfold getOrCreateFromCacheInternal
  split
  · simp only []
    split <;> exact hs
  · exact hs

theorem allocateImagePlane_rendersOK (key : ImageKey) (rod : RectD)
    (downscaleImageBounds fullScaleImageBounds : RectI) (isProjectFormat : Bool)
    (framesNeeded : FramesNeededMap) (components : ImageComponents) (depth : ImageBitDepthEnum)
    (par : ℚ) (mipmapLevel : Nat)
    (renderFullScaleThenDownscale renderScaleOneUpstreamIfRenderScaleSupportDisabled : Bool)
    (useDiskCache createInCache : Bool) (fullScaleImage downscaleImage : ImagePtr) (s : St W)
    (hs : s.rendersOK) :
    (allocateImagePlane env key rod downscaleImageBounds fullScaleImageBounds isProjectFormat
      framesNeeded components depth par mipmapLevel renderFullScaleThenDownscale
      renderScaleOneUpstreamIfRenderScaleSupportDisabled useDiskCache createInCache
      fullScaleImage downscaleImage s).2.rendersOK := by
  unfold allocateImagePlane
  simp only []
  split
  · exact getOrCreateFromCacheInternal_rendersOK env _ _ _ _ _ (by exact hs)
  · have hc := getOrCreateFromCacheInternal_rendersOK env key
      ⟨if useDiskCache = true then 1 else 0, rod, downscaleImageBounds, par, mipmapLevel,
        isProjectFormat, components, depth, framesNeeded⟩ createInCache useDiskCache s hs
    split
    · exact hc
    · split
      · exact hc
      · exact hc

theorem renderRoI_assemblePlane_keepsOK (l : Locals) (renderRetCode : RenderRoIStatusEnum)
    (useAlpha0 : Bool) (comp : ImageComponents) (plane : PlaneToRender) (roi : RectI)
    (s : St W) (hs : s.rendersOK) :
    (renderRoI_assemblePlane env l renderRetCode useAlpha0 comp plane roi s).keepsOK
      fun _ => True := by
  unfold renderRoI_assemblePlane
  simp only []
  refine Out.keepsOK_bind (fun _ => True) _ _ _ ?_ ?_
  · refine Out.keepsOK_ite _ _ _ _ (fun _ => ?_) (fun _ => Out.keepsOK_val _ _ _ fun _ => hs)
    split
    · trivial
    · split
      · trivial
      · refine Out.keepsOK_val _ _ _ fun _ => ?_
        split <;> exact hs
  · intro r s2 h2
    split
    · trivial
    · exact Out.keepsOK_ite _ _ _ _ (fun _ => Out.keepsOK_val _ _ _ fun _ => h2 trivial)
        (fun _ => Out.keepsOK_val _ _ _ fun _ => h2 trivial)

theorem renderRoI_assemblePlanes_keepsOK (l : Locals) (renderRetCode : RenderRoIStatusEnum)
    (useAlpha0 : Bool) (planes : PlanesMap) :
    ∀ (roi : RectI) (outputPlanes : ImageList) (s : St W), s.rendersOK →
      (renderRoI_assemblePlanes env l renderRetCode useAlpha0 planes roi outputPlanes
        s).keepsOK fun _ => True := by
  induction planes with
  | nil => exact fun roi outputPlanes s hs => Out.keepsOK_val _ _ _ fun _ => hs
  | cons p rest ih =>
    intro roi outputPlanes s hs
    unfold renderRoI_assemblePlanes
    exact Out.keepsOK_bind (fun _ => True) _ _ _
      (renderRoI_assemblePlane_keepsOK env l renderRetCode useAlpha0 p.1 p.2 roi s hs)
      fun r s1 h1 => ih _ _ _ (h1 trivial)

theorem renderRoI_assemble_keepsOK (n : NodeId) (l : Locals)
    (renderRetCode : RenderRoIStatusEnum) (outputPlanes : ImageList) (s : St W)
    (hs : s.rendersOK) :
    (renderRoI_assemble env n l renderRetCode outputPlanes s).keepsOK fun _ => True := by
  unfold renderRoI_assemble
  simp only []
  exact Out.keepsOK_bind (fun _ => True) _ _ _
    (renderRoI_assemblePlanes_keepsOK env l renderRetCode _ _ _ _ s hs)
    fun out s1 h1 => Out.keepsOK_val _ _ _ fun _ => h1 trivial

theorem renderRoI_markPlanes_keepsOK (n : NodeId) (useImageAsOutput : Bool)
    (planes : PlanesMap) :
    ∀ s : St W, s.rendersOK →
      (renderRoI_markPlanes n useImageAsOutput planes s).keepsOK fun _ => True := by
  induction planes with
  | nil => exact fun s hs => Out.keepsOK_val _ _ _ fun _ => hs
  | cons p rest ih =>
    intro s hs
    unfold renderRoI_markPlanes
    exact Out.keepsOK_bind (fun _ => True) _ _ _
      (markImageAsBeingRendered_keepsOK n _ s hs) fun _ s1 h1 => ih s1 (h1 trivial)

theorem renderRoI_unmarkPlanes_keepsOK (fuel : Nat) (n : NodeId) (useImageAsOutput : Bool)
    (roi : RectI) (renderRetCode : RenderRoIStatusEnum) (isBeingRenderedElsewhere : Bool)
    (planes : PlanesMap) :
    ∀ s : St W, s.rendersOK →
      (renderRoI_unmarkPlanes env fuel n useImageAsOutput roi renderRetCode
        isBeingRenderedElsewhere planes s).keepsOK fun _ => True := by
  induction planes with
  | nil => exact fun s hs => Out.keepsOK_val _ _ _ fun _ => hs
  | cons p rest ih =>
    intro s hs
    unfold renderRoI_unmarkPlanes
    refine Out.keepsOK_bind (fun _ => True) _ _ _ ?_ fun _ s1 h1 => ih s1 (h1 trivial)
    exact Out.keepsOK_ite _ _ _ _
      (fun _ => unmarkImageAsBeingRendered_keepsOK n _ _ s hs)
      (fun _ => waitForImageBeingRenderedElsewhereAndUnmark_keepsOK env fuel n roi _ s hs)

theorem renderRoI_recycleLastRender_rendersOK (n : NodeId) (l : Locals) (s : St W)
    (hs : s.rendersOK) : (renderRoI_recycleLastRender env n l s).rendersOK := by
  unfold renderRoI_recycleLastRender
  split <;> exact hs

theorem renderRoI_adjustCachedPlane_rendersOK (l : Locals) (components : ImageComponents)
    (full : Image) (plane : PlaneToRender) (s : St W) (hs : s.rendersOK) :
    (renderRoI_adjustCachedPlane env l components full plane s).2.rendersOK := by
  unfold renderRoI_adjustCachedPlane
  simp only []
  repeat' split
  all_goals exact hs

theorem renderRoI_allocatePlanes_keepsOK (l : Locals) (planes : PlanesMap) :
    ∀ s : St W, s.rendersOK →
      (renderRoI_allocatePlanes env l planes s).keepsOK fun _ => True := by
  induction planes with
  | nil => exact fun s hs => Out.keepsOK_val _ _ _ fun _ => hs
  | cons p rest ih =>
    intro s hs
    unfold renderRoI_allocatePlanes
    split
    · trivial
    · simp only []
      refine Out.keepsOK_bind (fun _ => True) _ _ _ (ih _ ?_)
        fun r s1 h1 => Out.keepsOK_val _ _ _ fun _ => h1 trivial
      split
      · exact allocateImagePlane_rendersOK env _ _ _ _ _ _ _ _ _ _ _ _ _ _ _ _ s hs
      · exact renderRoI_adjustCachedPlane_rendersOK env l _ _ _ s hs

theorem renderRoI_makeRects_rendersOK (n : NodeId) (l : Locals) (rects : List RectI)
    (s : St W) (hs : s.rendersOK) : (renderRoI_makeRects env n l rects s).2.rendersOK := by
  unfold renderRoI_makeRects
  split <;> exact hs

theorem renderRoI_redoLookup_keepsOK (n : NodeId) (l : Locals) (planes : PlanesMap) :
    ∀ s : St W, s.rendersOK →
      (renderRoI_redoLookup env n l planes s).keepsOK fun _ => True := by
  induction planes with
  | nil => exact fun s hs => Out.keepsOK_val _ _ _ fun _ => hs
  | cons p rest ih =>
    intro s hs
    unfold renderRoI_redoLookup
    split
    · trivial
    · simp only []
      refine Out.keepsOK_ite _ _ _ _ (fun _ => ?_) (fun _ => Out.keepsOK_val _ _ _ fun _ => hs)
      refine Out.keepsOK_bind (fun _ => True) _ _ _ (ih _ (by exact hs)) ?_
      intro r s1 h1
      cases r with
      | error e => exact Out.keepsOK_val _ _ _ fun _ => h1 trivial
      | ok v => exact Out.keepsOK_val _ _ _ fun _ => h1 trivial

theorem renderRoI_inputsRoD_rendersOK (n : NodeId) (l : Locals) (inputs : List Nat) :
    ∀ (acc : InputsRoDLoop) (s : St W), s.rendersOK →
      (renderRoI_inputsRoD env n l inputs acc s).2.rendersOK := by
  induction inputs with
  | nil => exact fun acc s hs => hs
  | cons i rest ih =>
    intro acc s hs
    unfold renderRoI_inputsRoD
    simp only []
    repeat' split
    all_goals first
      | exact ih _ _ hs
      | exact ih _ _ (getRegionOfDefinition_public_rendersOK env _ _ _ _ _ _ _ s hs)
      | exact getRegionOfDefinition_public_rendersOK env _ _ _ _ _ _ _ s hs

theorem renderRoI_requeuePlanes_rendersOK (roi : RectI) (planes : PlanesMap) :
    ∀ (outputPlanes : ImageList) (s : St W), s.rendersOK →
      (renderRoI_requeuePlanes env roi planes outputPlanes s).2.rendersOK := by
  induction planes with
  | nil => exact fun outputPlanes s hs => hs
  | cons it2 rest ih =>
    intro outputPlanes s hs
    unfold renderRoI_requeuePlanes
    split
    · split
      · exact ih _ _ (by exact hs)
      · exact ih _ _ hs
    · exact ih _ _ hs

theorem renderRoI_lookupPlane_rendersOK (n : NodeId) (l : Locals)
    (comp components : ImageComponents) (acc : LookupLoop) (s : St W) (hs : s.rendersOK) :
    (renderRoI_lookupPlane env n l comp components acc s).2.rendersOK := by
  unfold renderRoI_lookupPlane
  simp only []
  repeat' split
  all_goals first
    | exact hs
    | exact renderRoI_requeuePlanes_rendersOK env _ _ _ _ (by exact hs)

theorem renderRoI_lookupPlanes_keepsOK (n : NodeId) (l : Locals)
    (comps : List ImageComponents) :
    ∀ (acc : LookupLoop) (s : St W), s.rendersOK →
      (renderRoI_lookupPlanes env n l comps acc s).keepsOK fun _ => True := by
  induction comps with
  | nil => exact fun acc s hs => Out.keepsOK_val _ _ _ fun _ => hs
  | cons comp rest ih =>
    intro acc s hs
    unfold renderRoI_lookupPlanes
    split
    · trivial
    · exact ih _ _ (renderRoI_lookupPlane_rendersOK env n l comp _ acc s hs)

theorem transformReroute_exit_rendersOK (n : NodeId) (transforms : List InputMatrix) :
    ∀ s : St W, s.rendersOK → (transformReroute_exit env n transforms s).rendersOK := by
  unfold transformReroute_exit
  induction transforms with
  | nil => exact fun s hs => hs
  | cons it rest ih =>
    intro s hs
    rw [List.foldl_cons]
    exact ih _ hs

theorem renderRoI_restOfCached_keepsOK (n : NodeId) (l : Locals) (isPlaneCached : Image)
    (cacheAlmostFull : Bool) (s : St W) (hs : s.rendersOK) :
    (renderRoI_restOfCached env n l isPlaneCached cacheAlmostFull s).keepsOK
      fun _ => True := by
  unfold renderRoI_restOfCached
  simp only []
  refine Out.keepsOK_bind (fun _ => True) _ _ _ ?_
    fun _ s1 h1 => Out.keepsOK_val _ _ _ fun _ => h1 trivial
  refine Out.keepsOK_ite _ _ _ _ (fun _ => ?_) (fun _ => Out.keepsOK_val _ _ _ fun _ => hs)
  split
  · trivial
  · rename_i imgs _
    refine Out.keepsOK_val _ _ _ fun _ => ?_
    have : ∀ (imgs : ImageList) (s0 : St W), s0.rendersOK →
        (imgs.foldl (fun s1 img => s1.setWorld
          (env.setBitmapDirtyZone img l.lastStrokePixelRoD
            (env.clearBitmap img l.lastStrokePixelRoD s1.world))) s0).rendersOK := by
      intro imgs
      induction imgs with
      | nil => exact fun s0 h0 => h0
      | cons a rest ih =>
        intro s0 h0
        rw [List.foldl_cons]
        exact ih _ h0
    exact this imgs s hs

theorem Out.keepsOK_cond {α : Type} (P : Prop) (x : Out (St W) α)
    (h : P → x.keepsOK fun _ => True) : x.keepsOK fun _ => P := by
  cases x with
  | val a s => exact fun hp => h hp trivial
  | exn e s => trivial
  | diverge => trivial

theorem renderRoI_finish_keepsOK (n : NodeId) (l : Locals)
    (renderRetCode : RenderRoIStatusEnum) (renderAborted : Bool) (outputPlanes : ImageList)
    (s : St W) (hs : renderRetCode ≠ .eRenderRoIStatusRenderFailed → s.rendersOK) :
    (renderRoI_finish env n l renderRetCode renderAborted outputPlanes s).keepsOK
      fun r => r.1 ≠ .eRenderRoIRetCodeAborted := by
  unfold renderRoI_finish
  refine Out.keepsOK_ite _ _ _ _ (fun _ => Out.keepsOK_val _ _ _ fun h => absurd rfl h)
    (fun _ => ?_)
  refine Out.keepsOK_ite _ _ _ _ (fun _ => trivial) (fun hne => ?_)
  exact Out.keepsOK_mono _ _ _
    (renderRoI_assemble_keepsOK env n l renderRetCode outputPlanes s (hs hne))
    (fun _ _ => trivial)

theorem renderRoI_unmarkAndFinish_keepsOK (fuel : Nat) (n : NodeId) (l : Locals)
    (renderRetCode : RenderRoIStatusEnum) (renderAborted : Bool) (outputPlanes : ImageList)
    (s : St W) (hs : renderRetCode ≠ .eRenderRoIStatusRenderFailed → s.rendersOK) :
    (renderRoI_unmarkAndFinish env fuel n l renderRetCode renderAborted outputPlanes s).keepsOK
      fun r => r.1 ≠ .eRenderRoIRetCodeAborted := by
  unfold renderRoI_unmarkAndFinish
  refine Out.keepsOK_ite _ _ _ _ (fun _ => ?_) (fun _ => ?_)
  · refine Out.keepsOK_bind (fun _ => renderRetCode ≠ .eRenderRoIStatusRenderFailed) _ _ _
      (Out.keepsOK_cond _ _ fun hne =>
        renderRoI_unmarkPlanes_keepsOK env fuel n _ _ _ _ _ s (hs hne)) ?_
    intro _ s1 h1
    exact renderRoI_finish_keepsOK env n l renderRetCode renderAborted outputPlanes s1 h1
  · cases hp : l.planesToRender.planes with
    | nil => exact renderRoI_finish_keepsOK env n l renderRetCode renderAborted outputPlanes s hs
    | cons p rest =>
      simp only []
      cases unmarkImageAsBeingRendered n (p.2.output l.useImageAsOutput) true s with
      | val a s1 =>
        simp only [Out.bind]
        split
        · trivial
        · exact Out.keepsOK_val _ _ _ fun h => absurd rfl h
      | exn e s1 => trivial
      | diverge => trivial

theorem renderRoI_renderStep_keepsOK (fuel : Nat) (rec : RenderRoIFn W) (hrec : rec.keepsOK)
    (n : NodeId) (l : Locals) (outputPlanes : ImageList) (s : St W) (hs : s.rendersOK) :
    (renderRoI_renderStep env fuel rec n l outputPlanes s).keepsOK
      fun r => r.1 ≠ .eRenderRoIRetCodeAborted := by
  unfold renderRoI_renderStep
  refine Out.keepsOK_ite _ _ _ _
    (fun _ => renderRoI_finish_keepsOK env n l _ _ outputPlanes s fun _ => hs) (fun _ => ?_)
  refine Out.keepsOK_bind (fun _ => True) _ _ _ ?_ ?_
  · exact Out.keepsOK_ite _ _ _ _ (fun _ => renderRoI_markPlanes_keepsOK n _ _ s hs)
      (fun _ => Out.keepsOK_val _ _ _ fun _ => hs)
  · intro _ s1 h1
    refine Out.keepsOK_bind (fun r => r.1 ≠ .eRenderRoIStatusRenderFailed) _ _ _ ?_ ?_
    · exact Out.keepsOK_ite _ _ _ _
        (fun _ => renderRoIInternal_keepsOK env rec hrec _ _ _ _ _ _ _ _ _ _ _ _ _ _ _ _
          (renderRoI_recycleLastRender_rendersOK env n l s1 (h1 trivial)))
        (fun _ => Out.keepsOK_val _ _ _ fun _ => h1 trivial)
    · intro r s2 h2
      exact Out.keepsOK_ite _ _ _ _
        (fun _ => renderRoI_unmarkAndFinish_keepsOK env fuel n _ r.1 _ outputPlanes s2 h2)
        (fun _ => renderRoI_finish_keepsOK env n _ r.1 _ outputPlanes s2 h2)

theorem renderRoI_allocate_keepsOK (fuel : Nat) (rec : RenderRoIFn W) (hrec : rec.keepsOK)
    (n : NodeId) (l : Locals) (outputPlanes : ImageList) (s : St W) (hs : s.rendersOK) :
    (renderRoI_allocate env fuel rec n l outputPlanes s).keepsOK
      fun r => r.1 ≠ .eRenderRoIRetCodeAborted := by
  unfold renderRoI_allocate
  refine Out.keepsOK_ite _ _ _ _ (fun _ => ?_)
    (fun _ => renderRoI_renderStep_keepsOK env fuel rec hrec n l outputPlanes s hs)
  exact Out.keepsOK_bind (fun _ => True) _ _ _
    (renderRoI_allocatePlanes_keepsOK env l _ s hs)
    fun planes s1 h1 => renderRoI_renderStep_keepsOK env fuel rec hrec n _ outputPlanes s1
      (h1 trivial)

theorem renderRoI_prefetchRects_keepsOK (rec : RenderRoIFn W) (hrec : rec.keepsOK) (n : NodeId)
    (l : Locals) (recordPremult : Bool) (rects : List RectToRender) :
    ∀ (premult : List (Int × ImagePremultiplicationEnum)) (s : St W), s.rendersOK →
      (renderRoI_prefetchRects env rec n l recordPremult rects premult s).keepsOK
        notAbortedReturn := by
  induction rects with
  | nil => exact fun premult s hs => Out.keepsOK_val _ _ _ fun _ => hs
  | cons it rest ih =>
    intro premult s hs
    unfold renderRoI_prefetchRects
    refine Out.keepsOK_ite _ _ _ _ (fun _ => ?_) (fun _ => ?_)
    · refine Out.keepsOK_bind notAbortedReturn _ _ _ (ih _ s hs) ?_
      intro r s1 h1
      cases r with
      | error ret => exact Out.keepsOK_val _ _ _ h1
      | ok v => exact Out.keepsOK_val _ _ _ fun _ => h1 trivial
    · refine Out.keepsOK_bind _ _ _ _
        (renderInputImagesForRoI_keepsOK env rec hrec n _ _ _ _ _ _ _ _ _ _ _ _ _ _ _ s hs) ?_
      intro c s1 h1
      simp only []
      refine Out.keepsOK_ite _ _ _ _ (fun _ => Out.keepsOK_val _ _ _ h1) (fun hok => ?_)
      have hs1 : s1.rendersOK := h1 (by
        show c.1 ≠ _
        rw [not_not.mp hok]
        decide)
      refine Out.keepsOK_bind notAbortedReturn _ _ _ (ih _ s1 hs1) ?_
      intro r s2 h2
      cases r with
      | error ret => exact Out.keepsOK_val _ _ _ h2
      | ok v => exact Out.keepsOK_val _ _ _ fun _ => h2 trivial

theorem renderRoI_redoCacheLookup_keepsOK (fuel : Nat) (rec : RenderRoIFn W)
    (hrec : rec.keepsOK) (n : NodeId) (l : Locals) (outputPlanes : ImageList) (s : St W)
    (hs : s.rendersOK) :
    (renderRoI_redoCacheLookup env fuel rec n l outputPlanes s).keepsOK
      fun r => r.1 ≠ .eRenderRoIRetCodeAborted := by
  unfold renderRoI_redoCacheLookup
  refine Out.keepsOK_ite _ _ _ _ (fun _ => ?_)
    (fun _ => renderRoI_allocate_keepsOK env fuel rec hrec n l outputPlanes s hs)
  refine Out.keepsOK_bind (fun _ => True) _ _ _ (renderRoI_redoLookup_keepsOK env n l _ s hs) ?_
  intro r s1 h1
  simp only []
  split
  · trivial
  · refine Out.keepsOK_ite _ _ _ _
      (fun _ => renderRoI_allocate_keepsOK env fuel rec hrec n _ outputPlanes s1 (h1 trivial))
      (fun _ => ?_)
    refine Out.keepsOK_bind notAbortedReturn _ _ _
      (renderRoI_prefetchRects_keepsOK env rec hrec n _ _ _ _ _
        (renderRoI_makeRects_rendersOK env n _ _ s1 (h1 trivial))) ?_
    intro pr s2 h2
    cases pr with
    | error ret => exact Out.keepsOK_val _ _ _ h2
    | ok v =>
      exact renderRoI_allocate_keepsOK env fuel rec hrec n _ outputPlanes s2 (h2 trivial)

theorem renderRoI_preRender_keepsOK (fuel : Nat) (rec : RenderRoIFn W) (hrec : rec.keepsOK)
    (n : NodeId) (l : Locals) (outputPlanes : ImageList) (s : St W) (hs : s.rendersOK) :
    (renderRoI_preRender env fuel rec n l outputPlanes s).keepsOK
      fun r => r.1 ≠ .eRenderRoIRetCodeAborted := by
  unfold renderRoI_preRender
  cases l.outputComponents.head? with
  | none => trivial
  | some outComp =>
    simp only []
    refine Out.keepsOK_bind notAbortedReturn _ _ _
      (renderRoI_prefetchRects_keepsOK env rec hrec n l _ _ _ s hs) ?_
    intro pr s1 h1
    cases pr with
    | error ret => exact Out.keepsOK_val _ _ _ h1
    | ok v =>
      exact renderRoI_redoCacheLookup_keepsOK env fuel rec hrec n _ outputPlanes s1 (h1 trivial)

theorem renderRoI_rects_keepsOK (fuel : Nat) (rec : RenderRoIFn W) (hrec : rec.keepsOK)
    (n : NodeId) (l : Locals) (outputPlanes : ImageList) (s : St W) (hs : s.rendersOK) :
    (renderRoI_rects env fuel rec n l outputPlanes s).keepsOK
      fun r => r.1 ≠ .eRenderRoIRetCodeAborted := by
  unfold renderRoI_rects
  simp only []
  refine Out.keepsOK_bind (fun _ => True) _ _ _ ?_ ?_
  · cases l.isPlaneCached with
    | none => exact Out.keepsOK_val _ _ _ fun _ => St.rendersOK_ite _ _ _ hs hs
    | some img =>
      exact renderRoI_restOfCached_keepsOK env n _ img _ _ (St.rendersOK_ite _ _ _ hs hs)
  · intro r s2 h2
    refine renderRoI_preRender_keepsOK env fuel rec hrec n _ outputPlanes _ ?_
    refine renderRoI_makeRects_rendersOK env n _ _ _ ?_
    split
    · exact renderRoI_inputsRoD_rendersOK env n _ _ _ s2 (h2 trivial)
    · exact h2 trivial

theorem renderRoI_cacheLookup_keepsOK (fuel : Nat) (rec : RenderRoIFn W) (hrec : rec.keepsOK)
    (n : NodeId) (l : Locals) (outputPlanes : ImageList) (s : St W) (hs : s.rendersOK) :
    (renderRoI_cacheLookup env fuel rec n l outputPlanes s).keepsOK
      fun r => r.1 ≠ .eRenderRoIRetCodeAborted := by
  unfold renderRoI_cacheLookup
  simp only []
  refine Out.keepsOK_bind (fun _ => True) _ _ _
    (renderRoI_lookupPlanes_keepsOK env n _ _ _ s hs) ?_
  intro r s1 h1
  have hs2 : (if r.framesNeeded.isEmpty = true then
      s1.setWorld (env.getFramesNeeded n l.args.time l.args.view s1.world).2
      else s1).rendersOK := St.rendersOK_ite _ _ _ (h1 trivial) (h1 trivial)
  exact Out.keepsOK_ite _ _ _ _ (fun _ => Out.keepsOK_val _ _ _ fun _ => hs2)
    (fun _ => renderRoI_rects_keepsOK env fuel rec hrec n _ _ _ hs2)

theorem renderRoI_computeRoI_keepsOK (fuel : Nat) (rec : RenderRoIFn W) (hrec : rec.keepsOK)
    (n : NodeId) (l : Locals) (outputPlanes : ImageList) (s : St W) (hs : s.rendersOK) :
    (renderRoI_computeRoI env fuel rec n l outputPlanes s).keepsOK
      fun r => r.1 ≠ .eRenderRoIRetCodeAborted := by
  unfold renderRoI_computeRoI
  simp only []
  refine Out.keepsOK_ite _ _ _ _ (fun _ => ?_)
    (fun _ => renderRoI_cacheLookup_keepsOK env fuel rec hrec n _ outputPlanes s hs)
  split
  · exact Out.keepsOK_val _ _ _ fun _ => hs
  · exact renderRoI_cacheLookup_keepsOK env fuel rec hrec n _ outputPlanes s hs

theorem renderRoI_transforms_keepsOK (fuel : Nat) (rec : RenderRoIFn W) (hrec : rec.keepsOK)
    (n : NodeId) (l : Locals) (outputPlanes : ImageList) (s : St W) (hs : s.rendersOK) :
    (renderRoI_transforms env fuel rec n l outputPlanes s).keepsOK
      fun r => r.1 ≠ .eRenderRoIRetCodeAborted := by
  unfold renderRoI_transforms
  simp only []
  refine Out.keepsOK_ite _ _ _ _
    (fun _ => renderRoI_computeRoI_keepsOK env fuel rec hrec n _ outputPlanes _ (by exact hs))
    (fun _ => ?_)
  exact Out.keepsOK_atExit _ _ _
    (renderRoI_computeRoI_keepsOK env fuel rec hrec n _ outputPlanes _ (by exact hs))
    (transformReroute_exit_rendersOK env n _)

theorem renderRoI_fetchUpstream_keepsOK (rec : RenderRoIFn W) (hrec : rec.keepsOK)
    (args : RenderRoIArgs) (upstream : ComponentsAvailableMap) :
    ∀ (outputPlanes : ImageList) (s : St W), s.rendersOK →
      (renderRoI_fetchUpstream rec args upstream outputPlanes s).keepsOK notAbortedFetch := by
  induction upstream with
  | nil => exact fun outputPlanes s hs => Out.keepsOK_val _ _ _ fun _ => hs
  | cons it rest ih =>
    intro outputPlanes s hs
    unfold renderRoI_fetchUpstream
    cases it.2 with
    | none => exact ih _ s hs
    | some node =>
      simp only []
      refine Out.keepsOK_bind _ _ _ _ (hrec node _ _ s hs) ?_
      intro r s1 h1
      cases hr : r.2 with
      | nil => exact Out.keepsOK_val _ _ _ h1
      | cons front tl =>
        simp only []
        refine Out.keepsOK_ite _ _ _ _ (fun _ => Out.keepsOK_val _ _ _ h1) (fun hgood => ?_)
        exact ih _ s1 (h1 fun hab => hgood (Or.inl hab))

theorem renderRoI_planes_keepsOK (fuel : Nat) (rec : RenderRoIFn W) (hrec : rec.keepsOK)
    (n : NodeId) (l : Locals) (outputPlanes : ImageList) (s : St W) (hs : s.rendersOK) :
    (renderRoI_planes env fuel rec n l outputPlanes s).keepsOK
      fun r => r.1 ≠ .eRenderRoIRetCodeAborted := by
  unfold renderRoI_planes
  simp only []
  split
  · trivial
  · refine Out.keepsOK_bind notAbortedFetch _ _ _
      (renderRoI_fetchUpstream_keepsOK rec hrec _ _ _ _ (by exact hs)) ?_
    intro r s2 h2
    cases r with
    | error ret => exact Out.keepsOK_val _ _ _ h2
    | ok out =>
      exact Out.keepsOK_ite _ _ _ _ (fun _ => Out.keepsOK_val _ _ _ fun _ => h2 trivial)
        (fun _ => renderRoI_transforms_keepsOK env fuel rec hrec n _ out s2 (h2 trivial))

theorem renderRoI_identityBranch_keepsOK (rec : RenderRoIFn W) (hrec : rec.keepsOK)
    (n : NodeId) (l : Locals) (inputTimeIdentity : SequenceTime) (inputNbIdentity : Int)
    (outputPlanes : ImageList) (s : St W) (hs : s.rendersOK) :
    (renderRoI_identityBranch env rec n l inputTimeIdentity inputNbIdentity outputPlanes
      s).keepsOK fun r => r.1 ≠ .eRenderRoIRetCodeAborted := by
  unfold renderRoI_identityBranch
  refine Out.keepsOK_ite _ _ _ _ (fun _ => Out.keepsOK_val _ _ _ fun _ => hs) (fun _ => ?_)
  refine Out.keepsOK_ite _ _ _ _ (fun _ => hrec _ _ _ s hs) (fun _ => ?_)
  simp only []
  have hfr := getFrameRange_public_rendersOK env n l.nodeHash false s hs
  split
  · exact Out.keepsOK_atExit _ _ _ (hrec _ _ _ _ (by exact hfr)) (fun _ h => h)
  · exact Out.keepsOK_val _ _ _ fun _ => hfr

theorem isIdentity_compute_exn_renderLog (n : NodeId) (time : SequenceTime)
    (scale : RenderScale) (renderWindow : RectI) (view : Int) (s : St W) (e : Exception)
    (s1 : St W) (h : isIdentity_compute env n time scale renderWindow view s = .exn e s1) :
    s1.renderLog = s.renderLog := by
  unfold isIdentity_compute at h
  repeat' split at h
  all_goals first
    | (injection h with _ h2; subst h2; rfl)
    | (exact absurd h (by simp))

theorem isIdentity_public_exn_renderLog (n : NodeId) (useIdentityCache : Bool) (hash : U64)
    (time : SequenceTime) (scale : RenderScale) (renderWindow : RectI) (view : Int) (s : St W)
    (e : Exception) (s1 : St W)
    (h : isIdentity_public env n useIdentityCache hash time scale renderWindow view s =
      .exn e s1) : s1.renderLog = s.renderLog := by
  unfold isIdentity_public at h
  simp only [] at h
  split at h
  · exact absurd h (by simp)
  · split at h
    · exact absurd h (by simp)
    · cases hc : isIdentity_compute env n time scale renderWindow view s with
      | val a s2 => rw [hc] at h; simp [Out.bind] at h
      | exn e2 s2 =>
        rw [hc] at h
        simp only [Out.bind] at h
        injection h with _ h2
        subst h2
        exact isIdentity_compute_exn_renderLog env n time scale renderWindow view s e2 s2 hc
      | diverge => rw [hc] at h; simp [Out.bind] at h

theorem renderRoI_identity_keepsOK (fuel : Nat) (rec : RenderRoIFn W) (hrec : rec.keepsOK)
    (n : NodeId) (l : Locals) (outputPlanes : ImageList) (s : St W) (hs : s.rendersOK) :
    (renderRoI_identity env fuel rec n l outputPlanes s).keepsOK
      fun r => r.1 ≠ .eRenderRoIRetCodeAborted := by
  unfold renderRoI_identity
  split
  · rename_i e s1 heq
    exact Out.keepsOK_val _ _ _ fun _ => St.rendersOK_of_renderLog s s1
      (isIdentity_public_exn_renderLog env n true _ _ _ _ _ s e s1 heq) hs
  · trivial
  · rename_i r s1 heq
    have hs1 := St.rendersOK_of_renderLog s s1
      (isIdentity_public_renderLog env n true _ _ _ _ _ s r s1 heq) hs
    exact Out.keepsOK_ite _ _ _ _
      (fun _ => renderRoI_identityBranch_keepsOK env rec hrec n _ _ _ outputPlanes s1 hs1)
      (fun _ => renderRoI_planes_keepsOK env fuel rec hrec n _ outputPlanes s1 hs1)

theorem renderRoI_getRoD_keepsOK (fuel : Nat) (rec : RenderRoIFn W) (hrec : rec.keepsOK)
    (n : NodeId) (l : Locals) (outputPlanes : ImageList) (s : St W) (hs : s.rendersOK) :
    (renderRoI_getRoD env fuel rec n l outputPlanes s).keepsOK
      fun r => r.1 ≠ .eRenderRoIRetCodeAborted := by
  unfold renderRoI_getRoD
  refine Out.keepsOK_ite _ _ _ _
    (fun _ => renderRoI_identity_keepsOK env fuel rec hrec n _ outputPlanes s hs) (fun _ => ?_)
  simp only []
  have hr := getRegionOfDefinition_public_rendersOK env n l.nodeHash l.args.time
    l.renderMappedScale l.args.view l.rod l.isProjectFormat s hs
  refine Out.keepsOK_ite _ _ _ _ (fun _ => Out.keepsOK_val _ _ _ fun _ => hr) (fun _ => ?_)
  exact Out.keepsOK_ite _ _ _ _ (fun _ => Out.keepsOK_val _ _ _ fun _ => hr)
    (fun _ => renderRoI_identity_keepsOK env fuel rec hrec n _ outputPlanes _ hr)

theorem renderRoI_body_keepsOK (fuel : Nat) (rec : RenderRoIFn W) (hrec : rec.keepsOK) :
    (renderRoI_body env fuel rec).keepsOK := by
  intro n args outputPlanes s hs
  unfold renderRoI_body
  refine Out.keepsOK_ite _ _ _ _ (fun _ => Out.keepsOK_val _ _ _ fun _ => hs) (fun _ => ?_)
  exact renderRoI_getRoD_keepsOK env fuel rec hrec n _ outputPlanes _
    (St.rendersOK_of_renderLog s _ (renderRoI_frameArgs_renderLog env n args s) hs)

theorem renderRoI_keepsOK (fuel : Nat) : (renderRoI env fuel).keepsOK := by
  induction fuel with
  | zero => exact fun _ _ _ _ _ => trivial
  | succ fuel ih => exact renderRoI_body_keepsOK env fuel (renderRoI env fuel) ih

end RenderRecord

end Natron

namespace Natron

/-- C4 (counterexample): frame 1 is rendered in a render that can be aborted, the timeline has
moved to frame 0, and the render action of node 0 of `failingRenderEnv` fails. After the render
step `aborted ()` holds: `renderRoI` returns normally, with the code
`eRenderRoIRetCodeAborted`, and throws nothing. -/
theorem renderRoI_failed_render_returns_aborted :
    (renderRoI failingRenderEnv 2 0 colorRequest [] abortableState).retCode =
      some .eRenderRoIRetCodeAborted ∧
    (renderRoI failingRenderEnv 2 0 colorRequest [] abortableState).thrown = none ∧
    (renderRoI failingRenderEnv 2 0 colorRequest [] abortableState).state.map (fun s => s.renderLog) =
      some [(0, .eStatusFailed)] := by
  decide!

end Natron

namespace Natron

/-- C4 (as amended): when every render action recorded on entry returned `eStatusOK` and a
render action called while `renderRoI` serves the request reports another status, `renderRoI`
does not return `eRenderRoIRetCodeOk` or `eRenderRoIRetCodeFailed`: if it returns normally,
it returns `eRenderRoIRetCodeAborted`. The failure makes the status of the render step
`eRenderRoIStatusRenderFailed`, and with that status the end of `renderRoI` throws
"Rendering Failed" when `aborted ()` is false after the render step and returns
`eRenderRoIRetCodeAborted` when it is true. -/
theorem renderRoI_failed_render_never_ok {W : Type} (env : Env W) (fuel : Nat) (n : NodeId)
    (args : RenderRoIArgs) (outputPlanes : ImageList) (s : St W) (hs : s.rendersOK) :
    (∀ (r : RenderRoIRetCode × ImageList) (sF : St W),
      renderRoI env fuel n args outputPlanes s = .val r sF →
      (∃ e ∈ sF.renderLog, e.2 ≠ .eStatusOK) → r.1 = .eRenderRoIRetCodeAborted) ∧
    (∀ (l : Locals) (out : ImageList) (s1 : St W),
      renderRoI_finish env n l .eRenderRoIStatusRenderFailed false out s1 =
        .exn .renderingFailed s1) ∧
    (∀ (l : Locals) (out : ImageList) (s1 : St W),
      (renderRoI_finish env n l .eRenderRoIStatusRenderFailed true out s1).retCode =
        some .eRenderRoIRetCodeAborted) := by
  refine ⟨fun r sF hret hfail => ?_, fun l out s1 => ?_, fun l out s1 => ?_⟩
  · have h := renderRoI_keepsOK env fuel n args outputPlanes s hs
    rw [hret] at h
    by_contra hne
    obtain ⟨e, he, hst⟩ := hfail
    exact hst (h hne e he)
  · simp [renderRoI_finish]
  · simp [renderRoI_finish, Out.retCode]

/-- Witness of C4 (as amended): the render that can be aborted of `failingRenderEnv`, where the
render action fails and the timeline has moved -/
theorem renderRoI_failed_render_never_ok_witness :
    (renderRoI failingRenderEnv 2 0 colorRequest [] abortableState).retCode =
      some .eRenderRoIRetCodeAborted := by
  have hlog : (renderRoI failingRenderEnv 2 0 colorRequest [] abortableState).state.map
      (fun s => s.renderLog) = some [(0, .eStatusFailed)] := by decide!
  have hsome : (renderRoI failingRenderEnv 2 0 colorRequest [] abortableState).retCode.isSome :=
    by decide!
  cases h : renderRoI failingRenderEnv 2 0 colorRequest [] abortableState with
  | val r sF =>
    rw [h] at hlog
    simp only [Out.state, Option.map_some', Option.some.injEq] at hlog
    have hr := (renderRoI_failed_render_never_ok failingRenderEnv 2 0 colorRequest []
      abortableState (fun e he => absurd he (List.not_mem_nil e))).1 r sF h
      ⟨(0, .eStatusFailed), by rw [hlog]; exact List.mem_singleton.mpr rfl, by decide⟩
    simp [Out.retCode, hr]
  | exn e sF => rw [h] at hsome; simp [Out.retCode] at hsome
  | diverge => rw [h] at hsome; simp [Out.retCode] at hsome

end Natron

namespace Natron

/-- C5 (failing input): a render made in response to a user interaction that cannot be aborted
asks node 0 of `twoPlanesEnv` for two planes. Nothing is marked as being rendered on entry.
Node 0 has been deactivated: `renderRoI` marks the images of the two planes, renders, finds
`aborted ()` true, and returns `eRenderRoIRetCodeAborted` from the first turn of the loop that
unmarks the planes. The image of the second plane stays in `imagesBeingRendered` with a count
of one. -/
theorem renderRoI_abort_leaves_image_marked :
    (userState.imp 0).imagesBeingRendered = [] ∧
    (renderRoI twoPlanesEnv 2 0 twoPlanesRequest [] userState).retCode =
      some .eRenderRoIRetCodeAborted ∧
    (renderRoI twoPlanesEnv 2 0 twoPlanesRequest [] userState).state.map
        (fun s => (s.imp 0).imagesBeingRendered) =
      some [(⟨101, depthLayer, 3, 0, 1, true⟩, ⟨1, false⟩)] := by
  decide!

end Natron

namespace Natron

section Routing

variable {W : Type} (env : Env W)

/-- The search finds an entry of the map, and an entry with other components than the
requested ones only for a request of the color plane, among the supported components of the
color plane -/
theorem renderRoI_findAvailable_some (n : NodeId) (w : W) (requested : ImageComponents)
    (avail : ComponentsAvailableMap) (e : ImageComponents × Option NodeId)
    (h : renderRoI_findAvailable env n w requested avail = some e) :
    e ∈ avail ∧ (e.1 = requested ∨ (requested.isColorPlane = true ∧ e.1.isColorPlane = true ∧
      env.isSupportedComponent n (-1) e.1 w = true)) := by
  induction avail with
  | nil => simp [renderRoI_findAvailable] at h
  | cons it2 rest ih =>
    unfold renderRoI_findAvailable at h
    split at h
    · rename_i heq
      simp only [Option.some.injEq] at h
      subst h
      exact ⟨List.mem_cons_self _ _, Or.inl heq⟩
    · split at h
      · rename_i hc
        simp only [Option.some.injEq] at h
        subst h
        simp only [Bool.and_eq_true] at hc
        exact ⟨List.mem_cons_self _ _, Or.inr ⟨hc.1.1, hc.1.2, hc.2⟩⟩
      · exact ⟨List.mem_cons_of_mem _ (ih h).1, (ih h).2⟩

/-- The search finds nothing when no entry of the map has the requested components or
components of the color plane -/
theorem renderRoI_findAvailable_none (n : NodeId) (w : W) (requested : ImageComponents)
    (avail : ComponentsAvailableMap)
    (h : ∀ e ∈ avail, e.1 ≠ requested ∧
      (requested.isColorPlane = true → e.1.isColorPlane = false)) :
    renderRoI_findAvailable env n w requested avail = none := by
  induction avail with
  | nil => rfl
  | cons it2 rest ih =>
    unfold renderRoI_findAvailable
    have h0 := h it2 (List.mem_cons_self _ _)
    rw [if_neg h0.1]
    have hc : ¬ (requested.isColorPlane && it2.1.isColorPlane &&
        env.isSupportedComponent n (-1) it2.1 w) = true := by
      cases hr : requested.isColorPlane
      · simp
      · simp [h0.2 hr]
    rw [if_neg hc]
    exact ih fun e he => h e (List.mem_cons_of_mem _ he)

/-- The search finds the entry with the requested components when every entry before it, in
the order of the map, has other components and is not of the color plane -/
theorem renderRoI_findAvailable_exact (n : NodeId) (w : W) (requested : ImageComponents)
    (owner : Option NodeId) (pre post : ComponentsAvailableMap)
    (h : ∀ e ∈ pre, e.1 ≠ requested ∧ (requested.isColorPlane = true → e.1.isColorPlane = false)) :
    renderRoI_findAvailable env n w requested (pre ++ (requested, owner) :: post) =
      some (requested, owner) := by
  induction pre with
  | nil => simp [renderRoI_findAvailable]
  | cons it2 rest ih =>
    rw [List.cons_append]
    unfold renderRoI_findAvailable
    have h0 := h it2 (List.mem_cons_self _ _)
    rw [if_neg h0.1]
    have hc : ¬ (requested.isColorPlane && it2.1.isColorPlane &&
        env.isSupportedComponent n (-1) it2.1 w) = true := by
      cases hr : requested.isColorPlane
      · simp
      · simp [h0.2 hr]
    rw [if_neg hc]
    exact ih fun e he => h e (List.mem_cons_of_mem _ he)

end Routing

section ColorCount

/-- An insertion adds at most one entry, of the components inserted -/
theorem StdMap.insert_colorCount_le (lt : ImageComponents → ImageComponents → Bool)
    (m : ComponentsAvailableMap) (k : ImageComponents) (v : Option NodeId) :
    componentsAvailable_colorCount (StdMap.insert lt m k v) ≤
      componentsAvailable_colorCount m + (if k.isColorPlane = true then 1 else 0) := by
  induction m with
  | nil =>
    unfold StdMap.insert componentsAvailable_colorCount
    rw [List.countP_cons, List.countP_nil]
  | cons e rest ih =>
    obtain ⟨k', v'⟩ := e
    unfold StdMap.insert
    unfold componentsAvailable_colorCount at ih ⊢
    by_cases h1 : lt k k' = true
    · rw [if_pos h1, List.countP_cons]
    · rw [if_neg h1]
      by_cases h2 : lt k' k = true
      · rw [if_pos h2, List.countP_cons, List.countP_cons]
        omega
      · rw [if_neg h2]
        omega

/-- The insertion of the entries of a map adds at most its entries of the color plane -/
theorem StdMap.insert_foldl_colorCount_le (lt : ImageComponents → ImageComponents → Bool)
    (l m : ComponentsAvailableMap) :
    componentsAvailable_colorCount (l.foldl (fun m kv => StdMap.insert lt m kv.1 kv.2) m) ≤
      componentsAvailable_colorCount m + componentsAvailable_colorCount l := by
  induction l generalizing m with
  | nil => simp [componentsAvailable_colorCount]
  | cons e rest ih =>
    rw [List.foldl_cons]
    have h1 := ih (StdMap.insert lt m e.1 e.2)
    have h2 := StdMap.insert_colorCount_le lt m e.1 e.2
    have h3 : componentsAvailable_colorCount (e :: rest) =
        componentsAvailable_colorCount rest + (if e.1.isColorPlane = true then 1 else 0) := by
      unfold componentsAvailable_colorCount
      rw [List.countP_cons]
    omega

/-- An assignment through `find` keeps the components of the entries -/
theorem StdMap.assign_colorCount (lt : ImageComponents → ImageComponents → Bool)
    (m : ComponentsAvailableMap) (k : ImageComponents) (v : Option NodeId) :
    componentsAvailable_colorCount (StdMap.assign lt m k v) =
      componentsAvailable_colorCount m := by
  induction m with
  | nil => rfl
  | cons e rest ih =>
    obtain ⟨k', v'⟩ := e
    unfold StdMap.assign
    unfold componentsAvailable_colorCount at ih ⊢
    by_cases h1 : (!lt k k' && !lt k' k) = true
    · rw [if_pos h1, List.countP_cons, List.countP_cons]
    · rw [if_neg h1, List.countP_cons, List.countP_cons, ih]

/-- An assignment of the owner keeps the components of the entries -/
theorem componentsAvailable_setOwner_colorCount (m : ComponentsAvailableMap) (i : Nat)
    (node : Option NodeId) :
    componentsAvailable_colorCount (componentsAvailable_setOwner m i node) =
      componentsAvailable_colorCount m := by
  induction m generalizing i with
  | nil => rfl
  | cons e rest ih =>
    cases i with
    | zero =>
      unfold componentsAvailable_setOwner componentsAvailable_colorCount
      rw [List.countP_cons, List.countP_cons]
    | succ i =>
      unfold componentsAvailable_setOwner
      have h := ih i
      unfold componentsAvailable_colorCount at h ⊢
      rw [List.countP_cons, List.countP_cons, h]

/-- The erasure of an entry of the color plane removes one entry of the color plane -/
theorem componentsAvailable_eraseIdx_colorCount (m : ComponentsAvailableMap) (j : Nat)
    (e : ImageComponents × Option NodeId) (hj : m[j]? = some e)
    (hc : e.1.isColorPlane = true) :
    componentsAvailable_colorCount (m.eraseIdx j) + 1 = componentsAvailable_colorCount m := by
  induction m generalizing j with
  | nil => simp at hj
  | cons e0 rest ih =>
    cases j with
    | zero =>
      simp only [List.getElem?_cons_zero, Option.some.injEq] at hj
      subst hj
      unfold componentsAvailable_colorCount
      rw [List.eraseIdx_cons_zero, List.countP_cons, if_pos hc]
    | succ j =>
      simp only [List.getElem?_cons_succ] at hj
      have h := ih j hj
      unfold componentsAvailable_colorCount at h ⊢
      rw [List.eraseIdx_cons_succ, List.countP_cons, List.countP_cons]
      omega

/-- The scan: when no entry has the components `it`, `colorMatch` is an entry of the color
plane if the map has one, and every entry has other components than `it` -/
theorem componentsAvailable_scan_spec (it : ImageComponents) (m : ComponentsAvailableMap)
    (i : Nat) (colorMatch : Option Nat) :
    ((componentsAvailable_scan it m i colorMatch).1 = none → ∀ e ∈ m, e.1 ≠ it) ∧
    ((componentsAvailable_scan it m i colorMatch).1 = none →
      (componentsAvailable_scan it m i colorMatch).2 = none →
      componentsAvailable_colorCount m = 0) ∧
    (∀ j, (componentsAvailable_scan it m i colorMatch).2 = some j →
      colorMatch = some j ∨ ∃ k e, j = i + k ∧ m[k]? = some e ∧ e.1.isColorPlane = true) ∧
    (colorMatch.isSome = true → (componentsAvailable_scan it m i colorMatch).2.isSome = true) := by
  induction m generalizing i colorMatch with
  | nil =>
    unfold componentsAvailable_scan
    refine ⟨fun _ e he => (by cases he), fun _ _ => rfl, fun j hj => Or.inl hj, fun h => h⟩
  | cons it2 rest ih =>
    unfold componentsAvailable_scan
    by_cases h1 : it2.1 = it
    · rw [if_pos h1]
      refine ⟨fun h => (by cases h), fun h => (by cases h), fun j hj => Or.inl hj, fun h => h⟩
    · rw [if_neg h1]
      by_cases h2 : it2.1.isColorPlane = true
      · rw [if_pos h2]
        obtain ⟨a1, a2, a3, a4⟩ := ih (i + 1) (some i)
        refine ⟨?_, ?_, ?_, fun _ => a4 rfl⟩
        · intro h e he
          rcases List.mem_cons.1 he with rfl | he
          · exact h1
          · exact a1 h e he
        · intro _ h
          have := a4 rfl
          rw [h] at this
          cases this
        · intro j hj
          rcases a3 j hj with h | ⟨k, e, hk, he, hc⟩
          · refine Or.inr ⟨0, it2, ?_, by simp, h2⟩
            cases h
            rfl
          · exact Or.inr ⟨k + 1, e, by omega, by simpa using he, hc⟩
      · rw [if_neg h2]
        obtain ⟨a1, a2, a3, a4⟩ := ih (i + 1) colorMatch
        refine ⟨?_, ?_, ?_, a4⟩
        · intro h e he
          rcases List.mem_cons.1 he with rfl | he
          · exact h1
          · exact a1 h e he
        · intro h h'
          have := a2 h h'
          unfold componentsAvailable_colorCount at this ⊢
          rw [List.countP_cons, if_neg h2]
          omega
        · intro j hj
          rcases a3 j hj with h | ⟨k, e, hk, he, hc⟩
          · exact Or.inl h
          · exact Or.inr ⟨k + 1, e, by omega, by simpa using he, hc⟩

/-- The assignment of the node to the entries that have an owner keeps the components of the
entries -/
theorem componentsAvailable_processAll_colorCount (n : NodeId) (m : ComponentsAvailableMap) :
    componentsAvailable_colorCount
        (m.map fun it => if it.2.isSome then (it.1, some n) else it) =
      componentsAvailable_colorCount m := by
  unfold componentsAvailable_colorCount
  rw [List.countP_map]
  congr 1
  funext it
  simp only [Function.comp]
  split <;> rfl

end ColorCount

section AvailableInvariant

variable {W : Type} (env : Env W) (cenv : ComponentsEnv W)

/-- An insertion of components of the color plane, after the erasure of the entry `colorMatch`
of the scan when no entry has the components, leaves at most one entry of the color plane -/
theorem componentsAvailable_color_insert_le (comps : ComponentsAvailableMap)
    (it : ImageComponents) (v : Option NodeId)
    (h : componentsAvailable_colorCount comps ≤ 1)
    (hnone : (componentsAvailable_scan it comps 0 none).1 = none) :
    (∀ colorMatch, (componentsAvailable_scan it comps 0 none).2 = some colorMatch →
      componentsAvailable_colorCount
        (StdMap.insert env.componentsLess (comps.eraseIdx colorMatch) it v) ≤ 1) ∧
    ((componentsAvailable_scan it comps 0 none).2 = none →
      componentsAvailable_colorCount (StdMap.insert env.componentsLess comps it v) ≤ 1) := by
  obtain ⟨-, a2, a3, -⟩ := componentsAvailable_scan_spec it comps 0 none
  refine ⟨?_, ?_⟩
  · intro colorMatch hcm
    rcases a3 colorMatch hcm with h0 | ⟨k, e, hk, he, hc⟩
    · cases h0
    · have hk' : colorMatch = k := by omega
      subst hk'
      have h1 := componentsAvailable_eraseIdx_colorCount comps colorMatch e he hc
      have h2 := StdMap.insert_colorCount_le env.componentsLess (comps.eraseIdx colorMatch) it v
      have h3 : (if it.isColorPlane = true then 1 else 0) ≤ 1 := by split <;> omega
      omega
  · intro hcm
    have h1 := a2 hnone hcm
    have h2 := StdMap.insert_colorCount_le env.componentsLess comps it v
    have h3 : (if it.isColorPlane = true then 1 else 0) ≤ 1 := by split <;> omega
    omega

/-- The merge of an entry of an input leaves at most one entry of the color plane -/
theorem getNonMaskInputsAvailableComponents_merge_le (n : NodeId)
    (isPreferredInput preferExistingComponents : Bool) (comps : ComponentsAvailableMap)
    (it : ImageComponents × Option NodeId) (h : componentsAvailable_colorCount comps ≤ 1) :
    componentsAvailable_colorCount (getNonMaskInputsAvailableComponents_merge env n
      isPreferredInput preferExistingComponents comps it) ≤ 1 := by
  have hs := componentsAvailable_color_insert_le env comps it.1 it.2 h
  unfold getNonMaskInputsAvailableComponents_merge
  obtain ⟨r, hr⟩ : ∃ r, r = componentsAvailable_scan it.1 comps 0 none := ⟨_, rfl⟩
  rw [← hr] at hs ⊢
  obtain ⟨found, colorMatch⟩ := r
  cases found with
  | some it2 =>
    simp only []
    split
    · rw [componentsAvailable_setOwner_colorCount]
      exact h
    · exact h
  | none =>
    simp only []
    split
    · exact h
    · rename_i hcond
      cases colorMatch with
      | none => exact (hs rfl).2 rfl
      | some cm =>
        simp only [Option.isSome_some, Bool.true_and, Bool.not_eq_true] at hcond
        have h2 := StdMap.insert_colorCount_le env.componentsLess comps it.1 it.2
        rw [if_neg (by rw [hcond]; decide)] at h2
        omega

/-- The merge of the entries of an input leaves at most one entry of the color plane -/
theorem getNonMaskInputsAvailableComponents_merge_foldl_le (n : NodeId)
    (isPreferredInput preferExistingComponents : Bool)
    (l comps : ComponentsAvailableMap) (h : componentsAvailable_colorCount comps ≤ 1) :
    componentsAvailable_colorCount (l.foldl (getNonMaskInputsAvailableComponents_merge env n
      isPreferredInput preferExistingComponents) comps) ≤ 1 := by
  induction l generalizing comps with
  | nil => exact h
  | cons it rest ih =>
    rw [List.foldl_cons]
    exact ih _ (getNonMaskInputsAvailableComponents_merge_le env n _ _ comps it h)

/-- A component produced by the node leaves at most one entry of the color plane -/
theorem getComponentsAvailableRecursive_output_le (n : NodeId) (comps : ComponentsAvailableMap)
    (it : ImageComponents) (h : componentsAvailable_colorCount comps ≤ 1) :
    componentsAvailable_colorCount (getComponentsAvailableRecursive_output env n comps it) ≤
      1 := by
  have hs := componentsAvailable_color_insert_le env comps it (some n) h
  unfold getComponentsAvailableRecursive_output
  by_cases hc : it.isColorPlane = true
  · rw [if_pos hc]
    obtain ⟨r, hr⟩ : ∃ r, r = componentsAvailable_scan it comps 0 none := ⟨_, rfl⟩
    rw [← hr] at hs ⊢
    obtain ⟨found, colorMatch⟩ := r
    cases found with
    | some a =>
      simp only []
      rw [componentsAvailable_setOwner_colorCount]
      exact h
    | none =>
      cases colorMatch with
      | none => exact (hs rfl).2 rfl
      | some cm => exact (hs rfl).1 cm rfl
  · rw [if_neg hc]
    split
    · rw [componentsAvailable_setOwner_colorCount]
      exact h
    · have h2 := StdMap.insert_colorCount_le env.componentsLess comps it (some n)
      rw [if_neg hc] at h2
      omega

/-- A user component leaves at most one entry of the color plane -/
theorem getComponentsAvailableRecursive_user_le (n : NodeId)
    (outputComps : List ImageComponents) (comps : ComponentsAvailableMap)
    (it : ImageComponents) (h : componentsAvailable_colorCount comps ≤ 1) :
    componentsAvailable_colorCount
      (getComponentsAvailableRecursive_user env n outputComps comps it) ≤ 1 := by
  have hs := componentsAvailable_color_insert_le env comps it
    (if (outputComps.any fun it2 => decide (it2 = it)) = true then some n else none) h
  unfold getComponentsAvailableRecursive_user
  simp only []
  by_cases hc : it.isColorPlane = true
  · rw [if_pos hc]
    obtain ⟨r, hr⟩ : ∃ r, r = componentsAvailable_scan it comps 0 none := ⟨_, rfl⟩
    rw [← hr] at hs ⊢
    obtain ⟨found, colorMatch⟩ := r
    cases found with
    | some a =>
      simp only []
      rw [componentsAvailable_setOwner_colorCount]
      exact h
    | none =>
      cases colorMatch with
      | none => exact (hs rfl).2 rfl
      | some cm => exact (hs rfl).1 cm rfl
  · rw [if_neg hc]
    split
    · rw [StdMap.assign_colorCount]
      exact h
    · have h2 := StdMap.insert_colorCount_le env.componentsLess comps it
        (if (outputComps.any fun it2 => decide (it2 = it)) = true then some n else none)
      rw [if_neg hc] at h2
      omega

/-- The components produced by the node leave at most one entry of the color plane -/
theorem getComponentsAvailableRecursive_output_foldl_le (n : NodeId)
    (l : List ImageComponents) (comps : ComponentsAvailableMap)
    (h : componentsAvailable_colorCount comps ≤ 1) :
    componentsAvailable_colorCount
      (l.foldl (getComponentsAvailableRecursive_output env n) comps) ≤ 1 := by
  induction l generalizing comps with
  | nil => exact h
  | cons it rest ih =>
    rw [List.foldl_cons]
    exact ih _ (getComponentsAvailableRecursive_output_le env n comps it h)

/-- The user components leave at most one entry of the color plane -/
theorem getComponentsAvailableRecursive_user_foldl_le (n : NodeId)
    (outputComps l : List ImageComponents) (comps : ComponentsAvailableMap)
    (h : componentsAvailable_colorCount comps ≤ 1) :
    componentsAvailable_colorCount
      (l.foldl (getComponentsAvailableRecursive_user env n outputComps) comps) ≤ 1 := by
  induction l generalizing comps with
  | nil => exact h
  | cons it rest ih =>
    rw [List.foldl_cons]
    exact ih _ (getComponentsAvailableRecursive_user_le env n outputComps comps it h)

end AvailableInvariant

section AvailableRecursive

variable {W : Type} (env : Env W) (cenv : ComponentsEnv W)

/-- The loop on the inputs keeps at most one entry of the color plane in `comps`, and in the
maps `outputComponentsAvailable` when the nested calls keep them so -/
theorem getNonMaskInputsAvailableComponents_loop_le (rec : ComponentsAvailableRecFn W)
    (hrec : ∀ input time view markedNodes s r, s.cachesHoldOneColor →
      rec input time view [] markedNodes s = some r → r.2.2.cachesHoldOneColor)
    (n : NodeId) (time : SequenceTime) (view : Int) (preferExistingComponents : Bool)
    (preferredInput : Int) (l : List Nat)
    (acc r : ComponentsAvailableMap × List NodeId × ComponentsState W)
    (hacc : componentsAvailable_colorCount acc.1 ≤ 1) (hs : acc.2.2.cachesHoldOneColor)
    (h : getNonMaskInputsAvailableComponents_loop env rec n time view preferExistingComponents
      preferredInput l acc = some r) :
    componentsAvailable_colorCount r.1 ≤ 1 ∧ r.2.2.cachesHoldOneColor := by
  induction l generalizing acc with
  | nil =>
    unfold getNonMaskInputsAvailableComponents_loop at h
    cases h
    exact ⟨hacc, hs⟩
  | cons i rest ih =>
    unfold getNonMaskInputsAvailableComponents_loop at h
    by_cases hc : (!env.isInputMask n i acc.2.2.world &&
        !env.isInputRotoBrush n i acc.2.2.world) = true
    · rw [if_pos hc] at h
      cases hin : env.getInput n i acc.2.2.world with
      | none =>
        rw [hin] at h
        exact ih _ hacc hs h
      | some input =>
        rw [hin] at h
        simp only [] at h
        cases hr1 : rec input time view [] acc.2.1 acc.2.2 with
        | none =>
          rw [hr1] at h
          cases h
        | some r1 =>
          rw [hr1] at h
          simp only [] at h
          refine ih _ ?_ ?_ h
          · exact getNonMaskInputsAvailableComponents_merge_foldl_le env n _ _ _ _ hacc
          · exact hrec input time view acc.2.1 acc.2.2 r1 hs hr1
    · rw [if_neg hc] at h
      exact ih _ hacc hs h

/-- The components of upstream hold at most one entry of the color plane when `comps` had
none, and the maps `outputComponentsAvailable` hold at most one when the nested calls keep
them so -/
theorem getComponentsAvailableRecursive_upstream_le (rec : ComponentsAvailableRecFn W)
    (hrec : ∀ input time view comps markedNodes s r, s.cachesHoldOneColor →
      componentsAvailable_colorCount comps = 0 →
      rec input time view comps markedNodes s = some r →
      componentsAvailable_colorCount r.1 ≤ 1 ∧ r.2.2.cachesHoldOneColor)
    (n : NodeId) (time : SequenceTime) (view : Int) (ptInput : Option NodeId)
    (comps : ComponentsAvailableMap) (markedNodes : List NodeId) (s : ComponentsState W)
    (r : ComponentsAvailableMap × List NodeId × ComponentsState W)
    (hs : s.cachesHoldOneColor) (hcomps : componentsAvailable_colorCount comps = 0)
    (h : getComponentsAvailableRecursive_upstream env cenv rec n time view ptInput comps
      markedNodes s = some r) :
    componentsAvailable_colorCount r.1 ≤ 1 ∧ r.2.2.cachesHoldOneColor := by
  have hsame : ∀ r0 : ComponentsAvailableMap × List NodeId × ComponentsState W,
      some (comps, markedNodes, s) = some r0 →
      componentsAvailable_colorCount r0.1 ≤ 1 ∧ r0.2.2.cachesHoldOneColor := by
    intro r0 h0
    cases h0
    refine ⟨?_, hs⟩
    show componentsAvailable_colorCount comps ≤ 1
    omega
  unfold getComponentsAvailableRecursive_upstream at h
  simp only [] at h
  by_cases c1 : cenv.isPassThroughForNonRenderedPlanes n s.world =
      .ePassThroughPassThroughNonRenderedPlanes ∨
      cenv.isPassThroughForNonRenderedPlanes n s.world = .ePassThroughRenderAllRequestedPlanes
  · rw [if_pos c1] at h
    by_cases c2 : (if env.isMultiPlanar n s.world = true then ptInput.isNone else true) = true
    · rw [if_pos c2] at h
      unfold getNonMaskInputsAvailableComponents at h
      refine getNonMaskInputsAvailableComponents_loop_le env rec
        (fun input time view markedNodes s r hs h =>
          (hrec input time view [] markedNodes s r hs rfl h).2)
        n time view false _ _ _ r ?_ hs h
      show componentsAvailable_colorCount comps ≤ 1
      omega
    · rw [if_neg c2] at h
      cases ptInput with
      | none => exact hsame r h
      | some input => exact hrec _ _ _ _ _ _ _ hs hcomps h
  · rw [if_neg c1] at h
    exact hsame r h

/-- The components of the node itself leave at most one entry of the color plane -/
theorem getComponentsAvailableRecursive_produced_le (n : NodeId) (processAll : Bool)
    (neededComps : ComponentsNeededMap) (userComps : List ImageComponents)
    (comps : ComponentsAvailableMap) (h : componentsAvailable_colorCount comps ≤ 1) :
    componentsAvailable_colorCount (getComponentsAvailableRecursive_produced env n processAll
      neededComps userComps comps) ≤ 1 := by
  unfold getComponentsAvailableRecursive_produced
  have h1 : componentsAvailable_colorCount
      (if processAll = true then comps.map fun it => if it.2.isSome then (it.1, some n) else it
       else comps) ≤ 1 := by
    split
    · rw [componentsAvailable_processAll_colorCount]
      exact h
    · exact h
  simp only []
  split
  · exact getComponentsAvailableRecursive_user_foldl_le env n _ _ _
      (getComponentsAvailableRecursive_output_foldl_le env n _ _ h1)
  · exact h1

/-- The map that `getComponentsAvailableRecursive` fills from a map without an entry of the
color plane holds at most one entry of the color plane, and so do the maps
`outputComponentsAvailable` it leaves, when those it found did -/
theorem getComponentsAvailableRecursive_le (fuel : Nat) (n : NodeId) (time : SequenceTime)
    (view : Int) (comps : ComponentsAvailableMap) (markedNodes : List NodeId)
    (s : ComponentsState W) (r : ComponentsAvailableMap × List NodeId × ComponentsState W)
    (hs : s.cachesHoldOneColor) (hcomps : componentsAvailable_colorCount comps = 0)
    (h : getComponentsAvailableRecursive env cenv fuel n time view comps markedNodes s =
      some r) :
    componentsAvailable_colorCount r.1 ≤ 1 ∧ r.2.2.cachesHoldOneColor := by
  induction fuel generalizing n time view comps markedNodes s r with
  | zero =>
    unfold getComponentsAvailableRecursive at h
    cases h
  | succ fuel ih =>
    unfold getComponentsAvailableRecursive at h
    simp only [] at h
    by_cases hm : n ∈ markedNodes
    · rw [if_pos hm] at h
      cases h
      refine ⟨?_, hs⟩
      show componentsAvailable_colorCount comps ≤ 1
      omega
    · rw [if_neg hm] at h
      by_cases hd : (!(s.cache n).componentsAvailableDirty) = true
      · rw [if_pos hd] at h
        cases h
        refine ⟨?_, hs⟩
        have h1 := StdMap.insert_foldl_colorCount_le env.componentsLess
          (s.cache n).outputComponentsAvailable comps
        have h2 := hs n (by simpa using hd)
        show componentsAvailable_colorCount (List.foldl _ comps _) ≤ 1
        omega
      · rw [if_neg hd] at h
        cases hr1 : getComponentsAvailableRecursive_upstream env cenv
            (getComponentsAvailableRecursive env cenv fuel) n time view
            (cenv.passThroughInput n time view s.world) comps markedNodes
            { s with world := (env.getComponentsNeededAndProduced_public n time view
              s.world).2 } with
        | none =>
          rw [hr1] at h
          cases h
        | some r1 =>
          rw [hr1] at h
          cases h
          have hs0 : ComponentsState.cachesHoldOneColor
              ({ s with world := (env.getComponentsNeededAndProduced_public n time view
                s.world).2 } : ComponentsState W) := hs
          have hup := getComponentsAvailableRecursive_upstream_le env cenv
            (getComponentsAvailableRecursive env cenv fuel)
            (fun input time view comps markedNodes s r hs hc h =>
              ih input time view comps markedNodes s r hs hc h)
            n time view _ comps markedNodes _ r1 hs0 hcomps hr1
          have hfin := getComponentsAvailableRecursive_produced_le env n
            (env.getComponentsNeededAndProduced_public n time view s.world).1.2.1
            (env.getComponentsNeededAndProduced_public n time view s.world).1.1
            (cenv.getUserComponents n r1.2.2.world) r1.1 hup.1
          refine ⟨hfin, ?_⟩
          intro m hmd
          by_cases hmn : m = n
          · subst hmn
            show componentsAvailable_colorCount
              (if m = m then (⟨false, _⟩ : ComponentsAvailableCache)
               else r1.2.2.cache m).outputComponentsAvailable ≤ 1
            rw [if_pos rfl]
            exact hfin
          · have e : ∀ c : ComponentsAvailableCache,
                (if m = n then c else r1.2.2.cache m) = r1.2.2.cache m := fun c => if_neg hmn
            have hmd' : (if m = n then (⟨false, _⟩ : ComponentsAvailableCache)
                else r1.2.2.cache m).componentsAvailableDirty = false := hmd
            show componentsAvailable_colorCount
              (if m = n then (⟨false, _⟩ : ComponentsAvailableCache)
               else r1.2.2.cache m).outputComponentsAvailable ≤ 1
            rw [e] at hmd' ⊢
            exact hup.2 m hmd'

/-- The map that `getComponentsAvailable` fills from an empty map holds at most one entry of the
color plane, when the maps `outputComponentsAvailable` that are up to date do -/
theorem getComponentsAvailable_le (fuel : Nat) (n : NodeId) (time : SequenceTime)
    (s : ComponentsState W) (avail : ComponentsAvailableMap) (hs : s.cachesHoldOneColor)
    (h : (getComponentsAvailable env cenv fuel n time [] s).map Prod.fst = some avail) :
    componentsAvailable_colorCount avail ≤ 1 := by
  unfold getComponentsAvailable at h
  obtain ⟨r, hr⟩ : ∃ r, r = getComponentsAvailableRecursive env cenv fuel n time 0 [] [] s :=
    ⟨_, rfl⟩
  rw [← hr] at h
  cases r with
  | none => cases h
  | some r =>
    simp only [Option.map_some', Option.some.injEq] at h
    subst h
    exact (getComponentsAvailableRecursive_le env cenv fuel n time 0 [] [] s r hs rfl hr.symm).1

end AvailableRecursive

section AvailableReturns

variable {W : Type} (env : Env W) (cenv : ComponentsEnv W)

/-- The loop on the inputs returns when the nested calls on the inputs of the node do -/
theorem getNonMaskInputsAvailableComponents_loop_returns (rec : ComponentsAvailableRecFn W)
    (n : NodeId)
    (hrec : ∀ (i : Int) w input, env.getInput n i w = some input →
      ∀ time view comps markedNodes s, ∃ r, rec input time view comps markedNodes s = some r)
    (time : SequenceTime) (view : Int) (preferExistingComponents : Bool)
    (preferredInput : Int) (l : List Nat)
    (acc : ComponentsAvailableMap × List NodeId × ComponentsState W) :
    ∃ r, getNonMaskInputsAvailableComponents_loop env rec n time view preferExistingComponents
      preferredInput l acc = some r := by
  induction l generalizing acc with
  | nil => exact ⟨acc, rfl⟩
  | cons i rest ih =>
    unfold getNonMaskInputsAvailableComponents_loop
    by_cases hc : (!env.isInputMask n i acc.2.2.world &&
        !env.isInputRotoBrush n i acc.2.2.world) = true
    · rw [if_pos hc]
      cases hin : env.getInput n i acc.2.2.world with
      | none => exact ih _
      | some input =>
        obtain ⟨r1, hr1⟩ := hrec i acc.2.2.world input hin time view [] acc.2.1 acc.2.2
        simp only []
        rw [hr1]
        exact ih _
    · rw [if_neg hc]
      exact ih _

/-- The function `getComponentsAvailableRecursive` returns when the fuel exceeds the rank of
the node, in a graph where the inputs and the pass-through input of a node have a smaller
rank than the node -/
theorem getComponentsAvailableRecursive_returns (rank : NodeId → Nat)
    (hinput : ∀ n (i : Int) w input, env.getInput n i w = some input → rank input < rank n)
    (hpt : ∀ n time view w input, cenv.passThroughInput n time view w = some input →
      rank input < rank n)
    (fuel : Nat) (n : NodeId) (hfuel : rank n < fuel) (time : SequenceTime) (view : Int)
    (comps : ComponentsAvailableMap) (markedNodes : List NodeId) (s : ComponentsState W) :
    ∃ r, getComponentsAvailableRecursive env cenv fuel n time view comps markedNodes s =
      some r := by
  induction fuel generalizing n time view comps markedNodes s with
  | zero => omega
  | succ fuel ih =>
    unfold getComponentsAvailableRecursive
    simp only []
    by_cases hm : n ∈ markedNodes
    · rw [if_pos hm]
      exact ⟨_, rfl⟩
    · rw [if_neg hm]
      by_cases hd : (!(s.cache n).componentsAvailableDirty) = true
      · rw [if_pos hd]
        exact ⟨_, rfl⟩
      · rw [if_neg hd]
        have hrec : ∀ input, rank input < rank n → ∀ time view comps markedNodes s,
            ∃ r, getComponentsAvailableRecursive env cenv fuel input time view comps
              markedNodes s = some r := by
          intro input hlt time view comps markedNodes s
          have hlt2 : rank input < fuel := by omega
          exact ih input hlt2 time view comps markedNodes s
        have hup : ∃ r1, getComponentsAvailableRecursive_upstream env cenv
            (getComponentsAvailableRecursive env cenv fuel) n time view
            (cenv.passThroughInput n time view s.world) comps markedNodes
            { s with world := (env.getComponentsNeededAndProduced_public n time view
              s.world).2 } = some r1 := by
          unfold getComponentsAvailableRecursive_upstream
          simp only []
          by_cases c1 : cenv.isPassThroughForNonRenderedPlanes n
              (env.getComponentsNeededAndProduced_public n time view s.world).2 =
              .ePassThroughPassThroughNonRenderedPlanes ∨
              cenv.isPassThroughForNonRenderedPlanes n
                (env.getComponentsNeededAndProduced_public n time view s.world).2 =
              .ePassThroughRenderAllRequestedPlanes
          · rw [if_pos c1]
            by_cases c2 : (if env.isMultiPlanar n
                (env.getComponentsNeededAndProduced_public n time view s.world).2 = true
                then (cenv.passThroughInput n time view s.world).isNone else true) = true
            · rw [if_pos c2]
              unfold getNonMaskInputsAvailableComponents
              exact getNonMaskInputsAvailableComponents_loop_returns env _ n
                (fun i w input hin => hrec input (hinput n i w input hin)) _ _ _ _ _ _
            · rw [if_neg c2]
              cases hp : cenv.passThroughInput n time view s.world with
              | none => exact ⟨_, rfl⟩
              | some input => exact hrec input (hpt n time view s.world input hp) _ _ _ _ _
          · rw [if_neg c1]
            exact ⟨_, rfl⟩
        obtain ⟨r1, hr1⟩ := hup
        rw [hr1]
        exact ⟨_, rfl⟩

end AvailableReturns

/-- Two entries of the color plane of a map that holds at most one are the same entry -/
theorem componentsAvailable_colorCount_unique (m : ComponentsAvailableMap)
    (h : componentsAvailable_colorCount m ≤ 1) (a b : ImageComponents × Option NodeId)
    (ha : a ∈ m) (hb : b ∈ m) (hac : a.1.isColorPlane = true) (hbc : b.1.isColorPlane = true) :
    a = b := by
  induction m with
  | nil => cases ha
  | cons e rest ih =>
    unfold componentsAvailable_colorCount at h ih
    rw [List.countP_cons] at h
    have hpos : ∀ c ∈ rest, c.1.isColorPlane = true →
        0 < rest.countP (fun e => e.1.isColorPlane) := fun c hc hcc =>
      List.countP_pos_iff.2 ⟨c, hc, hcc⟩
    rcases List.mem_cons.1 ha with rfl | ha'
    · rcases List.mem_cons.1 hb with rfl | hb'
      · rfl
      · have := hpos b hb' hbc
        rw [if_pos hac] at h
        omega
    · rcases List.mem_cons.1 hb with rfl | hb'
      · have := hpos a ha' hac
        rw [if_pos hbc] at h
        omega
      · exact ih (by omega) ha' hb'

section Sorted

variable (lt : ImageComponents → ImageComponents → Bool)

/-- An entry of the map after an insertion is an entry of the map or the pair inserted -/
theorem StdMap.mem_insert (m : ComponentsAvailableMap) (k : ImageComponents)
    (v : Option NodeId) (b : ImageComponents × Option NodeId)
    (hb : b ∈ StdMap.insert lt m k v) : b ∈ m ∨ b = (k, v) := by
  induction m with
  | nil =>
    unfold StdMap.insert at hb
    exact Or.inr (List.mem_singleton.1 hb)
  | cons e rest ih =>
    obtain ⟨k', v'⟩ := e
    unfold StdMap.insert at hb
    by_cases h1 : lt k k' = true
    · rw [if_pos h1] at hb
      rcases List.mem_cons.1 hb with h | h
      · exact Or.inr h
      · exact Or.inl h
    · rw [if_neg h1] at hb
      by_cases h2 : lt k' k = true
      · rw [if_pos h2] at hb
        rcases List.mem_cons.1 hb with h | h
        · exact Or.inl (by rw [h]; exact List.mem_cons_self _ _)
        · rcases ih h with h' | h'
          · exact Or.inl (List.mem_cons_of_mem _ h')
          · exact Or.inr h'
      · rw [if_neg h2] at hb
        exact Or.inl hb

/-- An insertion keeps the map in the order of its keys, for a transitive order -/
theorem StdMap.insert_sorted (htrans : ∀ a b c, lt a b = true → lt b c = true → lt a c = true)
    (m : ComponentsAvailableMap) (k : ImageComponents) (v : Option NodeId)
    (h : componentsAvailable_sorted lt m) :
    componentsAvailable_sorted lt (StdMap.insert lt m k v) := by
  induction m with
  | nil =>
    unfold StdMap.insert
    exact List.pairwise_singleton _ _
  | cons e rest ih =>
    obtain ⟨k', v'⟩ := e
    unfold componentsAvailable_sorted at h ih ⊢
    obtain ⟨h0, hrest⟩ := List.pairwise_cons.1 h
    unfold StdMap.insert
    by_cases h1 : lt k k' = true
    · rw [if_pos h1]
      refine List.pairwise_cons.2 ⟨?_, h⟩
      intro b hb
      rcases List.mem_cons.1 hb with rfl | hb'
      · exact h1
      · exact htrans _ _ _ h1 (h0 b hb')
    · rw [if_neg h1]
      by_cases h2 : lt k' k = true
      · rw [if_pos h2]
        refine List.pairwise_cons.2 ⟨?_, ih hrest⟩
        intro b hb
        rcases StdMap.mem_insert lt rest k v b hb with hb' | rfl
        · exact h0 b hb'
        · exact h2
      · rw [if_neg h2]
        exact h

/-- The insertion of the entries of a map keeps the map in the order of its keys -/
theorem StdMap.insert_foldl_sorted
    (htrans : ∀ a b c, lt a b = true → lt b c = true → lt a c = true)
    (l m : ComponentsAvailableMap) (h : componentsAvailable_sorted lt m) :
    componentsAvailable_sorted lt (l.foldl (fun m kv => StdMap.insert lt m kv.1 kv.2) m) := by
  induction l generalizing m with
  | nil => exact h
  | cons e rest ih =>
    rw [List.foldl_cons]
    exact ih _ (StdMap.insert_sorted lt htrans m e.1 e.2 h)

/-- A map with the keys of a map in order, in the same order, is in order -/
theorem componentsAvailable_sorted_of_keys (m m2 : ComponentsAvailableMap)
    (hk : m2.map Prod.fst = m.map Prod.fst) (h : componentsAvailable_sorted lt m) :
    componentsAvailable_sorted lt m2 := by
  unfold componentsAvailable_sorted at h ⊢
  have h1 : (m.map Prod.fst).Pairwise (fun a b => lt a b = true) := List.pairwise_map.2 h
  rw [← hk] at h1
  exact List.pairwise_map.1 h1

/-- An assignment through `find` keeps the keys -/
theorem StdMap.assign_keys (m : ComponentsAvailableMap) (k : ImageComponents)
    (v : Option NodeId) : (StdMap.assign lt m k v).map Prod.fst = m.map Prod.fst := by
  induction m with
  | nil => rfl
  | cons e rest ih =>
    obtain ⟨k', v'⟩ := e
    unfold StdMap.assign
    by_cases h1 : (!lt k k' && !lt k' k) = true
    · rw [if_pos h1]
      rfl
    · rw [if_neg h1, List.map_cons, List.map_cons, ih]

/-- An assignment of the owner keeps the keys -/
theorem componentsAvailable_setOwner_keys (m : ComponentsAvailableMap) (i : Nat)
    (node : Option NodeId) :
    (componentsAvailable_setOwner m i node).map Prod.fst = m.map Prod.fst := by
  induction m generalizing i with
  | nil => rfl
  | cons e rest ih =>
    cases i with
    | zero => rfl
    | succ i =>
      unfold componentsAvailable_setOwner
      rw [List.map_cons, List.map_cons, ih]

/-- The assignment of the node to the entries that have an owner keeps the keys -/
theorem componentsAvailable_processAll_keys (n : NodeId) (m : ComponentsAvailableMap) :
    (m.map fun it => if it.2.isSome then (it.1, some n) else it).map Prod.fst =
      m.map Prod.fst := by
  rw [List.map_map]
  apply List.map_congr_left
  intro it _
  simp only [Function.comp]
  split <;> rfl

/-- An erasure keeps the map in the order of its keys -/
theorem componentsAvailable_eraseIdx_sorted (m : ComponentsAvailableMap) (j : Nat)
    (h : componentsAvailable_sorted lt m) : componentsAvailable_sorted lt (m.eraseIdx j) :=
  List.Pairwise.sublist (List.eraseIdx_sublist m j) h

/-- The keys of a map in the order of its keys are distinct, for an irreflexive order -/
theorem componentsAvailable_sorted_keys_distinct (hirrefl : ∀ a, lt a a = false)
    (m : ComponentsAvailableMap) (h : componentsAvailable_sorted lt m) :
    m.Pairwise fun a b => a.1 ≠ b.1 := by
  unfold componentsAvailable_sorted at h
  refine List.Pairwise.imp ?_ h
  intro a b hab heq
  rw [heq, hirrefl] at hab
  cases hab

end Sorted

section AvailableSorted

variable {W : Type} (env : Env W) (cenv : ComponentsEnv W)

/-- The merge of an entry of an input keeps the map in the order of its keys -/
theorem getNonMaskInputsAvailableComponents_merge_sorted
    (htrans : ∀ a b c, env.componentsLess a b = true → env.componentsLess b c = true →
      env.componentsLess a c = true)
    (n : NodeId)
    (isPreferredInput preferExistingComponents : Bool) (comps : ComponentsAvailableMap)
    (it : ImageComponents × Option NodeId)
    (h : componentsAvailable_sorted env.componentsLess comps) :
    componentsAvailable_sorted env.componentsLess (getNonMaskInputsAvailableComponents_merge
      env n isPreferredInput preferExistingComponents comps it) := by
  unfold getNonMaskInputsAvailableComponents_merge
  split
  · split
    · exact componentsAvailable_sorted_of_keys _ comps _
        (componentsAvailable_setOwner_keys comps _ _) h
    · exact h
  · split
    · exact h
    · exact StdMap.insert_sorted _ htrans comps it.1 it.2 h

/-- The merge of the entries of an input keeps the map in the order of its keys -/
theorem getNonMaskInputsAvailableComponents_merge_foldl_sorted
    (htrans : ∀ a b c, env.componentsLess a b = true → env.componentsLess b c = true →
      env.componentsLess a c = true)
    (n : NodeId)
    (isPreferredInput preferExistingComponents : Bool) (l comps : ComponentsAvailableMap)
    (h : componentsAvailable_sorted env.componentsLess comps) :
    componentsAvailable_sorted env.componentsLess
      (l.foldl (getNonMaskInputsAvailableComponents_merge env n isPreferredInput
        preferExistingComponents) comps) := by
  induction l generalizing comps with
  | nil => exact h
  | cons it rest ih =>
    rw [List.foldl_cons]
    exact ih _ (getNonMaskInputsAvailableComponents_merge_sorted env htrans n _ _ comps it h)

/-- A component produced by the node keeps the map in the order of its keys -/
theorem getComponentsAvailableRecursive_output_sorted
    (htrans : ∀ a b c, env.componentsLess a b = true → env.componentsLess b c = true →
      env.componentsLess a c = true)
    (n : NodeId)
    (comps : ComponentsAvailableMap) (it : ImageComponents)
    (h : componentsAvailable_sorted env.componentsLess comps) :
    componentsAvailable_sorted env.componentsLess
      (getComponentsAvailableRecursive_output env n comps it) := by
  unfold getComponentsAvailableRecursive_output
  split
  · split
    · exact componentsAvailable_sorted_of_keys _ comps _
        (componentsAvailable_setOwner_keys comps _ _) h
    · exact StdMap.insert_sorted _ htrans _ it _
        (componentsAvailable_eraseIdx_sorted _ comps _ h)
    · exact StdMap.insert_sorted _ htrans comps it _ h
  · split
    · exact componentsAvailable_sorted_of_keys _ comps _
        (componentsAvailable_setOwner_keys comps _ _) h
    · exact StdMap.insert_sorted _ htrans comps it _ h

/-- A user component keeps the map in the order of its keys -/
theorem getComponentsAvailableRecursive_user_sorted
    (htrans : ∀ a b c, env.componentsLess a b = true → env.componentsLess b c = true →
      env.componentsLess a c = true)
    (n : NodeId)
    (outputComps : List ImageComponents) (comps : ComponentsAvailableMap)
    (it : ImageComponents) (h : componentsAvailable_sorted env.componentsLess comps) :
    componentsAvailable_sorted env.componentsLess
      (getComponentsAvailableRecursive_user env n outputComps comps it) := by
  unfold getComponentsAvailableRecursive_user
  simp only []
  split
  · split
    · exact componentsAvailable_sorted_of_keys _ comps _
        (componentsAvailable_setOwner_keys comps _ _) h
    · exact StdMap.insert_sorted _ htrans _ it _
        (componentsAvailable_eraseIdx_sorted _ comps _ h)
    · exact StdMap.insert_sorted _ htrans comps it _ h
  · split
    · exact componentsAvailable_sorted_of_keys _ comps _ (StdMap.assign_keys _ comps _ _) h
    · exact StdMap.insert_sorted _ htrans comps it _ h

/-- The components of the node itself keep the map in the order of its keys -/
theorem getComponentsAvailableRecursive_produced_sorted
    (htrans : ∀ a b c, env.componentsLess a b = true → env.componentsLess b c = true →
      env.componentsLess a c = true)
    (n : NodeId) (processAll : Bool)
    (neededComps : ComponentsNeededMap) (userComps : List ImageComponents)
    (comps : ComponentsAvailableMap) (h : componentsAvailable_sorted env.componentsLess comps) :
    componentsAvailable_sorted env.componentsLess (getComponentsAvailableRecursive_produced env
      n processAll neededComps userComps comps) := by
  unfold getComponentsAvailableRecursive_produced
  have h1 : componentsAvailable_sorted env.componentsLess
      (if processAll = true then comps.map fun it => if it.2.isSome then (it.1, some n) else it
       else comps) := by
    split
    · exact componentsAvailable_sorted_of_keys _ comps _
        (componentsAvailable_processAll_keys n comps) h
    · exact h
  have hout : ∀ (l : List ImageComponents) (c : ComponentsAvailableMap),
      componentsAvailable_sorted env.componentsLess c →
      componentsAvailable_sorted env.componentsLess
        (l.foldl (getComponentsAvailableRecursive_output env n) c) := by
    intro l
    induction l with
    | nil => exact fun c hc => hc
    | cons it rest ih =>
      intro c hc
      rw [List.foldl_cons]
      exact ih _ (getComponentsAvailableRecursive_output_sorted env htrans n c it hc)
  have huser : ∀ (o l : List ImageComponents) (c : ComponentsAvailableMap),
      componentsAvailable_sorted env.componentsLess c →
      componentsAvailable_sorted env.componentsLess
        (l.foldl (getComponentsAvailableRecursive_user env n o) c) := by
    intro o l
    induction l with
    | nil => exact fun c hc => hc
    | cons it rest ih =>
      intro c hc
      rw [List.foldl_cons]
      exact ih _ (getComponentsAvailableRecursive_user_sorted env htrans n o c it hc)
  simp only []
  split
  · exact huser _ _ _ (hout _ _ h1)
  · exact h1

/-- The loop on the inputs keeps `comps` in the order of its keys -/
theorem getNonMaskInputsAvailableComponents_loop_sorted
    (htrans : ∀ a b c, env.componentsLess a b = true → env.componentsLess b c = true →
      env.componentsLess a c = true)
    (rec : ComponentsAvailableRecFn W)
    (n : NodeId) (time : SequenceTime) (view : Int) (preferExistingComponents : Bool)
    (preferredInput : Int) (l : List Nat)
    (acc r : ComponentsAvailableMap × List NodeId × ComponentsState W)
    (hacc : componentsAvailable_sorted env.componentsLess acc.1)
    (h : getNonMaskInputsAvailableComponents_loop env rec n time view preferExistingComponents
      preferredInput l acc = some r) :
    componentsAvailable_sorted env.componentsLess r.1 := by
  induction l generalizing acc with
  | nil =>
    unfold getNonMaskInputsAvailableComponents_loop at h
    cases h
    exact hacc
  | cons i rest ih =>
    unfold getNonMaskInputsAvailableComponents_loop at h
    by_cases hc : (!env.isInputMask n i acc.2.2.world &&
        !env.isInputRotoBrush n i acc.2.2.world) = true
    · rw [if_pos hc] at h
      cases hin : env.getInput n i acc.2.2.world with
      | none =>
        rw [hin] at h
        exact ih _ hacc h
      | some input =>
        rw [hin] at h
        simp only [] at h
        cases hr1 : rec input time view [] acc.2.1 acc.2.2 with
        | none =>
          rw [hr1] at h
          cases h
        | some r1 =>
          rw [hr1] at h
          simp only [] at h
          refine ih _ ?_ h
          exact getNonMaskInputsAvailableComponents_merge_foldl_sorted env htrans n _ _ _ _ hacc
    · rw [if_neg hc] at h
      exact ih _ hacc h

/-- The map that `getComponentsAvailableRecursive` fills from a map in the order of its keys
is in the order of its keys -/
theorem getComponentsAvailableRecursive_sorted
    (htrans : ∀ a b c, env.componentsLess a b = true → env.componentsLess b c = true →
      env.componentsLess a c = true)
    (fuel : Nat) (n : NodeId) (time : SequenceTime)
    (view : Int) (comps : ComponentsAvailableMap) (markedNodes : List NodeId)
    (s : ComponentsState W) (r : ComponentsAvailableMap × List NodeId × ComponentsState W)
    (hcomps : componentsAvailable_sorted env.componentsLess comps)
    (h : getComponentsAvailableRecursive env cenv fuel n time view comps markedNodes s =
      some r) :
    componentsAvailable_sorted env.componentsLess r.1 := by
  induction fuel generalizing n time view comps markedNodes s r with
  | zero =>
    unfold getComponentsAvailableRecursive at h
    cases h
  | succ fuel ih =>
    unfold getComponentsAvailableRecursive at h
    simp only [] at h
    by_cases hm : n ∈ markedNodes
    · rw [if_pos hm] at h
      cases h
      exact hcomps
    · rw [if_neg hm] at h
      by_cases hd : (!(s.cache n).componentsAvailableDirty) = true
      · rw [if_pos hd] at h
        cases h
        exact StdMap.insert_foldl_sorted _ htrans _ comps hcomps
      · rw [if_neg hd] at h
        cases hr1 : getComponentsAvailableRecursive_upstream env cenv
            (getComponentsAvailableRecursive env cenv fuel) n time view
            (cenv.passThroughInput n time view s.world) comps markedNodes
            { s with world := (env.getComponentsNeededAndProduced_public n time view
              s.world).2 } with
        | none =>
          rw [hr1] at h
          cases h
        | some r1 =>
          rw [hr1] at h
          cases h
          have hup : componentsAvailable_sorted env.componentsLess r1.1 := by
            unfold getComponentsAvailableRecursive_upstream at hr1
            simp only [] at hr1
            by_cases c1 : cenv.isPassThroughForNonRenderedPlanes n
                (env.getComponentsNeededAndProduced_public n time view s.world).2 =
                .ePassThroughPassThroughNonRenderedPlanes ∨
                cenv.isPassThroughForNonRenderedPlanes n
                  (env.getComponentsNeededAndProduced_public n time view s.world).2 =
                .ePassThroughRenderAllRequestedPlanes
            · rw [if_pos c1] at hr1
              by_cases c2 : (if env.isMultiPlanar n
                  (env.getComponentsNeededAndProduced_public n time view s.world).2 = true
                  then (cenv.passThroughInput n time view s.world).isNone else true) = true
              · rw [if_pos c2] at hr1
                unfold getNonMaskInputsAvailableComponents at hr1
                exact getNonMaskInputsAvailableComponents_loop_sorted env htrans _ n time view
                  false _ _ _ r1 hcomps hr1
              · rw [if_neg c2] at hr1
                cases hp : cenv.passThroughInput n time view s.world with
                | none =>
                  rw [hp] at hr1
                  cases hr1
                  exact hcomps
                | some input =>
                  rw [hp] at hr1
                  exact ih _ _ _ _ _ _ _ hcomps hr1
            · rw [if_neg c1] at hr1
              cases hr1
              exact hcomps
          exact getComponentsAvailableRecursive_produced_sorted env htrans n _ _ _ r1.1 hup

/-- The keys of the map that `getComponentsAvailable` fills from an empty map are distinct,
for an order of the keys that is irreflexive and transitive -/
theorem getComponentsAvailable_keys_distinct
    (htrans : ∀ a b c, env.componentsLess a b = true → env.componentsLess b c = true →
      env.componentsLess a c = true)
    (hirrefl : ∀ a, env.componentsLess a a = false)
    (fuel : Nat) (n : NodeId) (time : SequenceTime) (s : ComponentsState W)
    (avail : ComponentsAvailableMap)
    (h : (getComponentsAvailable env cenv fuel n time [] s).map Prod.fst = some avail) :
    avail.Pairwise fun a b => a.1 ≠ b.1 := by
  unfold getComponentsAvailable at h
  obtain ⟨r, hr⟩ : ∃ r, r = getComponentsAvailableRecursive env cenv fuel n time 0 [] [] s :=
    ⟨_, rfl⟩
  rw [← hr] at h
  cases r with
  | none => cases h
  | some r =>
    simp only [Option.map_some', Option.some.injEq] at h
    subst h
    exact componentsAvailable_sorted_keys_distinct _ hirrefl _
      (getComponentsAvailableRecursive_sorted env cenv htrans fuel n time 0 [] [] s r
        List.Pairwise.nil hr.symm)

end AvailableSorted

/-- The order of the keys of `colorVariantsEnv` is irreflexive -/
theorem colorVariantsEnv_componentsLess_irrefl (a : ImageComponents) :
    colorVariantsEnv.componentsLess a a = false := by
  simp [colorVariantsEnv, baseEnv]

/-- The order of the keys of `colorVariantsEnv` is transitive -/
theorem colorVariantsEnv_componentsLess_trans (a b c : ImageComponents)
    (h1 : colorVariantsEnv.componentsLess a b = true)
    (h2 : colorVariantsEnv.componentsLess b c = true) :
    colorVariantsEnv.componentsLess a c = true := by
  simp only [colorVariantsEnv, baseEnv, Bool.or_eq_true, Bool.and_eq_true,
    decide_eq_true_eq] at h1 h2 ⊢
  omega

/-- The maps `outputComponentsAvailable` of the nodes at their construction hold at most one
entry of the color plane: none is up to date -/
theorem ComponentsState.new_cachesHoldOneColor {W : Type} (w : W) :
    (ComponentsState.new w).cachesHoldOneColor :=
  fun _ h => Bool.noConfusion h

/-- C6: the routing of a requested plane by `renderRoI`, for the map of available components
`avail` that `getComponentsAvailable` (lines 5698-5943) fills from an empty map (line 2501), in
a state where the maps `outputComponentsAvailable` that are up to date hold at most one entry
of the color plane (as at the construction of the nodes, and as `getComponentsAvailable` leaves
them); the order of the keys, `ImageComponents::operator<`, is irreflexive and transitive, as
the order of a `std::map` is. (a) A plane that is not of the color plane is
routed through the entry with exactly the requested components, and is dropped (it is neither
rendered by the node nor fetched upstream) when there is none. (b) For any plane, when the map
has an entry with exactly the requested components, the node of that entry decides: the plane
is rendered by the node itself when the entry is owned by it, and fetched from the owner
otherwise. (c) An entry with other components is used only for a request of the color plane,
is a supported set of components of the color plane, and then the map has no entry with
exactly the requested components. The map holds at most one entry of the color plane. -/
theorem renderRoI_plane_routing {W : Type} (env : Env W) (cenv : ComponentsEnv W) (fuel : Nat)
    (n : NodeId) (time : SequenceTime) (s : ComponentsState W) (w : W)
    (avail : ComponentsAvailableMap) (requested : ImageComponents)
    (rest : List ImageComponents) (acc : List ImageComponents × ComponentsAvailableMap)
    (hcaches : s.cachesHoldOneColor)
    (havail : (getComponentsAvailable env cenv fuel n time [] s).map Prod.fst = some avail)
    (hirrefl : ∀ a, env.componentsLess a a = false)
    (htrans : ∀ a b c, env.componentsLess a b = true → env.componentsLess b c = true →
      env.componentsLess a c = true) :
    (requested.isColorPlane = false → (∀ e ∈ avail, e.1 ≠ requested) →
      renderRoI_findAvailable env n w requested avail = none ∧
      renderRoI_routePlanes env n w avail (requested :: rest) acc =
        renderRoI_routePlanes env n w avail rest acc) ∧
    (∀ owner, (requested, owner) ∈ avail →
      renderRoI_findAvailable env n w requested avail = some (requested, owner) ∧
      renderRoI_routePlanes env n w avail (requested :: rest) acc =
        renderRoI_routePlanes env n w avail rest
          (if owner = some n then (acc.1 ++ [requested], acc.2)
           else (acc.1, StdMap.insert env.componentsLess acc.2 requested owner))) ∧
    (∀ e, renderRoI_findAvailable env n w requested avail = some e → e.1 ≠ requested →
      requested.isColorPlane = true ∧ e.1.isColorPlane = true ∧
      env.isSupportedComponent n (-1) e.1 w = true ∧ ∀ e2 ∈ avail, e2.1 ≠ requested) ∧
    componentsAvailable_colorCount avail ≤ 1 := by
  have hcount := getComponentsAvailable_le env cenv fuel n time s avail hcaches havail
  have hkeys := getComponentsAvailable_keys_distinct env cenv htrans hirrefl fuel n time s
    avail havail
  have hcolor : ∀ a ∈ avail, ∀ b ∈ avail,
      a.1.isColorPlane = true → b.1.isColorPlane = true → a.1 = b.1 := fun a ha b hb hac hbc =>
    congrArg Prod.fst (componentsAvailable_colorCount_unique avail hcount a b ha hb hac hbc)
  have hexact : ∀ owner, (requested, owner) ∈ avail →
      renderRoI_findAvailable env n w requested avail = some (requested, owner) := by
    intro owner hmem
    obtain ⟨pre, post, rfl⟩ := List.append_of_mem hmem
    apply renderRoI_findAvailable_exact
    intro e he
    have hne : e.1 ≠ requested := by
      rw [List.pairwise_append] at hkeys
      exact hkeys.2.2 e he (requested, owner) (List.mem_cons_self _ _)
    refine ⟨hne, fun hr => ?_⟩
    by_contra hcol
    have hcol2 : e.1.isColorPlane = true := by simpa using hcol
    exact hne (hcolor e (List.mem_append_left _ he) (requested, owner)
      (List.mem_append_right _ (List.mem_cons_self _ _)) hcol2 hr)
  refine ⟨fun hnc hnone => ?_, fun owner hmem => ?_, fun e hfind hne => ?_, hcount⟩
  · have hf : renderRoI_findAvailable env n w requested avail = none :=
      renderRoI_findAvailable_none env n w requested avail
        fun e he => ⟨hnone e he, fun hr => by rw [hnc] at hr; exact absurd hr (by simp)⟩
    refine ⟨hf, ?_⟩
    rw [renderRoI_routePlanes, hf]
  · refine ⟨hexact owner hmem, ?_⟩
    rw [renderRoI_routePlanes, hexact owner hmem]
    by_cases ho : owner = some n
    · simp [ho]
    · simp [ho]
  · obtain ⟨_, hor⟩ := renderRoI_findAvailable_some env n w requested avail e hfind
    rcases hor with h | ⟨h1, h2, h3⟩
    · exact absurd h hne
    · refine ⟨h1, h2, h3, fun e2 he2 heq => ?_⟩
      have := hexact e2.2 (by rw [← heq]; exact he2)
      rw [this] at hfind
      simp only [Option.some.injEq] at hfind
      exact hne (by rw [← hfind])

/-- Witness of C6 on `colorVariantsEnv`: the inputs of node 0 offer the RGBA color plane
(node 1), the alpha color plane and the layer `depthLayer` (node 2), and node 0 produces the
RGB color plane. `getComponentsAvailable` keeps the RGBA entry of the first input, skips the
alpha entry of the second one, and replaces the RGBA entry by the RGB entry of node 0: the map
is the RGB color plane owned by node 0 and `depthLayer` owned by node 2. A request of
`depthLayer` is fetched from node 2; a request of the RGBA color plane finds the RGB entry,
and the map has no RGBA entry. -/
theorem renderRoI_plane_routing_witness :
    (getComponentsAvailable colorVariantsEnv colorVariantsComponentsEnv 2 0 1 []
      (ComponentsState.new ())).map Prod.fst =
      some [(rgbPlane, some 0), (depthLayer, some 2)] ∧
    (renderRoI_findAvailable colorVariantsEnv 0 () depthLayer
        [(rgbPlane, some 0), (depthLayer, some 2)] = some (depthLayer, some 2) ∧
      renderRoI_routePlanes colorVariantsEnv 0 () [(rgbPlane, some 0), (depthLayer, some 2)]
          [depthLayer, rgbaPlane] ([], []) =
        renderRoI_routePlanes colorVariantsEnv 0 () [(rgbPlane, some 0), (depthLayer, some 2)]
          [rgbaPlane]
          (if some 2 = some 0 then ([] ++ [depthLayer], [])
           else ([], StdMap.insert colorVariantsEnv.componentsLess [] depthLayer (some 2)))) ∧
    (rgbaPlane.isColorPlane = true ∧ rgbPlane.isColorPlane = true ∧
      colorVariantsEnv.isSupportedComponent 0 (-1) rgbPlane () = true ∧
      ∀ e2 ∈ [(rgbPlane, some 0), (depthLayer, some 2)], e2.1 ≠ rgbaPlane) :=
  ⟨by decide,
   (renderRoI_plane_routing colorVariantsEnv colorVariantsComponentsEnv 2 0 1
     (ComponentsState.new ()) () [(rgbPlane, some 0), (depthLayer, some 2)] depthLayer
     [rgbaPlane] ([], []) (ComponentsState.new_cachesHoldOneColor ()) (by decide)
     colorVariantsEnv_componentsLess_irrefl colorVariantsEnv_componentsLess_trans).2.1
     (some 2) (by decide),
   (renderRoI_plane_routing colorVariantsEnv colorVariantsComponentsEnv 2 0 1
     (ComponentsState.new ()) () [(rgbPlane, some 0), (depthLayer, some 2)] rgbaPlane
     [] ([], []) (ComponentsState.new_cachesHoldOneColor ()) (by decide)
     colorVariantsEnv_componentsLess_irrefl colorVariantsEnv_componentsLess_trans).2.2.1
     (rgbPlane, some 0) (by decide) (by decide)⟩

end Natron

namespace Natron

section PassThrough

variable {W : Type} (env : Env W)

theorem renderRoI_fetchUpstream_of_upstreamPlanes (rec : RenderRoIFn W) (args : RenderRoIArgs)
    (upstream : ComponentsAvailableMap) :
    ∀ (outputPlanes : ImageList) (s : St W) (planes : ImageList) (sF : St W),
      upstreamPlanes rec args upstream s = some (planes, sF) →
      renderRoI_fetchUpstream rec args upstream outputPlanes s =
        .val (.ok (outputPlanes ++ planes)) sF := by
  induction upstream with
  | nil =>
    intro outputPlanes s planes sF h
    simp only [upstreamPlanes, Option.some.injEq, Prod.mk.injEq] at h
    obtain ⟨rfl, rfl⟩ := h
    simp [renderRoI_fetchUpstream]
  | cons it rest ih =>
    intro outputPlanes s planes sF h
    unfold upstreamPlanes at h
    unfold renderRoI_fetchUpstream
    cases ho : it.2 with
    | none =>
      rw [ho] at h
      exact ih outputPlanes s planes sF h
    | some node =>
      rw [ho] at h
      simp only [] at h ⊢
      cases hr : rec node { args with components := [it.1] } [] s with
      | diverge => rw [hr] at h; simp at h
      | exn e s1 => rw [hr] at h; simp at h
      | val r s1 =>
        rw [hr] at h
        obtain ⟨code, imgs⟩ := r
        cases imgs with
        | nil => cases code <;> simp at h
        | cons front tl =>
          cases code with
          | eRenderRoIRetCodeOk =>
            simp only [Option.map_eq_some', Prod.mk.injEq, Prod.exists] at h
            obtain ⟨p2, s2, h2, rfl, rfl⟩ := h
            simp only [Out.bind]
            rw [if_neg (by simp)]
            rw [ih (outputPlanes ++ [front]) s1 p2 s2 h2]
            simp
          | eRenderRoIRetCodeAborted => simp at h
          | eRenderRoIRetCodeFailed => simp at h

theorem renderRoI_planes_of_routing (fuel : Nat) (rec : RenderRoIFn W) (n : NodeId) (l : Locals)
    (outputPlanes : ImageList) (s : St W) (upstream : ComponentsAvailableMap) (sP : St W)
    (planes : ImageList) (sF : St W)
    (hroute : renderRoI_routing env n l.args s = some (([], upstream), sP))
    (hup : upstreamPlanes rec l.args upstream sP = some (planes, sF)) :
    renderRoI_planes env fuel rec n l outputPlanes s =
      .val (.eRenderRoIRetCodeOk, outputPlanes ++ planes) sF ∧ sP.renderLog = s.renderLog := by
  unfold renderRoI_routing at hroute
  unfold renderRoI_planes
  simp only [] at hroute ⊢
  split at hroute
  · exact absurd hroute (by simp)
  · rename_i found hfound
    simp only [Option.some.injEq, Prod.mk.injEq] at hroute
    obtain ⟨hr, hs⟩ := hroute
    subst hs
    simp only [St.setWorld] at hup hr ⊢
    rw [hr]
    simp only []
    rw [renderRoI_fetchUpstream_of_upstreamPlanes rec l.args upstream outputPlanes _ planes sF
      hup]
    simp [Out.bind]

end PassThrough

/-- C7 (counterexample): the only plane requested from node 0 of `passThroughEnv` is owned by
node 1, which has been deactivated: the render of node 1 returns `eRenderRoIRetCodeAborted`
and `renderRoI` on node 0 returns `eRenderRoIRetCodeAborted`, not `eRenderRoIRetCodeOk`. -/
theorem renderRoI_pass_through_aborted :
    (renderRoI_routing passThroughEnv 0 colorRequest userState).map (fun r => r.1) =
      some ([], [(rgbaPlane, some 1)]) ∧
    (renderRoI passThroughEnv 3 0 colorRequest [] userState).retCode =
      some .eRenderRoIRetCodeAborted := by
  decide!

/-- C7 (as amended): when `renderRoI` reaches the pass-through of the planes (it is not an
identity), every requested plane resolves to an upstream owner, and every render of an owner
returns `eRenderRoIRetCodeOk` with a plane, then `renderRoI` makes one call of `renderRoI` on
the owner of each plane, for the same request restricted to that plane, appends the plane each
call returns to the output list and returns `eRenderRoIRetCodeOk` in the state the last of
these calls left; the first call starts with the record of render actions as it was on entry,
so the render action of the node itself is not called. -/
theorem renderRoI_pass_through_planes {W : Type} (env : Env W) (fuel : Nat) (n : NodeId)
    (args : RenderRoIArgs) (outputPlanes : ImageList) (s : St W) (l : Locals) (sR s1 : St W)
    (T : SequenceTime) (N : Int) (upstream : ComponentsAvailableMap) (sP : St W)
    (planes : ImageList) (sF : St W)
    (hreach : renderRoI_beforeIdentity env n args s = some (l, sR))
    (hid : isIdentity_public env n true l.nodeHash args.time l.renderMappedScale
      (env.toPixelEnclosing l.rod args.mipMapLevel l.par) args.view sR = .val (false, T, N) s1)
    (hroute : renderRoI_routing env n args s1 = some (([], upstream), sP))
    (hup : upstreamPlanes (renderRoI env fuel) args upstream sP = some (planes, sF)) :
    renderRoI env (fuel + 1) n args outputPlanes s =
      .val (.eRenderRoIRetCodeOk, outputPlanes ++ planes) sF ∧
    sP.renderLog = s.renderLog := by
  obtain ⟨heq, hargs, hlog⟩ := renderRoI_eq_identity_stage env fuel n args outputPlanes s l sR hreach
  have hlog1 := isIdentity_public_renderLog env n true _ _ _ _ _ sR _ s1 hid
  have ha := (renderRoI_refreshSupportsRS_args env n l s1).1
  rw [heq]
  unfold renderRoI_identity
  rw [hargs, hid]
  simp only [Bool.false_eq_true, if_false]
  have h := renderRoI_planes_of_routing env fuel (renderRoI env fuel) n
    (renderRoI_refreshSupportsRS env n l s1) outputPlanes s1 upstream sP planes sF
    (by rw [ha, hargs]; exact hroute) (by rw [ha, hargs]; exact hup)
  exact ⟨h.1, by rw [h.2, hlog1, hlog]⟩

/-- Witness of C7 (as amended): the only plane requested from node 0 of `passThroughOkEnv` is
owned by node 1 -/
theorem renderRoI_pass_through_planes_witness :
    ∃ (planes : ImageList) (sF : St Unit), planes.length = 1 ∧
      renderRoI passThroughOkEnv 3 0 colorRequest [] userState =
        .val (.eRenderRoIRetCodeOk, [] ++ planes) sF := by
  have h := renderRoI_pass_through_planes passThroughOkEnv 2 0 colorRequest [] userState _ _ _ 1
    (-1) [(rgbaPlane, some 1)] _ _ _ rfl rfl rfl rfl
  exact ⟨_, _, by rfl, h.1⟩

end Natron
namespace Natron

/-! ## Lemmas on the cache keys and the maps -/

theorem CompareActionsCacheKeys_equiv (a b : ActionKey) :
    (!CompareActionsCacheKeys a b && !CompareActionsCacheKeys b a) = true ↔ a = b := by
  obtain ⟨t1, v1, m1⟩ := a
  obtain ⟨t2, v2, m2⟩ := b
  simp only [CompareActionsCacheKeys, ActionKey.mk.injEq]
  constructor
  · intro h
    rcases lt_trichotomy t1 t2 with ht | ht | ht
    · simp [ht] at h
    · subst ht
      rcases lt_trichotomy m1 m2 with hm | hm | hm
      · simp [hm] at h
      · subst hm
        rcases lt_trichotomy v1 v2 with hv | hv | hv
        · simp [hv] at h
        · exact ⟨rfl, hv, rfl⟩
        · simp [hv] at h
      · simp [hm, Nat.lt_asymm hm, Nat.ne_of_gt hm] at h
    · simp [ht, not_lt_of_gt ht, ne_of_gt ht] at h
  · rintro ⟨rfl, rfl, rfl⟩
    simp

theorem StdMap.find_insert_self {K V : Type} (lt : K → K → Bool)
    (hirr : ∀ k, lt k k = false) (m : List (K × V)) (k : K) (v : V)
    (h : StdMap.find lt m k = none) : StdMap.find lt (StdMap.insert lt m k v) k = some v := by
  induction m with
  | nil => simp [StdMap.insert, StdMap.find, hirr]
  | cons p rest ih =>
    obtain ⟨k', v'⟩ := p
    simp only [StdMap.find] at h
    by_cases h1 : lt k k' = true
    · simp [StdMap.insert, h1, StdMap.find, hirr]
    · by_cases h2 : lt k' k = true
      · simp only [h2, Bool.not_true, Bool.and_false] at h
        simp [StdMap.insert, h1, h2, StdMap.find]
        exact ih (by simpa using h)
      · simp [h1, h2] at h

theorem StdMap.find_insert_other {K V : Type} (lt : K → K → Bool)
    (m : List (K × V)) (k k2 : K) (v : V)
    (hne : (!lt k2 k && !lt k k2) = false) :
    StdMap.find lt (StdMap.insert lt m k v) k2 = StdMap.find lt m k2 := by
  induction m with
  | nil => simp [StdMap.insert, StdMap.find, hne]
  | cons p rest ih =>
    obtain ⟨k', v'⟩ := p
    by_cases h1 : lt k k' = true
    · simp [StdMap.insert, h1, StdMap.find, hne]
    · by_cases h2 : lt k' k = true
      · simp [StdMap.insert, h1, h2, StdMap.find, ih]
      · simp [StdMap.insert, h1, h2, StdMap.find]

end Natron

namespace Natron

theorem ActionsCache.find?_modifyFirst_same (h : U64)
    (f : ActionsCacheInstance → ActionsCacheInstance) (hf : ∀ i, (f i)._hash = i._hash)
    (l : List ActionsCacheInstance) :
    (ActionsCache.modifyFirst h f l).find? (fun i => i._hash == h) =
      (l.find? (fun i => i._hash == h)).map f := by
  induction l with
  | nil => simp [ActionsCache.modifyFirst]
  | cons i rest ih =>
    by_cases hi : i._hash = h
    · have hb : (i._hash == h) = true := by simpa using hi
      have hb2 : ((f i)._hash == h) = true := by simpa [hf] using hi
      simp [ActionsCache.modifyFirst, hb, hb2, List.find?_cons]
    · have hb : (i._hash == h) = false := by simpa using hi
      simp [ActionsCache.modifyFirst, hb, List.find?_cons, ih]

theorem ActionsCache.map_hash_modifyFirst (h : U64)
    (f : ActionsCacheInstance → ActionsCacheInstance) (hf : ∀ i, (f i)._hash = i._hash)
    (l : List ActionsCacheInstance) :
    (ActionsCache.modifyFirst h f l).map (fun i => i._hash) = l.map (fun i => i._hash) := by
  induction l with
  | nil => simp [ActionsCache.modifyFirst]
  | cons i rest ih =>
    by_cases hi : i._hash = h
    · simp [ActionsCache.modifyFirst, hi, hf]
    · simp [ActionsCache.modifyFirst, hi, ih]

theorem ActionsCacheInstance.setIdentity_hash (i : ActionsCacheInstance) (k : ActionKey)
    (v : IdentityResults) : (i.setIdentity k v)._hash = i._hash := by
  unfold ActionsCacheInstance.setIdentity
  split <;> rfl

theorem ActionsCacheInstance.setRoD_hash (i : ActionsCacheInstance) (k : ActionKey)
    (r : RectD) : (i.setRoD k r)._hash = i._hash := by
  unfold ActionsCacheInstance.setRoD
  split <;> rfl

end Natron

namespace Natron

theorem ActionsCache.find?_kept_none (c : ActionsCache) (h : U64)
    (p : ActionsCacheInstance → Bool) (hp : ∀ i, p i = true → i._hash = h)
    (hkept : ∀ i ∈ c.keptOnInvalidate, i._hash ≠ h) :
    c.keptOnInvalidate.find? p = none := by
  rw [List.find?_eq_none]
  intro i hi hpi
  exact hkept i hi (hp i hpi)

/-- C8 (as amended): after `invalidateAll (h)`, when no slot kept by the call has the hash `h`,
no result is retrievable under `h`: `getIdentityResult` and `getRoDResult` report not-found
for every time, view and mip-map level, and `getTimeDomainResult` reports not-found. -/
theorem invalidateAll_fresh_slot_is_empty (c : ActionsCache) (h : U64)
    (hkept : ∀ i ∈ c.keptOnInvalidate, i._hash ≠ h) :
    (∀ (t : ℚ) (v : Int) (m : Nat),
      (c.invalidateAll h).getIdentityResult h t v m = none ∧
      (c.invalidateAll h).getRoDResult h t v m = none) ∧
    (c.invalidateAll h).getTimeDomainResult h = none := by
  have h1 : (c.invalidateAll h).firstWithHash h =
      some { ActionsCacheInstance.new with _hash := h } := by
    simp only [ActionsCache.firstWithHash, ActionsCache.invalidateAll, List.find?_append]
    rw [ActionsCache.find?_kept_none c h _ (fun i hi => by simpa using hi) hkept]
    simp
  have h2 : (c.invalidateAll h)._instances.find? (fun i => i._hash == h && i._timeDomainSet) =
      none := by
    simp only [ActionsCache.invalidateAll, List.find?_append]
    rw [ActionsCache.find?_kept_none c h _ (fun i hi => by
      simp only [Bool.and_eq_true, beq_iff_eq] at hi
      exact hi.1) hkept]
    simp [ActionsCacheInstance.new]
  refine ⟨fun t v m => ⟨?_, ?_⟩, ?_⟩
  · simp [ActionsCache.getIdentityResult, h1, ActionsCacheInstance.new, StdMap.find]
  · simp [ActionsCache.getRoDResult, h1, ActionsCacheInstance.new, StdMap.find]
  · simp [ActionsCache.getTimeDomainResult, h2]

/-- Witness of C8 (as amended): a cache that holds results under the hash 3 only is invalidated
for the hash 7 -/
theorem invalidateAll_fresh_slot_is_empty_witness :
    (∀ i ∈ otherHashCache.keptOnInvalidate, i._hash ≠ 7) ∧
    ((∀ (t : ℚ) (v : Int) (m : Nat),
      (otherHashCache.invalidateAll 7).getIdentityResult 7 t v m = none ∧
      (otherHashCache.invalidateAll 7).getRoDResult 7 t v m = none) ∧
    (otherHashCache.invalidateAll 7).getTimeDomainResult 7 = none) :=
  ⟨by decide, invalidateAll_fresh_slot_is_empty otherHashCache 7 (by decide)⟩

/-- C8 (counterexample): a slot for the hash 7 holds an identity result, a RoD and a time
domain; after `invalidateAll (7)` the three lookups under the hash 7 still find them -/
theorem invalidateAll_keeps_stale_results :
    (staleCache.invalidateAll 7).getIdentityResult 7 1 0 0 = some (0, 1) ∧
    (staleCache.invalidateAll 7).getRoDResult 7 1 0 0 = some ⟨0, 0, 10, 10⟩ ∧
    (staleCache.invalidateAll 7).getTimeDomainResult 7 = some (1, 20) := by
  decide

end Natron

namespace Natron

theorem ActionsCache.apply_maxInstances (c : ActionsCache) (op : ActionsCacheOp) :
    (c.apply op)._maxInstances = c._maxInstances := by
  cases op <;> rfl

theorem drop_append_singleton_of_full (hs : List U64) (h : U64) (N : Nat) (hN : 1 ≤ N)
    (hfull : N ≤ (hs.drop (hs.length - N)).length) :
    (hs.drop (hs.length - N)).tail ++ [h] = (hs ++ [h]).drop ((hs ++ [h]).length - N) := by
  have hlen : N ≤ hs.length := by
    simp only [List.length_drop] at hfull
    omega
  have e1 : (hs ++ [h]).length - N = hs.length - N + 1 := by
    simp only [List.length_append, List.length_singleton]
    omega
  rw [e1, List.tail_drop, List.drop_append_of_le_length (by omega)]

theorem drop_append_singleton_of_not_full (hs : List U64) (h : U64) (N : Nat)
    (hnot : (hs.drop (hs.length - N)).length < N) :
    hs.drop (hs.length - N) ++ [h] = (hs ++ [h]).drop ((hs ++ [h]).length - N) := by
  have hlen : hs.length < N := by
    simp only [List.length_drop] at hnot
    omega
  have e1 : (hs ++ [h]).length - N = 0 := by
    simp only [List.length_append, List.length_singleton]
    omega
  have e2 : hs.length - N = 0 := by omega
  rw [e1, e2]
  rfl

theorem ActionsCache.run_invariant (N : Nat) (hN : 1 ≤ N) (ops : List ActionsCacheOp) :
    ∀ (c : ActionsCache) (hs : List U64), c._maxInstances = N →
      c.hashes = hs.drop (hs.length - N) →
      (c.run ops)._maxInstances = N ∧
      (c.run ops).hashes =
        (ops.foldl insertedHashesStep hs).drop ((ops.foldl insertedHashesStep hs).length - N) := by
  induction ops with
  | nil => intro c hs hc hh; exact ⟨hc, hh⟩
  | cons op rest ih =>
    intro c hs hc hh
    simp only [ActionsCache.run, List.foldl_cons]
    refine ih (c.apply op) (insertedHashesStep hs op)
      (by rw [ActionsCache.apply_maxInstances, hc]) ?_
    cases op with
    | clearAll => simp [ActionsCache.apply, ActionsCache.clearAll, ActionsCache.hashes,
        insertedHashesStep]
    | invalidateAll h =>
      simp only [ActionsCache.apply, insertedHashesStep, ActionsCache.hashes,
        ActionsCache.invalidateAll, ActionsCache.keptOnInvalidate, List.map_append,
        List.map_cons, List.map_nil, hc]
      have hlen : c._instances.length = (hs.drop (hs.length - N)).length := by
        rw [← hh]; simp [ActionsCache.hashes]
      by_cases hfull : c._instances.length ≥ N
      · rw [if_pos hfull, List.map_tail]
        have := drop_append_singleton_of_full hs h N hN (by omega)
        rw [← this]
        congr 1
        · congr 1
      · rw [if_neg hfull]
        have := drop_append_singleton_of_not_full hs h N (by omega)
        rw [← this]
        congr 1
    | getIdentityResult _ _ _ _ => exact hh
    | setIdentityResult h t v m nb it =>
      simp only [insertedHashesStep]
      rw [← hh]
      exact ActionsCache.map_hash_modifyFirst h _
        (fun i => ActionsCacheInstance.setIdentity_hash i _ _) c._instances
    | getRoDResult _ _ _ _ => exact hh
    | setRoDResult h t v m rod =>
      simp only [insertedHashesStep]
      rw [← hh]
      exact ActionsCache.map_hash_modifyFirst h _
        (fun i => ActionsCacheInstance.setRoD_hash i _ _) c._instances
    | getTimeDomainResult _ => exact hh
    | setTimeDomainResult h f l =>
      simp only [insertedHashesStep]
      rw [← hh]
      exact ActionsCache.map_hash_modifyFirst h
        (fun i => { i with _timeDomainSet := true, _timeDomain := ⟨f, l⟩ }) (fun i => rfl)
        c._instances

/-- C9: an `ActionsCache` built with a capacity `N` of at least 1 holds at most `N` slots after
every sequence of calls, and its slots are, in order, the `N` last hashes given to
`invalidateAll` (since the last `clearAll`): a full cache loses the slot inserted earliest,
whatever was read or written in between. -/
theorem actionsCache_bounded_insertion_order (N : Int) (h1 : 1 ≤ N) (h2 : N < 2 ^ 31)
    (ops : List ActionsCacheOp) :
    ((ActionsCache.new N).run ops)._instances.length ≤ N.toNat ∧
    ((ActionsCache.new N).run ops).hashes =
      (insertedHashes ops).drop ((insertedHashes ops).length - N.toNat) := by
  have hmax : (ActionsCache.new N)._maxInstances = N.toNat := by
    simp only [ActionsCache.new]
    congr 1
    exact Int.emod_eq_of_lt (by omega) (by omega)
  have hinv := ActionsCache.run_invariant N.toNat (by omega) ops (ActionsCache.new N) [] hmax
    (by simp [ActionsCache.hashes, ActionsCache.new])
  refine ⟨?_, hinv.2⟩
  have hl : ((ActionsCache.new N).run ops)._instances.length =
      ((ActionsCache.new N).run ops).hashes.length := by simp [ActionsCache.hashes]
  rw [hl, hinv.2, List.length_drop]
  omega

/-- Witness of C9: a cache of capacity 2 after three insertions, a write and a read -/
theorem actionsCache_bounded_insertion_order_witness :
    (1 : Int) ≤ 2 ∧ (2 : Int) < 2 ^ 31 ∧
    ((ActionsCache.new 2).run
      [.invalidateAll 5, .invalidateAll 6, .setTimeDomainResult 5 1 9,
       .getTimeDomainResult 5, .invalidateAll 7])._instances.length ≤ (2 : Int).toNat ∧
    ((ActionsCache.new 2).run
      [.invalidateAll 5, .invalidateAll 6, .setTimeDomainResult 5 1 9,
       .getTimeDomainResult 5, .invalidateAll 7]).hashes = [6, 7] :=
  ⟨by decide, by decide,
   (actionsCache_bounded_insertion_order 2 (by decide) (by decide) _).1,
   by decide⟩

end Natron

namespace Natron

end Natron

namespace Natron

end Natron

namespace Natron

theorem ActionsCache.modifyFirst_fixed (h : U64)
    (f : ActionsCacheInstance → ActionsCacheInstance) (l : List ActionsCacheInstance)
    (hfix : ∀ i, l.find? (fun i => i._hash == h) = some i → f i = i) :
    ActionsCache.modifyFirst h f l = l := by
  induction l with
  | nil => rfl
  | cons i rest ih =>
    by_cases hi : i._hash = h
    · have hb : (i._hash == h) = true := by simpa using hi
      simp only [ActionsCache.modifyFirst, hb, if_true]
      rw [hfix i (by simp [List.find?_cons, hb])]
    · have hb : (i._hash == h) = false := by simpa using hi
      simp only [ActionsCache.modifyFirst, hb, Bool.false_eq_true, if_false]
      rw [ih (fun j hj => hfix j (by simpa [List.find?_cons, hb] using hj))]

theorem ActionsCacheInstance.setRoD_of_found (i : ActionsCacheInstance) (k : ActionKey)
    (r r0 : RectD) (h : StdMap.find CompareActionsCacheKeys i._rodCache k = some r0) :
    i.setRoD k r = i := by
  unfold ActionsCacheInstance.setRoD
  rw [h]

theorem ActionsCacheInstance.find_setRoD_fresh (i : ActionsCacheInstance) (k : ActionKey)
    (r : RectD) (h : StdMap.find CompareActionsCacheKeys i._rodCache k = none) :
    StdMap.find CompareActionsCacheKeys (i.setRoD k r)._rodCache k = some r := by
  unfold ActionsCacheInstance.setRoD
  rw [h]
  exact StdMap.find_insert_self _ (fun k => by
    have := (CompareActionsCacheKeys_equiv k k).2 rfl
    simpa using this) _ _ _ h

theorem ActionsCache.firstWithHash_setRoDResult_same (c : ActionsCache) (h : U64) (t : ℚ)
    (v : Int) (m : Nat) (r : RectD) :
    (c.setRoDResult h t v m r).firstWithHash h =
      (c.firstWithHash h).map (fun i => i.setRoD ⟨t, v, m⟩ r) :=
  ActionsCache.find?_modifyFirst_same h _ (fun i => ActionsCacheInstance.setRoD_hash i _ _)
    c._instances

theorem ActionsCache.setRoDResult_of_found (c : ActionsCache) (h : U64) (t : ℚ) (v : Int)
    (m : Nat) (r r0 : RectD) (hfound : c.getRoDResult h t v m = some r0) :
    c.setRoDResult h t v m r = c := by
  unfold ActionsCache.setRoDResult
  rw [ActionsCache.modifyFirst_fixed]
  intro i hi
  unfold ActionsCache.getRoDResult ActionsCache.firstWithHash at hfound
  rw [hi] at hfound
  exact ActionsCacheInstance.setRoD_of_found i _ r r0 hfound

theorem ActionsCache.getRoDResult_setRoDResult_fresh (c : ActionsCache) (h : U64) (t : ℚ)
    (v : Int) (m : Nat) (r : RectD) (hslot : (c.firstWithHash h).isSome)
    (hfresh : c.getRoDResult h t v m = none) :
    (c.setRoDResult h t v m r).getRoDResult h t v m = some r := by
  unfold ActionsCache.getRoDResult at hfresh ⊢
  rw [ActionsCache.firstWithHash_setRoDResult_same]
  cases hc : c.firstWithHash h with
  | none => simp [hc] at hslot
  | some i =>
    rw [hc] at hfresh
    simp only [Option.map_some']
    exact ActionsCacheInstance.find_setRoD_fresh i _ r hfresh

/-- C11: `setRoDResult` on a key that already holds a RoD is ignored. In a cache with a slot for
the hash `h` where the key `(h, t, v, m)` holds no RoD, the call `setRoDResult (h, t, v, m, r1)`
stores `r1`; then, for every rectangle `r2`, the call `setRoDResult (h, t, v, m, r2)` leaves the
cache as the first call left it and `getRoDResult (h, t, v, m)` finds `r1`. More generally a
call of `setRoDResult` on a key that holds a RoD `r0` leaves any cache unchanged. -/
theorem setRoDResult_already_set_is_ignored (c : ActionsCache) (h : U64) (t : ℚ) (v : Int)
    (m : Nat) (r1 r2 : RectD) (hslot : (c.firstWithHash h).isSome)
    (hfresh : c.getRoDResult h t v m = none) :
    (c.setRoDResult h t v m r1).getRoDResult h t v m = some r1 ∧
    (c.setRoDResult h t v m r1).setRoDResult h t v m r2 = c.setRoDResult h t v m r1 ∧
    ((c.setRoDResult h t v m r1).setRoDResult h t v m r2).getRoDResult h t v m = some r1 ∧
    (∀ (c2 : ActionsCache) (r0 : RectD), c2.getRoDResult h t v m = some r0 →
      c2.setRoDResult h t v m r2 = c2 ∧
      (c2.setRoDResult h t v m r2).getRoDResult h t v m = some r0) := by
  have h1 := ActionsCache.getRoDResult_setRoDResult_fresh c h t v m r1 hslot hfresh
  have h2 := ActionsCache.setRoDResult_of_found _ h t v m r2 r1 h1
  refine ⟨h1, h2, by rw [h2]; exact h1, ?_⟩
  intro c2 r0 h0
  have h3 := ActionsCache.setRoDResult_of_found c2 h t v m r2 r0 h0
  exact ⟨h3, by rw [h3]; exact h0⟩

/-- Witness of C11: the cache with one slot for the hash 3, where no RoD is stored -/
theorem setRoDResult_already_set_is_ignored_witness :
    (otherHashCache.firstWithHash 3).isSome ∧
    otherHashCache.getRoDResult 3 2 0 1 = none ∧
    ((otherHashCache.setRoDResult 3 2 0 1 ⟨0, 0, 10, 10⟩).setRoDResult 3 2 0 1
      ⟨5, 5, 20, 20⟩).getRoDResult 3 2 0 1 = some ⟨0, 0, 10, 10⟩ :=
  ⟨by decide, by decide,
   (setRoDResult_already_set_is_ignored otherHashCache 3 2 0 1 ⟨0, 0, 10, 10⟩ ⟨5, 5, 20, 20⟩
     (by decide) (by decide)).2.2.1⟩

end Natron

namespace Natron

section SectionsOfRenderRoI

variable {W : Type} (env : Env W)

theorem Out.orReturn_bind {σ ρ α β : Type} (x : Out σ β) (f : β → σ → Out σ (Except ρ α))
    (k : α → σ → Out σ ρ) :
    (x.bind f).orReturn k = x.bind fun b s => (f b s).orReturn k := by
  cases x <;> rfl

theorem Out.orReturn_thenSection {σ ρ α β : Type} (x : Out σ (Except ρ α))
    (f : α → σ → Out σ (Except ρ β)) (k : β → σ → Out σ ρ) :
    (x.thenSection f).orReturn k = x.orReturn fun a s => (f a s).orReturn k := by
  cases x with
  | val r s => cases r <;> rfl
  | exn e s => rfl
  | diverge => rfl

theorem Out.bind_eq_val {σ α β : Type} (x : Out σ α) (f : α → σ → Out σ β) (b : β) (s1 : σ)
    (h : x.bind f = .val b s1) : ∃ a s, x = .val a s ∧ f a s = .val b s1 := by
  cases x with
  | val a s => exact ⟨a, s, rfl, h⟩
  | exn e s => simp [Out.bind] at h
  | diverge => simp [Out.bind] at h

theorem Out.thenSection_eq_ok {σ ρ α β : Type} (x : Out σ (Except ρ α))
    (f : α → σ → Out σ (Except ρ β)) (b : β) (s1 : σ)
    (h : x.thenSection f = .val (.ok b) s1) :
    ∃ a s, x = .val (.ok a) s ∧ f a s = .val (.ok b) s1 := by
  cases x with
  | val r s =>
    cases r with
    | ok a => exact ⟨a, s, rfl, h⟩
    | error v => simp [Out.thenSection, Out.bind] at h
  | exn e s => simp [Out.thenSection, Out.bind] at h
  | diverge => simp [Out.thenSection, Out.bind] at h

theorem renderRoI_computeRoI_eq_section (fuel : Nat) (rec : RenderRoIFn W) (n : NodeId)
    (l : Locals) (outputPlanes : ImageList) (s : St W) :
    renderRoI_computeRoI env fuel rec n l outputPlanes s =
      (renderRoI_computeRoI_section env n l outputPlanes s).orReturn fun x s1 =>
        renderRoI_cacheLookup env fuel rec n x.1 x.2 s1 := by
  unfold renderRoI_computeRoI renderRoI_computeRoI_section
  simp only []
  split
  · split <;> rfl
  · rfl

theorem renderRoI_cacheLookup_eq_section (fuel : Nat) (rec : RenderRoIFn W) (n : NodeId)
    (l : Locals) (outputPlanes : ImageList) (s : St W) :
    renderRoI_cacheLookup env fuel rec n l outputPlanes s =
      (renderRoI_cacheLookup_section env n l outputPlanes s).orReturn fun x s1 =>
        renderRoI_rects env fuel rec n x.1 x.2 s1 := by
  unfold renderRoI_cacheLookup renderRoI_cacheLookup_section
  simp only []
  rw [Out.orReturn_bind]
  congr 1
  funext r s1
  split <;> rfl

theorem renderRoI_rects_eq_section (fuel : Nat) (rec : RenderRoIFn W) (n : NodeId)
    (l : Locals) (outputPlanes : ImageList) (s : St W) :
    renderRoI_rects env fuel rec n l outputPlanes s =
      (renderRoI_rects_section env n l outputPlanes s).orReturn fun x s1 =>
        renderRoI_preRender env fuel rec n x.1 x.2 s1 := by
  unfold renderRoI_rects renderRoI_rects_section
  simp only []
  rw [Out.orReturn_bind]
  rfl

theorem renderRoI_preRender_eq_section (fuel : Nat) (rec : RenderRoIFn W) (n : NodeId)
    (l : Locals) (outputPlanes : ImageList) (s : St W) :
    renderRoI_preRender env fuel rec n l outputPlanes s =
      (renderRoI_preRender_section env rec n l outputPlanes s).orReturn fun x s1 =>
        renderRoI_redoCacheLookup env fuel rec n x.1 x.2 s1 := by
  unfold renderRoI_preRender renderRoI_preRender_section
  split
  · rfl
  · simp only []
    rw [Out.orReturn_bind]
    congr 1
    funext pr s1
    cases pr <;> rfl

theorem renderRoI_redoCacheLookup_eq_section (fuel : Nat) (rec : RenderRoIFn W) (n : NodeId)
    (l : Locals) (outputPlanes : ImageList) (s : St W) :
    renderRoI_redoCacheLookup env fuel rec n l outputPlanes s =
      (renderRoI_redoCacheLookup_section env rec n l outputPlanes s).orReturn fun x s1 =>
        renderRoI_allocate env fuel rec n x.1 x.2 s1 := by
  unfold renderRoI_redoCacheLookup renderRoI_redoCacheLookup_section
  split
  · rw [Out.orReturn_bind]
    congr 1
    funext r s1
    simp only []
    split
    · rfl
    · split
      · rfl
      · rw [Out.orReturn_bind]
        congr 1
        funext pr s2
        cases pr <;> rfl
  · rfl

theorem renderRoI_allocate_eq_section (fuel : Nat) (rec : RenderRoIFn W) (n : NodeId)
    (l : Locals) (outputPlanes : ImageList) (s : St W) :
    renderRoI_allocate env fuel rec n l outputPlanes s =
      (renderRoI_allocate_section env l outputPlanes s).orReturn fun x s1 =>
        renderRoI_renderStep env fuel rec n x.1 x.2 s1 := by
  unfold renderRoI_allocate renderRoI_allocate_section
  split
  · rw [Out.orReturn_bind]
    rfl
  · rfl

/-- The sections of `renderRoI` from "Compute RoI" on are the sections before the render step,
then the render step -/
theorem renderRoI_computeRoI_eq_untilRenderStep (fuel : Nat) (rec : RenderRoIFn W) (n : NodeId)
    (l : Locals) (outputPlanes : ImageList) (s : St W) :
    renderRoI_computeRoI env fuel rec n l outputPlanes s =
      (renderRoI_untilRenderStep env rec n l outputPlanes s).orReturn fun x s1 =>
        renderRoI_renderStep env fuel rec n x.1 x.2 s1 := by
  unfold renderRoI_untilRenderStep
  rw [Out.orReturn_thenSection, Out.orReturn_thenSection, Out.orReturn_thenSection,
    Out.orReturn_thenSection, Out.orReturn_thenSection, renderRoI_computeRoI_eq_section]
  congr 1
  funext x1 s1
  rw [renderRoI_cacheLookup_eq_section]
  congr 1
  funext x2 s2
  rw [renderRoI_rects_eq_section]
  congr 1
  funext x3 s3
  rw [renderRoI_preRender_eq_section]
  congr 1
  funext x4 s4
  rw [renderRoI_redoCacheLookup_eq_section]
  congr 1
  funext x5 s5
  rw [renderRoI_allocate_eq_section]

end SectionsOfRenderRoI

end Natron

namespace Natron

section SectionsBeforeComputeRoI

variable {W : Type} (env : Env W)

theorem Out.orReturn_bind_error {σ ρ α : Type} (x : Out σ ρ) (k : α → σ → Out σ ρ) :
    (x.bind fun v s => (Out.val (Except.error v) s : Out σ (Except ρ α))).orReturn k = x := by
  cases x <;> rfl

theorem renderRoI_getRoD_eq_section (fuel : Nat) (rec : RenderRoIFn W) (n : NodeId)
    (l : Locals) (outputPlanes : ImageList) (s : St W) :
    renderRoI_getRoD env fuel rec n l outputPlanes s =
      (renderRoI_getRoD_section env n l outputPlanes s).orReturn fun x s1 =>
        renderRoI_identity env fuel rec n x.1 x.2 s1 := by
  unfold renderRoI_getRoD renderRoI_getRoD_section
  split
  · rfl
  · simp only []
    split
    · rfl
    · split <;> rfl

theorem renderRoI_identity_eq_section (fuel : Nat) (rec : RenderRoIFn W) (n : NodeId)
    (l : Locals) (outputPlanes : ImageList) (s : St W) :
    renderRoI_identity env fuel rec n l outputPlanes s =
      (renderRoI_identity_section env rec n l outputPlanes s).orReturn fun x s1 =>
        renderRoI_planes env fuel rec n x.1 x.2 s1 := by
  unfold renderRoI_identity renderRoI_identity_section
  split
  · rfl
  · rfl
  · split
    · rw [Out.orReturn_bind_error]
    · rfl

theorem renderRoI_planes_eq_section (fuel : Nat) (rec : RenderRoIFn W) (n : NodeId)
    (l : Locals) (outputPlanes : ImageList) (s : St W) :
    renderRoI_planes env fuel rec n l outputPlanes s =
      (renderRoI_planes_section env rec n l outputPlanes s).orReturn fun x s1 =>
        renderRoI_transforms env fuel rec n x.1 x.2 s1 := by
  unfold renderRoI_planes renderRoI_planes_section
  simp only []
  split
  · rfl
  · rw [Out.orReturn_bind]
    congr 1
    funext r s2
    cases r with
    | error ret => rfl
    | ok out =>
      simp only []
      split <;> rfl

theorem renderRoI_transforms_eq_section (fuel : Nat) (rec : RenderRoIFn W) (n : NodeId)
    (l : Locals) (outputPlanes : ImageList) (s : St W) :
    renderRoI_transforms env fuel rec n l outputPlanes s =
      (renderRoI_transforms_section env n l outputPlanes s).orReturn fun x s1 =>
        renderRoI_inReroute env n x.1 (renderRoI_computeRoI env fuel rec n x.1 x.2 s1) := by
  unfold renderRoI_transforms renderRoI_transforms_section renderRoI_inReroute
  simp only [Out.orReturn, Out.bind]
  split <;> split <;> rfl

/-- The body of `renderRoI` for a request of at least one plane: the sections before "Compute
RoI", then, in the scope of the reroute of the inputs, the sections before the render step and
the render step -/
theorem renderRoI_body_eq_sections (fuel : Nat) (rec : RenderRoIFn W) (n : NodeId)
    (args : RenderRoIArgs) (outputPlanes : ImageList) (s : St W)
    (hcomp : args.components.isEmpty = false) :
    renderRoI_body env fuel rec n args outputPlanes s =
      (renderRoI_untilComputeRoI env rec n args outputPlanes s).orReturn fun x s1 =>
        renderRoI_inReroute env n x.1
          ((renderRoI_untilRenderStep env rec n x.1 x.2 s1).orReturn fun y s2 =>
            renderRoI_renderStep env fuel rec n y.1 y.2 s2) := by
  unfold renderRoI_body renderRoI_untilComputeRoI
  simp only [hcomp, Bool.false_eq_true, if_false]
  rw [Out.orReturn_thenSection, Out.orReturn_thenSection, Out.orReturn_thenSection,
    renderRoI_getRoD_eq_section]
  congr 1
  funext x1 s1
  rw [renderRoI_identity_eq_section]
  congr 1
  funext x2 s2
  rw [renderRoI_planes_eq_section]
  congr 1
  funext x3 s3
  rw [renderRoI_transforms_eq_section]
  congr 1
  funext x4 s4
  rw [renderRoI_computeRoI_eq_untilRenderStep]

end SectionsBeforeComputeRoI

end Natron


namespace Natron

section WholeBounds

variable {W : Type} (env : Env W)

/-- The section "Compute RoI" on a node that does not support tiles -/
theorem renderRoI_computeRoI_section_whole (n : NodeId) (l : Locals) (outputPlanes : ImageList)
    (s : St W) (htiles : env.supportsTiles n s.world = false) (x : Locals × ImageList)
    (s1 : St W) (h : renderRoI_computeRoI_section env n l outputPlanes s = .val (.ok x) s1) :
    x.1.tilesSupported = false ∧ x.1.roi = Locals.fullBounds env l ∧
    (if x.1.useImageAsOutput then x.1.upscaledImageBounds else x.1.downscaledImageBounds) =
      Locals.fullBounds env l := by
  unfold renderRoI_computeRoI_section at h
  simp only [htiles, Bool.false_eq_true, if_false, Out.val.injEq, Except.ok.injEq] at h
  obtain ⟨rfl, rfl⟩ := h
  unfold Locals.fullBounds
  refine ⟨rfl, ?_, ?_⟩ <;> (simp only []; split <;> rfl)

/-- The section of the cache look-up leaves the region of interest and the bounds alone and
starts with no rectangle to render -/
theorem renderRoI_cacheLookup_section_whole (n : NodeId) (l : Locals)
    (outputPlanes : ImageList) (s : St W) (x : Locals × ImageList) (s1 : St W)
    (h : renderRoI_cacheLookup_section env n l outputPlanes s = .val (.ok x) s1) :
    x.1.tilesSupported = l.tilesSupported ∧ x.1.roi = l.roi ∧
    x.1.useImageAsOutput = l.useImageAsOutput ∧
    x.1.upscaledImageBounds = l.upscaledImageBounds ∧
    x.1.downscaledImageBounds = l.downscaledImageBounds ∧
    x.1.planesToRender.rectsToRender = [] := by
  unfold renderRoI_cacheLookup_section at h
  simp only [] at h
  obtain ⟨r, s0, _, h2⟩ := Out.bind_eq_val _ _ _ _ h
  split at h2
  · simp at h2
  · simp only [Out.val.injEq, Except.ok.injEq] at h2
    obtain ⟨rfl, _⟩ := h2
    exact ⟨rfl, rfl, rfl, rfl, rfl, rfl⟩

theorem renderRoI_restOfCached_aux (b roi bnd : RectI) (guard : Bool) (rects1 : List RectI)
    (hroi : roi = b) (hb : bnd = b) (r : RectI)
    (hr : r ∈ (if (!false && !(if guard = true then [roi] else rects1).isEmpty && !guard) = true
      then [bnd] else if guard = true then [roi] else rects1)) : r = b := by
  cases guard <;> cases rects1 <;> simp_all

/-- The rectangles left to render of a cached image, for a node that does not support tiles:
nothing, or the bounds of the image -/
theorem renderRoI_restOfCached_whole (n : NodeId) (l : Locals) (img : Image)
    (cacheAlmostFull : Bool) (s : St W) (b : RectI) (htiles : l.tilesSupported = false)
    (hroi : l.roi = b)
    (hb : (if l.useImageAsOutput then l.upscaledImageBounds else l.downscaledImageBounds) = b)
    (rects : List RectI) (l2 : Locals) (s1 : St W)
    (h : renderRoI_restOfCached env n l img cacheAlmostFull s = .val (rects, l2) s1) :
    (∀ r ∈ rects, r = b) ∧ l2.tilesSupported = false ∧ l2.roi = b ∧
    (if l2.useImageAsOutput then l2.upscaledImageBounds else l2.downscaledImageBounds) = b ∧
    l2.planesToRender.rectsToRender = l.planesToRender.rectsToRender := by
  unfold renderRoI_restOfCached at h
  simp only [] at h
  obtain ⟨_, s0, _, h2⟩ := Out.bind_eq_val _ _ _ _ h
  simp only [Out.val.injEq, Prod.mk.injEq] at h2
  obtain ⟨⟨rfl, rfl⟩, _⟩ := h2
  refine ⟨?_, htiles, hroi, hb, rfl⟩
  intro r hr
  rw [htiles] at hr
  exact renderRoI_restOfCached_aux b _ _ _ _ hroi hb r hr

theorem renderRoI_makeRects_whole (n : NodeId) (l : Locals) (rects : List RectI) (s : St W)
    (b : RectI) (hopt : l.tryIdentityOptim = false)
    (hold : ∀ r ∈ l.planesToRender.rectsToRender, r.rect = b) (hrects : ∀ r ∈ rects, r = b) :
    ∀ r ∈ (renderRoI_makeRects env n l rects s).1, r.rect = b := by
  unfold renderRoI_makeRects
  simp only [hopt, Bool.false_and, Bool.false_eq_true, if_false]
  intro r hr
  rcases List.mem_append.1 hr with h1 | h1
  · exact hold r h1
  · obtain ⟨x, hx, rfl⟩ := List.mem_map.1 h1
    exact hrects x hx

/-- The section of the rectangles left to render, for a node that does not support tiles: every
rectangle to render is the bounds of the image -/
theorem renderRoI_rects_section_whole (n : NodeId) (l : Locals) (outputPlanes : ImageList)
    (s : St W) (b : RectI) (htiles : l.tilesSupported = false) (hroi : l.roi = b)
    (hb : (if l.useImageAsOutput then l.upscaledImageBounds else l.downscaledImageBounds) = b)
    (hnone : l.planesToRender.rectsToRender = []) (x : Locals × ImageList) (s1 : St W)
    (h : renderRoI_rects_section env n l outputPlanes s = .val (.ok x) s1) :
    Locals.rendersWhole b x.1 := by
  unfold renderRoI_rects_section at h
  simp only [] at h
  obtain ⟨r, s2, h1, h2⟩ := Out.bind_eq_val _ _ _ _ h
  obtain ⟨rr, l2⟩ := r
  have hF : (∀ y ∈ rr, y = b) ∧ l2.tilesSupported = false ∧ l2.roi = b ∧
      (if l2.useImageAsOutput then l2.upscaledImageBounds else l2.downscaledImageBounds) = b ∧
      l2.planesToRender.rectsToRender = [] := by
    cases hc : l.isPlaneCached with
    | some img =>
      rw [hc] at h1
      simp only [] at h1
      have := renderRoI_restOfCached_whole env n _ img _ _ b (by exact htiles) (by exact hroi)
        (by exact hb) rr l2 s2 h1
      exact ⟨this.1, this.2.1, this.2.2.1, this.2.2.2.1, this.2.2.2.2.trans hnone⟩
    | none =>
      rw [hc] at h1
      simp only [Out.val.injEq, Prod.mk.injEq] at h1
      obtain ⟨⟨rfl, rfl⟩, _⟩ := h1
      refine ⟨?_, htiles, hroi, hb, hnone⟩
      intro y hy
      simp only [htiles, Bool.false_eq_true, if_false, List.mem_singleton] at hy
      rw [hy]; exact hb
  obtain ⟨hr1, hr2, hr3, hr4, hr5⟩ := hF
  simp only [Out.val.injEq, Except.ok.injEq] at h2
  obtain ⟨rfl, _⟩ := h2
  have hopt : ((if (l2.tilesSupported && !rr.isEmpty) = true then
        renderRoI_inputsRoD env n { l2 with rectsLeftToRender := rr }
          (List.range (env.getMaxInputCount n s2.world).toNat)
          ⟨RectD.null, false, false, false⟩ s2
      else ((⟨RectD.null, false, false, false⟩ : InputsRoDLoop), s2)).1.inputsIntersectionSet &&
      ((if (l2.tilesSupported && !rr.isEmpty) = true then
        renderRoI_inputsRoD env n { l2 with rectsLeftToRender := rr }
          (List.range (env.getMaxInputCount n s2.world).toNat)
          ⟨RectD.null, false, false, false⟩ s2
      else ((⟨RectD.null, false, false, false⟩ : InputsRoDLoop), s2)).1.hasMask ||
       (if (l2.tilesSupported && !rr.isEmpty) = true then
        renderRoI_inputsRoD env n { l2 with rectsLeftToRender := rr }
          (List.range (env.getMaxInputCount n s2.world).toNat)
          ⟨RectD.null, false, false, false⟩ s2
      else ((⟨RectD.null, false, false, false⟩ : InputsRoDLoop), s2)).1.hasDifferentRods)) =
      false := by
    simp only [hr2, Bool.false_and, Bool.false_eq_true, if_false]
  refine ⟨hr2, hr3, hr4, hopt, ?_⟩
  exact renderRoI_makeRects_whole env n _ rr _ b hopt
    (fun y hy => by rw [show _ = l2.planesToRender.rectsToRender from rfl, hr5] at hy; simp at hy)
    hr1

/-- The pre-fetch of the input images leaves the rectangles alone -/
theorem renderRoI_prefetchRects_rects (rec : RenderRoIFn W) (n : NodeId) (l : Locals)
    (recordPremult : Bool) (rects : List RectToRender) :
    ∀ (premult : List (Int × ImagePremultiplicationEnum)) (s : St W)
      (v : List RectToRender × List (Int × ImagePremultiplicationEnum)) (s1 : St W),
      renderRoI_prefetchRects env rec n l recordPremult rects premult s = .val (.ok v) s1 →
      v.1.map (fun r => r.rect) = rects.map (fun r => r.rect) := by
  induction rects with
  | nil =>
    intro premult s v s1 h
    simp only [renderRoI_prefetchRects, Out.val.injEq, Except.ok.injEq] at h
    obtain ⟨rfl, _⟩ := h
    rfl
  | cons it rest ih =>
    intro premult s v s1 h
    rw [renderRoI_prefetchRects] at h
    split at h
    · obtain ⟨r, s0, h1, h2⟩ := Out.bind_eq_val _ _ _ _ h
      cases r with
      | error ret => simp at h2
      | ok v0 =>
        simp only [Out.val.injEq, Except.ok.injEq] at h2
        obtain ⟨rfl, _⟩ := h2
        simp only [List.map_cons, ih _ _ _ _ h1]
    · obtain ⟨c, s0, _, h2⟩ := Out.bind_eq_val _ _ _ _ h
      simp only [] at h2
      split at h2
      · simp at h2
      · obtain ⟨r, s2, h3, h4⟩ := Out.bind_eq_val _ _ _ _ h2
        cases r with
        | error ret => simp at h4
        | ok v0 =>
          simp only [Out.val.injEq, Except.ok.injEq] at h4
          obtain ⟨rfl, _⟩ := h4
          simp only [List.map_cons, ih _ _ _ _ h3]

theorem renderRoI_prefetchRects_whole (rec : RenderRoIFn W) (n : NodeId) (l : Locals)
    (recordPremult : Bool) (rects : List RectToRender)
    (premult : List (Int × ImagePremultiplicationEnum)) (s : St W)
    (v : List RectToRender × List (Int × ImagePremultiplicationEnum)) (s1 : St W) (b : RectI)
    (h : renderRoI_prefetchRects env rec n l recordPremult rects premult s = .val (.ok v) s1)
    (hrects : ∀ r ∈ rects, r.rect = b) : ∀ r ∈ v.1, r.rect = b := by
  have hm := renderRoI_prefetchRects_rects env rec n l recordPremult rects premult s v s1 h
  intro r hr
  have : r.rect ∈ v.1.map (fun r => r.rect) := List.mem_map.2 ⟨r, hr, rfl⟩
  rw [hm] at this
  obtain ⟨y, hy, hy2⟩ := List.mem_map.1 this
  rw [← hy2]; exact hrects y hy

/-- The section of the pre-render keeps the rectangles -/
theorem renderRoI_preRender_section_whole (rec : RenderRoIFn W) (n : NodeId) (l : Locals)
    (outputPlanes : ImageList) (s : St W) (b : RectI) (hl : Locals.rendersWhole b l)
    (x : Locals × ImageList) (s1 : St W)
    (h : renderRoI_preRender_section env rec n l outputPlanes s = .val (.ok x) s1) :
    Locals.rendersWhole b x.1 := by
  unfold renderRoI_preRender_section at h
  split at h
  · simp at h
  · simp only [] at h
    obtain ⟨pr, s0, h1, h2⟩ := Out.bind_eq_val _ _ _ _ h
    cases pr with
    | error ret => simp at h2
    | ok v =>
      simp only [Out.val.injEq, Except.ok.injEq] at h2
      obtain ⟨rfl, _⟩ := h2
      exact ⟨hl.1, hl.2.1, hl.2.2.1, hl.2.2.2.1,
        renderRoI_prefetchRects_whole env rec n l true _ _ s v s0 b h1 hl.2.2.2.2⟩

/-- The section of the second cache look-up keeps the rectangles or starts again from the
bounds of the image -/
theorem renderRoI_redoCacheLookup_section_whole (rec : RenderRoIFn W) (n : NodeId) (l : Locals)
    (outputPlanes : ImageList) (s : St W) (b : RectI) (hl : Locals.rendersWhole b l)
    (x : Locals × ImageList) (s1 : St W)
    (h : renderRoI_redoCacheLookup_section env rec n l outputPlanes s = .val (.ok x) s1) :
    Locals.rendersWhole b x.1 := by
  unfold renderRoI_redoCacheLookup_section at h
  split at h
  · obtain ⟨r, s0, _, h2⟩ := Out.bind_eq_val _ _ _ _ h
    simp only [] at h2
    split at h2
    · simp at h2
    · split at h2
      · simp only [Out.val.injEq, Except.ok.injEq] at h2
        obtain ⟨rfl, _⟩ := h2
        exact hl
      · obtain ⟨pr, s2, h3, h4⟩ := Out.bind_eq_val _ _ _ _ h2
        cases pr with
        | error ret => simp at h4
        | ok v =>
          simp only [Out.val.injEq, Except.ok.injEq] at h4
          obtain ⟨rfl, _⟩ := h4
          refine ⟨hl.1, hl.2.1, hl.2.2.1, hl.2.2.2.1, ?_⟩
          refine renderRoI_prefetchRects_whole env rec n _ false _ _ _ v s2 b h3 ?_
          refine renderRoI_makeRects_whole env n _ _ _ b hl.2.2.2.1 (fun y hy => by simp at hy) ?_
          · intro y hy
            simp only [hl.1, Bool.false_eq_true, if_false, List.mem_singleton] at hy
            rw [hy]; exact hl.2.2.1
  · simp only [Out.val.injEq, Except.ok.injEq] at h
    obtain ⟨rfl, _⟩ := h
    exact hl

/-- The section of the allocation keeps the rectangles -/
theorem renderRoI_allocate_section_whole (l : Locals) (outputPlanes : ImageList) (s : St W)
    (b : RectI) (hl : Locals.rendersWhole b l) (x : Locals × ImageList) (s1 : St W)
    (h : renderRoI_allocate_section env l outputPlanes s = .val (.ok x) s1) :
    Locals.rendersWhole b x.1 := by
  unfold renderRoI_allocate_section at h
  split at h
  · obtain ⟨planes, s0, _, h2⟩ := Out.bind_eq_val _ _ _ _ h
    simp only [Out.val.injEq, Except.ok.injEq] at h2
    obtain ⟨rfl, _⟩ := h2
    exact hl
  · simp only [Out.val.injEq, Except.ok.injEq] at h
    obtain ⟨rfl, _⟩ := h
    exact hl

end WholeBounds

end Natron

namespace Natron

/-- C12: from the section "Compute RoI" on, `renderRoI` is the sections before the render
step (`renderRoI_untilRenderStep`), then the render step, which hands the rectangles to render
to `renderRoIInternal`. When the effect does not support tiles, every rectangle to render that
reaches the render step is the pixel bounds of the RoD at the mip-map level of the image
rendered, whether an image was found in the cache or not and whether the cache is looked up a
second time or not. When the effect supports tiles, the region of interest becomes its
intersection with these bounds, and `renderRoI` returns `eRenderRoIRetCodeOk` without adding a
plane to the output list when they do not intersect. -/
theorem renderRoI_rectangles_to_render {W : Type} (env : Env W) (fuel : Nat)
    (rec : RenderRoIFn W) (n : NodeId) (l : Locals) (outputPlanes : ImageList) (s : St W) :
    renderRoI_computeRoI env fuel rec n l outputPlanes s =
      ((renderRoI_untilRenderStep env rec n l outputPlanes s).orReturn fun x s1 =>
        renderRoI_renderStep env fuel rec n x.1 x.2 s1) ∧
    (env.supportsTiles n s.world = false →
      ∀ x s1, renderRoI_untilRenderStep env rec n l outputPlanes s = .val (.ok x) s1 →
        ∀ r ∈ x.1.planesToRender.rectsToRender, r.rect = Locals.fullBounds env l) ∧
    (env.supportsTiles n s.world = true →
      (env.rectIIntersect l.roi (Locals.fullBounds env l) = none →
        renderRoI_computeRoI env fuel rec n l outputPlanes s =
          .val (.eRenderRoIRetCodeOk, outputPlanes) s) ∧
      (∀ roi, env.rectIIntersect l.roi (Locals.fullBounds env l) = some roi →
        ∃ l1, l1.roi = roi ∧
          renderRoI_computeRoI_section env n l outputPlanes s = .val (.ok (l1, outputPlanes)) s ∧
          renderRoI_computeRoI env fuel rec n l outputPlanes s =
            renderRoI_cacheLookup env fuel rec n l1 outputPlanes s)) := by
  refine ⟨renderRoI_computeRoI_eq_untilRenderStep env fuel rec n l outputPlanes s, ?_, ?_⟩
  · intro htiles x s1 h
    unfold renderRoI_untilRenderStep at h
    obtain ⟨x5, t5, h5, g5⟩ := Out.thenSection_eq_ok _ _ _ _ h
    obtain ⟨x4, t4, h4, g4⟩ := Out.thenSection_eq_ok _ _ _ _ h5
    obtain ⟨x3, t3, h3, g3⟩ := Out.thenSection_eq_ok _ _ _ _ h4
    obtain ⟨x2, t2, h2, g2⟩ := Out.thenSection_eq_ok _ _ _ _ h3
    obtain ⟨x1, t1, h1, g1⟩ := Out.thenSection_eq_ok _ _ _ _ h2
    have i1 := renderRoI_computeRoI_section_whole env n l outputPlanes s htiles x1 t1 h1
    have i2 := renderRoI_cacheLookup_section_whole env n x1.1 x1.2 t1 x2 t2 g1
    have i3 := renderRoI_rects_section_whole env n x2.1 x2.2 t2 (Locals.fullBounds env l)
      (i2.1.trans i1.1) (i2.2.1.trans i1.2.1)
      (by rw [i2.2.2.1, i2.2.2.2.1, i2.2.2.2.2.1]; exact i1.2.2) i2.2.2.2.2.2 x3 t3 g2
    have i4 := renderRoI_preRender_section_whole env rec n x3.1 x3.2 t3 _ i3 x4 t4 g3
    have i5 := renderRoI_redoCacheLookup_section_whole env rec n x4.1 x4.2 t4 _ i4 x5 t5 g4
    exact (renderRoI_allocate_section_whole env x5.1 x5.2 t5 _ i5 x s1 g5).2.2.2.2
  · intro htiles
    have hb : (if l.useImageAsOutput = true then env.toPixelEnclosing l.rod 0 l.par
        else env.toPixelEnclosing l.rod l.args.mipMapLevel l.par) = Locals.fullBounds env l := by
      unfold Locals.fullBounds
      split <;> rfl
    refine ⟨?_, ?_⟩
    · intro hnone
      unfold renderRoI_computeRoI
      simp only [htiles, if_true, hb, hnone]
    · intro roi hsome
      refine ⟨{ l with
          tilesSupported := true, roi := roi,
          upscaledImageBounds :=
            (env.rectIIntersect (env.toPixelEnclosing l.rod 0 l.par) roi).getD
              (env.toPixelEnclosing l.rod 0 l.par),
          downscaledImageBounds :=
            (env.rectIIntersect (env.toPixelEnclosing l.rod l.args.mipMapLevel l.par)
              l.args.roi).getD (env.toPixelEnclosing l.rod l.args.mipMapLevel l.par) },
        rfl, ?_, ?_⟩
      · unfold renderRoI_computeRoI_section
        simp only [htiles, if_true, hb, hsome]
      · unfold renderRoI_computeRoI
        simp only [htiles, if_true, hb, hsome]

/-- Witness of C12: node 0 of `noTilesEnv`, whose RoD is (0, 0) - (100, 100), is asked for
the rectangle (10, 10) - (50, 50): the rectangle that reaches the render step is the RoD -/
theorem renderRoI_rectangles_to_render_witness :
    (match renderRoI_untilRenderStep noTilesEnv (renderRoI noTilesEnv 1) 0 noTilesLocals []
        userState with
     | .val (.ok x) _ => x.1.planesToRender.rectsToRender.map fun r => r.rect
     | _ => []) = [⟨0, 0, 100, 100⟩] ∧
    (match renderRoI_untilRenderStep noTilesEnv (renderRoI noTilesEnv 1) 0 noTilesLocals []
        userState with
     | .val (.ok x) _ =>
       ∀ r ∈ x.1.planesToRender.rectsToRender, r.rect = Locals.fullBounds noTilesEnv noTilesLocals
     | _ => True) := by
  refine ⟨by decide!, ?_⟩
  cases h : renderRoI_untilRenderStep noTilesEnv (renderRoI noTilesEnv 1) 0 noTilesLocals []
      userState with
  | val r s1 =>
    cases r with
    | ok x =>
      exact (renderRoI_rectangles_to_render noTilesEnv 1 (renderRoI noTilesEnv 1) 0 noTilesLocals
        [] userState).2.1 rfl x s1 h
    | error v => trivial
  | exn e s1 => trivial
  | diverge => trivial

end Natron

namespace Natron

section PrefetchLevel

variable {W : Type} (env : Env W)

theorem renderInputImagesForRoI_frames_congr (rec1 rec2 : RenderRoIFn W) (inputEffect : NodeId)
    (inArgs : SequenceTime → W → RenderRoIArgs) (last : Int)
    (h : ∀ f w out s, rec1 inputEffect (inArgs f w) out s = rec2 inputEffect (inArgs f w) out s)
    (count : Nat) :
    ∀ (f : Int) (nb : Nat) (imgs : ImageList) (s : St W),
      renderInputImagesForRoI_frames rec1 inputEffect inArgs last count f nb imgs s =
        renderInputImagesForRoI_frames rec2 inputEffect inArgs last count f nb imgs s := by
  induction count with
  | zero => intro f nb imgs s; rfl
  | succ count ih =>
    intro f nb imgs s
    rw [renderInputImagesForRoI_frames, renderInputImagesForRoI_frames, h]
    split
    · congr 1
      funext r s1
      split
      · rfl
      · exact ih _ _ _ _
    · rfl

theorem renderInputImagesForRoI_ranges_congr (rec1 rec2 : RenderRoIFn W) (inputEffect : NodeId)
    (inArgs : SequenceTime → W → RenderRoIArgs)
    (h : ∀ f w out s, rec1 inputEffect (inArgs f w) out s = rec2 inputEffect (inArgs f w) out s)
    (ranges : List OfxRangeD) :
    ∀ (nb : Nat) (imgs : ImageList) (s : St W),
      renderInputImagesForRoI_ranges rec1 inputEffect inArgs ranges nb imgs s =
        renderInputImagesForRoI_ranges rec2 inputEffect inArgs ranges nb imgs s := by
  induction ranges with
  | nil => intro nb imgs s; rfl
  | cons range rest ih =>
    intro nb imgs s
    rw [renderInputImagesForRoI_ranges, renderInputImagesForRoI_ranges,
      renderInputImagesForRoI_frames_congr rec1 rec2 inputEffect inArgs _ h]
    congr 1
    funext r s1
    cases r with
    | error ret => rfl
    | ok v => exact ih _ _ _

theorem renderInputImagesForRoI_views_congr (rec1 rec2 : RenderRoIFn W) (inputEffect : NodeId)
    (inArgs : SequenceTime → W → RenderRoIArgs)
    (h : ∀ f w out s, rec1 inputEffect (inArgs f w) out s = rec2 inputEffect (inArgs f w) out s)
    (views : List (Int × List OfxRangeD)) :
    ∀ (imgs : ImageList) (s : St W),
      renderInputImagesForRoI_views rec1 inputEffect inArgs views imgs s =
        renderInputImagesForRoI_views rec2 inputEffect inArgs views imgs s := by
  induction views with
  | nil => intro imgs s; rfl
  | cons it2 rest ih =>
    intro imgs s
    rw [renderInputImagesForRoI_views, renderInputImagesForRoI_views,
      renderInputImagesForRoI_ranges_congr rec1 rec2 inputEffect inArgs h]
    congr 1
    funext r s1
    cases r with
    | error ret => rfl
    | ok v => exact ih _ _

/-- The loop of `renderInputImagesForRoI` on the inputs asks the renders of the inputs at one
mip-map level and scale only: two render functions that agree on the requests at this level and
scale give the same result -/
theorem renderInputImagesForRoI_inputs_congr (rec1 rec2 : RenderRoIFn W) (n : NodeId)
    (view : Int) (mipMapLevel : Nat) (scale : RenderScale)
    (useScaleOneInputImages byPassCache : Bool) (neededComps : ComponentsNeededMap)
    (reroutesMap : List (Int × NodeId)) (inputsRoi : RoIMap)
    (h : ∀ m a out s, a.mipMapLevel = (if useScaleOneInputImages then 0 else mipMapLevel) →
      a.scale = (if useScaleOneInputImages then ⟨1, 1⟩ else scale) →
      rec1 m a out s = rec2 m a out s)
    (framesNeeded : FramesNeededMap) :
    ∀ (inputImages : InputImagesMap) (s : St W),
      renderInputImagesForRoI_inputs env rec1 n view mipMapLevel scale useScaleOneInputImages
        byPassCache neededComps reroutesMap inputsRoi framesNeeded inputImages s =
      renderInputImagesForRoI_inputs env rec2 n view mipMapLevel scale useScaleOneInputImages
        byPassCache neededComps reroutesMap inputsRoi framesNeeded inputImages s := by
  induction framesNeeded with
  | nil => intro inputImages s; rfl
  | cons it rest ih =>
    intro inputImages s
    rw [renderInputImagesForRoI_inputs, renderInputImagesForRoI_inputs]
    split
    · exact ih _ _
    · simp only []
      split
      · exact ih _ _
      · split
        · rfl
        · rw [renderInputImagesForRoI_views_congr rec1 rec2 _ _
            (fun f w out s => h _ _ out s rfl rfl)]
          congr 1
          funext r s1
          cases r with
          | error ret => rfl
          | ok imgs =>
            simp only []
            split
            · rfl
            · exact ih _ _

theorem renderInputImagesForRoI_congr (rec1 rec2 : RenderRoIFn W) (n : NodeId)
    (time : SequenceTime) (view : Int) (par : ℚ) (rod canonicalRenderWindow : RectD)
    (inputTransforms : List InputMatrix) (mipMapLevel : Nat) (scale renderMappedScale : RenderScale)
    (useScaleOneInputImages byPassCache : Bool) (framesNeeded : FramesNeededMap)
    (neededComps : ComponentsNeededMap) (inputImages : InputImagesMap) (inputsRoi : RoIMap)
    (s : St W)
    (h : ∀ m a out s, a.mipMapLevel = (if useScaleOneInputImages then 0 else mipMapLevel) →
      a.scale = (if useScaleOneInputImages then ⟨1, 1⟩ else scale) →
      rec1 m a out s = rec2 m a out s) :
    renderInputImagesForRoI env rec1 n time view par rod canonicalRenderWindow inputTransforms
        mipMapLevel scale renderMappedScale useScaleOneInputImages byPassCache framesNeeded
        neededComps inputImages inputsRoi s =
      renderInputImagesForRoI env rec2 n time view par rod canonicalRenderWindow inputTransforms
        mipMapLevel scale renderMappedScale useScaleOneInputImages byPassCache framesNeeded
        neededComps inputImages inputsRoi s := by
  unfold renderInputImagesForRoI
  simp only []
  rw [renderInputImagesForRoI_inputs_congr env rec1 rec2 n view mipMapLevel scale
    useScaleOneInputImages byPassCache neededComps _ _ h]

theorem renderRoI_prefetchRects_congr (rec1 rec2 : RenderRoIFn W) (n : NodeId) (l : Locals)
    (recordPremult : Bool)
    (h : ∀ m a out s,
      a.mipMapLevel =
        (if l.renderScaleOneUpstreamIfRenderScaleSupportDisabled then 0 else l.args.mipMapLevel) →
      a.scale =
        (if l.renderScaleOneUpstreamIfRenderScaleSupportDisabled then ⟨1, 1⟩ else l.args.scale) →
      rec1 m a out s = rec2 m a out s)
    (rects : List RectToRender) :
    ∀ (premult : List (Int × ImagePremultiplicationEnum)) (s : St W),
      renderRoI_prefetchRects env rec1 n l recordPremult rects premult s =
        renderRoI_prefetchRects env rec2 n l recordPremult rects premult s := by
  induction rects with
  | nil => intro premult s; rfl
  | cons it rest ih =>
    intro premult s
    rw [renderRoI_prefetchRects, renderRoI_prefetchRects]
    split
    · rw [ih]
    · rw [renderInputImagesForRoI_congr env rec1 rec2 n _ _ _ _ _ _ _ _ _ _ _ _ _ _ _ _ h]
      congr 1
      funext c s1
      simp only []
      split
      · rfl
      · rw [ih]

/-- The sections before the render step request the input images at the level and the scale
of the pre-fetch only -/
theorem renderRoI_preRender_section_congr (rec1 rec2 : RenderRoIFn W) (n : NodeId) (l : Locals)
    (outputPlanes : ImageList) (s : St W)
    (h : ∀ m a out s, a.mipMapLevel = l.inputMipMapLevel → a.scale = l.inputScale →
      rec1 m a out s = rec2 m a out s) :
    renderRoI_preRender_section env rec1 n l outputPlanes s =
      renderRoI_preRender_section env rec2 n l outputPlanes s := by
  unfold renderRoI_preRender_section
  split
  · rfl
  · simp only []
    rw [renderRoI_prefetchRects_congr env rec1 rec2 n l true h]

theorem renderRoI_redoCacheLookup_section_congr (rec1 rec2 : RenderRoIFn W) (n : NodeId)
    (l : Locals) (outputPlanes : ImageList) (s : St W)
    (h : ∀ m a out s, a.mipMapLevel = l.inputMipMapLevel → a.scale = l.inputScale →
      rec1 m a out s = rec2 m a out s) :
    renderRoI_redoCacheLookup_section env rec1 n l outputPlanes s =
      renderRoI_redoCacheLookup_section env rec2 n l outputPlanes s := by
  unfold renderRoI_redoCacheLookup_section
  split
  · congr 1
    funext r s1
    simp only []
    split
    · rfl
    · split
      · rfl
      · rw [renderRoI_prefetchRects_congr env rec1 rec2 n _ false (by exact h)]
  · rfl

theorem Locals.inputMipMapLevel_of_levels (l l0 : Locals) (h : l.levels = l0.levels) :
    l.inputMipMapLevel = l0.inputMipMapLevel := by
  unfold Locals.levels at h
  simp only [Prod.mk.injEq] at h
  unfold Locals.inputMipMapLevel
  rw [h.1, h.2.1]

theorem Locals.inputScale_of_levels (l l0 : Locals) (h : l.levels = l0.levels) :
    l.inputScale = l0.inputScale := by
  unfold Locals.levels at h
  simp only [Prod.mk.injEq] at h
  unfold Locals.inputScale
  rw [h.1, h.2.1]

theorem renderRoI_refreshSupportsRS_levels (n : NodeId) (l : Locals) (s : St W)
    (h : l.supportsRS = .eSupportsNo) :
    (renderRoI_refreshSupportsRS env n l s).levels = l.levels := by
  unfold renderRoI_refreshSupportsRS
  rw [if_neg (fun hc => by rw [h] at hc; exact absurd hc.1 (by decide))]

theorem renderRoI_setRoI_levels (l : Locals) : (renderRoI_setRoI env l).levels = l.levels := by
  unfold renderRoI_setRoI
  split <;> rfl

theorem renderRoI_getRoD_section_levels (n : NodeId) (l : Locals) (outputPlanes : ImageList)
    (s : St W) (hno : l.supportsRS = .eSupportsNo) (x : Locals × ImageList) (s1 : St W)
    (h : renderRoI_getRoD_section env n l outputPlanes s = .val (.ok x) s1) :
    x.1.levels = l.levels := by
  unfold renderRoI_getRoD_section at h
  split at h
  · simp only [Out.val.injEq, Except.ok.injEq] at h
    obtain ⟨rfl, _⟩ := h
    rw [renderRoI_setRoI_levels]; rfl
  · simp only [] at h
    split at h
    · simp at h
    · split at h
      · simp at h
      · simp only [Out.val.injEq, Except.ok.injEq] at h
        obtain ⟨rfl, _⟩ := h
        rw [renderRoI_setRoI_levels, renderRoI_refreshSupportsRS_levels env n _ _ (by exact hno)]
        rfl

theorem renderRoI_identity_section_levels (rec : RenderRoIFn W) (n : NodeId) (l : Locals)
    (outputPlanes : ImageList) (s : St W) (hno : l.supportsRS = .eSupportsNo)
    (x : Locals × ImageList) (s1 : St W)
    (h : renderRoI_identity_section env rec n l outputPlanes s = .val (.ok x) s1) :
    x.1.levels = l.levels := by
  unfold renderRoI_identity_section at h
  split at h
  · simp at h
  · simp at h
  · split at h
    · obtain ⟨v, s0, _, h2⟩ := Out.bind_eq_val _ _ _ _ h
      simp at h2
    · simp only [Out.val.injEq, Except.ok.injEq] at h
      obtain ⟨rfl, _⟩ := h
      exact renderRoI_refreshSupportsRS_levels env n l _ hno

theorem renderRoI_planes_section_levels (rec : RenderRoIFn W) (n : NodeId) (l : Locals)
    (outputPlanes : ImageList) (s : St W) (x : Locals × ImageList) (s1 : St W)
    (h : renderRoI_planes_section env rec n l outputPlanes s = .val (.ok x) s1) :
    x.1.levels = l.levels := by
  unfold renderRoI_planes_section at h
  simp only [] at h
  split at h
  · simp at h
  · obtain ⟨r, s0, _, h2⟩ := Out.bind_eq_val _ _ _ _ h
    cases r with
    | error ret => simp at h2
    | ok out =>
      simp only [] at h2
      split at h2
      · simp at h2
      · simp only [Out.val.injEq, Except.ok.injEq] at h2
        obtain ⟨rfl, _⟩ := h2
        rfl

theorem renderRoI_transforms_section_levels (n : NodeId) (l : Locals)
    (outputPlanes : ImageList) (s : St W) (x : Locals × ImageList) (s1 : St W)
    (h : renderRoI_transforms_section env n l outputPlanes s = .val (.ok x) s1) :
    x.1.levels = l.levels := by
  unfold renderRoI_transforms_section at h
  simp only [Out.val.injEq, Except.ok.injEq] at h
  obtain ⟨rfl, _⟩ := h
  rfl

theorem renderRoI_computeRoI_section_levels (n : NodeId) (l : Locals)
    (outputPlanes : ImageList) (s : St W) (x : Locals × ImageList) (s1 : St W)
    (h : renderRoI_computeRoI_section env n l outputPlanes s = .val (.ok x) s1) :
    x.1.levels = l.levels := by
  unfold renderRoI_computeRoI_section at h
  simp only [] at h
  split at h
  · split at h
    · simp at h
    · simp only [Out.val.injEq, Except.ok.injEq] at h
      obtain ⟨rfl, _⟩ := h
      rfl
  · simp only [Out.val.injEq, Except.ok.injEq] at h
    obtain ⟨rfl, _⟩ := h
    rfl

theorem renderRoI_cacheLookup_section_levels (n : NodeId) (l : Locals)
    (outputPlanes : ImageList) (s : St W) (x : Locals × ImageList) (s1 : St W)
    (h : renderRoI_cacheLookup_section env n l outputPlanes s = .val (.ok x) s1) :
    x.1.levels = l.levels := by
  unfold renderRoI_cacheLookup_section at h
  simp only [] at h
  obtain ⟨r, s0, _, h2⟩ := Out.bind_eq_val _ _ _ _ h
  split at h2
  · simp at h2
  · simp only [Out.val.injEq, Except.ok.injEq] at h2
    obtain ⟨rfl, _⟩ := h2
    rfl

theorem renderRoI_restOfCached_levels (n : NodeId) (l : Locals) (img : Image)
    (cacheAlmostFull : Bool) (s : St W) (rects : List RectI) (l2 : Locals) (s1 : St W)
    (h : renderRoI_restOfCached env n l img cacheAlmostFull s = .val (rects, l2) s1) :
    l2.levels = l.levels := by
  unfold renderRoI_restOfCached at h
  simp only [] at h
  obtain ⟨_, s0, _, h2⟩ := Out.bind_eq_val _ _ _ _ h
  simp only [Out.val.injEq, Prod.mk.injEq] at h2
  obtain ⟨⟨_, rfl⟩, _⟩ := h2
  rfl

theorem renderRoI_rects_section_levels (n : NodeId) (l : Locals) (outputPlanes : ImageList)
    (s : St W) (x : Locals × ImageList) (s1 : St W)
    (h : renderRoI_rects_section env n l outputPlanes s = .val (.ok x) s1) :
    x.1.levels = l.levels := by
  unfold renderRoI_rects_section at h
  simp only [] at h
  obtain ⟨r, s2, h1, h2⟩ := Out.bind_eq_val _ _ _ _ h
  obtain ⟨rr, l2⟩ := r
  have hl2 : l2.levels = l.levels := by
    cases hc : l.isPlaneCached with
    | some img =>
      rw [hc] at h1
      simp only [] at h1
      have hr := renderRoI_restOfCached_levels env n _ img _ _ rr l2 s2 h1
      exact hr
    | none =>
      rw [hc] at h1
      simp only [Out.val.injEq, Prod.mk.injEq] at h1
      obtain ⟨⟨_, rfl⟩, _⟩ := h1
      rfl
  simp only [Out.val.injEq, Except.ok.injEq] at h2
  obtain ⟨rfl, _⟩ := h2
  exact hl2

theorem renderRoI_preRender_section_levels (rec : RenderRoIFn W) (n : NodeId) (l : Locals)
    (outputPlanes : ImageList) (s : St W) (x : Locals × ImageList) (s1 : St W)
    (h : renderRoI_preRender_section env rec n l outputPlanes s = .val (.ok x) s1) :
    x.1.levels = l.levels := by
  unfold renderRoI_preRender_section at h
  split at h
  · simp at h
  · simp only [] at h
    obtain ⟨pr, s0, _, h2⟩ := Out.bind_eq_val _ _ _ _ h
    cases pr with
    | error ret => simp at h2
    | ok v =>
      simp only [Out.val.injEq, Except.ok.injEq] at h2
      obtain ⟨rfl, _⟩ := h2
      rfl

theorem renderRoI_redoCacheLookup_section_levels (rec : RenderRoIFn W) (n : NodeId)
    (l : Locals) (outputPlanes : ImageList) (s : St W) (x : Locals × ImageList) (s1 : St W)
    (h : renderRoI_redoCacheLookup_section env rec n l outputPlanes s = .val (.ok x) s1) :
    x.1.levels = l.levels := by
  unfold renderRoI_redoCacheLookup_section at h
  split at h
  · obtain ⟨r, s0, _, h2⟩ := Out.bind_eq_val _ _ _ _ h
    simp only [] at h2
    split at h2
    · simp at h2
    · split at h2
      · simp only [Out.val.injEq, Except.ok.injEq] at h2
        obtain ⟨rfl, _⟩ := h2
        rfl
      · obtain ⟨pr, s2, _, h4⟩ := Out.bind_eq_val _ _ _ _ h2
        cases pr with
        | error ret => simp at h4
        | ok v =>
          simp only [Out.val.injEq, Except.ok.injEq] at h4
          obtain ⟨rfl, _⟩ := h4
          rfl
  · simp only [Out.val.injEq, Except.ok.injEq] at h
    obtain ⟨rfl, _⟩ := h
    rfl

theorem renderRoI_allocate_section_levels (l : Locals) (outputPlanes : ImageList) (s : St W)
    (x : Locals × ImageList) (s1 : St W)
    (h : renderRoI_allocate_section env l outputPlanes s = .val (.ok x) s1) :
    x.1.levels = l.levels := by
  unfold renderRoI_allocate_section at h
  split at h
  · obtain ⟨planes, s0, _, h2⟩ := Out.bind_eq_val _ _ _ _ h
    simp only [Out.val.injEq, Except.ok.injEq] at h2
    obtain ⟨rfl, _⟩ := h2
    rfl
  · simp only [Out.val.injEq, Except.ok.injEq] at h
    obtain ⟨rfl, _⟩ := h
    rfl

theorem Out.thenSection_congr {σ ρ α β : Type} (x : Out σ (Except ρ α))
    (f g : α → σ → Out σ (Except ρ β))
    (h : ∀ a s, x = .val (.ok a) s → f a s = g a s) : x.thenSection f = x.thenSection g := by
  cases x with
  | val r s =>
    cases r with
    | ok a => exact h a s rfl
    | error v => rfl
  | exn e s => rfl
  | diverge => rfl

/-- The local variables that fix the mip-map levels are the same before the first section and
at the render step -/
theorem renderRoI_untilRenderStep_levels (rec : RenderRoIFn W) (n : NodeId) (l : Locals)
    (outputPlanes : ImageList) (s : St W) (y : Locals × ImageList) (s2 : St W)
    (h : renderRoI_untilRenderStep env rec n l outputPlanes s = .val (.ok y) s2) :
    y.1.levels = l.levels := by
  unfold renderRoI_untilRenderStep at h
  obtain ⟨x5, t5, h5, k5⟩ := Out.thenSection_eq_ok _ _ _ _ h
  obtain ⟨x4, t4, h4, k4⟩ := Out.thenSection_eq_ok _ _ _ _ h5
  obtain ⟨x3, t3, h3, k3⟩ := Out.thenSection_eq_ok _ _ _ _ h4
  obtain ⟨x2, t2, h2, k2⟩ := Out.thenSection_eq_ok _ _ _ _ h3
  obtain ⟨x1, t1, h1, k1⟩ := Out.thenSection_eq_ok _ _ _ _ h2
  rw [renderRoI_allocate_section_levels env _ _ _ _ _ k5,
    renderRoI_redoCacheLookup_section_levels env rec n _ _ _ _ _ k4,
    renderRoI_preRender_section_levels env rec n _ _ _ _ _ k3,
    renderRoI_rects_section_levels env n _ _ _ _ _ k2,
    renderRoI_cacheLookup_section_levels env n _ _ _ _ _ k1,
    renderRoI_computeRoI_section_levels env n _ _ _ _ _ h1]

/-- The sections before the render step give the same result with two render functions that
agree on the requests at the level and the scale of the pre-fetch -/
theorem renderRoI_untilRenderStep_congr (rec1 rec2 : RenderRoIFn W) (n : NodeId) (l : Locals)
    (outputPlanes : ImageList) (s : St W)
    (h : ∀ m a out s, a.mipMapLevel = l.inputMipMapLevel → a.scale = l.inputScale →
      rec1 m a out s = rec2 m a out s) :
    renderRoI_untilRenderStep env rec1 n l outputPlanes s =
      renderRoI_untilRenderStep env rec2 n l outputPlanes s := by
  have hpre : (((renderRoI_computeRoI_section env n l outputPlanes s).thenSection fun x s1 =>
      renderRoI_cacheLookup_section env n x.1 x.2 s1).thenSection fun x s1 =>
      renderRoI_rects_section env n x.1 x.2 s1).thenSection (fun x s1 =>
      renderRoI_preRender_section env rec1 n x.1 x.2 s1) =
    (((renderRoI_computeRoI_section env n l outputPlanes s).thenSection fun x s1 =>
      renderRoI_cacheLookup_section env n x.1 x.2 s1).thenSection fun x s1 =>
      renderRoI_rects_section env n x.1 x.2 s1).thenSection (fun x s1 =>
      renderRoI_preRender_section env rec2 n x.1 x.2 s1) := by
    apply Out.thenSection_congr
    intro x3 t3 h3
    obtain ⟨x2, t2, h2, k2⟩ := Out.thenSection_eq_ok _ _ _ _ h3
    obtain ⟨x1, t1, h1, k1⟩ := Out.thenSection_eq_ok _ _ _ _ h2
    have hl : x3.1.levels = l.levels := by
      rw [renderRoI_rects_section_levels env n _ _ _ _ _ k2,
        renderRoI_cacheLookup_section_levels env n _ _ _ _ _ k1,
        renderRoI_computeRoI_section_levels env n _ _ _ _ _ h1]
    apply renderRoI_preRender_section_congr
    intro m a out t hm hs
    exact h m a out t (hm.trans (Locals.inputMipMapLevel_of_levels _ _ hl))
      (hs.trans (Locals.inputScale_of_levels _ _ hl))
  unfold renderRoI_untilRenderStep
  rw [hpre]
  congr 1
  apply Out.thenSection_congr
  intro x4 t4 h4
  obtain ⟨x3, t3, h3, k3⟩ := Out.thenSection_eq_ok _ _ _ _ h4
  obtain ⟨x2, t2, h2, k2⟩ := Out.thenSection_eq_ok _ _ _ _ h3
  obtain ⟨x1, t1, h1, k1⟩ := Out.thenSection_eq_ok _ _ _ _ h2
  have hl : x4.1.levels = l.levels := by
    rw [renderRoI_preRender_section_levels env rec2 n _ _ _ _ _ k3,
      renderRoI_rects_section_levels env n _ _ _ _ _ k2,
      renderRoI_cacheLookup_section_levels env n _ _ _ _ _ k1,
      renderRoI_computeRoI_section_levels env n _ _ _ _ _ h1]
  apply renderRoI_redoCacheLookup_section_congr
  intro m a out t hm hs
  exact h m a out t (hm.trans (Locals.inputMipMapLevel_of_levels _ _ hl))
    (hs.trans (Locals.inputScale_of_levels _ _ hl))

theorem renderRoI_frameArgs_world (n : NodeId) (args : RenderRoIArgs) (s : St W) :
    (renderRoI_frameArgs env n args s).world = s.world := by
  unfold renderRoI_frameArgs
  split <;> rfl

/-- The local variables that fix the mip-map levels are, at the section "Compute RoI", those
set at the start of `renderRoI` when the node does not support the render scale -/
theorem renderRoI_untilComputeRoI_levels (rec : RenderRoIFn W) (n : NodeId)
    (args : RenderRoIArgs) (outputPlanes : ImageList) (s : St W)
    (hno : env.supportsRenderScaleMaybe n s.world = .eSupportsNo)
    (x : Locals × ImageList) (s1 : St W)
    (h : renderRoI_untilComputeRoI env rec n args outputPlanes s = .val (.ok x) s1) :
    x.1.levels = (renderRoI_initLocals env n args (renderRoI_frameArgs env n args s)).levels := by
  have h0 : (renderRoI_initLocals env n args (renderRoI_frameArgs env n args s)).supportsRS =
      .eSupportsNo := by
    unfold renderRoI_initLocals
    simp only [renderRoI_frameArgs_world]
    exact hno
  have hS : ∀ (a b : Locals), a.levels = b.levels → b.supportsRS = .eSupportsNo →
      a.supportsRS = .eSupportsNo := by
    intro a b hab hb
    unfold Locals.levels at hab
    simp only [Prod.mk.injEq] at hab
    rw [hab.2.2.1]; exact hb
  unfold renderRoI_untilComputeRoI at h
  obtain ⟨x3, t3, h3, k3⟩ := Out.thenSection_eq_ok _ _ _ _ h
  obtain ⟨x2, t2, h2, k2⟩ := Out.thenSection_eq_ok _ _ _ _ h3
  obtain ⟨x1, t1, h1, k1⟩ := Out.thenSection_eq_ok _ _ _ _ h2
  have e1 := renderRoI_getRoD_section_levels env n _ _ _ h0 _ _ h1
  have e2 := renderRoI_identity_section_levels env rec n _ _ _ (hS _ _ e1 h0) _ _ k1
  have e3 := renderRoI_planes_section_levels env rec n _ _ _ _ _ k2
  have e4 := renderRoI_transforms_section_levels env n _ _ _ _ _ k3
  rw [e4, e3, e2, e1]

end PrefetchLevel

end Natron

namespace Natron

/-- C13 fails as stated: node 0 of `noRenderScaleEnv false` does not support the render scale
and is requested at the mip-map level 1, its setting
`useScaleOneImagesWhenRenderScaleSupportIsDisabled` is off and it supports multi-resolution.
The pre-fetch requests its input at the mip-map level 1, not 0: a render function that reports
the level it is requested at reports 1, and in the whole render the planes node 1 rendered
last are at the level 1. -/
theorem renderRoI_inputs_requested_at_requested_level :
    (noRenderScaleEnv false).supportsRenderScaleMaybe 0 userState.world = .eSupportsNo ∧
    halfRequest.mipMapLevel = 1 ∧
    (match renderRoI_untilComputeRoI (noRenderScaleEnv false) recordedRender 0 halfRequest []
        userState with
      | .val (.ok x) s1 =>
        Out.thrown
          (renderRoI_untilRenderStep (noRenderScaleEnv false) levelReportingRender 0 x.1 x.2 s1)
      | _ => none) = some (.pluginException 1) ∧
    (Out.state (renderRoI (noRenderScaleEnv false) 3 0 halfRequest [] userState)).map
      (fun s => (s.imp 1).lastPlanesRendered.map (fun i => i.mipMapLevel)) = some [1] := by
  decide!

/-- C13 (amended): when the node does not support the render scale at the start of `renderRoI`
and the requested mip-map level is not 0, the body of `renderRoI` is the sections before
"Compute RoI", then the sections before the render step, then the render step, and for the
local variables that reach "Compute RoI": the request is unchanged; the pre-fetch requests the
input images at the mip-map level 0 and the scale 1 when the setting
`useScaleOneImagesWhenRenderScaleSupportIsDisabled` of the node is on or the node does not
support multi-resolution, and at the requested level and scale otherwise; the node renders at
the mip-map level 0 (`renderFullScaleThenDownscale` is set, the render-mapped level is 0 at the
render step); and the sections before the render step, the only ones that pre-fetch, give the
same result with any two render functions that agree on the requests at that level and that
scale, that is, every input render of the pre-fetch is requested at that level and scale. -/
theorem renderRoI_render_scale_not_supported {W : Type} (env : Env W) (n : NodeId)
    (args : RenderRoIArgs) (outputPlanes : ImageList) (s : St W)
    (hno : env.supportsRenderScaleMaybe n s.world = .eSupportsNo)
    (hmip : args.mipMapLevel ≠ 0) :
    (∀ (fuel : Nat) (rec : RenderRoIFn W), args.components.isEmpty = false →
      renderRoI_body env fuel rec n args outputPlanes s =
        (renderRoI_untilComputeRoI env rec n args outputPlanes s).orReturn fun x s1 =>
          renderRoI_inReroute env n x.1
            ((renderRoI_untilRenderStep env rec n x.1 x.2 s1).orReturn fun y s2 =>
              renderRoI_renderStep env fuel rec n y.1 y.2 s2)) ∧
    (∀ (rec : RenderRoIFn W) (x : Locals × ImageList) (s1 : St W),
      renderRoI_untilComputeRoI env rec n args outputPlanes s = .val (.ok x) s1 →
      x.1.args = args ∧
      x.1.inputMipMapLevel =
        (if env.useScaleOneImagesWhenRenderScaleSupportIsDisabled n s.world ||
            !env.supportsMultiResolution n s.world then 0 else args.mipMapLevel) ∧
      x.1.inputScale =
        (if env.useScaleOneImagesWhenRenderScaleSupportIsDisabled n s.world ||
            !env.supportsMultiResolution n s.world then ⟨1, 1⟩ else args.scale) ∧
      x.1.renderFullScaleThenDownscale = true ∧
      (∀ (y : Locals × ImageList) (s2 : St W),
        renderRoI_untilRenderStep env rec n x.1 x.2 s1 = .val (.ok y) s2 →
        y.1.renderFullScaleThenDownscale = true ∧ y.1.renderMappedMipMapLevel = 0 ∧
        y.1.renderMappedScale =
          ⟨env.getScaleFromMipMapLevel 0, env.getScaleFromMipMapLevel 0⟩) ∧
      (∀ rec2 : RenderRoIFn W,
        (∀ m a out t, a.mipMapLevel = x.1.inputMipMapLevel → a.scale = x.1.inputScale →
          rec m a out t = rec2 m a out t) →
        renderRoI_untilRenderStep env rec n x.1 x.2 s1 =
          renderRoI_untilRenderStep env rec2 n x.1 x.2 s1)) := by
  refine ⟨fun fuel rec hcomp => renderRoI_body_eq_sections env fuel rec n args outputPlanes s hcomp,
    ?_⟩
  intro rec x s1 h
  have hl := renderRoI_untilComputeRoI_levels env rec n args outputPlanes s hno x s1 h
  have hinit : (renderRoI_initLocals env n args (renderRoI_frameArgs env n args s)).levels =
      (args,
       (env.useScaleOneImagesWhenRenderScaleSupportIsDisabled n s.world ||
         !env.supportsMultiResolution n s.world),
       SupportsEnum.eSupportsNo, true, 0,
       (⟨env.getScaleFromMipMapLevel 0, env.getScaleFromMipMapLevel 0⟩ : RenderScale)) := by
    unfold Locals.levels renderRoI_initLocals
    simp only [renderRoI_frameArgs_world, hno, hmip, ne_eq, not_false_eq_true, decide_True,
      Bool.and_self, Bool.true_and, if_true]
  rw [hinit] at hl
  have hx := hl
  unfold Locals.levels at hx
  simp only [Prod.mk.injEq] at hx
  obtain ⟨ha, hf, _, hd, hm, hsc⟩ := hx
  refine ⟨ha, ?_, ?_, hd, ?_, ?_⟩
  · unfold Locals.inputMipMapLevel
    rw [ha, hf]
  · unfold Locals.inputScale
    rw [ha, hf]
  · intro y s2 hy
    have hy2 := renderRoI_untilRenderStep_levels env rec n x.1 x.2 s1 y s2 hy
    rw [hl] at hy2
    unfold Locals.levels at hy2
    simp only [Prod.mk.injEq] at hy2
    exact ⟨hy2.2.2.2.1, hy2.2.2.2.2.1, hy2.2.2.2.2.2⟩
  · intro rec2 hrec
    exact renderRoI_untilRenderStep_congr env rec rec2 n x.1 x.2 s1 hrec

/-- Witness of C13: node 0 of `noRenderScaleEnv true` does not support the render scale, is
requested at the mip-map level 1 and has the setting on; the pre-fetch requests its input at
the level 0, and a render function that serves the requests at the level 0 and the scale 1
only gives the sections before the render step the same result, with one render of node 1 -/
theorem renderRoI_render_scale_not_supported_witness :
    (noRenderScaleEnv true).supportsRenderScaleMaybe 0 userState.world = .eSupportsNo ∧
    halfRequest.mipMapLevel ≠ 0 ∧
    (match renderRoI_untilComputeRoI (noRenderScaleEnv true) recordedRender 0 halfRequest []
        userState with
      | .val (.ok x) s1 =>
        x.1.inputMipMapLevel = 0 ∧
        renderRoI_untilRenderStep (noRenderScaleEnv true) recordedRender 0 x.1 x.2 s1 =
          renderRoI_untilRenderStep (noRenderScaleEnv true) fullScaleRender 0 x.1 x.2 s1
      | _ => True) ∧
    (match renderRoI_untilComputeRoI (noRenderScaleEnv true) recordedRender 0 halfRequest []
        userState with
      | .val (.ok x) s1 =>
        (Out.state
          (renderRoI_untilRenderStep (noRenderScaleEnv true) fullScaleRender 0 x.1 x.2 s1)).map
          (fun s => s.renderLog)
      | _ => none) = some [(1, .eStatusOK)] := by
  refine ⟨by decide, by decide, ?_, by decide!⟩
  cases h : renderRoI_untilComputeRoI (noRenderScaleEnv true) recordedRender 0 halfRequest []
      userState with
  | val r s1 =>
    cases r with
    | error v => trivial
    | ok x =>
      have hw := (renderRoI_render_scale_not_supported (noRenderScaleEnv true) 0 halfRequest []
        userState (by decide) (by decide)).2 recordedRender x s1 h
      have h0 : x.1.inputMipMapLevel = 0 := hw.2.1.trans (by decide)
      have h1 : x.1.inputScale = ⟨1, 1⟩ := hw.2.2.1.trans (by decide)
      refine ⟨h0, hw.2.2.2.2.2 fullScaleRender ?_⟩
      intro m a out t hm hs
      unfold fullScaleRender
      rw [if_pos ⟨hm.trans h0, hs.trans h1⟩]
  | exn e s1 => trivial
  | diverge => trivial

end Natron

namespace Natron

/-- C14 fails as stated: node 0 of `noRenderScaleEnv true` does not support the render scale
and is requested at the mip-map level 1, its inputs are rendered at the mip-map level 0 and its
output is to be cached. At the render step the full-scale image of the color plane, at the
mip-map level 0, is the image `getImageFromCacheOrCreate` made in the cache under the key of
the render, and the image that is not in the cache is the downscaled one, at the level 1, which
is the output. -/
theorem allocateImagePlane_full_scale_image_in_cache :
    (noRenderScaleEnv true).supportsRenderScaleMaybe 0 userState.world = .eSupportsNo ∧
    halfRequest.mipMapLevel = 1 ∧
    (match renderRoI_untilComputeRoI (noRenderScaleEnv true) (renderRoI (noRenderScaleEnv true) 2)
        0 halfRequest [] userState with
      | .val (.ok x) s1 =>
        (match renderRoI_untilRenderStep (noRenderScaleEnv true)
            (renderRoI (noRenderScaleEnv true) 2) 0 x.1 x.2 s1 with
          | .val (.ok y) _ =>
            some (y.1.planesToRender.planes.map fun p =>
                (decide (p.2.fullscaleImage =
                  ((noRenderScaleEnv true).getImageFromCacheOrCreate y.1.useDiskCacheNode y.1.key
                    ⟨0, y.1.rod, y.1.upscaledImageBounds, y.1.par, 0, y.1.isProjectFormat,
                     rgbaPlane, y.1.args.bitdepth, y.1.framesNeeded⟩ ()).1),
                 p.2.fullscaleImage.map (fun i => (i.id, i.mipMapLevel)),
                 p.2.downscaleImage.map (fun i => (i.id, i.mipMapLevel))))
          | _ => none)
      | _ => none) = some [(true, some (100, 0), some (0, 1))] ∧
    (match renderRoI_untilComputeRoI (noRenderScaleEnv true) (renderRoI (noRenderScaleEnv true) 2)
        0 halfRequest [] userState with
      | .val (.ok x) s1 =>
        (match renderRoI_untilRenderStep (noRenderScaleEnv true)
            (renderRoI (noRenderScaleEnv true) 2) 0 x.1 x.2 s1 with
          | .val (.ok y) _ => some (y.1.inputMipMapLevel, y.1.createInCache)
          | _ => none)
      | _ => none) = some (0, true) ∧
    (Out.planes (renderRoI (noRenderScaleEnv true) 3 0 halfRequest [] userState)).map
      (fun r => r.map fun i => (i.id, i.mipMapLevel)) = some [(0, 1)] := by
  refine ⟨by decide, by decide, by decide!, by decide!, by decide!⟩

/-- C14 (amended): when the node renders at full scale and downscales
(`renderFullScaleThenDownscale`) with its inputs rendered at the mip-map level 0
(`renderScaleOneUpstreamIfRenderScaleSupportDisabled`), the allocation of a plane that has no
cached image makes a new image at the requested mip-map level as the downscaled image, which is
not in the cache, and takes the full-scale image, at the mip-map level 0, from
`getOrCreateFromCacheInternal`: it is the image `getImageFromCacheOrCreate` makes in the cache
under the key of the render when the output is to be cached (`createInCache`), and a new image
that is not in the cache otherwise. At the end of a render that did not fail, the image returned
for the plane is the downscaled image, filled by `downscaleMipMap` from the full-scale image,
from the level 0 to the requested level. -/
theorem allocateImagePlane_full_scale_image {W : Type} (env : Env W) (l : Locals)
    (p : ImageComponents × PlaneToRender) (components : ImageComponents) (s : St W)
    (created : Image × St W) (params : ImageParams) (up : ImagePtr × St W)
    (hfull : l.renderFullScaleThenDownscale = true)
    (hone : l.renderScaleOneUpstreamIfRenderScaleSupportDisabled = true)
    (hnone : p.2.fullscaleImage = none)
    (hcomp : planeComponents l.outputComponents p.1 = some components)
    (hcreated : created = newImage env components l.rod l.downscaledImageBounds
      l.args.mipMapLevel l.par l.args.bitdepth true s)
    (hparams : params = ⟨if l.useDiskCacheNode then 1 else 0, l.rod, l.upscaledImageBounds,
      l.par, 0, l.isProjectFormat, components, l.args.bitdepth, l.framesNeeded⟩)
    (hup : up = getOrCreateFromCacheInternal env l.key params l.createInCache l.useDiskCacheNode
      created.2) :
    renderRoI_allocatePlanes env l [p] s =
      .val [(p.1, { p.2 with fullscaleImage := up.1, downscaleImage := some created.1 })] up.2 ∧
    created.1.mipMapLevel = l.args.mipMapLevel ∧
    (l.createInCache = true →
      up.1 = (env.getImageFromCacheOrCreate l.useDiskCacheNode l.key params created.2.world).1) ∧
    (l.createInCache = false →
      up = (some (newImage env components l.rod l.upscaledImageBounds 0 l.par l.args.bitdepth
              env.imageOfKeyUsesBitmap created.2).1,
            (newImage env components l.rod l.upscaledImageBounds 0 l.par l.args.bitdepth
              env.imageOfKeyUsesBitmap created.2).2)) ∧
    (∀ (renderRetCode : RenderRoIStatusEnum) (useAlpha0 : Bool) (plane : PlaneToRender)
        (full d : Image) (roi : RectI) (t : St W),
      renderRetCode ≠ .eRenderRoIStatusRenderFailed →
      plane.fullscaleImage = some full → plane.downscaleImage = some d → d ≠ full →
      l.args.bitdepth = d.bitDepth →
      renderRoI_assemblePlane env l renderRetCode useAlpha0 d.components plane roi t =
        .val (d, (env.rectIIntersect roi (env.imageGetBounds full t.world)).getD roi)
          (t.setWorld (env.downscaleMipMap full (env.imageGetRoD full t.world)
            ((env.rectIIntersect roi (env.imageGetBounds full t.world)).getD roi) 0
            l.args.mipMapLevel false d t.world))) := by
  refine ⟨?_, ?_, ?_, ?_, ?_⟩
  · subst hcreated hparams hup
    simp only [renderRoI_allocatePlanes, hcomp, hnone, allocateImagePlane, hfull, hone,
      Bool.and_self, if_true, Out.bind]
  · rw [hcreated]; rfl
  · intro hc
    rw [hup, hc]
    unfold getOrCreateFromCacheInternal
    simp only [if_true]
    split <;> simp_all
  · intro hc
    rw [hup, hc, hparams]
    rfl
  · intro renderRetCode useAlpha0 plane full d roi t hret hf hd hne hdepth
    have hne2 : ¬ (some d = some full) := fun h => hne (Option.some.inj h)
    unfold renderRoI_assemblePlane
    simp only [hret, hfull, hone, hf, hd, hdepth, ne_eq, not_false_eq_true, decide_True,
      Bool.and_self, if_true, hne2, if_false, Out.bind, not_true_eq_false, decide_False,
      Bool.or_self, Bool.false_and, Bool.false_eq_true]

/-- Witness of C14: the allocation of the color plane with the local variables
`allocatingLocals`, whose output is to be cached, and the end of the render for the images it
made -/
theorem allocateImagePlane_full_scale_image_witness :
    allocatingLocals.renderFullScaleThenDownscale = true ∧
    allocatingLocals.renderScaleOneUpstreamIfRenderScaleSupportDisabled = true ∧
    renderRoI_allocatePlanes (noRenderScaleEnv true) allocatingLocals
        [(rgbaPlane, PlaneToRender.new)] userState =
      .val [(rgbaPlane, { PlaneToRender.new with
          fullscaleImage := some ⟨100, rgbaPlane, 3, 0, 1, true⟩,
          downscaleImage := some ⟨0, rgbaPlane, 3, 1, 1, true⟩ })] userState ∧
    renderRoI_assemblePlane (noRenderScaleEnv true) allocatingLocals .eRenderRoIStatusImageRendered
        false rgbaPlane
        { PlaneToRender.new with fullscaleImage := some ⟨100, rgbaPlane, 3, 0, 1, true⟩,
                                 downscaleImage := some ⟨0, rgbaPlane, 3, 1, 1, true⟩ }
        ⟨10, 10, 50, 50⟩ userState =
      .val (⟨0, rgbaPlane, 3, 1, 1, true⟩, ⟨10, 10, 50, 50⟩) userState := by
  have hw := allocateImagePlane_full_scale_image (noRenderScaleEnv true) allocatingLocals
    (rgbaPlane, PlaneToRender.new) rgbaPlane userState _ _ _ (by decide) (by decide) rfl
    (by decide) rfl rfl rfl
  refine ⟨by decide, by decide, ?_, ?_⟩
  · exact hw.1
  · exact hw.2.2.2.2 .eRenderRoIStatusImageRendered false
      { PlaneToRender.new with fullscaleImage := some ⟨100, rgbaPlane, 3, 0, 1, true⟩,
                               downscaleImage := some ⟨0, rgbaPlane, 3, 1, 1, true⟩ }
      ⟨100, rgbaPlane, 3, 0, 1, true⟩ ⟨0, rgbaPlane, 3, 1, 1, true⟩ ⟨10, 10, 50, 50⟩ userState
      (by decide) rfl rfl (by decide) (by decide)

end Natron

namespace Natron

section Prefetch

variable {W : Type}

/-- The loop on the frames of a range: a measure `c` of the state that a render of the input
raises by one at most, and not at all when it returns no image, grows no more than the count
of frames pre-fetched, which stays below the maximum -/
theorem renderInputImagesForRoI_frames_bound (c : St W → Nat) (rec : RenderRoIFn W)
    (inputEffect : NodeId) (inArgs : SequenceTime → W → RenderRoIArgs) (last : Int)
    (hrec : ∀ a out s r s1, rec inputEffect a out s = .val r s1 →
      c s1 ≤ c s + (if r.2.isEmpty then 0 else 1)) (count : Nat) :
    ∀ (f : Int) (nb : Nat) (imgs : ImageList) (s : St W)
      (r : Except RenderRoIRetCode (Nat × ImageList)) (s1 : St W),
      nb ≤ NATRON_MAX_FRAMES_NEEDED_PRE_FETCHING →
      renderInputImagesForRoI_frames rec inputEffect inArgs last count f nb imgs s = .val r s1 →
      (∀ v, r = .ok v → c s1 + nb ≤ c s + v.1 ∧ v.1 ≤ NATRON_MAX_FRAMES_NEEDED_PRE_FETCHING) ∧
      (∀ ret, r = .error ret → c s1 + nb ≤ c s + NATRON_MAX_FRAMES_NEEDED_PRE_FETCHING) := by
  induction count with
  | zero =>
    intro f nb imgs s r s1 hnb h
    simp only [renderInputImagesForRoI_frames, Out.val.injEq] at h
    obtain ⟨rfl, rfl⟩ := h
    exact ⟨fun v hv => by cases hv; exact ⟨le_refl _, hnb⟩, fun ret hr => by cases hr⟩
  | succ count ih =>
    intro f nb imgs s r s1 hnb h
    rw [renderInputImagesForRoI_frames] at h
    by_cases hc : f ≤ last ∧ nb < NATRON_MAX_FRAMES_NEEDED_PRE_FETCHING
    · simp only [hc, and_self, if_true] at h
      cases hcall : rec inputEffect (inArgs f s.world) [] s with
      | diverge => rw [hcall] at h; simp [Out.bind] at h
      | exn e s0 => rw [hcall] at h; simp [Out.bind] at h
      | val r0 s0 =>
        rw [hcall] at h
        simp only [Out.bind] at h
        have hb := hrec _ _ _ _ _ hcall
        by_cases hok : r0.1 ≠ .eRenderRoIRetCodeOk
        · rw [if_pos hok] at h
          simp only [Out.val.injEq] at h
          obtain ⟨rfl, rfl⟩ := h
          refine ⟨fun v hv => (by cases hv), fun ret _ => ?_⟩
          have : c s0 ≤ c s + 1 := le_trans hb (by split <;> omega)
          omega
        · rw [if_neg hok] at h
          have hnb2 : (if r0.2.isEmpty then nb else nb + 1) ≤
              NATRON_MAX_FRAMES_NEEDED_PRE_FETCHING := by split <;> omega
          obtain ⟨h1, h2⟩ := ih _ _ _ _ _ _ hnb2 h
          refine ⟨fun v hv => ?_, fun ret hr => ?_⟩
          · obtain ⟨h3, h4⟩ := h1 v hv
            refine ⟨?_, h4⟩
            by_cases he : r0.2.isEmpty = true
            · simp only [he, if_true] at h3 hb; omega
            · simp only [he, Bool.false_eq_true, if_false] at h3 hb; omega
          · have h3 := h2 ret hr
            by_cases he : r0.2.isEmpty = true
            · simp only [he, if_true] at h3 hb; omega
            · simp only [he, Bool.false_eq_true, if_false] at h3 hb; omega
    · simp only [hc, if_false, Out.val.injEq] at h
      obtain ⟨rfl, rfl⟩ := h
      exact ⟨fun v hv => by cases hv; exact ⟨le_refl _, hnb⟩, fun ret hr => by cases hr⟩

/-- The loop on the ranges of a view keeps the bound of the loop on the frames -/
theorem renderInputImagesForRoI_ranges_bound (c : St W → Nat) (rec : RenderRoIFn W)
    (inputEffect : NodeId) (inArgs : SequenceTime → W → RenderRoIArgs)
    (hrec : ∀ a out s r s1, rec inputEffect a out s = .val r s1 →
      c s1 ≤ c s + (if r.2.isEmpty then 0 else 1)) (ranges : List OfxRangeD) :
    ∀ (nb : Nat) (imgs : ImageList) (s : St W)
      (r : Except RenderRoIRetCode (Nat × ImageList)) (s1 : St W),
      nb ≤ NATRON_MAX_FRAMES_NEEDED_PRE_FETCHING →
      renderInputImagesForRoI_ranges rec inputEffect inArgs ranges nb imgs s = .val r s1 →
      (∀ v, r = .ok v → c s1 + nb ≤ c s + v.1 ∧ v.1 ≤ NATRON_MAX_FRAMES_NEEDED_PRE_FETCHING) ∧
      (∀ ret, r = .error ret → c s1 + nb ≤ c s + NATRON_MAX_FRAMES_NEEDED_PRE_FETCHING) := by
  induction ranges with
  | nil =>
    intro nb imgs s r s1 hnb h
    simp only [renderInputImagesForRoI_ranges, Out.val.injEq] at h
    obtain ⟨rfl, rfl⟩ := h
    exact ⟨fun v hv => by cases hv; exact ⟨le_refl _, hnb⟩, fun ret hr => by cases hr⟩
  | cons range rest ih =>
    intro nb imgs s r s1 hnb h
    rw [renderInputImagesForRoI_ranges] at h
    cases hf : renderInputImagesForRoI_frames rec inputEffect inArgs (roundHalfUp range.max)
        (roundHalfUp range.max - roundHalfUp range.min + 1).toNat (roundHalfUp range.min) nb imgs
        s with
    | diverge => rw [hf] at h; simp [Out.bind] at h
    | exn e s0 => rw [hf] at h; simp [Out.bind] at h
    | val r0 s0 =>
      rw [hf] at h
      simp only [Out.bind] at h
      obtain ⟨f1, f2⟩ := renderInputImagesForRoI_frames_bound c rec inputEffect inArgs _ hrec _
        _ _ _ _ _ _ hnb hf
      cases r0 with
      | error ret0 =>
        simp only [Out.val.injEq] at h
        obtain ⟨rfl, rfl⟩ := h
        exact ⟨fun v hv => (by cases hv), fun ret _ => f2 ret0 rfl⟩
      | ok v0 =>
        simp only [] at h
        obtain ⟨g1, g2⟩ := f1 v0 rfl
        obtain ⟨h1, h2⟩ := ih _ _ _ _ _ g2 h
        refine ⟨fun v hv => ?_, fun ret hr => ?_⟩
        · obtain ⟨h3, h4⟩ := h1 v hv
          exact ⟨by omega, h4⟩
        · have h3 := h2 ret hr
          omega

/-- The loop on the views of an input: the count of frames pre-fetched starts at zero for
every view -/
theorem renderInputImagesForRoI_views_bound (c : St W → Nat) (rec : RenderRoIFn W)
    (inputEffect : NodeId) (inArgs : SequenceTime → W → RenderRoIArgs)
    (hrec : ∀ a out s r s1, rec inputEffect a out s = .val r s1 →
      c s1 ≤ c s + (if r.2.isEmpty then 0 else 1)) (views : List (Int × List OfxRangeD)) :
    ∀ (imgs : ImageList) (s : St W) (r : Except RenderRoIRetCode ImageList) (s1 : St W),
      renderInputImagesForRoI_views rec inputEffect inArgs views imgs s = .val r s1 →
      c s1 ≤ c s + NATRON_MAX_FRAMES_NEEDED_PRE_FETCHING * views.length := by
  induction views with
  | nil =>
    intro imgs s r s1 h
    simp only [renderInputImagesForRoI_views, Out.val.injEq] at h
    obtain ⟨_, rfl⟩ := h
    simp
  | cons it2 rest ih =>
    intro imgs s r s1 h
    rw [renderInputImagesForRoI_views] at h
    cases hr : renderInputImagesForRoI_ranges rec inputEffect inArgs it2.2 0 imgs s with
    | diverge => rw [hr] at h; simp [Out.bind] at h
    | exn e s0 => rw [hr] at h; simp [Out.bind] at h
    | val r0 s0 =>
      rw [hr] at h
      simp only [Out.bind] at h
      obtain ⟨f1, f2⟩ := renderInputImagesForRoI_ranges_bound c rec inputEffect inArgs hrec _
        _ _ _ _ _ (Nat.zero_le _) hr
      simp only [List.length_cons, Nat.mul_succ]
      cases r0 with
      | error ret0 =>
        simp only [Out.val.injEq] at h
        obtain ⟨_, rfl⟩ := h
        have := f2 ret0 rfl
        omega
      | ok v0 =>
        simp only [] at h
        obtain ⟨g1, g2⟩ := f1 v0 rfl
        have := ih _ _ _ _ h
        omega

end Prefetch

/-- C15 (counterexample): node 0 of the graph needs the frames 1 to 10 of its input, node 1, for
the views 0 and 1. One call of `renderInputImagesForRoI` renders the input eight times: the
frames 1 to 4 for each view. -/
theorem renderInputImagesForRoI_prefetches_eight_frames :
    ((temporalEnv [(0, [⟨1, 10⟩]), (1, [⟨1, 10⟩])]).getFramesNeeded 0 1 0 ()).1 =
      [(0, [(0, [⟨1, 10⟩]), (1, [⟨1, 10⟩])])] ∧
    (Out.state (renderInputImagesForRoI (temporalEnv [(0, [⟨1, 10⟩]), (1, [⟨1, 10⟩])])
      recordedRender 0 1 0 1 ⟨0, 0, 100, 100⟩ ⟨10, 10, 50, 50⟩ [] 0 ⟨1, 1⟩ ⟨1, 1⟩ false false
      [(0, [(0, [⟨1, 10⟩]), (1, [⟨1, 10⟩])])] [(-1, [rgbaPlane]), (0, [rgbaPlane])] [] []
      userState)).map (fun s => s.renderLog) =
      some [(1, .eStatusOK), (1, .eStatusOK), (1, .eStatusOK), (1, .eStatusOK),
            (1, .eStatusOK), (1, .eStatusOK), (1, .eStatusOK), (1, .eStatusOK)] ∧
    (Out.state (renderRoI (temporalEnv [(0, [⟨1, 10⟩]), (1, [⟨1, 10⟩])]) 3 0 colorRequest []
      userState)).map (fun s => s.renderLog) =
      some [(1, .eStatusOK), (1, .eStatusOK), (1, .eStatusOK), (1, .eStatusOK),
            (1, .eStatusOK), (1, .eStatusOK), (1, .eStatusOK), (1, .eStatusOK),
            (0, .eStatusOK)] := by
  decide!

/-- C15 (amended): in one call of `renderInputImagesForRoI`, for one input, the renders of the
input that return at least one image are at most `NATRON_MAX_FRAMES_NEEDED_PRE_FETCHING` = 4
for each view of the frames needed, hence at most 4 times the number of views. Here `c` is any
measure of the state that a render of the input raises by one at most, and leaves alone when
the render returns no image. -/
theorem renderInputImagesForRoI_prefetch_bound {W : Type} (c : St W → Nat)
    (rec : RenderRoIFn W) (inputEffect : NodeId) (inArgs : SequenceTime → W → RenderRoIArgs)
    (hrec : ∀ a out s r s1, rec inputEffect a out s = .val r s1 →
      c s1 ≤ c s + (if r.2.isEmpty then 0 else 1)) :
    NATRON_MAX_FRAMES_NEEDED_PRE_FETCHING = 4 ∧
    (∀ ranges imgs s r s1,
      renderInputImagesForRoI_ranges rec inputEffect inArgs ranges 0 imgs s = .val r s1 →
      c s1 ≤ c s + 4) ∧
    (∀ views imgs s r s1,
      renderInputImagesForRoI_views rec inputEffect inArgs views imgs s = .val r s1 →
      c s1 ≤ c s + 4 * views.length) := by
  refine ⟨rfl, ?_, ?_⟩
  · intro ranges imgs s r s1 h
    obtain ⟨f1, f2⟩ := renderInputImagesForRoI_ranges_bound c rec inputEffect inArgs hrec ranges
      0 imgs s r s1 (Nat.zero_le _) h
    cases r with
    | error ret => exact f2 ret rfl
    | ok v =>
      obtain ⟨g1, g2⟩ := f1 v rfl
      have : NATRON_MAX_FRAMES_NEEDED_PRE_FETCHING = 4 := rfl
      omega
  · intro views imgs s r s1 h
    exact renderInputImagesForRoI_views_bound c rec inputEffect inArgs hrec views imgs s r s1 h

/-- Witness of C15: the renders recorded by `recordedRender` for the frames 1 to 10 of one
view are four -/
theorem renderInputImagesForRoI_prefetch_bound_witness :
    (Out.state (renderInputImagesForRoI_views recordedRender 1
      (fun f _ => { colorRequest with time := f }) [(0, [⟨1, 10⟩])] [] userState)).map
      (fun s => s.renderLog.length) = some 4 ∧
    (match renderInputImagesForRoI_views recordedRender 1
        (fun f _ => { colorRequest with time := f }) [(0, [⟨1, 10⟩])] [] userState with
     | .val _ s1 => s1.renderLog.length ≤ userState.renderLog.length + 4 * 1
     | .exn _ _ => True
     | .diverge => True) := by
  refine ⟨by decide!, ?_⟩
  cases h : renderInputImagesForRoI_views recordedRender 1
      (fun f _ => { colorRequest with time := f }) [(0, [⟨1, 10⟩])] [] userState with
  | val r s1 =>
    exact (renderInputImagesForRoI_prefetch_bound (fun s => s.renderLog.length) recordedRender 1
      (fun f _ => { colorRequest with time := f })
      (by
        intro a out s r s1 h
        simp only [recordedRender, Out.val.injEq] at h
        obtain ⟨rfl, rfl⟩ := h
        simp)).2.2 [(0, [⟨1, 10⟩])] [] userState r s1 h
  | exn e s1 => trivial
  | diverge => trivial

end Natron

namespace Natron

section Aborted

variable {W : Type} (env : Env W)

/-- C16: `aborted ()` is false when the thread has no frame-level arguments or when their
nesting counter is zero. With valid arguments `a`: for a render made in response to a user
interaction that can be aborted, it is true exactly when the hash pinned in `a` differs from
the current hash of the node, or the time pinned in `a` differs from the current frame of the
timeline, or the node is deactivated; for a render that does not respond to a user interaction
it is the flag `isSequentialRenderBeingAborted ()` of the requester, and false without a
requester. -/
theorem aborted_decision (n : NodeId) (s : St W) (a : ParallelRenderArgs)
    (ha : (s.imp n).frameRenderArgs = some a) :
    (∀ s2 : St W, (s2.imp n).frameRenderArgs = none → aborted env n s2 = false) ∧
    (a.validArgs = 0 → aborted env n s = false) ∧
    (a.validArgs ≠ 0 → a.isRenderResponseToUserInteraction = true → a.canAbort = true →
      (aborted env n s = true ↔
        (a.nodeHash ≠ env.getHash n s.world ∨
         a.time ≠ env.timelineCurrentFrame a.timeline s.world ∨
         env.isActivated n s.world = false))) ∧
    (a.validArgs ≠ 0 → a.isRenderResponseToUserInteraction = false →
      aborted env n s =
        match a.renderRequester with
        | some r => env.isSequentialRenderBeingAborted r s.world
        | none => false) := by
  refine ⟨?_, ?_, ?_, ?_⟩
  · intro s2 h2
    simp [aborted, h2]
  · intro hv
    simp [aborted, ha, hv]
  · intro hv hu hc
    simp [aborted, ha, hv, hu, hc, or_assoc]
  · intro hv hu
    simp only [aborted, ha, hv, hu, if_false, Bool.false_eq_true]

end Aborted

/-- Witness of C16: in `abortableState` node 0 renders frame 1 while the timeline is at
frame 0 -/
theorem aborted_decision_witness :
    (abortableState.imp 0).frameRenderArgs = some (abortableArgs 0) ∧
    aborted baseEnv 0 abortableState = true :=
  ⟨rfl, ((aborted_decision baseEnv 0 abortableState (abortableArgs 0) rfl).2.2.1
    (by decide) rfl rfl).2 (Or.inr (Or.inl (by decide)))⟩

end Natron

namespace Natron

section Counter

variable {W : Type}

theorem St.setFrameRenderArgs_imp_self (s : St W) (n : NodeId) (a : ParallelRenderArgs) :
    ((s.setFrameRenderArgs n a).imp n).frameRenderArgs = some a := by
  simp [St.setFrameRenderArgs, St.modifyImp]

theorem St.setFrameRenderArgs_imp_other (s : St W) (n m : NodeId) (a : ParallelRenderArgs)
    (h : m ≠ n) : (s.setFrameRenderArgs n a).imp m = s.imp m := by
  simp [St.setFrameRenderArgs, St.modifyImp, Function.update, h]

theorem frameRenderArgsOf_setFrameRenderArgs (s : St W) (n : NodeId) (a : ParallelRenderArgs) :
    frameRenderArgsOf n (s.setFrameRenderArgs n a) = a := by
  simp [frameRenderArgsOf, St.setFrameRenderArgs_imp_self]

theorem decrementedValidArgs_nonneg (v : Int) : 0 ≤ decrementedValidArgs v := by
  unfold decrementedValidArgs
  split <;> omega

theorem decrementedValidArgs_succ (v : Int) (h : 0 ≤ v) : decrementedValidArgs (v + 1) = v := by
  unfold decrementedValidArgs
  split <;> omega

theorem rotoPaintNodesIdle_decrement (n m : NodeId) (nodes : List NodeId) (s : St W)
    (b : ParallelRenderArgs) (hb : (s.imp m).frameRenderArgs = some b)
    (h : rotoPaintNodesIdle n nodes s) :
    rotoPaintNodesIdle n nodes
      (s.setFrameRenderArgs m { b with validArgs := decrementedValidArgs b.validArgs }) := by
  intro k hk
  refine ⟨(h k hk).1, ?_⟩
  intro c hc
  by_cases hkm : k = m
  · subst hkm
    rw [St.setFrameRenderArgs_imp_self] at hc
    cases hc
    refine ⟨((h k hk).2 b hb).1, ?_⟩
    have := decrementedValidArgs_nonneg b.validArgs
    show decrementedValidArgs b.validArgs ≠ INT_MIN
    unfold INT_MIN
    omega
  · rw [St.setFrameRenderArgs_imp_other _ _ _ _ hkm] at hc
    exact (h k hk).2 c hc

/-- The calls of `invalidateParallelRenderArgsTLS` on a list of idle roto-paint nodes end, leave
the arguments of node `n` alone and keep every list of nodes idle -/
theorem invalidateParallelRenderArgsTLS_nodes (fuel : Nat) (n : NodeId) (nodes : List NodeId) :
    ∀ (s : St W), rotoPaintNodesIdle n nodes s →
    ∃ s1, nodes.foldl
        (fun (acc : Out (St W) Unit) m =>
          acc.bind fun _ s2 => invalidateParallelRenderArgsTLS (fuel + 1) m s2)
        (Out.val () s) = Out.val () s1 ∧
      s1.imp n = s.imp n ∧
      ∀ others, rotoPaintNodesIdle n others s → rotoPaintNodesIdle n others s1 := by
  induction nodes with
  | nil => intro s _; exact ⟨s, rfl, rfl, fun _ h => h⟩
  | cons m rest ih =>
    intro s h
    have hm := h m (List.mem_cons_self _ _)
    have hrest : rotoPaintNodesIdle n rest s := fun k hk => h k (List.mem_cons_of_mem _ hk)
    simp only [List.foldl_cons, Out.bind]
    cases hb : (s.imp m).frameRenderArgs with
    | none =>
      have e : invalidateParallelRenderArgsTLS (fuel + 1) m s = .val () s := by
        simp [invalidateParallelRenderArgsTLS, hb]
      rw [e]
      exact ih s hrest
    | some b =>
      have hb2 := hm.2 b hb
      have e : invalidateParallelRenderArgsTLS (fuel + 1) m s =
          .val () (s.setFrameRenderArgs m
            { b with validArgs := decrementedValidArgs b.validArgs }) := by
        simp [invalidateParallelRenderArgsTLS, hb, hb2.1, hb2.2]
      rw [e]
      obtain ⟨s1, h1, h2, h3⟩ := ih _ (rotoPaintNodesIdle_decrement n m rest s b hb hrest)
      refine ⟨s1, h1, ?_, ?_⟩
      · rw [h2, St.setFrameRenderArgs_imp_other _ _ _ _ (Ne.symm hm.1)]
      · intro others ho
        exact h3 others (rotoPaintNodesIdle_decrement n m others s b hb ho)

/-- One call of `invalidateParallelRenderArgsTLS` on a node whose roto-paint nodes are idle -/
theorem invalidateParallelRenderArgsTLS_counter (fuel : Nat) (n : NodeId) (s : St W)
    (a : ParallelRenderArgs) (ha : (s.imp n).frameRenderArgs = some a)
    (hmin : a.validArgs ≠ INT_MIN) (hidle : rotoPaintNodesIdle n a.rotoPaintNodes s) :
    ∃ s1, invalidateParallelRenderArgsTLS (fuel + 2) n s = .val () s1 ∧
      (s1.imp n).frameRenderArgs =
        some { a with validArgs := decrementedValidArgs a.validArgs } ∧
      ∀ others, rotoPaintNodesIdle n others s → rotoPaintNodesIdle n others s1 := by
  have hidle2 : rotoPaintNodesIdle n a.rotoPaintNodes
      (s.setFrameRenderArgs n { a with validArgs := decrementedValidArgs a.validArgs }) :=
    rotoPaintNodesIdle_decrement n n _ s a ha hidle
  obtain ⟨s1, h1, h2, h3⟩ := invalidateParallelRenderArgsTLS_nodes fuel n a.rotoPaintNodes _ hidle2
  refine ⟨s1, ?_, ?_, ?_⟩
  · rw [invalidateParallelRenderArgsTLS]
    simp only [ha, hmin, if_false]
    exact h1
  · rw [h2, St.setFrameRenderArgs_imp_self]
  · intro others ho
    exact h3 others (rotoPaintNodesIdle_decrement n n others s a ha ho)

/-- The calls of `setParallelRenderArgsTLS (const ParallelRenderArgs&)` in a row: the counter
grows by the number of calls, the last arguments are installed, the other nodes are left alone -/
theorem setParallelRenderArgsTLS_all_counter (n : NodeId) (as : List ParallelRenderArgs) :
    ∀ (s : St W), (frameRenderArgsOf n s).validArgs + as.length ≤ INT_MAX →
    ∃ s1, setParallelRenderArgsTLS_all n as s = .val () s1 ∧
      (frameRenderArgsOf n s1).validArgs = (frameRenderArgsOf n s).validArgs + as.length ∧
      (∀ m, m ≠ n → s1.imp m = s.imp m) ∧
      (∀ last, as.getLast? = some last →
        ∃ a1, (s1.imp n).frameRenderArgs = some a1 ∧ a1.rotoPaintNodes = last.rotoPaintNodes) := by
  induction as with
  | nil =>
    intro s _
    exact ⟨s, rfl, by simp, fun _ _ => rfl, fun _ h => by simp at h⟩
  | cons a rest ih =>
    intro s hs
    simp only [List.length_cons, Nat.cast_add, Nat.cast_one] at hs
    have hlt : (frameRenderArgsOf n s).validArgs ≠ INT_MAX := by
      have : (0 : Int) ≤ rest.length := Int.natCast_nonneg _
      omega
    have hv := frameRenderArgsOf_setFrameRenderArgs s n
      { a with validArgs := (frameRenderArgsOf n s).validArgs + 1 }
    obtain ⟨s1, h1, h2, h3, h4⟩ := ih
      (s.setFrameRenderArgs n { a with validArgs := (frameRenderArgsOf n s).validArgs + 1 })
      (by rw [hv]; show (frameRenderArgsOf n s).validArgs + 1 + rest.length ≤ INT_MAX; omega)
    refine ⟨s1, ?_, ?_, ?_, ?_⟩
    · simp only [setParallelRenderArgsTLS_all, setParallelRenderArgsTLS_copy, hlt, if_false,
        Out.bind]
      exact h1
    · rw [h2, hv]
      simp only [List.length_cons, Nat.cast_add, Nat.cast_one]
      show (frameRenderArgsOf n s).validArgs + 1 + rest.length = _
      omega
    · intro m hm
      rw [h3 m hm, St.setFrameRenderArgs_imp_other _ _ _ _ hm]
    · intro last hlast
      cases rest with
      | nil =>
        simp only [List.getLast?_singleton, Option.some.injEq] at hlast
        subst hlast
        simp only [setParallelRenderArgsTLS_all, Out.val.injEq, true_and] at h1
        subst h1
        exact ⟨_, St.setFrameRenderArgs_imp_self _ _ _, rfl⟩
      | cons b rest2 =>
        rw [List.getLast?_cons_cons] at hlast
        exact h4 last hlast

/-- The calls of `invalidateParallelRenderArgsTLS` in a row on a node whose roto-paint nodes are
idle: the counter loses one per call while it is positive -/
theorem invalidateParallelRenderArgsTLS_times_counter (fuel : Nat) (n : NodeId) (k : Nat) :
    ∀ (s : St W) (a : ParallelRenderArgs) (v : Int), (s.imp n).frameRenderArgs = some a →
      a.validArgs = v + k → 0 ≤ v → rotoPaintNodesIdle n a.rotoPaintNodes s →
    ∃ s1 a1, invalidateParallelRenderArgsTLS_times (fuel + 2) n k s = .val () s1 ∧
      (s1.imp n).frameRenderArgs = some a1 ∧ a1.validArgs = v := by
  induction k with
  | zero =>
    intro s a v ha hv _ _
    exact ⟨s, a, rfl, ha, by simpa using hv⟩
  | succ k ih =>
    intro s a v ha hv h0 hidle
    have hmin : a.validArgs ≠ INT_MIN := by
      have : (0 : Int) ≤ (k + 1 : Nat) := Int.natCast_nonneg _
      unfold INT_MIN
      omega
    obtain ⟨s1, h1, h2, h3⟩ := invalidateParallelRenderArgsTLS_counter fuel n s a ha hmin hidle
    have hdec : decrementedValidArgs a.validArgs = v + k := by
      rw [hv]
      have : v + ((k + 1 : Nat) : Int) = (v + k) + 1 := by push_cast; ring
      rw [this]
      exact decrementedValidArgs_succ _ (by have : (0 : Int) ≤ k := Int.natCast_nonneg _; omega)
    obtain ⟨s2, a2, h4, h5, h6⟩ := ih s1 _ v h2 hdec h0 (h3 _ hidle)
    refine ⟨s2, a2, ?_, h5, h6⟩
    simp only [invalidateParallelRenderArgsTLS_times, h1, Out.bind]
    exact h4

end Counter

end Natron

namespace Natron

/-- C17: the nesting counter `validArgs` of the frame-level arguments of a node. From a counter
`v` that is not negative and below `INT_MAX`: each overload of `setParallelRenderArgsTLS`
leaves the counter `v + 1`, whatever counter the copied arguments carry; a call of
`invalidateParallelRenderArgsTLS` leaves `v - 1`, or zero when `v` is zero, and does nothing
on a thread without arguments; a sequence of calls of `setParallelRenderArgsTLS` followed by as
many calls of `invalidateParallelRenderArgsTLS` leaves the counter `v`. The counter is never
negative after a call. The roto-paint nodes named in the arguments are other nodes whose own
arguments name no roto-paint node. -/
theorem parallelRenderArgs_counter {W : Type} (n : NodeId) (s : St W)
    (as : List ParallelRenderArgs)
    (h0 : 0 ≤ (frameRenderArgsOf n s).validArgs)
    (hlt : (frameRenderArgsOf n s).validArgs < INT_MAX)
    (hmax : (frameRenderArgsOf n s).validArgs + as.length ≤ INT_MAX)
    (hidle : ∀ a ∈ as, rotoPaintNodesIdle n a.rotoPaintNodes s) :
    (∀ (time view : Int) (isRenderUserInteraction isSequential canAbort : Bool)
       (nodeHash rotoAge renderAge : U64) (renderRequester : Option NodeId) (textureIndex : Int)
       (timeline : Option Nat) (isAnalysis isDuringPaintStrokeCreation : Bool)
       (rotoPaintNodes : List NodeId) (currentThreadSafety : RenderSafetyEnum)
       (doNanHandling : Bool),
      ∃ s1, setParallelRenderArgsTLS n time view isRenderUserInteraction isSequential canAbort
          nodeHash rotoAge renderAge renderRequester textureIndex timeline isAnalysis
          isDuringPaintStrokeCreation rotoPaintNodes currentThreadSafety doNanHandling s =
          .val () s1 ∧
        (frameRenderArgsOf n s1).validArgs = (frameRenderArgsOf n s).validArgs + 1) ∧
    (∀ args : ParallelRenderArgs,
      ∃ s1, setParallelRenderArgsTLS_copy n args s = .val () s1 ∧
        (frameRenderArgsOf n s1).validArgs = (frameRenderArgsOf n s).validArgs + 1) ∧
    (∀ (fuel : Nat) (a : ParallelRenderArgs), (s.imp n).frameRenderArgs = some a →
      rotoPaintNodesIdle n a.rotoPaintNodes s →
      ∃ s1, invalidateParallelRenderArgsTLS (fuel + 2) n s = .val () s1 ∧
        (frameRenderArgsOf n s1).validArgs =
          (if a.validArgs - 1 < 0 then 0 else a.validArgs - 1) ∧
        0 ≤ (frameRenderArgsOf n s1).validArgs) ∧
    (∀ fuel : Nat, (s.imp n).frameRenderArgs = none →
      invalidateParallelRenderArgsTLS (fuel + 1) n s = .val () s) ∧
    (∀ fuel : Nat, ∃ s1 s2, setParallelRenderArgsTLS_all n as s = .val () s1 ∧
      invalidateParallelRenderArgsTLS_times (fuel + 2) n as.length s1 = .val () s2 ∧
      (frameRenderArgsOf n s2).validArgs = (frameRenderArgsOf n s).validArgs) := by
  have hne : (frameRenderArgsOf n s).validArgs ≠ INT_MAX := by omega
  refine ⟨?_, ?_, ?_, ?_, ?_⟩
  · intro time view u sq ca nh ra rg rr ti tl an dp rp ts dn
    simp only [setParallelRenderArgsTLS, hne, if_false]
    exact ⟨_, rfl, by rw [frameRenderArgsOf_setFrameRenderArgs]⟩
  · intro args
    simp only [setParallelRenderArgsTLS_copy, hne, if_false]
    exact ⟨_, rfl, by rw [frameRenderArgsOf_setFrameRenderArgs]⟩
  · intro fuel a ha hi
    have hv : (frameRenderArgsOf n s).validArgs = a.validArgs := by
      simp [frameRenderArgsOf, ha]
    have hmin : a.validArgs ≠ INT_MIN := by
      rw [← hv]; unfold INT_MIN; omega
    obtain ⟨s1, h1, h2, _⟩ := invalidateParallelRenderArgsTLS_counter fuel n s a ha hmin hi
    have hc : (frameRenderArgsOf n s1).validArgs = decrementedValidArgs a.validArgs := by
      simp [frameRenderArgsOf, h2]
    refine ⟨s1, h1, ?_, ?_⟩
    · rw [hc]; rfl
    · rw [hc]; exact decrementedValidArgs_nonneg _
  · intro fuel hnone
    simp [invalidateParallelRenderArgsTLS, hnone]
  · intro fuel
    obtain ⟨s1, h1, h2, h3, h4⟩ := setParallelRenderArgsTLS_all_counter n as s hmax
    cases hl : as.getLast? with
    | none =>
      have hnil : as = [] := by simpa using hl
      subst hnil
      simp only [setParallelRenderArgsTLS_all, Out.val.injEq, true_and] at h1
      subst h1
      exact ⟨_, _, rfl, rfl, rfl⟩
    | some last =>
      obtain ⟨a1, ha1, hr⟩ := h4 last hl
      have hv1 : a1.validArgs = (frameRenderArgsOf n s).validArgs + as.length := by
        rw [← h2]; simp [frameRenderArgsOf, ha1]
      have hidle1 : rotoPaintNodesIdle n a1.rotoPaintNodes s1 := by
        rw [hr]
        intro m hm
        have hs := hidle last (List.mem_of_mem_getLast? hl) m hm
        refine ⟨hs.1, ?_⟩
        rw [h3 m hs.1]
        exact hs.2
      obtain ⟨s2, a2, h5, h6, h7⟩ :=
        invalidateParallelRenderArgsTLS_times_counter fuel n as.length s1 a1 _ ha1 hv1 h0 hidle1
      exact ⟨s1, s2, h1, h5, by simp [frameRenderArgsOf, h6, h7]⟩

/-- Witness of C17: node 0 of `abortableState`, whose counter is 1, and one call of
`setParallelRenderArgsTLS` with arguments that name the roto-paint node 1 -/
theorem parallelRenderArgs_counter_witness :
    (frameRenderArgsOf 0 abortableState).validArgs = 1 ∧
    ∃ s1 s2,
      setParallelRenderArgsTLS_all 0 [{ abortableArgs 0 with rotoPaintNodes := [1] }]
        abortableState = .val () s1 ∧
      invalidateParallelRenderArgsTLS_times 2 0 1 s1 = .val () s2 ∧
      (frameRenderArgsOf 0 s2).validArgs = (frameRenderArgsOf 0 abortableState).validArgs :=
  ⟨rfl,
   (parallelRenderArgs_counter 0 abortableState [{ abortableArgs 0 with rotoPaintNodes := [1] }]
     (by decide) (by decide) (by decide)
     (by
       intro a ha
       simp only [List.mem_singleton] at ha
       subst ha
       intro m hm
       simp only [List.mem_singleton] at hm
       subst hm
       refine ⟨by decide, ?_⟩
       intro b hb
       have hb2 : b = abortableArgs 1 := by
         have : (abortableState.imp 1).frameRenderArgs = some (abortableArgs 1) := rfl
         rw [this] at hb
         exact (Option.some.inj hb).symm
       subst hb2
       exact ⟨rfl, by decide⟩)).2.2.2.2 0⟩

end Natron

namespace Natron

/-- C18 (failing input): node 0 of `secondInputOnlyEnv` has nothing connected to its input 0
and node 1, whose frame range is 1 - 10, connected to its input 1. The default `getFrameRange`
of node 0 returns `INT_MIN` - `INT_MAX`: the range of the only connected input is compared
with the initial values and changes nothing. In `maskedEnv`, where the inputs 0 and 1 are
connected, the function returns 1 - 10. -/
theorem getFrameRange_default_second_input_only :
    secondInputOnlyEnv.getMaxInputCount 0 () = 2 ∧
    secondInputOnlyEnv.getInput 0 0 () = none ∧
    secondInputOnlyEnv.getInput 0 1 () = some 1 ∧
    (secondInputOnlyEnv.getFrameRange 1 ()).1 = (1, 10) ∧
    (getFrameRange_default secondInputOnlyEnv 0 ()).1 = (INT_MIN, INT_MAX) ∧
    (getFrameRange_default maskedEnv 0 ()).1 = (1, 10) := by
  decide

end Natron

namespace Natron

section DefaultPolicies

variable {W : Type} (env : Env W)

theorem RoIMap.find_insert_same (m : RoIMap) (k : Option NodeId) (v : RectD)
    (hall : ∀ v2, RoIMap.find m k = some v2 → v2 = v) :
    RoIMap.find (RoIMap.insert m k v) k = some v := by
  unfold RoIMap.insert RoIMap.find at *
  cases h : m.lookup k with
  | some v2 => simp only [h]; rw [hall v2 h]
  | none => simp [h, List.lookup_append]

theorem RoIMap.find_insert_kept (m : RoIMap) (k k2 : Option NodeId) (v v2 : RectD)
    (h : RoIMap.find m k2 = some v2) : RoIMap.find (RoIMap.insert m k v) k2 = some v2 := by
  unfold RoIMap.insert RoIMap.find at *
  cases hk : m.lookup k with
  | some _ => simpa using h
  | none => simp [List.lookup_append, h]

theorem RoIMap.find_insert_value (m : RoIMap) (k k2 : Option NodeId) (v v2 : RectD)
    (hall : ∀ k3 v3, RoIMap.find m k3 = some v3 → v3 = v)
    (h : RoIMap.find (RoIMap.insert m k v) k2 = some v2) : v2 = v := by
  unfold RoIMap.insert RoIMap.find at *
  cases hk : m.lookup k with
  | some _ => rw [hk] at h; exact hall k2 v2 h
  | none =>
    rw [hk] at h
    simp only [List.lookup_append] at h
    cases h2 : m.lookup k2 with
    | some v3 =>
      rw [h2] at h
      simp only [Option.or_some, Option.some.injEq] at h
      rw [← h]; exact hall k2 v3 h2
    | none =>
      rw [h2] at h
      simp only [Option.none_or, List.lookup_cons, List.lookup_nil] at h
      split at h
      · exact (Option.some.inj h).symm
      · exact absurd h (by simp)

/-- The loop of the default `getRegionsOfInterest`: every connected input met has the render
window in the map, and the map holds no other value -/
theorem getRegionsOfInterest_loop (n : NodeId) (renderWindow : RectD) (w : W)
    (l : List Nat) :
    ∀ (m : RoIMap), (∀ k v, RoIMap.find m k = some v → v = renderWindow) →
      (∀ k v, RoIMap.find (l.foldl (fun m (i : Nat) =>
          match env.getInput n i w with
          | some input => RoIMap.insert m (some input) renderWindow
          | none => m) m) k = some v → v = renderWindow) ∧
      (∀ k v, RoIMap.find m k = some v → RoIMap.find (l.foldl (fun m (i : Nat) =>
          match env.getInput n i w with
          | some input => RoIMap.insert m (some input) renderWindow
          | none => m) m) k = some v) ∧
      (∀ i ∈ l, ∀ e, env.getInput n (i : Nat) w = some e → RoIMap.find (l.foldl (fun m (i : Nat) =>
          match env.getInput n i w with
          | some input => RoIMap.insert m (some input) renderWindow
          | none => m) m) (some e) = some renderWindow) := by
  induction l with
  | nil =>
    intro m hall
    exact ⟨hall, fun _ _ h => h, fun i hi => by simp at hi⟩
  | cons j rest ih =>
    intro m hall
    simp only [List.foldl_cons]
    cases hj : env.getInput n (j : Nat) w with
    | none =>
      simp only []
      obtain ⟨h1, h2, h3⟩ := ih m hall
      refine ⟨h1, h2, ?_⟩
      intro i hi e he
      rcases List.mem_cons.1 hi with rfl | hi2
      · rw [hj] at he; exact absurd he (by simp)
      · exact h3 i hi2 e he
    | some input =>
      simp only []
      have hall2 : ∀ k v, RoIMap.find (RoIMap.insert m (some input) renderWindow) k = some v →
          v = renderWindow := fun k v h => RoIMap.find_insert_value m _ k _ v hall h
      obtain ⟨h1, h2, h3⟩ := ih _ hall2
      refine ⟨h1, fun k v h => h2 k v (RoIMap.find_insert_kept m _ k _ v h), ?_⟩
      intro i hi e he
      rcases List.mem_cons.1 hi with rfl | hi2
      · rw [hj] at he
        cases he
        exact h2 _ _ (RoIMap.find_insert_same m _ _ (fun v2 hv => hall _ v2 hv))
      · exact h3 i hi2 e he

theorem StdMap.find_insert_int_self {V : Type} (m : List (Int × V)) (k : Int) (d : V)
    (hall : ∀ v, StdMap.find (fun a b => decide (a < b)) m k = some v → v = d) :
    StdMap.find (fun a b => decide (a < b)) (StdMap.insert (fun a b => decide (a < b)) m k d) k =
      some d := by
  induction m with
  | nil => simp [StdMap.insert, StdMap.find]
  | cons p rest ih =>
    obtain ⟨k2, v2⟩ := p
    simp only [StdMap.insert]
    by_cases h1 : k < k2
    · simp [h1, StdMap.find]
    · by_cases h2 : k2 < k
      · simp only [h1, h2, decide_False, decide_True, Bool.false_eq_true, if_false, if_true,
          StdMap.find]
        simp only [Bool.not_false, Bool.not_true, Bool.and_false, Bool.false_eq_true, if_false]
        apply ih
        intro v hv
        apply hall
        simp only [StdMap.find, h1, h2, decide_False, decide_True, Bool.not_false, Bool.not_true,
          Bool.and_false, Bool.false_eq_true, if_false]
        exact hv
      · simp only [h1, h2, decide_False, Bool.false_eq_true, if_false]
        have : StdMap.find (fun a b => decide (a < b)) ((k2, v2) :: rest) k = some v2 := by
          simp [StdMap.find, h1, h2]
        rw [this, hall v2 this]

theorem StdMap.find_insert_int_other {V : Type} (m : List (Int × V)) (k k2 : Int) (d : V)
    (hne : k2 ≠ k) :
    StdMap.find (fun a b => decide (a < b)) (StdMap.insert (fun a b => decide (a < b)) m k d)
      k2 = StdMap.find (fun a b => decide (a < b)) m k2 := by
  apply StdMap.find_insert_other
  simp only [Bool.and_eq_false_imp, Bool.not_eq_true', decide_eq_false_iff_not, not_lt,
    Bool.not_eq_false', decide_eq_true_eq]
  intro h
  omega

/-- The loop of the default `getFramesNeeded`: every input met that is connected or is the
roto brush has the requested view with the one range in the map -/
theorem getFramesNeeded_loop (n : NodeId) (d : List (Int × List OfxRangeD)) (w : W)
    (l : List Nat) :
    ∀ (m : FramesNeededMap),
      (∀ k v, StdMap.find (fun a b => decide (a < b)) m k = some v → v = d) →
      (∀ k v, StdMap.find (fun a b => decide (a < b)) (l.foldl (fun ret (i : Nat) =>
          if env.isInputRotoBrush n i w then
            StdMap.insert (fun a b => decide (a < b)) ret (i : Int) d
          else
            match env.getInput n i w with
            | some _ => StdMap.insert (fun a b => decide (a < b)) ret (i : Int) d
            | none => ret) m) k = some v → v = d) ∧
      (∀ k v, StdMap.find (fun a b => decide (a < b)) m k = some v →
        StdMap.find (fun a b => decide (a < b)) (l.foldl (fun ret (i : Nat) =>
          if env.isInputRotoBrush n i w then
            StdMap.insert (fun a b => decide (a < b)) ret (i : Int) d
          else
            match env.getInput n i w with
            | some _ => StdMap.insert (fun a b => decide (a < b)) ret (i : Int) d
            | none => ret) m) k = some v) ∧
      (∀ i ∈ l, (env.isInputRotoBrush n (i : Nat) w = true ∨
          (env.getInput n (i : Nat) w).isSome) →
        StdMap.find (fun a b => decide (a < b)) (l.foldl (fun ret (i : Nat) =>
          if env.isInputRotoBrush n i w then
            StdMap.insert (fun a b => decide (a < b)) ret (i : Int) d
          else
            match env.getInput n i w with
            | some _ => StdMap.insert (fun a b => decide (a < b)) ret (i : Int) d
            | none => ret) m) (i : Int) = some d) := by
  induction l with
  | nil =>
    intro m hall
    exact ⟨hall, fun _ _ h => h, fun i hi => by simp at hi⟩
  | cons j rest ih =>
    intro m hall
    simp only [List.foldl_cons]
    have hins : ∀ k v, StdMap.find (fun a b => decide (a < b))
        (StdMap.insert (fun a b => decide (a < b)) m (j : Int) d) k = some v → v = d := by
      intro k v h
      by_cases hk : k = (j : Int)
      · subst hk
        rw [StdMap.find_insert_int_self m _ d (fun v hv => hall _ v hv)] at h
        exact (Option.some.inj h).symm
      · rw [StdMap.find_insert_int_other m _ k d hk] at h
        exact hall k v h
    have hkept : ∀ k v, StdMap.find (fun a b => decide (a < b)) m k = some v →
        StdMap.find (fun a b => decide (a < b))
          (StdMap.insert (fun a b => decide (a < b)) m (j : Int) d) k = some v := by
      intro k v h
      by_cases hk : k = (j : Int)
      · subst hk
        rw [StdMap.find_insert_int_self m _ d (fun v hv => hall _ v hv), hall _ v h]
      · rw [StdMap.find_insert_int_other m _ k d hk]; exact h
    have hself := StdMap.find_insert_int_self m (j : Int) d (fun v hv => hall _ v hv)
    by_cases hr : env.isInputRotoBrush n (j : Nat) w = true
    · simp only [hr, if_true]
      obtain ⟨h1, h2, h3⟩ := ih _ hins
      refine ⟨h1, fun k v h => h2 k v (hkept k v h), ?_⟩
      intro i hi hc
      rcases List.mem_cons.1 hi with rfl | hi2
      · exact h2 _ _ hself
      · exact h3 i hi2 hc
    · simp only [hr, Bool.false_eq_true, if_false]
      cases hj : env.getInput n (j : Nat) w with
      | none =>
        simp only []
        obtain ⟨h1, h2, h3⟩ := ih m hall
        refine ⟨h1, h2, ?_⟩
        intro i hi hc
        rcases List.mem_cons.1 hi with rfl | hi2
        · rw [hj] at hc
          rcases hc with hc | hc
          · exact absurd hc hr
          · simp at hc
        · exact h3 i hi2 hc
      | some input =>
        simp only []
        obtain ⟨h1, h2, h3⟩ := ih _ hins
        refine ⟨h1, fun k v h => h2 k v (hkept k v h), ?_⟩
        intro i hi hc
        rcases List.mem_cons.1 hi with rfl | hi2
        · exact h2 _ _ hself
        · exact h3 i hi2 hc

/-- C19: the default `getRegionsOfInterest` and `getFramesNeeded` agree. For every input
number `i` below `getMaxInputCount ()` whose input is connected to an effect `e`, the map of
the default `getRegionsOfInterest`, called on an empty map, holds the render window for `e`, and
the map of the default `getFramesNeeded` holds for `i` the requested view with the single range
from `time` to `time`. Every region in the first map is the render window. -/
theorem default_roi_and_framesNeeded_consistent (n : NodeId) (time : SequenceTime) (view : Int)
    (renderWindow : RectD) (w : W) (i : Nat) (e : NodeId)
    (hi : (i : Int) < env.getMaxInputCount n w) (he : env.getInput n (i : Nat) w = some e) :
    RoIMap.find (getRegionsOfInterest_default env n renderWindow [] w) (some e) =
      some renderWindow ∧
    StdMap.find (fun a b => decide (a < b)) (getFramesNeeded_default env n time view w) (i : Int) =
      some [(view, [⟨time, time⟩])] ∧
    (∀ k v, RoIMap.find (getRegionsOfInterest_default env n renderWindow [] w) k = some v →
      v = renderWindow) := by
  have hmem : i ∈ List.range (env.getMaxInputCount n w).toNat := by
    rw [List.mem_range]; omega
  obtain ⟨h1, _, h3⟩ := getRegionsOfInterest_loop env n renderWindow w
    (List.range (env.getMaxInputCount n w).toNat) [] (fun k v h => by simp [RoIMap.find] at h)
  obtain ⟨_, _, g3⟩ := getFramesNeeded_loop env n [(view, [⟨(time : ℚ), (time : ℚ)⟩])] w
    (List.range (env.getMaxInputCount n w).toNat) [] (fun k v h => by simp [StdMap.find] at h)
  exact ⟨h3 i hmem e he, g3 i hmem (Or.inr (by simp [he])), h1⟩

end DefaultPolicies

/-- Witness of C19: the input 1 of node 0 of `maskedEnv` is connected to node 2 -/
theorem default_roi_and_framesNeeded_consistent_witness :
    ((1 : Nat) : Int) < maskedEnv.getMaxInputCount 0 () ∧
    maskedEnv.getInput 0 ((1 : Nat) : Int) () = some 2 ∧
    RoIMap.find (getRegionsOfInterest_default maskedEnv 0 ⟨0, 0, 30, 30⟩ [] ()) (some 2) =
      some ⟨0, 0, 30, 30⟩ ∧
    StdMap.find (fun a b => decide (a < b)) (getFramesNeeded_default maskedEnv 0 7 0 ())
      ((1 : Nat) : Int) = some [(0, [⟨7, 7⟩])] :=
  ⟨by decide, by decide,
   (default_roi_and_framesNeeded_consistent maskedEnv 0 7 0 ⟨0, 0, 30, 30⟩ () 1 2 (by decide)
     (by decide)).1,
   (default_roi_and_framesNeeded_consistent maskedEnv 0 7 0 ⟨0, 0, 30, 30⟩ () 1 2 (by decide)
     (by decide)).2.1⟩

end Natron

namespace Natron

theorem RectD.null_isNull : RectD.null.isNull = true := by decide

theorem RectD.boundingBox_isNull (a b : RectD) (ha : a.isNull = false) :
    (RectD.mk (min a.x1 b.x1) (min a.y1 b.y1) (max a.x2 b.x2) (max a.y2 b.y2)).isNull = false := by
  simp only [RectD.isNull, Bool.or_eq_false_iff, decide_eq_false_iff_not, not_le] at ha ⊢
  exact ⟨lt_of_le_of_lt (min_le_left _ _) (lt_of_lt_of_le ha.1 (le_max_left _ _)),
    lt_of_le_of_lt (min_le_left _ _) (lt_of_lt_of_le ha.2 (le_max_left _ _))⟩

theorem unionIgnoringEmpty_isNull (a b : RectD) :
    (unionIgnoringEmpty a b).isNull = (a.isNull && b.isNull) := by
  unfold unionIgnoringEmpty
  cases ha : a.isNull <;> cases hb : b.isNull <;>
    simp [ha, hb, RectD.null_isNull, RectD.boundingBox_isNull a b]

theorem unionIgnoringEmpty_comm (a b : RectD) :
    unionIgnoringEmpty a b = unionIgnoringEmpty b a := by
  unfold unionIgnoringEmpty
  cases ha : a.isNull <;> cases hb : b.isNull <;> simp [min_comm, max_comm]

theorem unionIgnoringEmpty_assoc (a b c : RectD) :
    unionIgnoringEmpty (unionIgnoringEmpty a b) c =
      unionIgnoringEmpty a (unionIgnoringEmpty b c) := by
  have hab := unionIgnoringEmpty_isNull a b
  have hbc := unionIgnoringEmpty_isNull b c
  rw [unionIgnoringEmpty.eq_def (unionIgnoringEmpty a b) c,
    unionIgnoringEmpty.eq_def a (unionIgnoringEmpty b c), hab, hbc]
  cases ha : a.isNull <;> cases hb : b.isNull <;> cases hc : c.isNull <;>
    simp [unionIgnoringEmpty, ha, hb, hc, min_assoc, max_assoc]
section DefaultRoD

variable {W : Type} (env : Env W)

/-- The loop of the default `getRegionOfDefinition` on a node whose connections do not change:
it asks the connected inputs that are not masks, in turn -/
theorem getRegionOfDefinition_inputs_eq (n : NodeId) (hash : U64) (time : SequenceTime)
    (scale : RenderScale) (view : Int) (inputs : Int → Option NodeId) (masks : Int → Bool)
    (hInput : ∀ i w, env.getInput n i w = inputs i)
    (hMask : ∀ i w, env.isInputMask n i w = masks i) (l : List Nat) :
    ∀ (acc : RoDLoop) (s : St W),
      (∀ rods s1, inputRoDs env hash time scale view
          (l.filterMap fun (i : Nat) => if masks (i : Int) then none else inputs (i : Int)) s = (some rods, s1) →
        getRegionOfDefinition_inputs env n hash time scale view l acc s =
          (.ok (match rods with
                | [] => acc
                | r :: rest =>
                  ⟨rest.foldl env.rectDMerge
                    (if acc.firstInput then r else env.rectDMerge acc.rod r), false⟩), s1)) ∧
      (∀ s1, inputRoDs env hash time scale view
          (l.filterMap fun (i : Nat) => if masks (i : Int) then none else inputs (i : Int)) s = (none, s1) →
        ∃ r, getRegionOfDefinition_inputs env n hash time scale view l acc s = (.error r, s1)) := by
  induction l with
  | nil =>
    intro acc s
    refine ⟨?_, ?_⟩
    · intro rods s1 h
      simp only [List.filterMap_nil, inputRoDs, Prod.mk.injEq, Option.some.injEq] at h
      obtain ⟨rfl, rfl⟩ := h
      rfl
    · intro s1 h
      simp [inputRoDs] at h
  | cons i rest ih =>
    intro acc s
    rw [getRegionOfDefinition_inputs, hMask, hInput]
    by_cases hm : masks i = true
    · simp only [hm, if_true, List.filterMap_cons]
      exact ih acc s
    · simp only [hm, Bool.false_eq_true, if_false]
      cases he : inputs i with
      | none =>
        simp only [List.filterMap_cons, hm, he, Bool.false_eq_true, if_false]
        exact ih acc s
      | some e =>
        simp only [List.filterMap_cons, hm, he, Bool.false_eq_true, if_false]
        rw [inputRoDs.eq_def]
        simp only []
        by_cases hf : (getRegionOfDefinition_public env e hash time scale view RectD.null false
            s).1.1 = .eStatusFailed
        · simp only [hf, if_true]
          refine ⟨?_, ?_⟩
          · intro rods s1 h
            simp at h
          · intro s1 h
            simp only [Prod.mk.injEq, true_and] at h
            subst h
            exact ⟨_, rfl⟩
        · simp only [hf, if_false]
          obtain ⟨h1, h2⟩ := ih
            (if acc.firstInput then
               ⟨(getRegionOfDefinition_public env e hash time scale view RectD.null false
                 s).1.2.1, false⟩
             else
               ⟨env.rectDMerge acc.rod (getRegionOfDefinition_public env e hash time scale view
                 RectD.null false s).1.2.1, false⟩)
            (getRegionOfDefinition_public env e hash time scale view RectD.null false s).2
          cases hr : inputRoDs env hash time scale view
            (rest.filterMap fun (i : Nat) => if masks (i : Int) then none else inputs (i : Int))
            (getRegionOfDefinition_public env e hash time scale view RectD.null false s).2 with
          | mk o s2 =>
            cases o with
            | none =>
              refine ⟨?_, ?_⟩
              · intro rods s1 h
                simp at h
              · intro s1 h
                simp only [Prod.mk.injEq, true_and] at h
                subst h
                exact h2 s2 hr
            | some rods2 =>
              refine ⟨?_, ?_⟩
              · intro rods s1 h
                simp only [Prod.mk.injEq, Option.some.injEq] at h
                obtain ⟨rfl, rfl⟩ := h
                rw [h1 rods2 s2 hr]
                cases rods2 with
                | nil => by_cases hfi : acc.firstInput = true <;> simp [hfi]
                | cons r2 rest2 => by_cases hfi : acc.firstInput = true <;> simp [hfi]
              · intro s1 h
                simp at h

theorem unionRoD_perm (merge : RectD → RectD → RectD) (rod : RectD)
    (hcomm : ∀ a b, merge a b = merge b a)
    (hassoc : ∀ a b c, merge (merge a b) c = merge a (merge b c))
    (l1 l2 : List RectD) (h : l1.Perm l2) : unionRoD merge rod l1 = unionRoD merge rod l2 := by
  have hrc : ∀ (l : List RectD) (a b : RectD), l.foldl merge (merge a b) = merge a (l.foldl merge b) := by
    intro l
    induction l with
    | nil => intro a b; rfl
    | cons x rest ih =>
      intro a b
      simp only [List.foldl_cons]
      rw [hassoc, ih]
  induction h with
  | nil => rfl
  | cons x _ ih =>
    rename_i la lb hp
    simp only [unionRoD]
    cases la with
    | nil => rw [List.Perm.nil_eq hp]
    | cons y la2 =>
      cases lb with
      | nil => exact absurd hp.symm (List.Perm.nil_eq · |> fun e => by simp at e)
      | cons z lb2 =>
        simp only [unionRoD] at ih
        simp only [List.foldl_cons]
        rw [hrc, hrc, ih]
  | swap x y l =>
    simp only [unionRoD, List.foldl_cons]
    rw [hcomm]
  | trans _ _ ih1 ih2 => rw [ih1, ih2]

theorem unionRoD_isNull (merge : RectD → RectD → RectD) (rod : RectD)
    (hnull : ∀ a b, (merge a b).isNull = (a.isNull && b.isNull)) (r : RectD) (l : List RectD) :
    (unionRoD merge rod (r :: l)).isNull = (r :: l).all fun x => x.isNull := by
  simp only [unionRoD]
  induction l generalizing r with
  | nil => simp
  | cons x rest ih =>
    simp only [List.foldl_cons]
    rw [ih, List.all_cons, List.all_cons, List.all_cons, hnull, Bool.and_assoc]

end DefaultRoD

end Natron

namespace Natron

/-- C20 (counterexample): node 0 of `wideMaskEnv` has node 1, whose RoD is (0, 0) - (100, 100),
connected to its input 0 and node 2, whose RoD is (0, 0) - (200, 200), connected to its input
1, a mask. The default `getRegionOfDefinition` of node 0 returns (0, 0) - (100, 100): the RoD
of the mask is not in the union. -/
theorem getRegionOfDefinition_default_skips_mask :
    wideMaskEnv.getInput 0 0 () = some 1 ∧
    wideMaskEnv.getInput 0 1 () = some 2 ∧
    wideMaskEnv.isInputMask 0 1 () = true ∧
    (getRegionOfDefinition_public wideMaskEnv 1 100 1 ⟨1, 1⟩ 0 RectD.null false idleState).1 =
      (.eStatusOK, ⟨0, 0, 100, 100⟩, false) ∧
    (getRegionOfDefinition_public wideMaskEnv 2 100 1 ⟨1, 1⟩ 0 RectD.null false idleState).1 =
      (.eStatusOK, ⟨0, 0, 200, 200⟩, false) ∧
    wideMaskEnv.rectDMerge ⟨0, 0, 100, 100⟩ ⟨0, 0, 200, 200⟩ = ⟨0, 0, 200, 200⟩ ∧
    (getRegionOfDefinition_default wideMaskEnv 0 100 1 ⟨1, 1⟩ 0 RectD.null idleState).1 =
      (.eStatusReplyDefault, ⟨0, 0, 100, 100⟩) := by
  decide

section DefaultRoDClaim

variable {W : Type} (env : Env W)

/-- C20 (amended): on a node whose connections do not change during the call, the default
`getRegionOfDefinition` asks the connected inputs that are not masks, in the order of their
numbers. When a call of `getRegionOfDefinition_public` on one of them fails, it returns
`eStatusFailed`. Otherwise it returns `eStatusReplyDefault` with the union of their RoDs, made
with `RectD::merge` (`*rod` is left alone when there is no such input). With a `merge` that is
commutative and associative the union does not depend on the order of the RoDs; with a `merge`
whose result is empty exactly when both rectangles are, the union of at least one RoD is empty
exactly when every RoD is. -/
theorem getRegionOfDefinition_default_union (n : NodeId) (hash : U64) (time : SequenceTime)
    (scale : RenderScale) (view : Int) (rod : RectD) (s : St W)
    (inputs : Int → Option NodeId) (masks : Int → Bool)
    (hInput : ∀ i w, env.getInput n i w = inputs i)
    (hMask : ∀ i w, env.isInputMask n i w = masks i)
    (hcomm : ∀ a b, env.rectDMerge a b = env.rectDMerge b a)
    (hassoc : ∀ a b c, env.rectDMerge (env.rectDMerge a b) c =
      env.rectDMerge a (env.rectDMerge b c))
    (hnull : ∀ a b, (env.rectDMerge a b).isNull = (a.isNull && b.isNull)) :
    (∀ rods s1,
      inputRoDs env hash time scale view (nonMaskInputs env n s.world) s = (some rods, s1) →
      getRegionOfDefinition_default env n hash time scale view rod s =
        ((.eStatusReplyDefault, unionRoD env.rectDMerge rod rods), s1) ∧
      (∀ rods2 : List RectD, rods2.Perm rods →
        unionRoD env.rectDMerge rod rods2 = unionRoD env.rectDMerge rod rods) ∧
      (rods ≠ [] →
        (unionRoD env.rectDMerge rod rods).isNull = rods.all fun r => r.isNull)) ∧
    (∀ s1, inputRoDs env hash time scale view (nonMaskInputs env n s.world) s = (none, s1) →
      (getRegionOfDefinition_default env n hash time scale view rod s).1.1 = .eStatusFailed ∧
      (getRegionOfDefinition_default env n hash time scale view rod s).2 = s1) := by
  have hnm : nonMaskInputs env n s.world =
      (List.range (env.getMaxInputCount n s.world).toNat).filterMap
        fun (i : Nat) => if masks (i : Int) then none else inputs (i : Int) := by
    unfold nonMaskInputs
    congr 1
    funext i
    rw [hMask, hInput]
  obtain ⟨h1, h2⟩ := getRegionOfDefinition_inputs_eq env n hash time scale view inputs masks
    hInput hMask (List.range (env.getMaxInputCount n s.world).toNat) ⟨rod, true⟩ s
  rw [hnm]
  refine ⟨?_, ?_⟩
  · intro rods s1 h
    refine ⟨?_, fun rods2 hp => unionRoD_perm _ rod hcomm hassoc _ _ hp, ?_⟩
    · unfold getRegionOfDefinition_default
      rw [h1 rods s1 h]
      cases rods <;> rfl
    · intro hne
      cases rods with
      | nil => exact absurd rfl hne
      | cons r rest => exact unionRoD_isNull _ rod hnull r rest
  · intro s1 h
    obtain ⟨r, hr⟩ := h2 s1 h
    unfold getRegionOfDefinition_default
    rw [hr]
    exact ⟨rfl, rfl⟩

end DefaultRoDClaim

/-- Witness of C20: node 0 of `wideMaskUnionEnv`, where rectangles are merged by
`unionIgnoringEmpty`; its only input that is not a mask is node 1 -/
theorem getRegionOfDefinition_default_union_witness :
    (getRegionOfDefinition_default wideMaskUnionEnv 0 100 1 ⟨1, 1⟩ 0 RectD.null idleState).1 =
      (.eStatusReplyDefault, ⟨0, 0, 100, 100⟩) := by
  have h := ((getRegionOfDefinition_default_union wideMaskUnionEnv 0 100 1 ⟨1, 1⟩ 0 RectD.null
    idleState (fun i => wideMaskUnionEnv.getInput 0 i ())
    (fun i => wideMaskUnionEnv.isInputMask 0 i ()) (fun _ _ => rfl) (fun _ _ => rfl)
    unionIgnoringEmpty_comm unionIgnoringEmpty_assoc unionIgnoringEmpty_isNull).1 _ _ rfl).1
  rw [h]
  decide

end Natron

namespace Natron

section HeuristicClaim

variable {W : Type} (env : Env W)

theorem RectD.isFinite_iff (kmin kmax : ℚ) (r : RectD) :
    r.isFinite kmin kmax = true ↔
      (kmin < r.x1 ∧ r.x1 < kmax) ∧ (kmin < r.y1 ∧ r.y1 < kmax) ∧
      (kmin < r.x2 ∧ r.x2 < kmax) ∧ (kmin < r.y2 ∧ r.y2 < kmax) := by
  unfold RectD.isFinite
  simp only [Bool.and_eq_true, decide_eq_true_eq]
  tauto

/-- The loop over the inputs leaves the union of the RoDs it reads, or the initial rectangle
when it reads none -/
theorem ifInfiniteApplyHeuristic_inputs_eq (n : NodeId) (hash : U64) (time : SequenceTime)
    (scale : RenderScale) (view : Int) (P : RectD → Prop)
    (hmerge : ∀ a b, P a → P b → P (env.rectDMerge a b)) (inputs : List Nat) :
    ∀ (acc : RoDLoop) (s : St W), P acc.rod →
      (∀ r ∈ ifInfiniteApplyHeuristic_inputRoDs env n hash time scale view inputs s, P r) →
      P (ifInfiniteApplyHeuristic_inputs env n hash time scale view inputs acc s).1.rod := by
  induction inputs with
  | nil => intro acc s hacc _; exact hacc
  | cons i rest ih =>
    intro acc s hacc hr
    rw [ifInfiniteApplyHeuristic_inputs]
    rw [ifInfiniteApplyHeuristic_inputRoDs] at hr
    cases hin : env.getInput n i s.world with
    | none =>
      rw [hin] at hr
      exact ih acc s hacc hr
    | some input =>
      rw [hin] at hr
      simp only [] at hr ⊢
      obtain ⟨sc, hsc⟩ : ∃ sc : RenderScale, sc =
          (if env.supportsRenderScaleMaybe input s.world = .eSupportsNo then ⟨1, 1⟩
           else scale) := ⟨_, rfl⟩
      rw [← hsc] at hr ⊢
      by_cases hst : (getRegionOfDefinition_public env input hash time sc view RectD.null
          false s).1.1 ≠ .eStatusFailed
      · rw [if_pos hst] at hr ⊢
        apply ih
        · split
          · exact hr _ (List.mem_cons_self _ _)
          · exact hmerge _ _ hacc (hr _ (List.mem_cons_self _ _))
        · intro r hmem
          exact hr r (List.mem_cons_of_mem _ hmem)
      · rw [if_neg hst] at hr ⊢
        exact ih acc _ hacc hr

/-- The coordinates that the clipping leaves, one axis at a time -/
theorem ifInfiniteApplyHeuristic_clip_coords (kmin kmax : ℚ) (u pd rod : RectD) :
    (ifInfiniteApplyHeuristic_clip kmin kmax u pd rod).1.x1 =
      (if rod.x2 ≥ kmax then
        min (if rod.x1 ≤ kmin then (if !u.isNull then min u.x1 pd.x1 else pd.x1) else rod.x1)
          (if !u.isNull then max u.x2 pd.x2 else pd.x2)
       else (if rod.x1 ≤ kmin then (if !u.isNull then min u.x1 pd.x1 else pd.x1) else rod.x1)) ∧
    (ifInfiniteApplyHeuristic_clip kmin kmax u pd rod).1.x2 =
      (if rod.x2 ≥ kmax then (if !u.isNull then max u.x2 pd.x2 else pd.x2)
       else (if rod.x1 ≤ kmin then
         max (if !u.isNull then min u.x1 pd.x1 else pd.x1) rod.x2 else rod.x2)) ∧
    (ifInfiniteApplyHeuristic_clip kmin kmax u pd rod).1.y1 =
      (if rod.y2 ≥ kmax then
        min (if rod.y1 ≤ kmin then (if !u.isNull then min u.y1 pd.y1 else pd.y1) else rod.y1)
          (if !u.isNull then max u.y2 pd.y2 else pd.y2)
       else (if rod.y1 ≤ kmin then (if !u.isNull then min u.y1 pd.y1 else pd.y1) else rod.y1)) ∧
    (ifInfiniteApplyHeuristic_clip kmin kmax u pd rod).1.y2 =
      (if rod.y2 ≥ kmax then (if !u.isNull then max u.y2 pd.y2 else pd.y2)
       else (if rod.y1 ≤ kmin then
         max (if !u.isNull then min u.y1 pd.y1 else pd.y1) rod.y2 else rod.y2)) := by
  unfold ifInfiniteApplyHeuristic_clip
  simp only [decide_eq_true_eq, ge_iff_le]
  by_cases h1 : rod.x1 ≤ kmin <;> by_cases h2 : rod.y1 ≤ kmin <;>
    by_cases h3 : kmax ≤ rod.x2 <;> by_cases h4 : kmax ≤ rod.y2 <;>
    simp only [h1, h2, h3, h4, if_true, if_false, and_self]

/-- One axis of the clipping: with a low bound `lo` and a high bound `hi` that are finite and
in order, the two coordinates end finite and in order -/
theorem ifInfiniteApplyHeuristic_clip_axis (kmin kmax lo hi a b : ℚ) (hab : a ≤ b)
    (hlo : kmin < lo ∧ lo < kmax) (hhi : kmin < hi ∧ hi < kmax) :
    kmin < (if b ≥ kmax then min (if a ≤ kmin then lo else a) hi
            else (if a ≤ kmin then lo else a)) ∧
    (if b ≥ kmax then hi else (if a ≤ kmin then max lo b else b)) < kmax ∧
    (if b ≥ kmax then min (if a ≤ kmin then lo else a) hi
     else (if a ≤ kmin then lo else a)) ≤
      (if b ≥ kmax then hi else (if a ≤ kmin then max lo b else b)) := by
  obtain ⟨l1, l2⟩ := hlo
  obtain ⟨h1, h2⟩ := hhi
  by_cases ha : a ≤ kmin <;> by_cases hb : b ≥ kmax
  · simp only [ha, hb, if_true]
    exact ⟨lt_min l1 h1, h2, min_le_right _ _⟩
  · simp only [ha, hb, if_true, if_false]
    exact ⟨l1, max_lt l2 (lt_of_not_ge hb), le_max_left _ _⟩
  · simp only [ha, hb, if_true, if_false]
    exact ⟨lt_min (lt_of_not_ge ha) h1, h2, min_le_right _ _⟩
  · simp only [ha, hb, if_false]
    exact ⟨lt_of_not_ge ha, lt_of_not_ge hb, hab⟩

/-- The clipping of the four coordinates against a union of the inputs that is empty or finite
and a project format that is finite: no coordinate is left infinite, and the rectangle stays
well formed -/
theorem ifInfiniteApplyHeuristic_clip_finite (kmin kmax : ℚ) (u pd rod : RectD)
    (hrod : rod.x1 ≤ rod.x2 ∧ rod.y1 ≤ rod.y2)
    (hpd : pd.isFinite kmin kmax = true)
    (hu : u.isNull = true ∨ u.isFinite kmin kmax = true) :
    kmin < (ifInfiniteApplyHeuristic_clip kmin kmax u pd rod).1.x1 ∧
    kmin < (ifInfiniteApplyHeuristic_clip kmin kmax u pd rod).1.y1 ∧
    (ifInfiniteApplyHeuristic_clip kmin kmax u pd rod).1.x2 < kmax ∧
    (ifInfiniteApplyHeuristic_clip kmin kmax u pd rod).1.y2 < kmax ∧
    (ifInfiniteApplyHeuristic_clip kmin kmax u pd rod).1.x1 ≤
      (ifInfiniteApplyHeuristic_clip kmin kmax u pd rod).1.x2 ∧
    (ifInfiniteApplyHeuristic_clip kmin kmax u pd rod).1.y1 ≤
      (ifInfiniteApplyHeuristic_clip kmin kmax u pd rod).1.y2 := by
  obtain ⟨hx, hy⟩ := hrod
  rw [RectD.isFinite_iff] at hpd
  obtain ⟨⟨p1, p2⟩, ⟨p3, p4⟩, ⟨p5, p6⟩, ⟨p7, p8⟩⟩ := hpd
  obtain ⟨e1, e2, e3, e4⟩ := ifInfiniteApplyHeuristic_clip_coords kmin kmax u pd rod
  rw [e1, e2, e3, e4]
  have hlo : (kmin < (if !u.isNull then min u.x1 pd.x1 else pd.x1) ∧
      (if !u.isNull then min u.x1 pd.x1 else pd.x1) < kmax) ∧
      (kmin < (if !u.isNull then max u.x2 pd.x2 else pd.x2) ∧
      (if !u.isNull then max u.x2 pd.x2 else pd.x2) < kmax) ∧
      (kmin < (if !u.isNull then min u.y1 pd.y1 else pd.y1) ∧
      (if !u.isNull then min u.y1 pd.y1 else pd.y1) < kmax) ∧
      (kmin < (if !u.isNull then max u.y2 pd.y2 else pd.y2) ∧
      (if !u.isNull then max u.y2 pd.y2 else pd.y2) < kmax) := by
    rcases hu with hu | hu
    · simp only [hu, Bool.not_true, Bool.false_eq_true, if_false]
      exact ⟨⟨p1, p2⟩, ⟨p5, p6⟩, ⟨p3, p4⟩, ⟨p7, p8⟩⟩
    · rw [RectD.isFinite_iff] at hu
      obtain ⟨⟨u1, u2⟩, ⟨u3, u4⟩, ⟨u5, u6⟩, ⟨u7, u8⟩⟩ := hu
      cases hn : u.isNull
      · simp only [Bool.not_false, if_true]
        exact ⟨⟨lt_min u1 p1, lt_of_le_of_lt (min_le_left _ _) u2⟩,
          ⟨lt_of_lt_of_le u5 (le_max_left _ _), max_lt u6 p6⟩,
          ⟨lt_min u3 p3, lt_of_le_of_lt (min_le_left _ _) u4⟩,
          ⟨lt_of_lt_of_le u7 (le_max_left _ _), max_lt u8 p8⟩⟩
      · simp only [Bool.not_true, Bool.false_eq_true, if_false]
        exact ⟨⟨p1, p2⟩, ⟨p5, p6⟩, ⟨p3, p4⟩, ⟨p7, p8⟩⟩
  obtain ⟨hxlo, hxhi, hylo, hyhi⟩ := hlo
  obtain ⟨a1, a2, a3⟩ := ifInfiniteApplyHeuristic_clip_axis kmin kmax _ _ rod.x1 rod.x2 hx
    hxlo hxhi
  obtain ⟨b1, b2, b3⟩ := ifInfiniteApplyHeuristic_clip_axis kmin kmax _ _ rod.y1 rod.y2 hy
    hylo hyhi
  exact ⟨a1, b1, a2, b2, a3, b3⟩

/-- The bounding box of two finite rectangles is finite -/
theorem RectD.isFinite_boundingBox (kmin kmax : ℚ) (a b : RectD)
    (ha : a.isFinite kmin kmax = true) (hb : b.isFinite kmin kmax = true) :
    RectD.isFinite kmin kmax
      ⟨min a.x1 b.x1, min a.y1 b.y1, max a.x2 b.x2, max a.y2 b.y2⟩ = true := by
  rw [RectD.isFinite_iff] at ha hb ⊢
  obtain ⟨⟨a1, a2⟩, ⟨a3, a4⟩, ⟨a5, a6⟩, ⟨a7, a8⟩⟩ := ha
  obtain ⟨⟨b1, b2⟩, ⟨b3, b4⟩, ⟨b5, b6⟩, ⟨b7, b8⟩⟩ := hb
  exact ⟨⟨lt_min a1 b1, lt_of_le_of_lt (min_le_left _ _) a2⟩,
    ⟨lt_min a3 b3, lt_of_le_of_lt (min_le_left _ _) a4⟩,
    ⟨lt_of_lt_of_le a5 (le_max_left _ _), max_lt a6 b6⟩,
    ⟨lt_of_lt_of_le a7 (le_max_left _ _), max_lt a8 b8⟩⟩

end HeuristicClaim

/-- C21: `ifInfiniteApplyHeuristic` never leaves an infinite coordinate. For a rectangle
`rod` with `x1 <= x2` and `y1 <= y2`, a project format whose canonical rectangle and whose
default RoD (`calcDefaultRegionOfDefinition`) are finite, finite RoDs of the connected inputs
(those the loop reads with a status other than `eStatusFailed`) and a `RectD::merge` that
keeps rectangles finite, the rectangle returned has `x1` and `y1` greater than
`kOfxFlagInfiniteMin`, `x2` and `y2` less than `kOfxFlagInfiniteMax`, and `x1 <= x2`,
`y1 <= y2`: the closing assertion holds. -/
theorem ifInfiniteApplyHeuristic_finite {W : Type} (env : Env W)
    (kOfxFlagInfiniteMin kOfxFlagInfiniteMax : ℚ) (projectFormat : RectI)
    (toCanonicalFormat : RectI → RectD) (isGenerator : Bool) (n : NodeId) (hash : U64)
    (time : SequenceTime) (scale : RenderScale) (view : Int) (rod : RectD) (s : St W)
    (hrod : rod.x1 ≤ rod.x2 ∧ rod.y1 ≤ rod.y2)
    (hpd : (toCanonicalFormat projectFormat).isFinite kOfxFlagInfiniteMin kOfxFlagInfiniteMax =
      true)
    (hdef : (calcDefaultRegionOfDefinition projectFormat).isFinite kOfxFlagInfiniteMin
      kOfxFlagInfiniteMax = true)
    (hin : ∀ r ∈ ifInfiniteApplyHeuristic_inputRoDs env n hash time scale view
        (List.range (env.getMaxInputCount n s.world).toNat) s,
      r.isFinite kOfxFlagInfiniteMin kOfxFlagInfiniteMax = true)
    (hmerge : ∀ a b : RectD, a.isFinite kOfxFlagInfiniteMin kOfxFlagInfiniteMax = true →
      b.isFinite kOfxFlagInfiniteMin kOfxFlagInfiniteMax = true →
      (env.rectDMerge a b).isFinite kOfxFlagInfiniteMin kOfxFlagInfiniteMax = true) :
    kOfxFlagInfiniteMin <
      (ifInfiniteApplyHeuristic env kOfxFlagInfiniteMin kOfxFlagInfiniteMax projectFormat
        toCanonicalFormat isGenerator n hash time scale view rod s).1.2.x1 ∧
    kOfxFlagInfiniteMin <
      (ifInfiniteApplyHeuristic env kOfxFlagInfiniteMin kOfxFlagInfiniteMax projectFormat
        toCanonicalFormat isGenerator n hash time scale view rod s).1.2.y1 ∧
    (ifInfiniteApplyHeuristic env kOfxFlagInfiniteMin kOfxFlagInfiniteMax projectFormat
      toCanonicalFormat isGenerator n hash time scale view rod s).1.2.x2 <
      kOfxFlagInfiniteMax ∧
    (ifInfiniteApplyHeuristic env kOfxFlagInfiniteMin kOfxFlagInfiniteMax projectFormat
      toCanonicalFormat isGenerator n hash time scale view rod s).1.2.y2 <
      kOfxFlagInfiniteMax ∧
    (ifInfiniteApplyHeuristic env kOfxFlagInfiniteMin kOfxFlagInfiniteMax projectFormat
      toCanonicalFormat isGenerator n hash time scale view rod s).1.2.x1 ≤
      (ifInfiniteApplyHeuristic env kOfxFlagInfiniteMin kOfxFlagInfiniteMax projectFormat
        toCanonicalFormat isGenerator n hash time scale view rod s).1.2.x2 ∧
    (ifInfiniteApplyHeuristic env kOfxFlagInfiniteMin kOfxFlagInfiniteMax projectFormat
      toCanonicalFormat isGenerator n hash time scale view rod s).1.2.y1 ≤
      (ifInfiniteApplyHeuristic env kOfxFlagInfiniteMin kOfxFlagInfiniteMax projectFormat
        toCanonicalFormat isGenerator n hash time scale view rod s).1.2.y2 := by
  unfold ifInfiniteApplyHeuristic
  simp only []
  apply ifInfiniteApplyHeuristic_clip_finite _ _ _ _ _ hrod hpd
  split
  · right
    exact ifInfiniteApplyHeuristic_inputs_eq env n hash time scale view
      (fun r => r.isFinite kOfxFlagInfiniteMin kOfxFlagInfiniteMax = true) hmerge _ _ _ hdef hin
  · left
    rfl

/-- Witness of C21: node 0 of `chainEnv` with a RoD infinite on the x axis, the values
`INT_MIN` and `INT_MAX` for the infinite flags and a project format of 1920 by 1080; the RoD of
its input is (0, 0) - (100, 100), and the rectangle returned is (0, 0) - (1920, 50) -/
theorem ifInfiniteApplyHeuristic_finite_witness :
    (ifInfiniteApplyHeuristic chainEnv INT_MIN INT_MAX ⟨0, 0, 1920, 1080⟩
      calcDefaultRegionOfDefinition false 0 100 1 ⟨1, 1⟩ 0 ⟨INT_MIN, 0, INT_MAX, 50⟩
      idleState).1.2 = ⟨0, 0, 1920, 50⟩ ∧
    ((INT_MIN : ℚ) <
      (ifInfiniteApplyHeuristic chainEnv INT_MIN INT_MAX ⟨0, 0, 1920, 1080⟩
        calcDefaultRegionOfDefinition false 0 100 1 ⟨1, 1⟩ 0 ⟨INT_MIN, 0, INT_MAX, 50⟩
        idleState).1.2.x1) ∧
    ((ifInfiniteApplyHeuristic chainEnv INT_MIN INT_MAX ⟨0, 0, 1920, 1080⟩
        calcDefaultRegionOfDefinition false 0 100 1 ⟨1, 1⟩ 0 ⟨INT_MIN, 0, INT_MAX, 50⟩
        idleState).1.2.x2 < (INT_MAX : ℚ)) := by
  have h := ifInfiniteApplyHeuristic_finite chainEnv INT_MIN INT_MAX ⟨0, 0, 1920, 1080⟩
    calcDefaultRegionOfDefinition false 0 100 1 ⟨1, 1⟩ 0 ⟨INT_MIN, 0, INT_MAX, 50⟩ idleState
    (by decide) (by decide) (by decide) (by decide)
    (fun a b ha hb => RectD.isFinite_boundingBox _ _ a b ha hb)
  exact ⟨by decide, h.1, h.2.2.1⟩

end Natron

namespace Natron

/-- The body of `renderRoI`, whatever serves its recursive calls, is the identity check run on
the locals of `renderRoI_beforeIdentity` -/
theorem renderRoI_body_eq_identity_stage {W : Type} (env : Env W) (fuel : Nat)
    (rec : RenderRoIFn W) (n : NodeId) (args : RenderRoIArgs) (outputPlanes : ImageList)
    (s : St W) (l : Locals) (sR : St W)
    (h : renderRoI_beforeIdentity env n args s = some (l, sR)) :
    renderRoI_body env fuel rec n args outputPlanes s =
      renderRoI_identity env fuel rec n l outputPlanes sR := by
  unfold renderRoI_beforeIdentity at h
  split at h
  · exact absurd h (by simp)
  · rename_i hne
    have hbody : renderRoI_body env fuel rec n args outputPlanes s =
        renderRoI_getRoD env fuel rec n
          (renderRoI_initLocals env n args (renderRoI_frameArgs env n args s)) outputPlanes
          (renderRoI_frameArgs env n args s) := by
      unfold renderRoI_body
      exact if_neg hne
    rw [hbody]
    unfold renderRoI_getRoD
    split at h
    · rename_i hpre
      simp only [Option.some.injEq, Prod.mk.injEq] at h
      obtain ⟨hl, hs⟩ := h
      subst hl hs
      exact if_pos hpre
    · rename_i hpre
      split at h
      · exact absurd h (by simp)
      · rename_i hfail
        split at h
        · exact absurd h (by simp)
        · rename_i hnull
          simp only [Option.some.injEq, Prod.mk.injEq] at h
          obtain ⟨hl, hs⟩ := h
          subst hl hs
          exact (if_neg hpre).trans ((if_neg hfail).trans (if_neg hnull))

/-- C22: when `renderRoI` reaches the identity check, `isIdentity_public` reports an identity
of the node itself (input -2) at the requested time, and the node has no input -2
(`getInput (-2)` is null), the body of `renderRoI` returns `eRenderRoIRetCodeOk` with the
output list as it was, in the state `getFrameRange_public` leaves, whatever function serves
its recursive calls: `renderRoI` is not called again. In particular `renderRoI` returns with
any budget of nested calls, and no render action is run. -/
theorem renderRoI_identity_same_time_stops {W : Type} (env : Env W) (n : NodeId)
    (args : RenderRoIArgs) (outputPlanes : ImageList) (s : St W) (l : Locals) (sR s1 : St W)
    (hreach : renderRoI_beforeIdentity env n args s = some (l, sR))
    (hid : isIdentity_public env n true l.nodeHash args.time l.renderMappedScale
      (env.toPixelEnclosing l.rod args.mipMapLevel l.par) args.view sR =
        .val (true, args.time, -2) s1)
    (hin : ∀ w, env.getInput n (-2) w = none) :
    (∀ (fuel : Nat) (rec : RenderRoIFn W),
      renderRoI_body env fuel rec n args outputPlanes s =
        .val (.eRenderRoIRetCodeOk, outputPlanes)
          (getFrameRange_public env n l.nodeHash false s1).2) ∧
    (∀ fuel : Nat,
      renderRoI env (fuel + 1) n args outputPlanes s =
        .val (.eRenderRoIRetCodeOk, outputPlanes)
          (getFrameRange_public env n l.nodeHash false s1).2) ∧
    (getFrameRange_public env n l.nodeHash false s1).2.renderLog = s.renderLog := by
  obtain ⟨_, hargs, hlog⟩ := renderRoI_eq_identity_stage env 0 n args outputPlanes s l sR hreach
  have hlog1 := isIdentity_public_renderLog env n true _ _ _ _ _ sR _ s1 hid
  obtain ⟨ha, hh, _, _⟩ := renderRoI_refreshSupportsRS_args env n l s1
  have hbody : ∀ (fuel : Nat) (rec : RenderRoIFn W),
      renderRoI_body env fuel rec n args outputPlanes s =
        .val (.eRenderRoIRetCodeOk, outputPlanes)
          (getFrameRange_public env n l.nodeHash false s1).2 := by
    intro fuel rec
    rw [renderRoI_body_eq_identity_stage env fuel rec n args outputPlanes s l sR hreach]
    unfold renderRoI_identity
    rw [hargs, hid]
    simp only [if_true]
    unfold renderRoI_identityBranch
    have h1 : ¬ ((-2 : Int) = -1) := by decide
    have h2 : ¬ ((-2 : Int) = -2 ∧ args.time ≠ args.time) := fun h => h.2 rfl
    rw [if_neg h1, ha, hargs, if_neg h2]
    simp only [hh, hin]
  refine ⟨hbody, fun fuel => hbody fuel (renderRoI env fuel), ?_⟩
  rw [getFrameRange_public_renderLog, hlog1, hlog]

/-- Witness of C22: node 0 of `selfIdentityEnv` reports itself an identity of itself at the
time 1 of the request; `renderRoI` returns with a budget of one call -/
theorem renderRoI_identity_same_time_stops_witness :
    ∃ sF : St Unit,
      renderRoI selfIdentityEnv 1 0 colorRequest [] idleState =
        .val (.eRenderRoIRetCodeOk, []) sF ∧
      renderRoI_body selfIdentityEnv 0 (fun _ _ _ _ => .diverge) 0 colorRequest [] idleState =
        .val (.eRenderRoIRetCodeOk, []) sF ∧
      sF.renderLog = [] :=
  ⟨_, (renderRoI_identity_same_time_stops selfIdentityEnv 0 colorRequest [] idleState _ _ _
        rfl rfl (fun _ => rfl)).2.1 0,
      (renderRoI_identity_same_time_stops selfIdentityEnv 0 colorRequest [] idleState _ _ _
        rfl rfl (fun _ => rfl)).1 0 _,
      (renderRoI_identity_same_time_stops selfIdentityEnv 0 colorRequest [] idleState _ _ _
        rfl rfl (fun _ => rfl)).2.2⟩

end Natron

namespace Natron

/-! ## The split of a rectangle in tiles -/

theorem ceilDiv_mul_ge (M d : Int) (hd : 1 ≤ d) : M ≤ (1 + (M - 1) / d) * d := by
  have h1 := Int.emod_add_ediv (M - 1) d
  have h2 := Int.emod_lt_of_pos (M - 1) (by omega : 0 < d)
  nlinarith

/-- The numbers of tiles along the two dimensions (lines 63-69 of `Rect.cpp`), for a first
number `n0` that is not below `dim1 / sqrt (avgArea)`: no divisor is zero, the product of the
numbers is at most `sc`, and a tile has an area of at least `M` -/
theorem splitCounts (M dim1 dim2 sc n0 : Int) (hM : 1 ≤ M) (h2 : 1 ≤ dim2) (h21 : dim2 ≤ dim1)
    (hA : M < dim1 * dim2) (hsc : sc = dim1 * dim2 / M) (hn1 : 1 ≤ n0) (hn2 : n0 ≤ dim1)
    (hq : dim1 * dim1 * sc ≤ n0 * n0 * (dim1 * dim2)) :
    1 ≤ dim1 / n0 ∧ 1 ≤ M / (dim1 / n0) ∧
    1 ≤ dim2 / max 1 (min (sc / n0) (dim2 / (M / (dim1 / n0)))) ∧
    1 ≤ 1 + (M - 1) / (dim2 / max 1 (min (sc / n0) (dim2 / (M / (dim1 / n0))))) ∧
    max 1 (min (sc / max 1 (min (sc / n0) (dim2 / (M / (dim1 / n0)))))
      (dim1 / (1 + (M - 1) / (dim2 / max 1 (min (sc / n0) (dim2 / (M / (dim1 / n0)))))))) *
      max 1 (min (sc / n0) (dim2 / (M / (dim1 / n0)))) ≤ sc ∧
    M ≤ (dim1 / max 1 (min (sc / max 1 (min (sc / n0) (dim2 / (M / (dim1 / n0)))))
      (dim1 / (1 + (M - 1) / (dim2 / max 1 (min (sc / n0) (dim2 / (M / (dim1 / n0))))))))) *
      (dim2 / max 1 (min (sc / n0) (dim2 / (M / (dim1 / n0))))) := by
  have hM0 : 0 < M := by omega
  have hd1pos : 0 < dim1 := by omega
  have hn0 : 0 < n0 := by omega
  have hsc1 : 1 ≤ sc := by
    rw [hsc]; exact (Int.le_ediv_iff_mul_le hM0).2 (by linarith)
  have hscM : sc * M ≤ dim1 * dim2 := by rw [hsc]; exact Int.ediv_mul_le _ (by omega)
  have hscM2 : dim1 * dim2 < (sc + 1) * M := by
    rw [hsc]; have := Int.lt_ediv_add_one_mul_self (dim1 * dim2) hM0; linarith
  obtain ⟨d1, hd1⟩ : ∃ d1, d1 = dim1 / n0 := ⟨_, rfl⟩
  have hd1a : 1 ≤ d1 := by rw [hd1]; exact (Int.le_ediv_iff_mul_le hn0).2 (by linarith)
  have hd1b : d1 * n0 ≤ dim1 := by rw [hd1]; exact Int.ediv_mul_le _ (by omega)
  have hq2 : dim1 * sc ≤ n0 * n0 * dim2 := by
    have : dim1 * (dim1 * sc) ≤ dim1 * (n0 * n0 * dim2) := by nlinarith
    exact le_of_mul_le_mul_left this hd1pos
  have hscn : sc ≤ n0 * n0 := by
    have : dim1 * sc ≤ dim1 * (n0 * n0) := by nlinarith
    exact le_of_mul_le_mul_left this hd1pos
  have hd1sq : d1 * d1 * sc ≤ dim1 * dim2 := by
    have h1 : (d1 * n0) * (d1 * n0) ≤ dim1 * dim1 :=
      mul_le_mul hd1b hd1b (by positivity) (by omega)
    have h2a : (d1 * n0) * (d1 * n0) * sc ≤ dim1 * dim1 * sc :=
      mul_le_mul_of_nonneg_right h1 (by omega)
    have h3 : (n0 * n0) * (d1 * d1 * sc) ≤ (n0 * n0) * (dim1 * dim2) := by
      calc (n0 * n0) * (d1 * d1 * sc) = (d1 * n0) * (d1 * n0) * sc := by ring
        _ ≤ dim1 * dim1 * sc := h2a
        _ ≤ n0 * n0 * (dim1 * dim2) := hq
    exact le_of_mul_le_mul_left h3 (by positivity)
  have hd1M : d1 ≤ M := by
    by_contra hc
    push_neg at hc
    have h5 : d1 * d1 * sc < (sc + 1) * M := lt_of_le_of_lt hd1sq hscM2
    have h6 : (M + 1) * (M + 1) ≤ d1 * d1 := mul_le_mul (by omega) (by omega) (by omega) (by omega)
    have h7 : (M + 1) * (M + 1) * sc ≤ d1 * d1 * sc := mul_le_mul_of_nonneg_right h6 (by omega)
    have h8 : M * sc ≤ M * M * sc := by
      have : M ≤ M * M := le_mul_of_one_le_left (by omega) hM
      exact mul_le_mul_of_nonneg_right this (by omega)
    nlinarith
  obtain ⟨k, hk⟩ : ∃ k, k = M / d1 := ⟨_, rfl⟩
  have hk1 : 1 ≤ k := by rw [hk]; exact (Int.le_ediv_iff_mul_le (by omega)).2 (by linarith)
  have hkM : M < (k + 1) * d1 := by
    rw [hk]; have := Int.lt_ediv_add_one_mul_self M (by omega : 0 < d1); linarith
  obtain ⟨num2, hnum2⟩ : ∃ num2, num2 = max 1 (min (sc / n0) (dim2 / k)) := ⟨_, rfl⟩
  have hnum2a : 1 ≤ num2 := by rw [hnum2]; exact le_max_left _ _
  have hdk : dim2 / k ≤ dim2 := Int.ediv_le_self _ (by omega)
  have hscn0 : sc / n0 ≤ sc := Int.ediv_le_self _ (by omega)
  have hnum2b : num2 ≤ dim2 := by
    rw [hnum2]; exact max_le h2 (le_trans (min_le_right _ _) hdk)
  have hnum2c : num2 ≤ sc := by
    rw [hnum2]; exact max_le hsc1 (le_trans (min_le_left _ _) hscn0)
  obtain ⟨d2, hd2⟩ : ∃ d2, d2 = dim2 / num2 := ⟨_, rfl⟩
  have hd2a : 1 ≤ d2 := by rw [hd2]; exact (Int.le_ediv_iff_mul_le (by omega)).2 (by linarith)
  have hG6 : M ≤ dim1 * d2 := by
    by_cases h1 : num2 = 1
    · rw [hd2, h1, Int.ediv_one]; linarith
    · have h2' : 2 ≤ num2 := by omega
      have hmin : num2 ≤ min (sc / n0) (dim2 / k) := by
        rw [hnum2] at h2' ⊢
        rcases le_total 1 (min (sc / n0) (dim2 / k)) with h | h
        · rw [max_eq_right h]
        · rw [max_eq_left h] at h2'; omega
      have hA1 : num2 ≤ sc / n0 := le_trans hmin (min_le_left _ _)
      have hA2 : num2 ≤ dim2 / k := le_trans hmin (min_le_right _ _)
      have hA3 : num2 * k ≤ dim2 := by
        have := (Int.le_ediv_iff_mul_le (by omega : 0 < k)).1 hA2; linarith
      have hA4 : k ≤ d2 := by
        rw [hd2]; exact (Int.le_ediv_iff_mul_le (by omega)).2 (by linarith)
      have hn02 : 2 ≤ n0 := by
        by_contra hc
        have h1n : n0 = 1 := by omega
        rw [h1n, Int.ediv_one] at hA1
        rw [h1n] at hscn
        omega
      have hB1 : 2 * d1 ≤ dim1 := by
        have : d1 * 2 ≤ d1 * n0 := mul_le_mul_of_nonneg_left hn02 (by omega)
        linarith
      have hB2 : M < 2 * d1 * k := by
        have : d1 ≤ k * d1 := le_mul_of_one_le_left (by omega) hk1
        linarith
      have hB3 : 2 * d1 * k ≤ dim1 * d2 := mul_le_mul hB1 hA4 (by omega) (by omega)
      linarith
  obtain ⟨c, hc⟩ : ∃ c, c = 1 + (M - 1) / d2 := ⟨_, rfl⟩
  have hc1 : 1 ≤ c := by
    rw [hc]
    have : 0 ≤ (M - 1) / d2 := Int.ediv_nonneg (by omega) (by omega)
    linarith
  have hcM : M ≤ c * d2 := by rw [hc]; exact ceilDiv_mul_ge M d2 hd2a
  have hcd : c ≤ dim1 := by
    rw [hc]
    have : (M - 1) / d2 < dim1 := Int.ediv_lt_of_lt_mul (by omega) (by linarith)
    linarith
  obtain ⟨num1, hnum1⟩ : ∃ num1, num1 = max 1 (min (sc / num2) (dim1 / c)) := ⟨_, rfl⟩
  have hnum1a : 1 ≤ num1 := by rw [hnum1]; exact le_max_left _ _
  have hdc1 : 1 ≤ dim1 / c := (Int.le_ediv_iff_mul_le (by omega)).2 (by linarith)
  have hsn1 : 1 ≤ sc / num2 := (Int.le_ediv_iff_mul_le (by omega)).2 (by linarith)
  have hnum1b : num1 ≤ dim1 / c := by
    rw [hnum1]; exact max_le hdc1 (min_le_right _ _)
  have hnum1c : num1 ≤ sc / num2 := by
    rw [hnum1]; exact max_le hsn1 (min_le_left _ _)
  have hnum1d : num1 * c ≤ dim1 := by
    have := (Int.le_ediv_iff_mul_le (by omega : 0 < c)).1 hnum1b; linarith
  have hnum1e : num1 * num2 ≤ sc := by
    have := (Int.le_ediv_iff_mul_le (by omega : 0 < num2)).1 hnum1c; linarith
  have hfin : c ≤ dim1 / num1 := (Int.le_ediv_iff_mul_le (by omega)).2 (by linarith)
  rw [← hd1, ← hk, ← hnum2, ← hd2, ← hc, ← hnum1]
  refine ⟨hd1a, hk1, hd2a, hc1, hnum1e, ?_⟩
  have : c * d2 ≤ dim1 / num1 * d2 := mul_le_mul_of_nonneg_right hfin (by omega)
  linarith

/-- The numbers of tiles of `splitIntoSmallerRects_counts` for a first number `n0` that is
not below `dim1 / sqrt (avgArea)`: they are at least 1, their product is at most the number
of splits, and a tile has an area of at least `MINAREA` -/
theorem splitIntoSmallerRects_counts_spec (dim1 dim2 n0 : Int) (h2 : 1 ≤ dim2)
    (h21 : dim2 ≤ dim1) (hA : MINAREA < dim1 * dim2) (hn1 : 1 ≤ n0) (hn2 : n0 ≤ dim1)
    (hq : dim1 * dim1 * (dim1 * dim2 / MINAREA) ≤ n0 * n0 * (dim1 * dim2)) :
    ∃ num1 num2 : Int,
      splitIntoSmallerRects_counts n0 dim1 dim2 (dim1 * dim2 / MINAREA) = some (num1, num2) ∧
      1 ≤ num1 ∧ 1 ≤ num2 ∧ num1 * num2 ≤ dim1 * dim2 / MINAREA ∧
      MINAREA ≤ (dim1 / num1) * (dim2 / num2) := by
  obtain ⟨c1, c2, c3, c4, c5, c6⟩ := splitCounts MINAREA dim1 dim2 (dim1 * dim2 / MINAREA) n0
    (by decide) h2 h21 hA rfl hn1 hn2 hq
  have hsc0 : 0 ≤ dim1 * dim2 / MINAREA := Int.ediv_nonneg (by nlinarith) (by decide)
  have hM1 : (0 : Int) ≤ MINAREA - 1 := by decide
  have hM0 : (0 : Int) ≤ MINAREA := by decide
  have e1 : dim1.tdiv n0 = dim1 / n0 := Int.tdiv_eq_ediv (by omega) (by omega)
  have e2 : MINAREA.tdiv (dim1 / n0) = MINAREA / (dim1 / n0) :=
    Int.tdiv_eq_ediv hM0 (by omega)
  have e3 : (dim1 * dim2 / MINAREA).tdiv n0 = dim1 * dim2 / MINAREA / n0 :=
    Int.tdiv_eq_ediv hsc0 (by omega)
  have e4 : dim2.tdiv (MINAREA / (dim1 / n0)) = dim2 / (MINAREA / (dim1 / n0)) :=
    Int.tdiv_eq_ediv (by omega) (by omega)
  obtain ⟨num2, hnum2⟩ : ∃ num2, num2 =
      max 1 (min (dim1 * dim2 / MINAREA / n0) (dim2 / (MINAREA / (dim1 / n0)))) := ⟨_, rfl⟩
  rw [← hnum2] at c3 c4 c5 c6
  have hnum2a : 1 ≤ num2 := by rw [hnum2]; exact le_max_left _ _
  have e5 : dim2.tdiv num2 = dim2 / num2 := Int.tdiv_eq_ediv (by omega) (by omega)
  have e6 : (MINAREA - 1).tdiv (dim2 / num2) = (MINAREA - 1) / (dim2 / num2) :=
    Int.tdiv_eq_ediv hM1 (by omega)
  have e7 : (dim1 * dim2 / MINAREA).tdiv num2 = dim1 * dim2 / MINAREA / num2 :=
    Int.tdiv_eq_ediv hsc0 (by omega)
  have e8 : dim1.tdiv (1 + (MINAREA - 1) / (dim2 / num2)) =
      dim1 / (1 + (MINAREA - 1) / (dim2 / num2)) := Int.tdiv_eq_ediv (by omega) (by omega)
  refine ⟨max 1 (min (dim1 * dim2 / MINAREA / num2)
    (dim1 / (1 + (MINAREA - 1) / (dim2 / num2)))), num2, ?_, le_max_left _ _, hnum2a, c5, c6⟩
  unfold splitIntoSmallerRects_counts
  rw [if_neg (by omega), e1, if_neg (by omega), e2, if_neg (by omega)]
  simp only [e3, e4]
  rw [← hnum2, e5, if_neg (by omega), e6, if_neg (by omega), e7, e8]

/-- A non-decreasing sequence of bounds: the intervals between consecutive bounds that hold
`x` are one when `x` is between the first and the last bound, none otherwise -/
theorem countP_grid (f : Nat → Int) (hmono : ∀ j, f j ≤ f (j + 1)) (x : Int) (n : Nat) :
    (List.range n).countP (fun j => decide (f j ≤ x) && decide (x < f (j + 1))) =
      if f 0 ≤ x ∧ x < f n then 1 else 0 := by
  have hchain : ∀ m, f 0 ≤ f m := by
    intro m
    induction m with
    | zero => exact le_refl _
    | succ m ih => exact le_trans ih (hmono m)
  induction n with
  | zero =>
    simp only [List.range_zero, List.countP_nil]
    rw [if_neg]
    omega
  | succ n ih =>
    rw [List.range_succ, List.countP_append, ih, List.countP_cons, List.countP_nil]
    have h0 := hchain n
    have h1 := hmono n
    by_cases ha : f 0 ≤ x <;> by_cases hb : x < f n <;> by_cases hc : x < f (n + 1) <;>
      by_cases hd : f n ≤ x <;>
      simp only [ha, hb, hc, hd, and_self, and_true, and_false, true_and, false_and, if_true,
        if_false, decide_True, decide_False, Bool.and_self, Bool.and_true, Bool.and_false,
        Bool.true_and, Bool.false_and, Bool.false_eq_true, zero_add, add_zero] <;>
      omega

theorem sum_map_ite_countP {α : Type} (q : α → Bool) (c : Nat) (l : List α) :
    (l.map fun a => if q a = true then c else 0).sum = c * l.countP q := by
  induction l with
  | nil => simp
  | cons a rest ih =>
    rw [List.map_cons, List.sum_cons, ih, List.countP_cons]
    split <;> ring

section Tiles

variable (r : RectI) (numRows numCols : Int)

theorem grid_bound_zero (w n : Int) : ((0 : Nat) : Int) * w / n = 0 := by simp

theorem grid_bound_last (w n : Int) (hn : 1 ≤ n) : ((n.toNat : Nat) : Int) * w / n = w := by
  rw [Int.toNat_of_nonneg (by omega)]
  exact Int.mul_ediv_cancel_left w (by omega)

theorem grid_bound_mono (w n : Int) (hw : 0 ≤ w) (hn : 1 ≤ n) (j : Nat) :
    (j : Int) * w / n ≤ ((j : Int) + 1) * w / n :=
  Int.ediv_le_ediv (by omega) (by nlinarith)

theorem grid_bound_step (w n : Int) (hn : 1 ≤ n) (j : Nat) :
    (j : Int) * w / n + w / n ≤ ((j : Int) + 1) * w / n := by
  apply (Int.le_ediv_iff_mul_le (by omega : 0 < n)).2
  have h1 := Int.ediv_mul_le ((j : Int) * w) (by omega : n ≠ 0)
  have h2 := Int.ediv_mul_le w (by omega : n ≠ 0)
  nlinarith

theorem grid_bound_le (w n : Int) (hw : 0 ≤ w) (hn : 1 ≤ n) (j : Nat) (hj : (j : Int) ≤ n) :
    (j : Int) * w / n ≤ w := by
  have h : (j : Int) * w / n ≤ n * w / n := Int.ediv_le_ediv (by omega) (by nlinarith)
  rwa [Int.mul_ediv_cancel_left w (by omega : n ≠ 0)] at h

/-- A tile of the split, with the truncating divisions written as divisions of non-negative
numbers -/
theorem splitIntoSmallerRects_tiles_eq (hw : 0 ≤ r.width) (hh : 0 ≤ r.height)
    (hr : 1 ≤ numRows) (hc : 1 ≤ numCols) :
    splitIntoSmallerRects_tiles r numRows numCols =
      (List.range numRows.toNat).reverse.flatMap fun (i : Nat) =>
        (List.range numCols.toNat).map fun (j : Nat) =>
          (⟨r.x1 + (j : Int) * r.width / numCols, r.y1 + (i : Int) * r.height / numRows,
            r.x1 + ((j : Int) + 1) * r.width / numCols,
            r.y1 + ((i : Int) + 1) * r.height / numRows⟩ : RectI) := by
  unfold splitIntoSmallerRects_tiles
  congr 1
  funext i
  congr 1
  funext j
  rw [Int.tdiv_eq_ediv (by positivity) (by omega), Int.tdiv_eq_ediv (by positivity) (by omega),
    Int.tdiv_eq_ediv (by positivity) (by omega), Int.tdiv_eq_ediv (by positivity) (by omega)]

/-- The tiles hold every pixel of the rectangle once and no other pixel -/
theorem splitIntoSmallerRects_tiles_countP (hw : 0 ≤ r.width) (hh : 0 ≤ r.height)
    (hr : 1 ≤ numRows) (hc : 1 ≤ numCols) (x y : Int) :
    (splitIntoSmallerRects_tiles r numRows numCols).countP (fun t => t.hasPixel x y) =
      if r.hasPixel x y then 1 else 0 := by
  rw [splitIntoSmallerRects_tiles_eq r numRows numCols hw hh hr hc, List.countP_flatMap,
    List.map_reverse, List.sum_reverse]
  have hcol := countP_grid (fun j => r.x1 + (j : Int) * r.width / numCols)
    (fun j => by
      have := grid_bound_mono r.width numCols hw hc j
      simp only [Nat.cast_add, Nat.cast_one]
      omega) x numCols.toNat
  have hrow := countP_grid (fun i => r.y1 + (i : Int) * r.height / numRows)
    (fun i => by
      have := grid_bound_mono r.height numRows hh hr i
      simp only [Nat.cast_add, Nat.cast_one]
      omega) y numRows.toNat
  simp only [Nat.cast_add, Nat.cast_one] at hcol hrow
  rw [grid_bound_zero, grid_bound_last _ _ hc] at hcol
  rw [grid_bound_zero, grid_bound_last _ _ hr] at hrow
  have hfun : (List.countP (fun t : RectI => t.hasPixel x y) ∘ fun (i : Nat) =>
      (List.range numCols.toNat).map fun (j : Nat) =>
        (⟨r.x1 + (j : Int) * r.width / numCols, r.y1 + (i : Int) * r.height / numRows,
          r.x1 + ((j : Int) + 1) * r.width / numCols,
          r.y1 + ((i : Int) + 1) * r.height / numRows⟩ : RectI)) =
      fun (i : Nat) =>
        if (decide (r.y1 + (i : Int) * r.height / numRows ≤ y) &&
            decide (y < r.y1 + ((i : Int) + 1) * r.height / numRows)) = true
        then (if r.x1 + 0 ≤ x ∧ x < r.x1 + r.width then 1 else 0) else 0 := by
    funext i
    simp only [Function.comp, List.countP_map]
    by_cases hy : (decide (r.y1 + (i : Int) * r.height / numRows ≤ y) &&
        decide (y < r.y1 + ((i : Int) + 1) * r.height / numRows)) = true
    · rw [if_pos hy, ← hcol]
      congr 1
      funext j
      simp only [Bool.and_eq_true, decide_eq_true_eq] at hy
      simp only [RectI.hasPixel, Function.comp, hy.1, hy.2, decide_True, Bool.and_true]
    · rw [if_neg hy]
      apply List.countP_eq_zero.2
      intro j _
      simp only [Bool.and_eq_true, decide_eq_true_eq, not_and, not_lt] at hy
      simp only [RectI.hasPixel, Function.comp, Bool.and_eq_true, decide_eq_true_eq, not_and,
        not_lt]
      intro h2
      exact hy h2.2
  rw [hfun, sum_map_ite_countP, hrow]
  unfold RectI.hasPixel
  unfold RectI.width RectI.height at *
  by_cases h1 : r.x1 ≤ x <;> by_cases h2 : x < r.x2 <;> by_cases h3 : r.y1 ≤ y <;>
    by_cases h4 : y < r.y2 <;>
    simp [h1, h2, h3, h4]

/-- A rectangle of the split is the tile of a row and a column -/
theorem splitIntoSmallerRects_tiles_mem (hw : 0 ≤ r.width) (hh : 0 ≤ r.height)
    (hr : 1 ≤ numRows) (hc : 1 ≤ numCols) (t : RectI)
    (ht : t ∈ splitIntoSmallerRects_tiles r numRows numCols) :
    ∃ i j : Nat, (i : Int) + 1 ≤ numRows ∧ (j : Int) + 1 ≤ numCols ∧
      t = ⟨r.x1 + (j : Int) * r.width / numCols, r.y1 + (i : Int) * r.height / numRows,
           r.x1 + ((j : Int) + 1) * r.width / numCols,
           r.y1 + ((i : Int) + 1) * r.height / numRows⟩ := by
  rw [splitIntoSmallerRects_tiles_eq r numRows numCols hw hh hr hc] at ht
  obtain ⟨i, hi, hti⟩ := List.mem_flatMap.1 ht
  obtain ⟨j, hj, htj⟩ := List.mem_map.1 hti
  rw [List.mem_reverse, List.mem_range] at hi
  rw [List.mem_range] at hj
  refine ⟨i, j, ?_, ?_, htj.symm⟩
  · have := Int.toNat_of_nonneg (by omega : 0 ≤ numRows); omega
  · have := Int.toNat_of_nonneg (by omega : 0 ≤ numCols); omega

/-- A rectangle of the split is inside the rectangle split and is at least as wide and as high
as the quotients of the width and the height by the numbers of columns and rows -/
theorem splitIntoSmallerRects_tiles_bounds (hw : 0 ≤ r.width) (hh : 0 ≤ r.height)
    (hr : 1 ≤ numRows) (hc : 1 ≤ numCols) (t : RectI)
    (ht : t ∈ splitIntoSmallerRects_tiles r numRows numCols) :
    r.x1 ≤ t.x1 ∧ r.y1 ≤ t.y1 ∧ t.x2 ≤ r.x2 ∧ t.y2 ≤ r.y2 ∧
    r.width / numCols ≤ t.width ∧ r.height / numRows ≤ t.height := by
  obtain ⟨i, j, hi, hj, rfl⟩ := splitIntoSmallerRects_tiles_mem r numRows numCols hw hh hr hc t ht
  have a1 : 0 ≤ (j : Int) * r.width / numCols := Int.ediv_nonneg (by positivity) (by omega)
  have a2 : 0 ≤ (i : Int) * r.height / numRows := Int.ediv_nonneg (by positivity) (by omega)
  have a3 := grid_bound_le r.width numCols hw hc (j + 1) (by push_cast; omega)
  have a4 := grid_bound_le r.height numRows hh hr (i + 1) (by push_cast; omega)
  have a5 := grid_bound_step r.width numCols hc j
  have a6 := grid_bound_step r.height numRows hr i
  push_cast at a3 a4
  unfold RectI.width RectI.height at *
  simp only []
  refine ⟨by omega, by omega, by omega, by omega, by omega, by omega⟩

theorem splitIntoSmallerRects_tiles_length :
    (splitIntoSmallerRects_tiles r numRows numCols).length = numRows.toNat * numCols.toNat := by
  unfold splitIntoSmallerRects_tiles
  rw [List.length_flatMap, List.map_reverse, List.sum_reverse]
  have : (List.length ∘ fun (i : Nat) =>
      (List.range numCols.toNat).map fun (j : Nat) =>
        (⟨r.x1 + ((j : Int) * r.width).tdiv numCols, r.y1 + ((i : Int) * r.height).tdiv numRows,
          r.x1 + (((j : Int) + 1) * r.width).tdiv numCols,
          r.y1 + (((i : Int) + 1) * r.height).tdiv numRows⟩ : RectI)) =
      fun _ => numCols.toNat := by
    funext i
    simp
  rw [this]
  simp

end Tiles

theorem RectI.dims_pos (r : RectI) (hnull : r.isNull = false) :
    1 ≤ r.width ∧ 1 ≤ r.height := by
  unfold RectI.isNull at hnull
  simp only [Bool.or_eq_false_iff, decide_eq_false_iff_not, not_le] at hnull
  unfold RectI.width RectI.height
  omega

theorem fitsInt_of_nonneg (v : Int) (h0 : 0 ≤ v) (h1 : v ≤ INT_MAX) : fitsInt v = true := by
  unfold fitsInt
  have : INT_MIN ≤ v := le_trans (by decide) h0
  simp [this, h1]

/-- The split of a rectangle of more than `MINAREA` pixels: rows and columns of tiles whose
number is at most `area () / MINAREA` and whose least width times least height is at least
`MINAREA` -/
theorem splitIntoSmallerRects_big (ceilDivSqrt : Int → ℚ → Int) (r : RectI)
    (hnull : r.isNull = false) (harea : MINAREA < r.area) (hfit : r.splitFitsInt)
    (hceil : r.ceilDivSqrtOk ceilDivSqrt) :
    ∃ numRows numCols : Int, 1 ≤ numRows ∧ 1 ≤ numCols ∧
      numRows * numCols ≤ r.area / MINAREA ∧
      MINAREA ≤ (r.width / numCols) * (r.height / numRows) ∧
      splitIntoSmallerRects ceilDivSqrt r 0 =
        some (splitIntoSmallerRects_tiles r numRows numCols) := by
  obtain ⟨hw, hh⟩ := r.dims_pos hnull
  obtain ⟨hf1, hf2⟩ := hfit
  obtain ⟨hc1, hc2, hc3⟩ := hceil
  have harea_eq : r.area = r.width * r.height := rfl
  have hwa : r.width ≤ r.area := by rw [harea_eq]; nlinarith
  have hha : r.height ≤ r.area := by rw [harea_eq]; nlinarith
  have hsc0 : 0 ≤ r.area / MINAREA := Int.ediv_nonneg (by omega) (by decide)
  have hsc1 : 1 ≤ r.area / MINAREA :=
    (Int.le_ediv_iff_mul_le (by decide)).2 (by omega)
  have hfits : (!(fitsInt r.width && fitsInt r.height && fitsInt (r.width * r.height))) =
      false := by
    rw [fitsInt_of_nonneg _ (by omega) (by omega), fitsInt_of_nonneg _ (by omega) (by omega),
      fitsInt_of_nonneg _ (by rw [← harea_eq]; omega) (by rw [← harea_eq]; omega)]
    rfl
  have htd : r.area.tdiv MINAREA = r.area / MINAREA :=
    Int.tdiv_eq_ediv (by omega) (by decide)
  unfold splitIntoSmallerRects
  rw [hnull, hfits]
  simp only [Bool.false_eq_true, if_false, if_true, not_le.2 harea, htd]
  by_cases hl : r.width > r.height
  · simp only [hl, decide_True, if_true]
    have hmax : max r.width r.height = r.width := max_eq_left (by omega)
    rw [hmax] at hc1 hc2 hc3 hf2
    obtain ⟨num1, num2, e, n1, n2, n3, n4⟩ := splitIntoSmallerRects_counts_spec r.width
      r.height (ceilDivSqrt r.width ((r.area : ℚ) / ((r.area / MINAREA : Int) : ℚ))) hh
      (by omega) harea hc1 hc2 hc3
    rw [show r.width * r.height = r.area from rfl] at e n3
    rw [e]
    simp only []
    have b1 : num1 ≤ r.area / MINAREA :=
      le_trans (le_mul_of_one_le_right (by omega) n2) n3
    have b2 : num2 ≤ r.area / MINAREA :=
      le_trans (le_mul_of_one_le_left (by omega) n1) n3
    have f1 : fitsInt (num2 * r.height) = true :=
      fitsInt_of_nonneg _ (by positivity)
        (le_trans (mul_le_mul b2 (by omega) (by omega) (by omega)) hf2)
    have f2 : fitsInt (num1 * r.width) = true :=
      fitsInt_of_nonneg _ (by positivity)
        (le_trans (mul_le_mul b1 (le_refl _) (by omega) (by omega)) hf2)
    rw [f1, f2]
    exact ⟨num2, num1, n2, n1, by linarith, n4, rfl⟩
  · simp only [hl, decide_False, Bool.false_eq_true, if_false]
    have hmax : max r.width r.height = r.height := max_eq_right (by omega)
    rw [hmax] at hc1 hc2 hc3 hf2
    have e0 : r.height * r.width = r.area := by rw [harea_eq]; ring
    obtain ⟨num1, num2, e, n1, n2, n3, n4⟩ := splitIntoSmallerRects_counts_spec r.height
      r.width (ceilDivSqrt r.height ((r.area : ℚ) / ((r.area / MINAREA : Int) : ℚ))) hw
      (by omega) (by rw [e0]; exact harea) hc1 hc2 (by rw [e0]; exact hc3)
    rw [e0] at e n3
    rw [e]
    simp only []
    have b1 : num1 ≤ r.area / MINAREA :=
      le_trans (le_mul_of_one_le_right (by omega) n2) n3
    have b2 : num2 ≤ r.area / MINAREA :=
      le_trans (le_mul_of_one_le_left (by omega) n1) n3
    have f1 : fitsInt (num1 * r.height) = true :=
      fitsInt_of_nonneg _ (by positivity)
        (le_trans (mul_le_mul b1 (le_refl _) (by omega) (by omega)) hf2)
    have f2 : fitsInt (num2 * r.width) = true :=
      fitsInt_of_nonneg _ (by positivity)
        (le_trans (mul_le_mul b2 (by omega) (by omega) (by omega)) hf2)
    rw [f1, f2]
    exact ⟨num1, num2, n1, n2, n3, by linarith, rfl⟩

/-- On a rectangle of more than `MINAREA` pixels, `splitIntoSmallerRects (0)` is the grid of
tiles of its numbers of rows and columns unless an `int` overflows: the width, the height or
the area of the rectangle, or one of the products `i * height ()` and `j * width ()` of
lines 76-80, whose largest values are `numRows * height ()` and `numCols * width ()` -/
theorem splitIntoSmallerRects_big_eq (ceilDivSqrt : Int → ℚ → Int) (r : RectI)
    (hnull : r.isNull = false) (harea : MINAREA < r.area)
    (hceil : r.ceilDivSqrtOk ceilDivSqrt) :
    ∃ numRows numCols : Int, 1 ≤ numRows ∧ 1 ≤ numCols ∧
      numRows * numCols ≤ r.area / MINAREA ∧
      MINAREA ≤ (r.width / numCols) * (r.height / numRows) ∧
      splitIntoSmallerRects ceilDivSqrt r 0 =
        if !(fitsInt r.width && fitsInt r.height && fitsInt (r.width * r.height)) then none
        else if !(fitsInt (numRows * r.height) && fitsInt (numCols * r.width)) then none
        else some (splitIntoSmallerRects_tiles r numRows numCols) := by
  obtain ⟨hw, hh⟩ := r.dims_pos hnull
  obtain ⟨hc1, hc2, hc3⟩ := hceil
  have harea_eq : r.area = r.width * r.height := rfl
  have ha0 : 0 ≤ r.area := le_of_lt (lt_trans (by decide) harea)
  have htd : r.area.tdiv MINAREA = r.area / MINAREA :=
    Int.tdiv_eq_ediv ha0 (by decide)
  unfold splitIntoSmallerRects
  rw [hnull]
  simp only [Bool.false_eq_true, if_false, if_true, not_le.2 harea, htd]
  by_cases hl : r.width > r.height
  · simp only [hl, decide_True, if_true]
    have hmax : max r.width r.height = r.width := max_eq_left (by omega)
    rw [hmax] at hc1 hc2 hc3
    obtain ⟨num1, num2, e, n1, n2, n3, n4⟩ := splitIntoSmallerRects_counts_spec r.width
      r.height (ceilDivSqrt r.width ((r.area : ℚ) / ((r.area / MINAREA : Int) : ℚ))) hh
      (by omega) harea hc1 hc2 hc3
    rw [show r.width * r.height = r.area from rfl] at e n3
    rw [e]
    exact ⟨num2, num1, n2, n1, by linarith, n4, rfl⟩
  · simp only [hl, decide_False, Bool.false_eq_true, if_false]
    have hmax : max r.width r.height = r.height := max_eq_right (by omega)
    rw [hmax] at hc1 hc2 hc3
    have e0 : r.height * r.width = r.area := by rw [harea_eq]; ring
    obtain ⟨num1, num2, e, n1, n2, n3, n4⟩ := splitIntoSmallerRects_counts_spec r.height
      r.width (ceilDivSqrt r.height ((r.area : ℚ) / ((r.area / MINAREA : Int) : ℚ))) hw
      (by omega) (by rw [e0]; exact harea) hc1 hc2 (by rw [e0]; exact hc3)
    rw [e0] at e n3
    rw [e]
    exact ⟨num1, num2, n1, n2, n3, by linarith, rfl⟩

/-- Whenever `splitIntoSmallerRects (0)` on a rectangle of more than `MINAREA` pixels overflows
no `int`, that is, whenever its behaviour is defined, the rectangles returned are the grid of
tiles of its numbers of rows and columns -/
theorem splitIntoSmallerRects_big_of_some (ceilDivSqrt : Int → ℚ → Int) (r : RectI)
    (hnull : r.isNull = false) (harea : MINAREA < r.area)
    (hceil : r.ceilDivSqrtOk ceilDivSqrt) (tiles : List RectI)
    (hres : splitIntoSmallerRects ceilDivSqrt r 0 = some tiles) :
    ∃ numRows numCols : Int, 1 ≤ numRows ∧ 1 ≤ numCols ∧
      numRows * numCols ≤ r.area / MINAREA ∧
      MINAREA ≤ (r.width / numCols) * (r.height / numRows) ∧
      tiles = splitIntoSmallerRects_tiles r numRows numCols := by
  obtain ⟨numRows, numCols, hr, hc, hcount, hmin, e⟩ :=
    splitIntoSmallerRects_big_eq ceilDivSqrt r hnull harea hceil
  refine ⟨numRows, numCols, hr, hc, hcount, hmin, ?_⟩
  rw [e] at hres
  by_cases g1 : (!(fitsInt r.width && fitsInt r.height && fitsInt (r.width * r.height))) = true
  · rw [if_pos g1] at hres
    cases hres
  · rw [if_neg g1] at hres
    by_cases g2 : (!(fitsInt (numRows * r.height) && fitsInt (numCols * r.width))) = true
    · rw [if_pos g2] at hres
      cases hres
    · rw [if_neg g2] at hres
      exact (Option.some.inj hres).symm

/-- On a non-null rectangle of at most `MINAREA` pixels, `splitIntoSmallerRects (0)` returns
the rectangle itself (lines 46-47) -/
theorem splitIntoSmallerRects_small (ceilDivSqrt : Int → ℚ → Int) (r : RectI)
    (hnull : r.isNull = false) (harea : r.area ≤ MINAREA) :
    splitIntoSmallerRects ceilDivSqrt r 0 = some [r] := by
  obtain ⟨hw, hh⟩ := r.dims_pos hnull
  have hwa : r.width ≤ r.area := le_mul_of_one_le_right (by omega) hh
  have hha : r.height ≤ r.area := le_mul_of_one_le_left (by omega) hw
  have hM : MINAREA ≤ INT_MAX := by decide
  have f1 := fitsInt_of_nonneg r.width (by omega) (by omega)
  have f2 := fitsInt_of_nonneg r.height (by omega) (by omega)
  have f3 := fitsInt_of_nonneg (r.width * r.height) (by positivity)
    (le_trans harea hM)
  unfold splitIntoSmallerRects
  rw [if_neg (by rw [hnull]; decide), f1, f2, f3, if_neg (by decide), if_pos harea]

/-- The rectangles that `splitIntoSmallerRects (0)` returns, whenever its behaviour is defined,
on a rectangle of more than `MINAREA` pixels: at most `area () / MINAREA` rectangles, each of
at least `MINAREA` pixels, not null and inside the rectangle, and every pixel of the rectangle
is in one of them and in one only -/
theorem splitIntoSmallerRects_big_tiles (ceilDivSqrt : Int → ℚ → Int) (r : RectI)
    (hnull : r.isNull = false) (harea : MINAREA < r.area)
    (hceil : r.ceilDivSqrtOk ceilDivSqrt) (tiles : List RectI)
    (hres : splitIntoSmallerRects ceilDivSqrt r 0 = some tiles) :
    (tiles.length : Int) ≤ r.area / MINAREA ∧
    (∀ t ∈ tiles, MINAREA ≤ t.area ∧ t.isNull = false ∧ r.contains t = true) ∧
    ∀ x y, tiles.countP (fun t => t.hasPixel x y) = if r.hasPixel x y then 1 else 0 := by
  obtain ⟨hw, hh⟩ := r.dims_pos hnull
  obtain ⟨numRows, numCols, hr, hc, hcount, hmin, rfl⟩ :=
    splitIntoSmallerRects_big_of_some ceilDivSqrt r hnull harea hceil tiles hres
  refine ⟨?_, ?_, ?_⟩
  · rw [splitIntoSmallerRects_tiles_length]
    push_cast
    rw [Int.toNat_of_nonneg (by omega), Int.toNat_of_nonneg (by omega)]
    exact hcount
  · intro t ht
    obtain ⟨c1, c2, c3, c4, b1, b2⟩ := splitIntoSmallerRects_tiles_bounds r numRows numCols
      (by omega) (by omega) hr hc t ht
    have q1 : 0 ≤ r.width / numCols := Int.ediv_nonneg (by omega) (by omega)
    have q2 : 0 ≤ r.height / numRows := Int.ediv_nonneg (by omega) (by omega)
    have hpos : 0 < (r.width / numCols) * (r.height / numRows) :=
      lt_of_lt_of_le (by decide) hmin
    have p1 : 0 < r.width / numCols := by
      rcases lt_or_eq_of_le q1 with h | h
      · exact h
      · rw [← h, zero_mul] at hpos; exact absurd hpos (lt_irrefl 0)
    have p2 : 0 < r.height / numRows := by
      rcases lt_or_eq_of_le q2 with h | h
      · exact h
      · rw [← h, mul_zero] at hpos; exact absurd hpos (lt_irrefl 0)
    refine ⟨le_trans hmin (mul_le_mul b1 b2 q2 (le_trans q1 b1)), ?_, ?_⟩
    · unfold RectI.isNull
      simp only [RectI.width, RectI.height] at b1 b2 p1 p2
      simp only [Bool.or_eq_false_iff, decide_eq_false_iff_not, not_le]
      omega
    · unfold RectI.contains
      simp only [Bool.and_eq_true, decide_eq_true_eq, ge_iff_le]
      omega
  · exact splitIntoSmallerRects_tiles_countP r numRows numCols (by omega) (by omega) hr hc

/-- The behaviour of `splitIntoSmallerRects (0)` is defined on every non-null rectangle whose
area is an `int` and whose larger dimension times `area () / MINAREA` is an `int` -/
theorem splitIntoSmallerRects_defined (ceilDivSqrt : Int → ℚ → Int) (r : RectI)
    (hnull : r.isNull = false) (hfit : r.splitFitsInt)
    (hceil : MINAREA < r.area → r.ceilDivSqrtOk ceilDivSqrt) :
    ∃ tiles : List RectI, splitIntoSmallerRects ceilDivSqrt r 0 = some tiles := by
  by_cases harea : r.area ≤ MINAREA
  · exact ⟨_, splitIntoSmallerRects_small ceilDivSqrt r hnull harea⟩
  · obtain ⟨numRows, numCols, -, -, -, -, hres⟩ :=
      splitIntoSmallerRects_big ceilDivSqrt r hnull (not_le.1 harea) hfit
        (hceil (not_le.1 harea))
    exact ⟨_, hres⟩

/-- The value of `splitIntoSmallerRects (0)` on a rectangle of more than `MINAREA` pixels whose
width, height and area are `int`s, from the values of its locals: the number of splits, the
two dimensions, the first value of `num1` and the last values of `num1` and `num2` -/
theorem splitIntoSmallerRects_of_counts (ceilDivSqrt : Int → ℚ → Int) (r : RectI)
    (sc dim1 dim2 n0 : Int) (num : Int × Int) (hnull : r.isNull = false)
    (hfits : (fitsInt r.width && fitsInt r.height && fitsInt (r.width * r.height)) = true)
    (harea : MINAREA < r.area) (hsc : r.area.tdiv MINAREA = sc)
    (hdim1 : (if r.width > r.height then r.width else r.height) = dim1)
    (hdim2 : (if r.width > r.height then r.height else r.width) = dim2)
    (hn0 : ceilDivSqrt dim1 ((r.area : ℚ) / (sc : ℚ)) = n0)
    (hcounts : splitIntoSmallerRects_counts n0 dim1 dim2 sc = some num) :
    splitIntoSmallerRects ceilDivSqrt r 0 =
      if !(fitsInt ((if r.width > r.height then num.2 else num.1) * r.height) &&
          fitsInt ((if r.width > r.height then num.1 else num.2) * r.width)) then none
      else some (splitIntoSmallerRects_tiles r (if r.width > r.height then num.2 else num.1)
        (if r.width > r.height then num.1 else num.2)) := by
  unfold splitIntoSmallerRects
  rw [hnull, hfits]
  simp only [Bool.false_eq_true, if_false, if_true, not_le.2 harea, Bool.not_true, hsc,
    decide_eq_true_eq, hdim1, hdim2, hn0, hcounts]

/-- The exact ceiling of `dim1 / sqrt (avgArea)` for a rectangle of 40000 x 40000 pixels -/
theorem ceilDivSqrtExact_40000 :
    ceilDivSqrtExact 40000 ((1600000000 : ℚ) / (97656 : ℚ)) = 313 := by
  unfold ceilDivSqrtExact
  have h : ⌈((40000 : Int) : ℚ) * ((40000 : Int) : ℚ) / ((1600000000 : ℚ) / (97656 : ℚ))⌉ =
      97656 := by
    norm_num
  rw [h]
  have h1 : (97656 : Int).toNat - 1 = 97655 := by simp
  have h2 : Nat.sqrt 97655 = 312 := by
    symm; rw [Nat.eq_sqrt]; decide
  rw [h1, h2, if_neg (by decide)]
  rfl

/-- The split of the rectangle of 40000 x 40000 pixels, whose area is an `int`: 312 rows of
310 tiles. No `int` overflows, although `area () / MINAREA` times the larger dimension is not
an `int`. -/
theorem splitIntoSmallerRects_40000 :
    splitIntoSmallerRects ceilDivSqrtExact ⟨0, 0, 40000, 40000⟩ 0 =
      some (splitIntoSmallerRects_tiles ⟨0, 0, 40000, 40000⟩ 312 310) := by
  have e : ceilDivSqrtExact 40000 (((1600000000 : Int) : ℚ) / ((97656 : Int) : ℚ)) = 313 := by
    have := ceilDivSqrtExact_40000
    push_cast
    exact this
  have a : RectI.area ⟨0, 0, 40000, 40000⟩ = 1600000000 := by decide
  rw [splitIntoSmallerRects_of_counts ceilDivSqrtExact ⟨0, 0, 40000, 40000⟩ 97656 40000 40000
    313 (312, 310) (by decide) (by decide) (by decide) (by decide) (by decide) (by decide)
    (by rw [a]; exact e) (by decide)]
  rw [if_neg (by decide), if_neg (by decide), if_neg (by decide)]

/-- The exact ceiling of `dim1 / sqrt (avgArea)` for a rectangle of 1000000 x 2000 pixels -/
theorem ceilDivSqrtExact_1000000 :
    ceilDivSqrtExact 1000000 ((2000000000 : ℚ) / (122070 : ℚ)) = 7813 := by
  unfold ceilDivSqrtExact
  have h : ⌈((1000000 : Int) : ℚ) * ((1000000 : Int) : ℚ) /
      ((2000000000 : ℚ) / (122070 : ℚ))⌉ = 61035000 := by
    norm_num
  rw [h]
  have h1 : (61035000 : Int).toNat - 1 = 61034999 := by simp
  have h2 : Nat.sqrt 61034999 = 7812 := by
    symm; rw [Nat.eq_sqrt]; decide
  rw [h1, h2, if_neg (by decide)]
  rfl

/-- The exact ceiling of `dim1 / sqrt (avgArea)` is a value as `splitIntoSmallerRects` needs -/
theorem ceilDivSqrtExact_ok (r : RectI) (hnull : r.isNull = false)
    (harea : MINAREA < r.area) : r.ceilDivSqrtOk ceilDivSqrtExact := by
  obtain ⟨hw, hh⟩ := r.dims_pos hnull
  obtain ⟨D, hD⟩ : ∃ D, D = max r.width r.height := ⟨_, rfl⟩
  obtain ⟨A, hA⟩ : ∃ A, A = r.area := ⟨_, rfl⟩
  obtain ⟨sc, hsc⟩ : ∃ sc, sc = A / MINAREA := ⟨_, rfl⟩
  have hD1 : 1 ≤ D := by rw [hD]; exact le_trans hw (le_max_left _ _)
  have hA0 : 0 < A := by rw [hA]; exact lt_trans (by decide) harea
  have hsc1 : 1 ≤ sc := by
    rw [hsc]; exact (Int.le_ediv_iff_mul_le (by decide)).2 (by rw [hA]; omega)
  have hscA : sc ≤ A := by rw [hsc]; exact Int.ediv_le_self _ (by omega)
  unfold RectI.ceilDivSqrtOk
  rw [← hD, ← hA, ← hsc]
  have hAq : (0 : ℚ) < (A : ℚ) := by exact_mod_cast hA0
  have hscq : (0 : ℚ) < (sc : ℚ) := by exact_mod_cast (by omega : 0 < sc)
  have hDq : (1 : ℚ) ≤ (D : ℚ) := by exact_mod_cast hD1
  have havg1 : (1 : ℚ) ≤ (A : ℚ) / (sc : ℚ) := by
    rw [le_div_iff₀ hscq, one_mul]; exact_mod_cast hscA
  have havg0 : (0 : ℚ) < (A : ℚ) / (sc : ℚ) := lt_of_lt_of_le one_pos havg1
  obtain ⟨q, hq⟩ : ∃ q : ℚ, q = (D : ℚ) * D / ((A : ℚ) / (sc : ℚ)) := ⟨_, rfl⟩
  have hq0 : 0 < q := by rw [hq]; exact div_pos (by positivity) havg0
  have hqD : q ≤ (D : ℚ) * D := by rw [hq]; exact div_le_self (by positivity) havg1
  have hm0 : 0 < ⌈q⌉ := Int.ceil_pos.2 hq0
  have hmD : ⌈q⌉ ≤ D * D := Int.ceil_le.2 (by push_cast; exact hqD)
  have hqm : q ≤ (⌈q⌉ : ℚ) := Int.le_ceil q
  have hval : ceilDivSqrtExact D ((A : ℚ) / (sc : ℚ)) =
      ((Nat.sqrt (⌈q⌉.toNat - 1) + 1 : Nat) : Int) := by
    unfold ceilDivSqrtExact
    rw [← hq, if_neg (by omega)]
  rw [hval]
  obtain ⟨k, hk⟩ : ∃ k, k = Nat.sqrt (⌈q⌉.toNat - 1) := ⟨_, rfl⟩
  rw [← hk]
  have hmt : ((⌈q⌉.toNat : Nat) : Int) = ⌈q⌉ := Int.toNat_of_nonneg (by omega)
  have hk1 : ⌈q⌉.toNat - 1 < (k + 1) ^ 2 := by
    rw [hk]; exact Nat.lt_succ_sqrt' _
  have hk2 : ⌈q⌉.toNat ≤ (k + 1) ^ 2 := by omega
  have hk3 : ⌈q⌉ ≤ ((k + 1 : Nat) : Int) * ((k + 1 : Nat) : Int) := by
    rw [← hmt]
    have : ((⌈q⌉.toNat : Nat) : Int) ≤ (((k + 1) ^ 2 : Nat) : Int) := by exact_mod_cast hk2
    rw [pow_two] at this
    push_cast at this ⊢
    exact this
  have hDn : ((D.toNat : Nat) : Int) = D := Int.toNat_of_nonneg (by omega)
  have hk4 : k < D.toNat := by
    rw [hk, Nat.sqrt_lt']
    have h1 : ((⌈q⌉.toNat : Nat) : Int) ≤ ((D.toNat : Nat) : Int) * ((D.toNat : Nat) : Int) := by
      rw [hmt, hDn]; exact hmD
    have h2 : ⌈q⌉.toNat ≤ D.toNat * D.toNat := by exact_mod_cast h1
    have h3 : 0 < ⌈q⌉.toNat := by omega
    rw [pow_two]
    omega
  refine ⟨by push_cast; omega, by rw [← hDn]; exact_mod_cast hk4, ?_⟩
  have h5 : (D : ℚ) * D * sc ≤ (((k + 1 : Nat) : Int) : ℚ) * (((k + 1 : Nat) : Int) : ℚ) * A := by
    have h6 : q ≤ (((k + 1 : Nat) : Int) : ℚ) * (((k + 1 : Nat) : Int) : ℚ) :=
      le_trans hqm (by exact_mod_cast hk3)
    have h7 : q * A = (D : ℚ) * D * sc := by
      rw [hq]; field_simp
    rw [← h7]
    exact mul_le_mul_of_nonneg_right h6 (le_of_lt hAq)
  exact_mod_cast h5

end Natron

namespace Natron

section Recheck

variable {W : Type} (env : Env W)

theorem inputImagesHolder_enter_world (n : NodeId) (imgs : InputImagesMap) (s : St W) :
    (inputImagesHolder_enter n imgs s).world = s.world := by
  unfold inputImagesHolder_enter
  split <;> rfl

theorem inputImagesHolder_exit_world (n : NodeId) (imgs : InputImagesMap) (s : St W) :
    (inputImagesHolder_exit n imgs s).world = s.world ∧
    (inputImagesHolder_exit n imgs s).renderLog = s.renderLog := by
  unfold inputImagesHolder_exit
  split <;> exact ⟨rfl, rfl⟩

/-- The body of `tiledRenderingFunctor` is the bitmap check followed by
`tiledRenderingFunctor_afterCheck` on the rectangles that the check leaves -/
theorem tiledRenderingFunctor_body_eq_afterCheck (rec : RenderRoIFn W) (n : NodeId)
    (frameArgs : ParallelRenderArgs) (rectToRender : RectToRender)
    (renderFullScaleThenDownscale renderUseScaleOneInputs : Bool) (firstFrame lastFrame : Int)
    (mipMapLevel renderMappedMipMapLevel : Nat) (rod : RectD) (time : SequenceTime) (view : Int)
    (par : ℚ) (outputClipPrefDepth : ImageBitDepthEnum)
    (outputClipPrefsComps : List ImageComponents) (planes : ImagePlanesToRender)
    (first : ImageComponents × PlaneToRender) (rest : PlanesMap)
    (hplanes : planes.planes = first :: rest) (r : RectI × RectI × Bool) (s1 : St W)
    (hcheck : tiledRenderingFunctor_rects env n frameArgs rectToRender.rect
      renderFullScaleThenDownscale (renderFullScaleThenDownscale && renderUseScaleOneInputs)
      mipMapLevel renderMappedMipMapLevel rod par first.2 s1.world = some r) :
    tiledRenderingFunctor_body env rec n frameArgs rectToRender renderFullScaleThenDownscale
      renderUseScaleOneInputs firstFrame lastFrame mipMapLevel renderMappedMipMapLevel rod time
      view par outputClipPrefDepth outputClipPrefsComps planes s1 =
    tiledRenderingFunctor_afterCheck env rec n frameArgs rectToRender
      renderFullScaleThenDownscale renderUseScaleOneInputs firstFrame lastFrame rod time view
      outputClipPrefDepth outputClipPrefsComps planes r s1 := by
  unfold tiledRenderingFunctor_body tiledRenderingFunctor_afterCheck
  rw [hplanes]
  simp only [hcheck]

/-- A thread whose bitmap check of a rectangle, in `tiledRenderingFunctor` (lines 4063-4141),
finds nothing left to render (the rectangle is rendered, or the trimap says that it is being
rendered elsewhere) does not invoke the render action: it returns
`eRenderingFunctorRetTakeImageLock` when the rectangle is being rendered elsewhere and
`eRenderingFunctorRetOK` otherwise, and leaves alone the world and the record of the render
actions -/
theorem tiledRenderingFunctor_nothing_left_not_rendered (rec : RenderRoIFn W) (n : NodeId)
    (frameArgs : ParallelRenderArgs) (rectToRender : RectToRender)
    (renderFullScaleThenDownscale renderUseScaleOneInputs : Bool) (firstFrame lastFrame : Int)
    (mipMapLevel renderMappedMipMapLevel : Nat) (rod : RectD) (time : SequenceTime) (view : Int)
    (par : ℚ) (outputClipPrefDepth : ImageBitDepthEnum)
    (outputClipPrefsComps : List ImageComponents) (planes : ImagePlanesToRender)
    (first : ImageComponents × PlaneToRender) (rest : PlanesMap)
    (hplanes : planes.planes = first :: rest) (r : RectI × RectI × Bool) (s : St W)
    (hcheck : tiledRenderingFunctor_rects env n frameArgs rectToRender.rect
      renderFullScaleThenDownscale (renderFullScaleThenDownscale && renderUseScaleOneInputs)
      mipMapLevel renderMappedMipMapLevel rod par first.2 s.world = some r)
    (hnull : r.1.isNull = true) :
    ∃ sF, tiledRenderingFunctor env rec n frameArgs rectToRender renderFullScaleThenDownscale
        renderUseScaleOneInputs firstFrame lastFrame mipMapLevel renderMappedMipMapLevel rod time
        view par outputClipPrefDepth outputClipPrefsComps planes s =
      .val (if r.2.2 then .eRenderingFunctorRetTakeImageLock else .eRenderingFunctorRetOK) sF ∧
      sF.world = s.world ∧ sF.renderLog = s.renderLog := by
  have hw := inputImagesHolder_enter_world n rectToRender.imgs s
  have hbody := tiledRenderingFunctor_body_eq_afterCheck env rec n frameArgs rectToRender
    renderFullScaleThenDownscale renderUseScaleOneInputs firstFrame lastFrame mipMapLevel
    renderMappedMipMapLevel rod time view par outputClipPrefDepth outputClipPrefsComps planes
    first rest hplanes r (inputImagesHolder_enter n rectToRender.imgs s) (by rw [hw]; exact hcheck)
  unfold tiledRenderingFunctor
  rw [hbody]
  unfold tiledRenderingFunctor_afterCheck
  rw [if_pos hnull]
  refine ⟨_, rfl, ?_, ?_⟩
  · rw [(inputImagesHolder_exit_world n rectToRender.imgs _).1, hw]
  · rw [(inputImagesHolder_exit_world n rectToRender.imgs _).2]
    unfold inputImagesHolder_enter
    split <;> rfl

end Recheck

/-- On `bitmapEnv`, a thread that checks the rectangle after another thread marked it as being
rendered (the world is 1) returns `eRenderingFunctorRetTakeImageLock` without a render
action -/
theorem tiledRenderingFunctor_nothing_left_not_rendered_witness :
    ∃ sF, tiledRenderingFunctor bitmapEnv (fun _ _ _ _ => .diverge) 0 (userInteractionArgs 0)
        rectToRender10 false false 1 10 0 0 ⟨0, 0, 100, 100⟩ 1 0 1 3 [⟨0, 4, true⟩] cachedPlane
        { bitmapState with world := 1 } =
      .val (if ((⟨10, 10, 10, 10⟩, ⟨10, 10, 10, 10⟩, true) : RectI × RectI × Bool).2.2 then
        .eRenderingFunctorRetTakeImageLock else .eRenderingFunctorRetOK) sF ∧
      sF.world = ({ bitmapState with world := 1 } : St Nat).world ∧
      sF.renderLog = ({ bitmapState with world := 1 } : St Nat).renderLog :=
  tiledRenderingFunctor_nothing_left_not_rendered bitmapEnv (fun _ _ _ _ => .diverge) 0
    (userInteractionArgs 0) rectToRender10 false false 1 10 0 0 ⟨0, 0, 100, 100⟩ 1 0 1 3
    [⟨0, 4, true⟩] cachedPlane (⟨0, 4, true⟩, cachedPlaneToRender) [] rfl
    (⟨10, 10, 10, 10⟩, ⟨10, 10, 10, 10⟩, true) { bitmapState with world := 1 } (by decide)
    (by decide)

/-- C23 (failing input): two threads run `tiledRenderingFunctor` on the rectangle
(10, 10) - (50, 50) of the same image of `bitmapEnv`, in a render made in response to a user
interaction that cannot be aborted (the trimap, which line 428 says is there "to avoid 2
threads rendering the same portion of an image", is in use). The bitmap check of each thread
(lines 4063-4137) runs while the rectangle is not rendered and not marked, and leaves the whole
rectangle; the first thread then marks the rectangle (`markForRendering`, lines 4491-4502),
renders it and marks it rendered, and so does the second thread after it: the render action
runs twice on the rectangle. When the second thread starts after the end of the first one, its
check leaves nothing and the render action runs once. -/
theorem tiledRenderingFunctor_two_threads_render_twice :
    (userInteractionArgs 0).canAbort = false ∧
    (userInteractionArgs 0).isRenderResponseToUserInteraction = true ∧
    tiledRenderingFunctor_rects bitmapEnv 0 (userInteractionArgs 0) ⟨10, 10, 50, 50⟩ false false
      0 0 ⟨0, 0, 100, 100⟩ 1 cachedPlaneToRender bitmapState.world =
      some (⟨10, 10, 50, 50⟩, ⟨10, 10, 50, 50⟩, false) ∧
    (match tiledRenderingFunctor_afterCheck bitmapEnv (fun _ _ _ _ => .diverge) 0
        (userInteractionArgs 0) rectToRender10 false false 1 10 ⟨0, 0, 100, 100⟩ 1 0 3
        [⟨0, 4, true⟩] cachedPlane (⟨10, 10, 50, 50⟩, ⟨10, 10, 50, 50⟩, false) bitmapState with
     | .val _ sA =>
       (match tiledRenderingFunctor_afterCheck bitmapEnv (fun _ _ _ _ => .diverge) 0
          (userInteractionArgs 0) rectToRender10 false false 1 10 ⟨0, 0, 100, 100⟩ 1 0 3
          [⟨0, 4, true⟩] cachedPlane (⟨10, 10, 50, 50⟩, ⟨10, 10, 50, 50⟩, false)
          (St.onThread sA bitmapState) with
        | .val _ sB => some (sA.renderLog, sA.world, sB.renderLog)
        | _ => none)
     | _ => none) =
      some ([(0, .eStatusOK)], 2, [(0, .eStatusOK), (0, .eStatusOK)]) ∧
    (match tiledRenderingFunctor bitmapEnv (fun _ _ _ _ => .diverge) 0 (userInteractionArgs 0)
        rectToRender10 false false 1 10 0 0 ⟨0, 0, 100, 100⟩ 1 0 1 3 [⟨0, 4, true⟩] cachedPlane
        bitmapState with
     | .val _ sA =>
       (match tiledRenderingFunctor bitmapEnv (fun _ _ _ _ => .diverge) 0
          (userInteractionArgs 0) rectToRender10 false false 1 10 0 0 ⟨0, 0, 100, 100⟩ 1 0 1 3
          [⟨0, 4, true⟩] cachedPlane (St.onThread sA bitmapState) with
        | .val _ sB => some (sA.renderLog, sB.renderLog)
        | _ => none)
     | _ => none) = some ([(0, .eStatusOK)], [(0, .eStatusOK)]) := by
  refine ⟨by decide, by decide, by decide, by decide!, by decide!⟩

end Natron

namespace Natron

section Assemble

variable {W : Type} (env : Env W)

/-- The image that a turn of the loop of the result assembly pushes, after a render that did
not fail, has the components of the plane and the requested bit depth: the assertion of line
3490 holds -/
theorem renderRoI_assemblePlane_components_and_depth (l : Locals)
    (renderRetCode : RenderRoIStatusEnum) (useAlpha0 : Bool) (comp : ImageComponents)
    (plane : PlaneToRender) (roi : RectI) (s : St W) (img : Image) (roi1 : RectI) (s1 : St W)
    (hret : renderRetCode ≠ .eRenderRoIStatusRenderFailed)
    (h : renderRoI_assemblePlane env l renderRetCode useAlpha0 comp plane roi s =
      .val (img, roi1) s1) :
    img.components = comp ∧ img.bitDepth = l.args.bitdepth := by
  unfold renderRoI_assemblePlane at h
  simp only [] at h
  obtain ⟨r, s2, -, h2⟩ := Out.bind_eq_val _ _ _ _ h
  cases hd : r.1 with
  | none => rw [hd] at h2; cases h2
  | some down =>
    rw [hd] at h2
    simp only [] at h2
    by_cases hc : comp ≠ down.components ∨ l.args.bitdepth ≠ down.bitDepth
    · rw [if_pos (by
        simp only [Bool.and_eq_true, Bool.or_eq_true, decide_eq_true_eq]
        exact ⟨hc, hret⟩)] at h2
      injection h2 with h3 h4
      injection h3 with h5 h6
      rw [← h5]
      exact ⟨rfl, rfl⟩
    · rw [if_neg (by
        simp only [Bool.and_eq_true, Bool.or_eq_true, decide_eq_true_eq, not_and]
        intro h'; exact absurd h' hc)] at h2
      injection h2 with h3 h4
      injection h3 with h5 h6
      rw [← h5]
      push_neg at hc
      exact ⟨hc.1.symm, hc.2.symm⟩

end Assemble

/-- C24 (failing input): node 0 of `cachedFullScaleEnv false` does not support the render
scale and its setting `useScaleOneImagesWhenRenderScaleSupportIsDisabled` is off; the cache
holds its image at the mip-level 0, rendered on the whole rectangle. For the request
`halfRequest`, at the mip-level 1, `renderRoI` returns `eRenderRoIRetCodeOk` with that image,
at the mip-level 0, without a render action. With the setting on, the plane returned for the
same cache is at the mip-level 1, and so is the plane of a render with an empty cache. -/
theorem renderRoI_cached_full_scale_plane_keeps_level :
    halfRequest.mipMapLevel = 1 ∧
    Out.retCode (renderRoI (cachedFullScaleEnv false) 3 0 halfRequest [] userState) =
      some .eRenderRoIRetCodeOk ∧
    Out.planes (renderRoI (cachedFullScaleEnv false) 3 0 halfRequest [] userState) =
      some [⟨7, ⟨0, 4, true⟩, 3, 0, 1, true⟩] ∧
    (Out.state (renderRoI (cachedFullScaleEnv false) 3 0 halfRequest [] userState)).map
      (fun s => s.renderLog) = some [] ∧
    (Out.planes (renderRoI (cachedFullScaleEnv true) 3 0 halfRequest [] userState)).map
      (fun r => r.map fun (i : Image) => (i.components, i.bitDepth, i.mipMapLevel)) =
      some [(⟨0, 4, true⟩, 3, 1)] ∧
    (Out.planes (renderRoI (noRenderScaleEnv false) 3 0 halfRequest [] userState)).map
      (fun r => r.map fun (i : Image) => (i.components, i.bitDepth, i.mipMapLevel)) =
      some [(⟨0, 4, true⟩, 3, 1)] := by
  refine ⟨by decide, by decide!, by decide!, by decide!, by decide!, by decide!⟩

end Natron

namespace Natron

section OptimizeSpec

variable {W : Type} (env : Env W)

/-- When the action `isIdentity` of no node throws, `isIdentity_public` returns -/
theorem isIdentity_public_returns
    (hid : ∀ n t sc wd v w, ∃ r, (env.isIdentity n t sc wd v w).1 = .ok r)
    (n : NodeId) (hash : U64) (time : SequenceTime) (scale : RenderScale) (renderWindow : RectI)
    (view : Int) (s : St W) :
    ∃ r s1, isIdentity_public env n false hash time scale renderWindow view s = .val r s1 := by
  unfold isIdentity_public
  simp only [Bool.false_eq_true, if_false]
  cases hv : validRenderArgsTLS env n s with
  | some a => exact ⟨_, _, rfl⟩
  | none =>
    simp only []
    unfold isIdentity_compute
    obtain ⟨r, hr⟩ := hid n time scale renderWindow view s.world
    split_ifs <;> simp only [hr, Out.bind] <;> exact ⟨_, _, rfl⟩

/-- In a graph where a rank decreases from a node to its inputs other than itself, the walk
along the identity inputs returns within a budget above the rank of the first node -/
theorem optimizeRectsToRender_walk_returns
    (hid : ∀ n t sc wd v w, ∃ r, (env.isIdentity n t sc wd v w).1 = .ok r)
    (rank : NodeId → Nat)
    (hrank : ∀ n i w m, env.getInput n i w = some m → m = n ∨ rank m < rank n)
    (time : SequenceTime) (scale : RenderScale) (split : RectI) (view : Int) :
    ∀ (fuel : Nat) (identityInput : NodeId) (s : St W), rank identityInput < fuel →
      ∃ r s1, optimizeRectsToRender_walk env time scale split view fuel identityInput s =
        .val r s1 := by
  intro fuel
  induction fuel with
  | zero => intro m s h; exact absurd h (Nat.not_lt_zero _)
  | succ fuel ih =>
    intro m s h
    obtain ⟨r, s1, hr⟩ := isIdentity_public_returns env hid m 0 time scale split view s
    unfold optimizeRectsToRender_walk
    rw [hr]
    simp only [Out.bind]
    by_cases h1 : r.1 = true
    · rw [if_neg (by simp [h1])]
      cases hg : env.getInput m r.2.2 s1.world with
      | none => exact ⟨_, _, rfl⟩
      | some sub =>
        simp only []
        by_cases h2 : sub = m
        · rw [if_pos h2]; exact ⟨_, _, rfl⟩
        · rw [if_neg h2]
          rcases hrank m r.2.2 s1.world sub hg with h3 | h3
          · exact absurd h3 h2
          · exact ih sub s1 (by omega)
    · rw [if_pos (by simp [h1])]; exact ⟨_, _, rfl⟩

/-- The identity answer of a tile: the call returns; a tile that intersects the intersection
of the RoDs of the inputs has no identity answer; a tile has an identity answer only when
`isIdentity_public` of the node said it is an identity, and a tile that does not intersect has
none only when `isIdentity_public` said it is not -/
theorem optimizeRectsToRender_identity_spec
    (hid : ∀ n t sc wd v w, ∃ r, (env.isIdentity n t sc wd v w).1 = .ok r)
    (rank : NodeId → Nat)
    (hrank : ∀ n i w m, env.getInput n i w = some m → m = n ∨ rank m < rank n)
    (intersects : RectI → RectI → Bool) (fuel : Nat) (hfuel : ∀ n, rank n < fuel)
    (self : NodeId) (inter : RectI) (time : SequenceTime) (view : Int) (scale : RenderScale)
    (split : RectI) (s : St W) :
    ∃ a s1, optimizeRectsToRender_identity env intersects fuel self inter time view scale
        split s = .val a s1 ∧
      (intersects split inter = true → a = none) ∧
      (a ≠ none → ∃ s0 sR t nb,
        isIdentity_public env self false 0 time scale split view s0 = .val (true, t, nb) sR) ∧
      (a = none → intersects split inter = true ∨ ∃ s0 sR t nb,
        isIdentity_public env self false 0 time scale split view s0 = .val (false, t, nb) sR) := by
  unfold optimizeRectsToRender_identity
  by_cases hi : intersects split inter = true
  · rw [if_neg (by simp [hi])]
    exact ⟨none, s, rfl, fun _ => rfl, fun h => absurd rfl h, fun _ => Or.inl hi⟩
  · rw [if_pos (by simp [hi])]
    obtain ⟨r, s1, hr⟩ := isIdentity_public_returns env hid self 0 time scale split view s
    rw [hr]
    simp only [Out.bind]
    obtain ⟨b, t, nb⟩ := r
    cases b with
    | false =>
      simp only [Bool.false_eq_true, if_false]
      exact ⟨none, s1, rfl, fun _ => rfl, fun h => absurd rfl h,
        fun _ => Or.inr ⟨s, s1, t, nb, hr⟩⟩
    | true =>
      simp only [if_true]
      cases hg : env.getInput self nb s1.world with
      | none =>
        exact ⟨_, s1, rfl, fun h => absurd h hi, fun _ => ⟨s, s1, t, nb, hr⟩,
          fun h => by cases h⟩
      | some m =>
        simp only []
        obtain ⟨w, s2, hw⟩ := optimizeRectsToRender_walk_returns env hid rank hrank time scale
          split view fuel m s1 (hfuel m)
        rw [hw]
        exact ⟨_, s2, rfl, fun h => absurd h hi, fun _ => ⟨s, s1, t, nb, hr⟩,
          fun h => by cases h⟩

/-- The loop on the tiles of a rectangle: the identity tiles are appended to
`finalRectsToRender`, each as a rectangle of its own, and `nonIdentityRect` is the bounding box
of the other tiles -/
theorem optimizeRectsToRender_splits_spec
    (hid : ∀ n t sc wd v w, ∃ r, (env.isIdentity n t sc wd v w).1 = .ok r)
    (rank : NodeId → Nat)
    (hrank : ∀ n i w m, env.getInput n i w = some m → m = n ∨ rank m < rank n)
    (intersects : RectI → RectI → Bool) (newRectToRender : RectToRender) (fuel : Nat)
    (hfuel : ∀ n, rank n < fuel)
    (self : NodeId) (inter : RectI) (time : SequenceTime) (view : Int) (scale : RenderScale) :
    ∀ (splits : List RectI) (acc : RectI × Bool) (final : List RectToRender) (s : St W),
      ∃ (tiles : List (RectI × Option (Option NodeId × SequenceTime))) (sF : St W),
        optimizeRectsToRender_splits env intersects newRectToRender fuel self inter time view
            scale splits acc final s =
          .val ((optimizeRectsToRender_boundingBox acc.1 (optimizeRectsToRender_otherTiles tiles),
                 acc.2 || !(optimizeRectsToRender_otherTiles tiles).isEmpty),
                final ++ optimizeRectsToRender_identityRects newRectToRender tiles) sF ∧
        tiles.map Prod.fst = splits ∧
        ∀ p ∈ tiles,
          (intersects p.1 inter = true → p.2 = none) ∧
          (p.2 ≠ none → ∃ s0 sR t nb,
            isIdentity_public env self false 0 time scale p.1 view s0 =
              .val (true, t, nb) sR) ∧
          (p.2 = none → intersects p.1 inter = true ∨ ∃ s0 sR t nb,
            isIdentity_public env self false 0 time scale p.1 view s0 =
              .val (false, t, nb) sR) := by
  intro splits
  induction splits with
  | nil =>
    intro acc final s
    refine ⟨[], s, ?_, rfl, fun p hp => by cases hp⟩
    simp [optimizeRectsToRender_splits, optimizeRectsToRender_otherTiles,
      optimizeRectsToRender_boundingBox, optimizeRectsToRender_identityRects]
  | cons split rest ih =>
    intro acc final s
    obtain ⟨a, s1, ha, hp1, hp2, hp3⟩ := optimizeRectsToRender_identity_spec env hid rank hrank
      intersects fuel hfuel self inter time view scale split s
    unfold optimizeRectsToRender_splits
    rw [ha]
    simp only [Out.bind]
    cases a with
    | some r =>
      simp only []
      obtain ⟨tiles, sF, hres, hfst, hall⟩ := ih acc
        (final ++ [{ newRectToRender with
          isIdentity := true, identityInput := r.1, identityTime := r.2, rect := split }]) s1
      refine ⟨(split, some r) :: tiles, sF, ?_, by simp [hfst], ?_⟩
      · rw [hres]
        simp [optimizeRectsToRender_otherTiles, optimizeRectsToRender_identityRects]
      · intro p hp
        rcases List.mem_cons.1 hp with h | h
        · subst h; exact ⟨hp1, hp2, hp3⟩
        · exact hall p h
    | none =>
      simp only []
      obtain ⟨tiles, sF, hres, hfst, hall⟩ := ih
        (⟨min split.x1 acc.1.x1, min split.y1 acc.1.y1,
          max split.x2 acc.1.x2, max split.y2 acc.1.y2⟩, true) final s1
      refine ⟨(split, none) :: tiles, sF, ?_, by simp [hfst], ?_⟩
      · rw [hres]
        simp [optimizeRectsToRender_otherTiles, optimizeRectsToRender_identityRects,
          optimizeRectsToRender_boundingBox]
      · intro p hp
        rcases List.mem_cons.1 hp with h | h
        · subst h; exact ⟨hp1, hp2, hp3⟩
        · exact hall p h

/-- The loop on the rectangles to render: the rectangles emitted for each rectangle, one
rectangle after the other -/
theorem optimizeRectsToRender_rects_spec
    (hid : ∀ n t sc wd v w, ∃ r, (env.isIdentity n t sc wd v w).1 = .ok r)
    (rank : NodeId → Nat)
    (hrank : ∀ n i w m, env.getInput n i w = some m → m = n ∨ rank m < rank n)
    (intersects : RectI → RectI → Bool) (newRectToRender : RectToRender) (fuel : Nat)
    (hfuel : ∀ n, rank n < fuel)
    (self : NodeId) (inter : RectI) (time : SequenceTime) (view : Int) (scale : RenderScale) :
    ∀ (splits : List (List RectI)) (final : List RectToRender) (s : St W),
      ∃ (answers : List (List (RectI × Option (Option NodeId × SequenceTime)))) (sF : St W),
        optimizeRectsToRender_rects env intersects newRectToRender fuel self inter time view
            scale splits final s =
          .val (final ++
            (answers.map (optimizeRectsToRender_emitted newRectToRender)).flatten) sF ∧
        answers.map (List.map Prod.fst) = splits ∧
        ∀ tiles ∈ answers, ∀ p ∈ tiles,
          (intersects p.1 inter = true → p.2 = none) ∧
          (p.2 ≠ none → ∃ s0 sR t nb,
            isIdentity_public env self false 0 time scale p.1 view s0 =
              .val (true, t, nb) sR) ∧
          (p.2 = none → intersects p.1 inter = true ∨ ∃ s0 sR t nb,
            isIdentity_public env self false 0 time scale p.1 view s0 =
              .val (false, t, nb) sR) := by
  intro splits
  induction splits with
  | nil =>
    intro final s
    refine ⟨[], s, ?_, rfl, fun t ht => by cases ht⟩
    simp [optimizeRectsToRender_rects]
  | cons sp rest ih =>
    intro final s
    obtain ⟨tiles, s1, hres, hfst, hall⟩ := optimizeRectsToRender_splits_spec env hid rank hrank
      intersects newRectToRender fuel hfuel self inter time view scale sp
      (⟨INT_MAX, INT_MAX, INT_MIN, INT_MIN⟩, false) final s
    unfold optimizeRectsToRender_rects
    rw [hres]
    simp only [Out.bind, Bool.false_or]
    obtain ⟨answers, sF, hres2, hfst2, hall2⟩ := ih
      (if (!(optimizeRectsToRender_otherTiles tiles).isEmpty) = true then
        (final ++ optimizeRectsToRender_identityRects newRectToRender tiles) ++
          [{ newRectToRender with
            isIdentity := false, identityInput := none,
            rect := optimizeRectsToRender_boundingBox ⟨INT_MAX, INT_MAX, INT_MIN, INT_MIN⟩
              (optimizeRectsToRender_otherTiles tiles) }]
       else final ++ optimizeRectsToRender_identityRects newRectToRender tiles) s1
    refine ⟨tiles :: answers, sF, ?_, by simp [hfst, hfst2], ?_⟩
    · rw [hres2]
      congr 1
      by_cases he : optimizeRectsToRender_otherTiles tiles = [] <;>
        simp [optimizeRectsToRender_emitted, he, List.append_assoc]
    · intro t ht
      rcases List.mem_cons.1 ht with h | h
      · subst h; exact hall
      · exact hall2 t h

/-- The bounding box accumulated from a box is not inside the box, and holds every tile -/
theorem optimizeRectsToRender_boundingBox_holds (tiles : List RectI) :
    ∀ box : RectI,
      ((optimizeRectsToRender_boundingBox box tiles).x1 ≤ box.x1 ∧
       (optimizeRectsToRender_boundingBox box tiles).y1 ≤ box.y1 ∧
       box.x2 ≤ (optimizeRectsToRender_boundingBox box tiles).x2 ∧
       box.y2 ≤ (optimizeRectsToRender_boundingBox box tiles).y2) ∧
      ∀ t ∈ tiles, (optimizeRectsToRender_boundingBox box tiles).contains t = true := by
  induction tiles with
  | nil =>
    intro box
    exact ⟨⟨le_refl _, le_refl _, le_refl _, le_refl _⟩, fun t ht => by cases ht⟩
  | cons a rest ih =>
    intro box
    obtain ⟨⟨h1, h2, h3, h4⟩, h5⟩ := ih
      ⟨min a.x1 box.x1, min a.y1 box.y1, max a.x2 box.x2, max a.y2 box.y2⟩
    simp only [] at h1 h2 h3 h4
    unfold optimizeRectsToRender_boundingBox
    refine ⟨⟨le_trans h1 (min_le_right _ _), le_trans h2 (min_le_right _ _),
      le_trans (le_max_right _ _) h3, le_trans (le_max_right _ _) h4⟩, ?_⟩
    intro t ht
    rcases List.mem_cons.1 ht with h | h
    · subst h
      unfold RectI.contains
      simp only [Bool.and_eq_true, decide_eq_true_eq, ge_iff_le]
      exact ⟨⟨⟨le_trans h1 (min_le_left _ _), le_trans h2 (min_le_left _ _)⟩,
        le_trans (le_max_left _ _) h3⟩, le_trans (le_max_left _ _) h4⟩
    · exact h5 t h

/-- C25 (amended): in a graph without a cycle of inputs where the action `isIdentity` does not
throw, `optimizeRectsToRender` returns, and for each rectangle left to render, in order, it
appends the rectangles of `optimizeRectsToRender_emitted`: every tile found identity as an
identity rectangle of its own, then, when a tile is not found identity, one non-identity
rectangle, the bounding box of the tiles not found identity, which holds each of them (and can
hold identity tiles). A tile that intersects the intersection of the RoDs of the inputs is never
found identity; a tile is found identity only when `isIdentity_public` said so, and a tile that
does not intersect is not found identity only when `isIdentity_public` said so -/
theorem optimizeRectsToRender_identity_tiles_and_bounding_box
    (hid : ∀ n t sc wd v w, ∃ r, (env.isIdentity n t sc wd v w).1 = .ok r)
    (rank : NodeId → Nat)
    (hrank : ∀ n i w m, env.getInput n i w = some m → m = n ∨ rank m < rank n)
    (ceilDivSqrt : Int → ℚ → Int) (intersects : RectI → RectI → Bool)
    (newRectToRender : RectToRender) (fuel : Nat) (hfuel : ∀ n, rank n < fuel)
    (self : NodeId) (inter : RectI) (rectsToRender : List RectI) (splits : List (List RectI))
    (hsplits : rectsToRender.mapM (fun r => splitIntoSmallerRects ceilDivSqrt r 0) =
      some splits)
    (time : SequenceTime) (view : Int) (scale : RenderScale) (final : List RectToRender)
    (s : St W) :
    ∃ (answers : List (List (RectI × Option (Option NodeId × SequenceTime)))) (sF : St W),
      optimizeRectsToRender env ceilDivSqrt intersects newRectToRender fuel self inter
          rectsToRender time view scale final s =
        some (.val (final ++
          (answers.map (optimizeRectsToRender_emitted newRectToRender)).flatten) sF) ∧
      answers.map (List.map Prod.fst) = splits ∧
      (∀ tiles ∈ answers, ∀ p ∈ tiles,
        (intersects p.1 inter = true → p.2 = none) ∧
        (p.2 ≠ none → ∃ s0 sR t nb,
          isIdentity_public env self false 0 time scale p.1 view s0 =
            .val (true, t, nb) sR) ∧
        (p.2 = none → intersects p.1 inter = true ∨ ∃ s0 sR t nb,
          isIdentity_public env self false 0 time scale p.1 view s0 =
            .val (false, t, nb) sR)) ∧
      ∀ tiles ∈ answers, ∀ t ∈ optimizeRectsToRender_otherTiles tiles,
        (optimizeRectsToRender_boundingBox ⟨INT_MAX, INT_MAX, INT_MIN, INT_MIN⟩
          (optimizeRectsToRender_otherTiles tiles)).contains t = true := by
  obtain ⟨answers, sF, hres, hfst, hall⟩ := optimizeRectsToRender_rects_spec env hid rank hrank
    intersects newRectToRender fuel hfuel self inter time view scale splits final s
  refine ⟨answers, sF, ?_, hfst, hall, ?_⟩
  · unfold optimizeRectsToRender
    rw [hsplits, Option.map_some', hres]
  · intro tiles _ t ht
    exact (optimizeRectsToRender_boundingBox_holds (optimizeRectsToRender_otherTiles tiles)
      ⟨INT_MAX, INT_MAX, INT_MIN, INT_MIN⟩).2 t ht

end OptimizeSpec

/-- The exact ceiling of `dim1 / sqrt (avgArea)` for a rectangle of 384 x 128 pixels -/
theorem ceilDivSqrtExact_384 : ceilDivSqrtExact 384 ((49152 : ℚ) / (3 : ℚ)) = 3 := by
  unfold ceilDivSqrtExact
  have h : ⌈((384 : Int) : ℚ) * ((384 : Int) : ℚ) / ((49152 : ℚ) / (3 : ℚ))⌉ = 9 := by
    norm_num
  rw [h]
  have h2 : Nat.sqrt 8 = 2 := by
    symm; rw [Nat.eq_sqrt]; decide
  simp [h2]

/-- The split of the rectangle of 384 x 128 pixels: three tiles of 128 x 128 pixels -/
theorem splitIntoSmallerRects_384 :
    splitIntoSmallerRects ceilDivSqrtExact ⟨0, 0, 384, 128⟩ 0 =
      some [⟨0, 0, 128, 128⟩, ⟨128, 0, 256, 128⟩, ⟨256, 0, 384, 128⟩] := by
  have e : ceilDivSqrtExact 384 (((49152 : Int) : ℚ) / ((3 : Int) : ℚ)) = 3 := by
    have := ceilDivSqrtExact_384
    push_cast
    exact this
  unfold splitIntoSmallerRects
  rw [if_neg (by decide), if_neg (by decide), if_neg (by decide)]
  have a : RectI.area ⟨0, 0, 384, 128⟩ = 49152 := by decide
  have w : RectI.width ⟨0, 0, 384, 128⟩ = 384 := by decide
  have hh : RectI.height ⟨0, 0, 384, 128⟩ = 128 := by decide
  simp only [a, w, hh]
  have sc : (49152 : Int).tdiv MINAREA = 3 := by decide
  have g : decide ((384 : Int) > 128) = true := by decide
  simp only [sc, if_true, g, e]
  decide

/-- The splits of the one rectangle of 384 x 128 pixels -/
theorem splitIntoSmallerRects_384_mapM :
    [(⟨0, 0, 384, 128⟩ : RectI)].mapM (fun r => splitIntoSmallerRects ceilDivSqrtExact r 0) =
      some [[⟨0, 0, 128, 128⟩, ⟨128, 0, 256, 128⟩, ⟨256, 0, 384, 128⟩]] := by
  rw [List.mapM_cons, List.mapM_nil, splitIntoSmallerRects_384]
  rfl

/-- C25 (counterexample): node 0 of `middleIdentityEnv` is an identity on the middle tile
(128, 0) - (256, 128) of the rectangle (0, 0) - (384, 128) and on no other tile, and no tile
intersects the intersection of the RoDs of the inputs. `optimizeRectsToRender` emits the
middle tile as an identity rectangle of node 1 and one non-identity rectangle, the whole
rectangle (0, 0) - (384, 128): the rectangle sent to the render action holds the identity
tile -/
theorem optimizeRectsToRender_non_identity_rect_holds_identity_tile :
    isIdentity_public middleIdentityEnv 0 false 0 1 ⟨1, 1⟩ ⟨128, 0, 256, 128⟩ 0 userState =
      .val (true, 1, 0) userState ∧
    optimizeRectsToRender middleIdentityEnv ceilDivSqrtExact rectsOverlap emptyRectToRender 2 0
        ⟨0, 0, 0, 0⟩ [⟨0, 0, 384, 128⟩] 1 0 ⟨1, 1⟩ [] userState =
      some (.val
        [{ emptyRectToRender with
           rect := ⟨128, 0, 256, 128⟩, isIdentity := true, identityInput := some 1,
           identityTime := 1 },
         { emptyRectToRender with
           rect := ⟨0, 0, 384, 128⟩, isIdentity := false, identityInput := none }]
        userState) ∧
    RectI.contains ⟨0, 0, 384, 128⟩ ⟨128, 0, 256, 128⟩ = true ∧
    (⟨128, 0, 256, 128⟩ : RectI).isNull = false := by
  refine ⟨rfl, ?_, by decide, by decide⟩
  unfold optimizeRectsToRender
  rw [splitIntoSmallerRects_384_mapM]
  rfl

/-- C25 (amended) on `middleIdentityEnv`, for the rectangle of 384 x 128 pixels and its three
tiles -/
theorem optimizeRectsToRender_identity_tiles_and_bounding_box_witness :
    ∃ (answers : List (List (RectI × Option (Option NodeId × SequenceTime)))) (sF : St Unit),
      optimizeRectsToRender middleIdentityEnv ceilDivSqrtExact rectsOverlap emptyRectToRender 2
          0 ⟨0, 0, 0, 0⟩ [⟨0, 0, 384, 128⟩] 1 0 ⟨1, 1⟩ [] userState =
        some (.val ([] ++
          (answers.map (optimizeRectsToRender_emitted emptyRectToRender)).flatten) sF) ∧
      answers.map (List.map Prod.fst) =
        [[⟨0, 0, 128, 128⟩, ⟨128, 0, 256, 128⟩, ⟨256, 0, 384, 128⟩]] ∧
      (∀ tiles ∈ answers, ∀ p ∈ tiles,
        (rectsOverlap p.1 ⟨0, 0, 0, 0⟩ = true → p.2 = none) ∧
        (p.2 ≠ none → ∃ s0 sR t nb,
          isIdentity_public middleIdentityEnv 0 false 0 1 ⟨1, 1⟩ p.1 0 s0 =
            .val (true, t, nb) sR) ∧
        (p.2 = none → rectsOverlap p.1 ⟨0, 0, 0, 0⟩ = true ∨ ∃ s0 sR t nb,
          isIdentity_public middleIdentityEnv 0 false 0 1 ⟨1, 1⟩ p.1 0 s0 =
            .val (false, t, nb) sR)) ∧
      ∀ tiles ∈ answers, ∀ t ∈ optimizeRectsToRender_otherTiles tiles,
        (optimizeRectsToRender_boundingBox ⟨INT_MAX, INT_MAX, INT_MIN, INT_MIN⟩
          (optimizeRectsToRender_otherTiles tiles)).contains t = true :=
  optimizeRectsToRender_identity_tiles_and_bounding_box middleIdentityEnv
    (fun n t _ wd _ w => by
      by_cases h : n = 0 ∧ wd = ⟨128, 0, 256, 128⟩
      · exact ⟨(true, t, 0), by simp [middleIdentityEnv, h]⟩
      · exact ⟨(false, t, -1), by simp only [middleIdentityEnv, if_neg h]⟩)
    (fun n => if n = 0 then 1 else 0)
    (fun n i w m h => by
      simp only [middleIdentityEnv, chainEnv] at h
      split at h
      · rename_i h0
        cases h
        right
        simp [h0.1]
      · cases h)
    ceilDivSqrtExact rectsOverlap emptyRectToRender 2 (fun n => by show (if n = 0 then 1 else 0) < 2; split <;> omega) 0
    ⟨0, 0, 0, 0⟩ [⟨0, 0, 384, 128⟩] _ splitIntoSmallerRects_384_mapM 1 0 ⟨1, 1⟩ [] userState

end Natron

namespace Natron

section CacheLookupSpec

variable {W : Type} (env : Env W)

/-- The loop on the cached images, when the removal of an image from the cache changes the
format checks of no image: the loop ends by `break` on a usable image of the requested
mip-level exactly when there is one, and `imageToConvert` is a usable image of the largest
mip-level below the requested one -/
theorem getImageFromCacheAndConvertIfNeeded_select_spec (ops : CacheLookupEnv W) (n : NodeId)
    (mipMapLevel : Nat) (bitdepth : ImageBitDepthEnum) (components : ImageComponents)
    (nodePrefDepth : ImageBitDepthEnum) (nodePrefComps : ImageComponents)
    (hstable : ∀ a b w,
      getImageFromCacheAndConvertIfNeeded_discards env ops n nodePrefDepth nodePrefComps a
        (env.removeFromNodeCache b w) =
      getImageFromCacheAndConvertIfNeeded_discards env ops n nodePrefDepth nodePrefComps a w) :
    ∀ (cached : ImageList) (conv : ImagePtr) (w : W),
      (∀ m, (getImageFromCacheAndConvertIfNeeded_select env ops n mipMapLevel bitdepth
          components nodePrefDepth nodePrefComps cached conv w).1.1 = some m →
        m ∈ cached ∧
        getImageFromCacheAndConvertIfNeeded_usable env ops n bitdepth components nodePrefDepth
          nodePrefComps m w = true ∧ m.mipMapLevel = mipMapLevel) ∧
      ((getImageFromCacheAndConvertIfNeeded_select env ops n mipMapLevel bitdepth
          components nodePrefDepth nodePrefComps cached conv w).1.1 = none →
        ∀ m ∈ cached,
          getImageFromCacheAndConvertIfNeeded_usable env ops n bitdepth components
            nodePrefDepth nodePrefComps m w = true → m.mipMapLevel ≠ mipMapLevel) ∧
      (∀ c, (getImageFromCacheAndConvertIfNeeded_select env ops n mipMapLevel bitdepth
          components nodePrefDepth nodePrefComps cached conv w).1.2 = some c →
        conv = some c ∨
        (c ∈ cached ∧
         getImageFromCacheAndConvertIfNeeded_usable env ops n bitdepth components nodePrefDepth
           nodePrefComps c w = true ∧ c.mipMapLevel < mipMapLevel)) ∧
      ((getImageFromCacheAndConvertIfNeeded_select env ops n mipMapLevel bitdepth
          components nodePrefDepth nodePrefComps cached conv w).1.1 = none →
        ∀ m ∈ cached,
          getImageFromCacheAndConvertIfNeeded_usable env ops n bitdepth components
            nodePrefDepth nodePrefComps m w = true → m.mipMapLevel < mipMapLevel →
          ∃ c, (getImageFromCacheAndConvertIfNeeded_select env ops n mipMapLevel bitdepth
            components nodePrefDepth nodePrefComps cached conv w).1.2 = some c ∧
            m.mipMapLevel ≤ c.mipMapLevel) ∧
      (∀ c0, conv = some c0 →
        ∃ c, (getImageFromCacheAndConvertIfNeeded_select env ops n mipMapLevel bitdepth
          components nodePrefDepth nodePrefComps cached conv w).1.2 = some c ∧
          c0.mipMapLevel ≤ c.mipMapLevel) ∧
      (conv = none → (∀ m ∈ cached,
          getImageFromCacheAndConvertIfNeeded_usable env ops n bitdepth components
            nodePrefDepth nodePrefComps m w = true → ¬ m.mipMapLevel < mipMapLevel) →
        (getImageFromCacheAndConvertIfNeeded_select env ops n mipMapLevel bitdepth
          components nodePrefDepth nodePrefComps cached conv w).1.2 = none) := by
  have husable : ∀ a b w,
      getImageFromCacheAndConvertIfNeeded_usable env ops n bitdepth components nodePrefDepth
        nodePrefComps a (env.removeFromNodeCache b w) =
      getImageFromCacheAndConvertIfNeeded_usable env ops n bitdepth components nodePrefDepth
        nodePrefComps a w := by
    intro a b w
    unfold getImageFromCacheAndConvertIfNeeded_usable
    rw [hstable]
  intro cached
  induction cached with
  | nil =>
    intro conv w
    simp only [getImageFromCacheAndConvertIfNeeded_select]
    refine ⟨fun m h => (by cases h), fun _ m hm => (by cases hm), fun c h => Or.inl h,
      fun _ m hm => (by cases hm), fun c0 h => ⟨c0, h, le_refl _⟩, fun h _ => h⟩
  | cons it rest ih =>
    intro conv w
    unfold getImageFromCacheAndConvertIfNeeded_select
    by_cases hd : getImageFromCacheAndConvertIfNeeded_discards env ops n nodePrefDepth
        nodePrefComps it w = true
    · rw [if_pos hd]
      have hit : getImageFromCacheAndConvertIfNeeded_usable env ops n bitdepth components
          nodePrefDepth nodePrefComps it w = false := by
        unfold getImageFromCacheAndConvertIfNeeded_usable
        rw [hd]; rfl
      obtain ⟨h1, h2, h3, h4, h5, h6⟩ := ih conv (env.removeFromNodeCache it w)
      simp only [husable] at h1 h2 h3 h4 h5 h6
      refine ⟨?_, ?_, ?_, ?_, h5, ?_⟩
      · intro m hm
        obtain ⟨a, b, c⟩ := h1 m hm
        exact ⟨List.mem_cons_of_mem _ a, b, c⟩
      · intro hn m hm hu
        rcases List.mem_cons.1 hm with h | h
        · subst h; rw [hit] at hu; cases hu
        · exact h2 hn m h hu
      · intro c hc
        rcases h3 c hc with h | ⟨a, b, d⟩
        · exact Or.inl h
        · exact Or.inr ⟨List.mem_cons_of_mem _ a, b, d⟩
      · intro hn m hm hu hl
        rcases List.mem_cons.1 hm with h | h
        · subst h; rw [hit] at hu; cases hu
        · exact h4 hn m h hu hl
      · intro hc hall
        exact h6 hc (fun m hm hu => hall m (List.mem_cons_of_mem _ hm) hu)
    · rw [if_neg hd]
      have hd' : getImageFromCacheAndConvertIfNeeded_discards env ops n nodePrefDepth
          nodePrefComps it w = false := by simpa using hd
      simp only []
      by_cases hconv : ops.isConvertibleTo it.components components = true
      · by_cases hsize : ops.getSizeOfForBitDepth it.bitDepth ≥ ops.getSizeOfForBitDepth bitdepth
        · have hit : getImageFromCacheAndConvertIfNeeded_usable env ops n bitdepth components
              nodePrefDepth nodePrefComps it w = true := by
            unfold getImageFromCacheAndConvertIfNeeded_usable
            simp [hd', hconv, hsize]
          by_cases hl : it.mipMapLevel = mipMapLevel
          · rw [if_pos (by simp [hl, hconv, hsize])]
            refine ⟨?_, fun h => (by cases h), fun c h => Or.inl h, fun h => (by cases h),
              fun c0 h => ⟨c0, h, le_refl _⟩, ?_⟩
            · intro m hm
              simp only [Option.some.injEq] at hm
              subst hm
              exact ⟨List.mem_cons_self _ _, hit, hl⟩
            · intro hc hall
              exact hc
          · rw [if_neg (by simp [hl])]
            by_cases hge : it.mipMapLevel ≥ mipMapLevel
            · rw [if_pos (by simp [hge])]
              obtain ⟨h1, h2, h3, h4, h5, h6⟩ := ih conv w
              refine ⟨?_, ?_, ?_, ?_, h5, ?_⟩
              · intro m hm
                obtain ⟨a, b, c⟩ := h1 m hm
                exact ⟨List.mem_cons_of_mem _ a, b, c⟩
              · intro hn m hm hu
                rcases List.mem_cons.1 hm with h | h
                · subst h; exact hl
                · exact h2 hn m h hu
              · intro c hc
                rcases h3 c hc with h | ⟨a, b, d⟩
                · exact Or.inl h
                · exact Or.inr ⟨List.mem_cons_of_mem _ a, b, d⟩
              · intro hn m hm hu hlt
                rcases List.mem_cons.1 hm with h | h
                · subst h; omega
                · exact h4 hn m h hu hlt
              · intro hc hall
                exact h6 hc (fun m hm hu => hall m (List.mem_cons_of_mem _ hm) hu)
            · have hlt : it.mipMapLevel < mipMapLevel := by omega
              rw [if_neg (by
                simp only [Bool.or_eq_true, decide_eq_true_eq, Bool.not_eq_true', not_or,
                  not_lt]
                exact ⟨⟨hge, by simp [hconv]⟩, hsize⟩)]
              obtain ⟨h1, h2, h3, h4, h5, h6⟩ := ih
                (match conv with
                 | none => some it
                 | some c => if it.mipMapLevel > c.mipMapLevel then some it else some c) w
              refine ⟨?_, ?_, ?_, ?_, ?_, ?_⟩
              · intro m hm
                obtain ⟨a, b, c⟩ := h1 m hm
                exact ⟨List.mem_cons_of_mem _ a, b, c⟩
              · intro hn m hm hu
                rcases List.mem_cons.1 hm with h | h
                · subst h; exact hl
                · exact h2 hn m h hu
              · intro c hc
                rcases h3 c hc with h | ⟨a, b, d⟩
                · cases conv with
                  | none =>
                    simp only [Option.some.injEq] at h
                    subst h
                    exact Or.inr ⟨List.mem_cons_self _ _, hit, hlt⟩
                  | some c1 =>
                    simp only [] at h
                    split at h
                    · simp only [Option.some.injEq] at h
                      subst h
                      exact Or.inr ⟨List.mem_cons_self _ _, hit, hlt⟩
                    · exact Or.inl h
                · exact Or.inr ⟨List.mem_cons_of_mem _ a, b, d⟩
              · intro hn m hm hu hmlt
                rcases List.mem_cons.1 hm with h | h
                · subst h
                  cases conv with
                  | none => exact h5 m rfl
                  | some c1 =>
                    by_cases hgt : m.mipMapLevel > c1.mipMapLevel
                    · exact h5 m (by simp [hgt])
                    · obtain ⟨c, hc, hle⟩ := h5 c1 (by simp [hgt])
                      exact ⟨c, hc, by omega⟩
                · exact h4 hn m h hu hmlt
              · intro c0 hc0
                subst hc0
                by_cases hgt : it.mipMapLevel > c0.mipMapLevel
                · obtain ⟨c, hc, hle⟩ := h5 it (by simp [hgt])
                  exact ⟨c, hc, by omega⟩
                · exact h5 c0 (by simp [hgt])
              · intro hc hall
                exact absurd hlt (hall it (List.mem_cons_self _ _) hit)
        · have hit : getImageFromCacheAndConvertIfNeeded_usable env ops n bitdepth components
              nodePrefDepth nodePrefComps it w = false := by
            unfold getImageFromCacheAndConvertIfNeeded_usable
            simp [hsize]
          rw [if_neg (by simp [hsize]), if_pos (by simp [not_le.1 hsize])]
          obtain ⟨h1, h2, h3, h4, h5, h6⟩ := ih conv w
          refine ⟨?_, ?_, ?_, ?_, h5, ?_⟩
          · intro m hm
            obtain ⟨a, b, c⟩ := h1 m hm
            exact ⟨List.mem_cons_of_mem _ a, b, c⟩
          · intro hn m hm hu
            rcases List.mem_cons.1 hm with h | h
            · subst h; rw [hit] at hu; cases hu
            · exact h2 hn m h hu
          · intro c hc
            rcases h3 c hc with h | ⟨a, b, d⟩
            · exact Or.inl h
            · exact Or.inr ⟨List.mem_cons_of_mem _ a, b, d⟩
          · intro hn m hm hu hlt
            rcases List.mem_cons.1 hm with h | h
            · subst h; rw [hit] at hu; cases hu
            · exact h4 hn m h hu hlt
          · intro hc hall
            exact h6 hc (fun m hm hu => hall m (List.mem_cons_of_mem _ hm) hu)
      · have hit : getImageFromCacheAndConvertIfNeeded_usable env ops n bitdepth components
            nodePrefDepth nodePrefComps it w = false := by
          unfold getImageFromCacheAndConvertIfNeeded_usable
          simp [hconv]
        rw [if_neg (by simp [hconv]), if_pos (by simp [hconv])]
        obtain ⟨h1, h2, h3, h4, h5, h6⟩ := ih conv w
        refine ⟨?_, ?_, ?_, ?_, h5, ?_⟩
        · intro m hm
          obtain ⟨a, b, c⟩ := h1 m hm
          exact ⟨List.mem_cons_of_mem _ a, b, c⟩
        · intro hn m hm hu
          rcases List.mem_cons.1 hm with h | h
          · subst h; rw [hit] at hu; cases hu
          · exact h2 hn m h hu
        · intro c hc
          rcases h3 c hc with h | ⟨a, b, d⟩
          · exact Or.inl h
          · exact Or.inr ⟨List.mem_cons_of_mem _ a, b, d⟩
        · intro hn m hm hu hlt
          rcases List.mem_cons.1 hm with h | h
          · subst h; rw [hit] at hu; cases hu
          · exact h4 hn m h hu hlt
        · intro hc hall
          exact h6 hc (fun m hm hu => hall m (List.mem_cons_of_mem _ hm) hu)

/-- The image that the conversion returns is the image that `getOrCreateFromCacheInternal`
gives for parameters at the requested mip-level, filled by `downscaleMipMap` from the image
converted, or by `pasteFrom` when its bounds hold one pixel at most; nothing is returned when
no image is given -/
theorem getImageFromCacheAndConvertIfNeeded_convert_spec (ops : CacheLookupEnv W)
    (useCache useDiskCache : Bool) (key : ImageKey) (mipMapLevel : Nat)
    (boundsParam : Option RectI) (rodParam : Option RectD) (c : Image) (s : St W)
    (hc : c.mipMapLevel < mipMapLevel) :
    ∃ (params : ImageParams) (s1 : St W) (bounds : RectI),
      params.mipMapLevel = mipMapLevel ∧
      (((getOrCreateFromCacheInternal env key params useCache useDiskCache s1).1 = none ∧
        (getImageFromCacheAndConvertIfNeeded_convert env ops useCache useDiskCache key
          mipMapLevel boundsParam rodParam c s).1 = none) ∨
       ∃ img, (getOrCreateFromCacheInternal env key params useCache useDiskCache s1).1 =
          some img ∧
        getImageFromCacheAndConvertIfNeeded_convert env ops useCache useDiskCache key
          mipMapLevel boundsParam rodParam c s =
        (some img,
         (getOrCreateFromCacheInternal env key params useCache useDiskCache s1).2.setWorld
          (if bounds.area > 1 then
            env.downscaleMipMap c params.rod bounds c.mipMapLevel img.mipMapLevel
              (useCache && c.usesBitMap) img
              (getOrCreateFromCacheInternal env key params useCache useDiskCache s1).2.world
           else
            ops.pasteFrom img c bounds
              (getOrCreateFromCacheInternal env key params useCache useDiskCache
                s1).2.world))) := by
  refine ⟨(getImageFromCacheAndConvertIfNeeded_params env ops mipMapLevel boundsParam rodParam
    c (s.setWorld (ops.allocateMemory c s.world)).world).1,
    s.setWorld (ops.allocateMemory c s.world),
    (getImageFromCacheAndConvertIfNeeded_params env ops mipMapLevel boundsParam rodParam
    c (s.setWorld (ops.allocateMemory c s.world)).world).2, rfl, ?_⟩
  unfold getImageFromCacheAndConvertIfNeeded_convert
  rw [if_pos (by omega)]
  simp only []
  cases h : (getOrCreateFromCacheInternal env key
      (getImageFromCacheAndConvertIfNeeded_params env ops mipMapLevel boundsParam rodParam
        c (s.setWorld (ops.allocateMemory c s.world)).world).1 useCache useDiskCache
      (s.setWorld (ops.allocateMemory c s.world))).1 with
  | none => exact Or.inl ⟨rfl, rfl⟩
  | some img => exact Or.inr ⟨img, rfl, rfl⟩

/-- The image that `getOrCreateFromCacheInternal` returns has the mip-level of the parameters
when the images of the cache have -/
theorem getOrCreateFromCacheInternal_mipMapLevel
    (hcache : ∀ useDisk key params w img,
      (env.getImageFromCacheOrCreate useDisk key params w).1 = some img →
        img.mipMapLevel = params.mipMapLevel)
    (key : ImageKey) (params : ImageParams) (useCache useDiskCache : Bool) (s : St W)
    (img : Image)
    (h : (getOrCreateFromCacheInternal env key params useCache useDiskCache s).1 = some img) :
    img.mipMapLevel = params.mipMapLevel := by
  unfold getOrCreateFromCacheInternal at h
  cases useCache with
  | true =>
    simp only [if_true] at h
    cases hr : (env.getImageFromCacheOrCreate useDiskCache key params s.world).1 with
    | none => rw [hr] at h; cases h
    | some i =>
      rw [hr] at h
      simp only [Option.some.injEq] at h
      subst h
      exact hcache _ _ _ _ _ hr
  | false =>
    simp only [Bool.false_eq_true, if_false, Option.some.injEq] at h
    subst h
    rfl

/-- C26: when the lookup finds cached images for the key, the removal of an image from the
cache changes the format checks of no image, and the images that the cache creates have the
mip-level of their parameters, `getImageFromCacheAndConvertIfNeeded` returns a usable image
(one that passes the format checks, with convertible components and a sufficient bit depth)
of exactly the requested mip-level when there is one; otherwise it converts a usable image of
the largest mip-level strictly below the requested one, when there is one, into the image
that `getOrCreateFromCacheInternal` gives for parameters at the requested mip-level
(`downscaleMipMap`, or `pasteFrom` when the bounds of the image converted hold one pixel at
most; nothing is returned when no image is given), and returns nothing when there is none; the
image returned is always at the requested mip-level -/
theorem getImageFromCacheAndConvertIfNeeded_selection (ops : CacheLookupEnv W) (n : NodeId)
    (useCache useDiskCache : Bool) (key : ImageKey) (mipMapLevel : Nat)
    (boundsParam : Option RectI) (rodParam : Option RectD) (bitdepth : ImageBitDepthEnum)
    (components : ImageComponents) (nodePrefDepth : ImageBitDepthEnum)
    (nodePrefComps : ImageComponents) (inputImages : InputImagesMap) (s : St W)
    (hstable : ∀ a b w,
      getImageFromCacheAndConvertIfNeeded_discards env ops n nodePrefDepth nodePrefComps a
        (env.removeFromNodeCache b w) =
      getImageFromCacheAndConvertIfNeeded_discards env ops n nodePrefDepth nodePrefComps a w)
    (hcache : ∀ useDisk key params w img,
      (env.getImageFromCacheOrCreate useDisk key params w).1 = some img →
        img.mipMapLevel = params.mipMapLevel)
    (cachedImages : ImageList) (w0 : W)
    (hcached : getImageFromCacheAndConvertIfNeeded_cachedImages ops useDiskCache key
      inputImages s.world = ((true, cachedImages), w0)) :
    ((∃ m ∈ cachedImages,
        getImageFromCacheAndConvertIfNeeded_usable env ops n bitdepth components nodePrefDepth
          nodePrefComps m w0 = true ∧ m.mipMapLevel = mipMapLevel) →
      ∃ m ∈ cachedImages,
        getImageFromCacheAndConvertIfNeeded_usable env ops n bitdepth components nodePrefDepth
          nodePrefComps m w0 = true ∧ m.mipMapLevel = mipMapLevel ∧
        (getImageFromCacheAndConvertIfNeeded env ops n useCache useDiskCache key mipMapLevel
          boundsParam rodParam bitdepth components nodePrefDepth nodePrefComps inputImages
          none s).1 = some m) ∧
    ((∀ m ∈ cachedImages,
        getImageFromCacheAndConvertIfNeeded_usable env ops n bitdepth components nodePrefDepth
          nodePrefComps m w0 = true → m.mipMapLevel ≠ mipMapLevel) →
      ((∃ m ∈ cachedImages,
          getImageFromCacheAndConvertIfNeeded_usable env ops n bitdepth components
            nodePrefDepth nodePrefComps m w0 = true ∧ m.mipMapLevel < mipMapLevel) →
        ∃ c ∈ cachedImages,
          getImageFromCacheAndConvertIfNeeded_usable env ops n bitdepth components
            nodePrefDepth nodePrefComps c w0 = true ∧ c.mipMapLevel < mipMapLevel ∧
          (∀ m ∈ cachedImages,
            getImageFromCacheAndConvertIfNeeded_usable env ops n bitdepth components
              nodePrefDepth nodePrefComps m w0 = true → m.mipMapLevel < mipMapLevel →
            m.mipMapLevel ≤ c.mipMapLevel) ∧
          ∃ (params : ImageParams) (s1 : St W) (bounds : RectI),
            params.mipMapLevel = mipMapLevel ∧
            (((getOrCreateFromCacheInternal env key params useCache useDiskCache s1).1 = none ∧
              (getImageFromCacheAndConvertIfNeeded env ops n useCache useDiskCache key
                mipMapLevel boundsParam rodParam bitdepth components nodePrefDepth
                nodePrefComps inputImages none s).1 = none) ∨
             ∃ img,
              (getOrCreateFromCacheInternal env key params useCache useDiskCache s1).1 =
                some img ∧
              getImageFromCacheAndConvertIfNeeded env ops n useCache useDiskCache key
                mipMapLevel boundsParam rodParam bitdepth components nodePrefDepth
                nodePrefComps inputImages none s =
              (some img,
               (getOrCreateFromCacheInternal env key params useCache useDiskCache
                  s1).2.setWorld
                (if bounds.area > 1 then
                  env.downscaleMipMap c params.rod bounds c.mipMapLevel img.mipMapLevel
                    (useCache && c.usesBitMap) img
                    (getOrCreateFromCacheInternal env key params useCache useDiskCache
                      s1).2.world
                 else
                  ops.pasteFrom img c bounds
                    (getOrCreateFromCacheInternal env key params useCache useDiskCache
                      s1).2.world)))) ∧
      ((∀ m ∈ cachedImages,
          getImageFromCacheAndConvertIfNeeded_usable env ops n bitdepth components
            nodePrefDepth nodePrefComps m w0 = true → ¬ m.mipMapLevel < mipMapLevel) →
        (getImageFromCacheAndConvertIfNeeded env ops n useCache useDiskCache key mipMapLevel
          boundsParam rodParam bitdepth components nodePrefDepth nodePrefComps inputImages
          none s).1 = none)) ∧
    (∀ img,
      (getImageFromCacheAndConvertIfNeeded env ops n useCache useDiskCache key mipMapLevel
        boundsParam rodParam bitdepth components nodePrefDepth nodePrefComps inputImages
        none s).1 = some img → img.mipMapLevel = mipMapLevel) := by
  obtain ⟨h1, h2, h3, h4, -, h6⟩ := getImageFromCacheAndConvertIfNeeded_select_spec env ops n
    mipMapLevel bitdepth components nodePrefDepth nodePrefComps hstable cachedImages none w0
  have hres : getImageFromCacheAndConvertIfNeeded env ops n useCache useDiskCache key
      mipMapLevel boundsParam rodParam bitdepth components nodePrefDepth nodePrefComps
      inputImages none s =
      (match (getImageFromCacheAndConvertIfNeeded_select env ops n mipMapLevel bitdepth
          components nodePrefDepth nodePrefComps cachedImages none w0).1.2,
        (getImageFromCacheAndConvertIfNeeded_select env ops n mipMapLevel bitdepth
          components nodePrefDepth nodePrefComps cachedImages none w0).1.1 with
       | some imageToConvert, none =>
         getImageFromCacheAndConvertIfNeeded_convert env ops useCache useDiskCache key
           mipMapLevel boundsParam rodParam imageToConvert
           (s.setWorld (getImageFromCacheAndConvertIfNeeded_select env ops n mipMapLevel
             bitdepth components nodePrefDepth nodePrefComps cachedImages none w0).2)
       | _, some img =>
         (some img, s.setWorld (ops.allocateMemory img
           (getImageFromCacheAndConvertIfNeeded_select env ops n mipMapLevel bitdepth
             components nodePrefDepth nodePrefComps cachedImages none w0).2))
       | none, none =>
         (none, s.setWorld (getImageFromCacheAndConvertIfNeeded_select env ops n mipMapLevel
           bitdepth components nodePrefDepth nodePrefComps cachedImages none w0).2)) := by
    unfold getImageFromCacheAndConvertIfNeeded
    simp only [hcached, if_true]
    cases (getImageFromCacheAndConvertIfNeeded_select env ops n mipMapLevel bitdepth
      components nodePrefDepth nodePrefComps cachedImages none w0).1.1 <;>
      cases (getImageFromCacheAndConvertIfNeeded_select env ops n mipMapLevel bitdepth
        components nodePrefDepth nodePrefComps cachedImages none w0).1.2 <;> rfl
  rw [hres]
  obtain ⟨sel, hsel⟩ : ∃ sel, sel = getImageFromCacheAndConvertIfNeeded_select env ops n
    mipMapLevel bitdepth components nodePrefDepth nodePrefComps cachedImages none w0 :=
    ⟨_, rfl⟩
  rw [← hsel] at h1 h2 h3 h4 h6 ⊢
  obtain ⟨⟨found, conv⟩, w1⟩ := sel
  simp only [] at h1 h2 h3 h4 h6 ⊢
  refine ⟨?_, ?_, ?_⟩
  · rintro ⟨m, hm, hu, hl⟩
    cases found with
    | none => exact absurd hl (h2 rfl m hm hu)
    | some f =>
      obtain ⟨a, b, c⟩ := h1 f rfl
      refine ⟨f, a, b, c, ?_⟩
      cases conv <;> rfl
  · intro hno
    have hfound : found = none := by
      cases found with
      | none => rfl
      | some f =>
        obtain ⟨a, b, c⟩ := h1 f rfl
        exact absurd c (hno f a b)
    subst hfound
    refine ⟨?_, ?_⟩
    · rintro ⟨m, hm, hu, hl⟩
      obtain ⟨c, hc, hle⟩ := h4 rfl m hm hu hl
      subst hc
      rcases h3 c rfl with h | ⟨a, b, d⟩
      · cases h
      · refine ⟨c, a, b, d, ?_, ?_⟩
        · intro m' hm' hu' hl'
          obtain ⟨c', hc', hle'⟩ := h4 rfl m' hm' hu' hl'
          simp only [Option.some.injEq] at hc'
          subst hc'
          exact hle'
        · exact getImageFromCacheAndConvertIfNeeded_convert_spec env ops useCache useDiskCache
            key mipMapLevel boundsParam rodParam c (s.setWorld w1) d
    · intro hall
      rw [h6 trivial hall]
  · intro img himg
    cases found with
    | some f =>
      obtain ⟨a, b, c⟩ := h1 f rfl
      have : f = img := by
        cases conv <;> simpa using himg
      rw [← this]; exact c
    | none =>
      cases conv with
      | none => simp at himg
      | some c =>
        simp only [] at himg
        rcases h3 c rfl with h | ⟨a, b, d⟩
        · cases h
        · obtain ⟨params, s1, bounds, hp, hor⟩ := getImageFromCacheAndConvertIfNeeded_convert_spec
            env ops useCache useDiskCache key mipMapLevel boundsParam rodParam c (s.setWorld w1) d
          rcases hor with ⟨-, hn⟩ | ⟨i, hi, heq⟩
          · rw [hn] at himg; cases himg
          · rw [heq] at himg
            simp only [Option.some.injEq] at himg
            subst himg
            rw [← hp]
            exact getOrCreateFromCacheInternal_mipMapLevel env hcache key params useCache
              useDiskCache s1 i hi

end CacheLookupSpec

/-- C26 on `levelsCacheLookupEnv`, for a request at the mip-level 2: no cached image has the
mip-level 2, the image of the mip-level 1 is converted, and the image returned is at the
mip-level 2 -/
theorem getImageFromCacheAndConvertIfNeeded_selection_witness :
    getImageFromCacheAndConvertIfNeeded_cachedImages levelsCacheLookupEnv false levelsKey []
      userState.world = ((true, cachedLevels), ()) ∧
    (∃ c ∈ cachedLevels,
      getImageFromCacheAndConvertIfNeeded_usable baseEnv levelsCacheLookupEnv 0 3 ⟨0, 4, true⟩ 3
        ⟨0, 4, true⟩ c () = true ∧ c.mipMapLevel < 2 ∧
      (∀ m ∈ cachedLevels,
        getImageFromCacheAndConvertIfNeeded_usable baseEnv levelsCacheLookupEnv 0 3
          ⟨0, 4, true⟩ 3 ⟨0, 4, true⟩ m () = true → m.mipMapLevel < 2 →
        m.mipMapLevel ≤ c.mipMapLevel) ∧
      ∃ (params : ImageParams) (s1 : St Unit) (bounds : RectI),
        params.mipMapLevel = 2 ∧
        (((getOrCreateFromCacheInternal baseEnv levelsKey params true false s1).1 = none ∧
          (getImageFromCacheAndConvertIfNeeded baseEnv levelsCacheLookupEnv 0 true false
            levelsKey 2 none none 3 ⟨0, 4, true⟩ 3 ⟨0, 4, true⟩ [] none userState).1 = none) ∨
         ∃ img,
          (getOrCreateFromCacheInternal baseEnv levelsKey params true false s1).1 = some img ∧
          getImageFromCacheAndConvertIfNeeded baseEnv levelsCacheLookupEnv 0 true false
            levelsKey 2 none none 3 ⟨0, 4, true⟩ 3 ⟨0, 4, true⟩ [] none userState =
          (some img,
           (getOrCreateFromCacheInternal baseEnv levelsKey params true false s1).2.setWorld
            (if bounds.area > 1 then
              baseEnv.downscaleMipMap c params.rod bounds c.mipMapLevel img.mipMapLevel
                (true && c.usesBitMap) img
                (getOrCreateFromCacheInternal baseEnv levelsKey params true false s1).2.world
             else
              levelsCacheLookupEnv.pasteFrom img c bounds
                (getOrCreateFromCacheInternal baseEnv levelsKey params true false
                  s1).2.world)))) ∧
    (getImageFromCacheAndConvertIfNeeded baseEnv levelsCacheLookupEnv 0 true false levelsKey 2
      none none 3 ⟨0, 4, true⟩ 3 ⟨0, 4, true⟩ [] none userState).1 =
      some ⟨100, ⟨0, 4, true⟩, 3, 2, 1, true⟩ :=
  ⟨rfl,
   ((getImageFromCacheAndConvertIfNeeded_selection baseEnv levelsCacheLookupEnv 0 true false
      levelsKey 2 none none 3 ⟨0, 4, true⟩ 3 ⟨0, 4, true⟩ [] userState (fun _ _ _ => rfl)
      (fun _ _ _ _ img h => by
        simp only [baseEnv, Option.some.injEq] at h
        subst h
        rfl)
      cachedLevels () rfl).2.1 (by decide)).1
    ⟨⟨1, ⟨0, 4, true⟩, 3, 0, 1, true⟩, by decide, by decide, by decide⟩,
   by decide⟩

end Natron

namespace Natron

/-- The rectangles of `RectI::splitIntoSmallerRects (0)`, with a value of
`(int) std::ceil (dim1 / std::sqrt (avgArea))` that is a ceiling: none for a null rectangle, the
rectangle itself for a non-null rectangle of at most `MINAREA` pixels and, for a rectangle of
more than `MINAREA` pixels, whenever no `int` overflows (the behaviour is defined), at most
`area () / MINAREA` rectangles of at least `MINAREA` pixels each. No `int` overflows when the
area and the larger dimension times `area () / MINAREA` are `int`s. -/
theorem splitIntoSmallerRects_count_and_min_area (ceilDivSqrt : Int → ℚ → Int) (r : RectI) :
    (r.isNull = true → splitIntoSmallerRects ceilDivSqrt r 0 = some []) ∧
    (r.isNull = false → r.area ≤ MINAREA → splitIntoSmallerRects ceilDivSqrt r 0 = some [r]) ∧
    (r.isNull = false → MINAREA < r.area → r.ceilDivSqrtOk ceilDivSqrt →
      ∀ tiles : List RectI, splitIntoSmallerRects ceilDivSqrt r 0 = some tiles →
        (tiles.length : Int) ≤ r.area / MINAREA ∧ ∀ t ∈ tiles, MINAREA ≤ t.area) ∧
    (r.isNull = false → MINAREA < r.area → r.ceilDivSqrtOk ceilDivSqrt → r.splitFitsInt →
      ∃ tiles : List RectI, splitIntoSmallerRects ceilDivSqrt r 0 = some tiles) := by
  refine ⟨?_, ?_, ?_, ?_⟩
  · intro hnull
    unfold splitIntoSmallerRects
    rw [if_pos hnull]
  · exact splitIntoSmallerRects_small ceilDivSqrt r
  · intro hnull harea hceil tiles hres
    obtain ⟨h1, h2, -⟩ := splitIntoSmallerRects_big_tiles ceilDivSqrt r hnull harea hceil tiles
      hres
    exact ⟨h1, fun t ht => (h2 t ht).1⟩
  · intro hnull harea hceil hfit
    exact splitIntoSmallerRects_defined ceilDivSqrt r hnull hfit (fun _ => hceil)

/-- The rectangles of `splitIntoSmallerRects (0)` on concrete rectangles, with the exact
ceiling: the null rectangle, a rectangle of 100 x 100 pixels, a rectangle of 1920 x 1080
pixels, whose split has at most 126 rectangles, and a rectangle of 40000 x 40000 pixels, whose
split has at most 97656 rectangles -/
theorem splitIntoSmallerRects_count_and_min_area_examples :
    splitIntoSmallerRects ceilDivSqrtExact ⟨0, 0, 0, 0⟩ 0 = some [] ∧
    splitIntoSmallerRects ceilDivSqrtExact ⟨0, 0, 100, 100⟩ 0 = some [⟨0, 0, 100, 100⟩] ∧
    (∃ tiles : List RectI,
      splitIntoSmallerRects ceilDivSqrtExact ⟨0, 0, 1920, 1080⟩ 0 = some tiles ∧
      (tiles.length : Int) ≤ 126 ∧ ∀ t ∈ tiles, MINAREA ≤ t.area) ∧
    ∃ tiles : List RectI,
      splitIntoSmallerRects ceilDivSqrtExact ⟨0, 0, 40000, 40000⟩ 0 = some tiles ∧
      (tiles.length : Int) ≤ 97656 ∧ ∀ t ∈ tiles, MINAREA ≤ t.area := by
  refine ⟨(splitIntoSmallerRects_count_and_min_area ceilDivSqrtExact ⟨0, 0, 0, 0⟩).1 (by decide),
    (splitIntoSmallerRects_count_and_min_area ceilDivSqrtExact ⟨0, 0, 100, 100⟩).2.1
      (by decide) (by decide), ?_, ?_⟩
  · obtain ⟨tiles, h⟩ :=
      (splitIntoSmallerRects_count_and_min_area ceilDivSqrtExact ⟨0, 0, 1920, 1080⟩).2.2.2
        (by decide) (by decide) (ceilDivSqrtExact_ok ⟨0, 0, 1920, 1080⟩ (by decide) (by decide))
        ⟨by decide, by decide⟩
    exact ⟨tiles, h,
      (splitIntoSmallerRects_count_and_min_area ceilDivSqrtExact ⟨0, 0, 1920, 1080⟩).2.2.1
        (by decide) (by decide) (ceilDivSqrtExact_ok ⟨0, 0, 1920, 1080⟩ (by decide) (by decide))
        tiles h⟩
  · exact ⟨_, splitIntoSmallerRects_40000,
      (splitIntoSmallerRects_count_and_min_area ceilDivSqrtExact ⟨0, 0, 40000, 40000⟩).2.2.1
        (by decide) (by decide)
        (ceilDivSqrtExact_ok ⟨0, 0, 40000, 40000⟩ (by decide) (by decide)) _
        splitIntoSmallerRects_40000⟩

/-- C27 (failing input): the rectangle (0, 0) - (1000000, 2000) is not null and its area,
2000000000 pixels, is an `int` above `MINAREA`. `splitIntoSmallerRects (0)` computes 122070
splits, `num1 = 7813`, `num2 = 15` and then `num1 = 8064`, that is 15 rows of 8064 columns;
the product `j * width ()` of lines 79-80 goes up to 8064 * 1000000, which is not an `int`: the
signed overflow is undefined behaviour, and the function returns no list of rectangles of at
least `MINAREA` pixels, against the comment of line 16 and the assertion of line 82 -/
theorem splitIntoSmallerRects_wide_rectangle_overflows :
    RectI.isNull ⟨0, 0, 1000000, 2000⟩ = false ∧
    MINAREA < RectI.area ⟨0, 0, 1000000, 2000⟩ ∧
    RectI.area ⟨0, 0, 1000000, 2000⟩ ≤ INT_MAX ∧
    RectI.area ⟨0, 0, 1000000, 2000⟩ / MINAREA = 122070 ∧
    ceilDivSqrtExact 1000000 ((2000000000 : ℚ) / (122070 : ℚ)) = 7813 ∧
    splitIntoSmallerRects_counts 7813 1000000 2000 122070 = some (8064, 15) ∧
    INT_MAX < 8064 * RectI.width ⟨0, 0, 1000000, 2000⟩ ∧
    splitIntoSmallerRects ceilDivSqrtExact ⟨0, 0, 1000000, 2000⟩ 0 = none := by
  have e : ceilDivSqrtExact 1000000 (((2000000000 : Int) : ℚ) / ((122070 : Int) : ℚ)) =
      7813 := by
    have := ceilDivSqrtExact_1000000
    push_cast
    exact this
  have a : RectI.area ⟨0, 0, 1000000, 2000⟩ = 2000000000 := by decide
  refine ⟨by decide, by decide, by decide, by decide, ceilDivSqrtExact_1000000, by decide,
    by decide, ?_⟩
  rw [splitIntoSmallerRects_of_counts ceilDivSqrtExact ⟨0, 0, 1000000, 2000⟩ 122070 1000000
    2000 7813 (8064, 15) (by decide) (by decide) (by decide) (by decide) (by decide)
    (by decide) (by rw [a]; exact e) (by decide)]
  rw [if_pos (by decide)]

end Natron

namespace Natron

/-- C28 (failing input): on `twoInputsEnv` in the state `identityOfInput1State`, the data that
`getImage` reads say that node 0 is an identity of its input 1. `getImage` for the input 0,
another input, does not return a null image: it calls `renderRoI` on node 1, whose render
action runs, and returns the image of node 1. The statement `ImagePtr ();` of line 1316
returns nothing, against the comment of lines 1313-1314. -/
theorem getImage_identity_other_input_is_rendered :
    twoInputsEnv.getInput 0 0 () = some 1 ∧
    (match getImage_data twoInputsEnv baseGetImageEnv 0 1 ⟨1, 1⟩ 0 none
        identityOfInput1State with
     | .val d _ => d.map (fun d => (d.isIdentity, d.inputNbIdentity))
     | _ => none) = some (true, 1) ∧
    identityOfInput1State.renderLog = [] ∧
    (match getImage twoInputsEnv baseGetImageEnv (renderRoI twoInputsEnv 3) 0 0 1 ⟨1, 1⟩ 0 none
        ⟨0, 4, true⟩ 3 1 false identityOfInput1State with
     | .val r s => some (r.1.map Image.id, s.renderLog)
     | _ => none) = some (some 101, [(1, .eStatusOK)]) := by
  refine ⟨by decide, by decide!, by decide, by decide!⟩

end Natron

namespace Natron

/-- C29 (failing input): node 0 of `disabledEnv` is disabled and has no input, so its preferred
input is -1. With a slot for its hash in the actions cache, the first call of
`isIdentity_public (useIdentityCache = true)` computes the flag `true` with the input -1 and
the time 1 and stores the input and the time; the call that follows, with the same hash, time,
view and scale, finds them in the cache and returns the flag `false` with the same input and
time. Accordingly a first `renderRoI` of the node returns `eRenderRoIRetCodeOk` with no plane
and without a render action, and the `renderRoI` that follows, for the same request, runs the
render action of the node and returns a plane. -/
theorem isIdentity_public_cached_flag_differs :
    disabledEnv.isNodeDisabled 0 () = true ∧ disabledEnv.getPreferredInput 0 () = -1 ∧
    isIdentity_public disabledEnv 0 true 100 1 ⟨1, 1⟩ ⟨0, 0, 100, 100⟩ 0 hashedState =
      .val (true, 1, -1)
        (hashedState.setActionsCache 0
          ((hashedState.imp 0).actionsCache.setIdentityResult 100 1 0 0 (-1) 1)) ∧
    ((hashedState.imp 0).actionsCache.setIdentityResult 100 1 0 0 (-1) 1).getIdentityResult
      100 1 0 0 = some (-1, 1) ∧
    isIdentity_public disabledEnv 0 true 100 1 ⟨1, 1⟩ ⟨0, 0, 100, 100⟩ 0
        (hashedState.setActionsCache 0
          ((hashedState.imp 0).actionsCache.setIdentityResult 100 1 0 0 (-1) 1)) =
      .val (false, 1, -1)
        (hashedState.setActionsCache 0
          ((hashedState.imp 0).actionsCache.setIdentityResult 100 1 0 0 (-1) 1)) ∧
    Out.planes (renderRoI disabledEnv 3 0 colorRequest [] hashedState) = some [] ∧
    (Out.state (renderRoI disabledEnv 3 0 colorRequest [] hashedState)).map
      (fun s => s.renderLog) = some [] ∧
    (match renderRoI disabledEnv 3 0 colorRequest [] hashedState with
      | .val _ s =>
        (Out.planes (renderRoI disabledEnv 3 0 colorRequest [] s)).map (fun r => r.length)
      | _ => none) = some 1 ∧
    (match renderRoI disabledEnv 3 0 colorRequest [] hashedState with
      | .val _ s =>
        (Out.state (renderRoI disabledEnv 3 0 colorRequest [] s)).map (fun s1 => s1.renderLog)
      | _ => none) = some [(0, .eStatusOK)] := by
  refine ⟨rfl, rfl, ?_, by decide, ?_, by decide!, by decide!, by decide!, by decide!⟩
  · rfl
  · rfl

end Natron

namespace Natron

/-- Rectangles that hold each pixel at most once are pairwise disjoint -/
theorem RectI.pairwise_disjoint_of_countP (l : List RectI)
    (h : ∀ x y, l.countP (fun t => t.hasPixel x y) ≤ 1) :
    l.Pairwise (fun a b => ∀ x y, ¬ (a.hasPixel x y = true ∧ b.hasPixel x y = true)) := by
  induction l with
  | nil => exact List.Pairwise.nil
  | cons a l ih =>
    refine List.Pairwise.cons ?_ (ih ?_)
    · intro b hb x y hab
      have h1 := h x y
      rw [List.countP_cons, if_pos hab.1] at h1
      have h2 : 0 < l.countP (fun t => t.hasPixel x y) :=
        List.countP_pos_iff.2 ⟨b, hb, hab.2⟩
      omega
    · intro x y
      have h1 := h x y
      rw [List.countP_cons] at h1
      omega

/-- The rectangles of `RectI::splitIntoSmallerRects (0)` on a non-null rectangle, with a value
of `(int) std::ceil (dim1 / std::sqrt (avgArea))` that is a ceiling, whenever no `int` overflows
(the behaviour is defined): they are not null, are inside the rectangle, are pairwise disjoint,
and hold together the pixels of the rectangle: every pixel of the rectangle is in one
rectangle returned and in one only, and no other pixel is in any -/
theorem splitIntoSmallerRects_partition (ceilDivSqrt : Int → ℚ → Int) (r : RectI)
    (hnull : r.isNull = false) (hceil : MINAREA < r.area → r.ceilDivSqrtOk ceilDivSqrt)
    (tiles : List RectI) (hres : splitIntoSmallerRects ceilDivSqrt r 0 = some tiles) :
    (∀ t ∈ tiles, t.isNull = false ∧ r.contains t = true) ∧
    tiles.Pairwise (fun a b => ∀ x y, ¬ (a.hasPixel x y = true ∧ b.hasPixel x y = true)) ∧
    (∀ x y, r.hasPixel x y = true ↔ ∃ t ∈ tiles, t.hasPixel x y = true) ∧
    ∀ x y, tiles.countP (fun t => t.hasPixel x y) = if r.hasPixel x y then 1 else 0 := by
  have key : (∀ t ∈ tiles, t.isNull = false ∧ r.contains t = true) ∧
      ∀ x y, tiles.countP (fun t => t.hasPixel x y) = if r.hasPixel x y then 1 else 0 := by
    by_cases harea : r.area ≤ MINAREA
    · rw [splitIntoSmallerRects_small ceilDivSqrt r hnull harea] at hres
      have ht : tiles = [r] := (Option.some.inj hres).symm
      subst ht
      refine ⟨?_, ?_⟩
      · intro t ht
        rw [List.mem_singleton] at ht
        subst ht
        refine ⟨hnull, ?_⟩
        unfold RectI.contains
        simp
      · intro x y
        rw [List.countP_cons, List.countP_nil]
        simp
    · obtain ⟨-, h2, h3⟩ := splitIntoSmallerRects_big_tiles ceilDivSqrt r hnull
        (not_le.1 harea) (hceil (not_le.1 harea)) tiles hres
      exact ⟨fun t ht => (h2 t ht).2, h3⟩
  obtain ⟨hin, hcnt⟩ := key
  refine ⟨hin, ?_, ?_, hcnt⟩
  · apply RectI.pairwise_disjoint_of_countP
    intro x y
    rw [hcnt x y]
    split <;> omega
  · intro x y
    have h1 := hcnt x y
    constructor
    · intro hp
      rw [if_pos hp] at h1
      have h2 : 0 < tiles.countP (fun t => t.hasPixel x y) := by omega
      obtain ⟨t, ht, hpt⟩ := List.countP_pos_iff.1 h2
      exact ⟨t, ht, hpt⟩
    · rintro ⟨t, ht, hpt⟩
      have h2 : 0 < tiles.countP (fun t => t.hasPixel x y) := List.countP_pos_iff.2 ⟨t, ht, hpt⟩
      by_contra hp
      rw [if_neg hp] at h1
      omega

/-- The partition on the rectangle of 388 x 388 pixels from (10, 20) and on the rectangle of
40000 x 40000 pixels, with the exact ceiling -/
theorem splitIntoSmallerRects_partition_examples :
    (∃ tiles : List RectI,
      splitIntoSmallerRects ceilDivSqrtExact ⟨10, 20, 398, 408⟩ 0 = some tiles ∧
      (∀ t ∈ tiles, t.isNull = false ∧ RectI.contains ⟨10, 20, 398, 408⟩ t = true) ∧
      tiles.Pairwise (fun a b => ∀ x y, ¬ (a.hasPixel x y = true ∧ b.hasPixel x y = true)) ∧
      (∀ x y, RectI.hasPixel ⟨10, 20, 398, 408⟩ x y = true ↔
        ∃ t ∈ tiles, t.hasPixel x y = true) ∧
      ∀ x y, tiles.countP (fun t => t.hasPixel x y) =
        if RectI.hasPixel ⟨10, 20, 398, 408⟩ x y then 1 else 0) ∧
    ∃ tiles : List RectI,
      splitIntoSmallerRects ceilDivSqrtExact ⟨0, 0, 40000, 40000⟩ 0 = some tiles ∧
      (∀ t ∈ tiles, t.isNull = false ∧ RectI.contains ⟨0, 0, 40000, 40000⟩ t = true) ∧
      tiles.Pairwise (fun a b => ∀ x y, ¬ (a.hasPixel x y = true ∧ b.hasPixel x y = true)) ∧
      (∀ x y, RectI.hasPixel ⟨0, 0, 40000, 40000⟩ x y = true ↔
        ∃ t ∈ tiles, t.hasPixel x y = true) ∧
      ∀ x y, tiles.countP (fun t => t.hasPixel x y) =
        if RectI.hasPixel ⟨0, 0, 40000, 40000⟩ x y then 1 else 0 := by
  refine ⟨?_, ?_⟩
  · obtain ⟨tiles, h⟩ := splitIntoSmallerRects_defined ceilDivSqrtExact ⟨10, 20, 398, 408⟩
      (by decide) ⟨by decide, by decide⟩
      (fun h => ceilDivSqrtExact_ok ⟨10, 20, 398, 408⟩ (by decide) h)
    exact ⟨tiles, h, splitIntoSmallerRects_partition ceilDivSqrtExact ⟨10, 20, 398, 408⟩
      (by decide) (fun h => ceilDivSqrtExact_ok ⟨10, 20, 398, 408⟩ (by decide) h) tiles h⟩
  · exact ⟨_, splitIntoSmallerRects_40000,
      splitIntoSmallerRects_partition ceilDivSqrtExact ⟨0, 0, 40000, 40000⟩ (by decide)
        (fun h => ceilDivSqrtExact_ok ⟨0, 0, 40000, 40000⟩ (by decide) h) _
        splitIntoSmallerRects_40000⟩

/-- C30 (failing input): the rectangle (10, 20) - (2010, 1000020), of 2000 x 1000000 pixels,
is not null and its area, 2000000000 pixels, is an `int`. `splitIntoSmallerRects (0)` computes
122070 splits, `num1 = 7813`, `num2 = 15` and then `num1 = 8064`, that is 8064 rows of 15
columns; the product `(i+1) * height ()` of line 77 goes up to 8064 * 1000000, which is not an
`int`: the signed overflow is undefined behaviour, and the function returns no partition of
the rectangle, against the assertion of line 82 on every rectangle it returns -/
theorem splitIntoSmallerRects_tall_rectangle_overflows :
    RectI.isNull ⟨10, 20, 2010, 1000020⟩ = false ∧
    RectI.width ⟨10, 20, 2010, 1000020⟩ = 2000 ∧
    RectI.height ⟨10, 20, 2010, 1000020⟩ = 1000000 ∧
    RectI.area ⟨10, 20, 2010, 1000020⟩ ≤ INT_MAX ∧
    RectI.area ⟨10, 20, 2010, 1000020⟩ / MINAREA = 122070 ∧
    ceilDivSqrtExact 1000000 ((2000000000 : ℚ) / (122070 : ℚ)) = 7813 ∧
    splitIntoSmallerRects_counts 7813 1000000 2000 122070 = some (8064, 15) ∧
    INT_MAX < 8064 * RectI.height ⟨10, 20, 2010, 1000020⟩ ∧
    splitIntoSmallerRects ceilDivSqrtExact ⟨10, 20, 2010, 1000020⟩ 0 = none := by
  have e : ceilDivSqrtExact 1000000 (((2000000000 : Int) : ℚ) / ((122070 : Int) : ℚ)) =
      7813 := by
    have := ceilDivSqrtExact_1000000
    push_cast
    exact this
  have a : RectI.area ⟨10, 20, 2010, 1000020⟩ = 2000000000 := by decide
  refine ⟨by decide, by decide, by decide, by decide, by decide, ceilDivSqrtExact_1000000,
    by decide, by decide, ?_⟩
  rw [splitIntoSmallerRects_of_counts ceilDivSqrtExact ⟨10, 20, 2010, 1000020⟩ 122070 1000000
    2000 7813 (8064, 15) (by decide) (by decide) (by decide) (by decide) (by decide)
    (by decide) (by rw [a]; exact e) (by decide)]
  rw [if_pos (by decide)]

end Natron
